import Mathlib

/-!
# Decobrain: decompression core, CCR cell manager and dive manager

A shallow embedding of `App/Src/zhl16_core.c`, `App/Scr/ccr_manager.c` and
`App/Src/dive_manager.c`.

Conventions of the embedding.

* C `float` values are idealised as exact rationals (`ℚ`): rounding, infinities
  and NaN are outside the model.  Division by zero follows `ℚ` (`x / 0 = 0`).
* `expf` and `logf` are libm routines; every function that calls one takes it
  as a parameter of type `ℚ → ℚ`.
* The clock `HAL_GetSysTick() / 1000` is the parameter `now` of the functions
  that read it, and the `static` variables of `dive_manager.c` are the record
  `DiveStatics`, passed in and returned.
* Fixed-size C arrays that are always swept in full (`compartments`, `cells`)
  are lists; arrays that are indexed by a computed position (`gases`, `stops`,
  `mv_history`) are functions of the index.
* Unsigned machine integers are `Nat`; a conversion from a `float` expression
  into `uintN_t` truncates and is reduced modulo `2^N`.
* The `name` field of `GasMix` (a `char[16]`) plays no part in any
  computation and is left out.
-/

namespace Decobrain

/-! ## Constants of `zhl16_core.h` -/

def NUM_COMPARTMENTS : Nat := 16
def MAX_GASES : Nat := 10
def MAX_DECO_STOPS : Nat := 20

/-! ## Conversions from `float` to unsigned integers -/

/-- Conversion `(uint16_t) q`: truncation, kept in sixteen bits.  Negative
values (undefined in C) are sent to `0`. -/
def toUInt16 (q : ℚ) : Nat := (Int.toNat ⌊q⌋) % 65536

/-- Conversion `(uint32_t) q`: truncation, kept in thirty-two bits. -/
def toUInt32 (q : ℚ) : Nat := (Int.toNat ⌊q⌋) % 4294967296

/-! ## Data model of `zhl16_core.h` -/

structure Compartment where
  half_time_N2 : ℚ
  half_time_He : ℚ
  a_N2 : ℚ
  b_N2 : ℚ
  a_He : ℚ
  b_He : ℚ
  pressure_N2 : ℚ
  pressure_He : ℚ
  loading : ℚ

structure GasMix where
  fO2 : ℚ
  fN2 : ℚ
  fHe : ℚ
  ppO2_max : ℚ
  ppO2_min : ℚ
  mod : ℚ
  is_diluent : Bool
  is_enabled : Bool
  is_bailout : Bool

structure DecoStop where
  depth : ℚ
  time : Nat
  gas_idx : Nat

structure AscendPlan where
  stops : Nat → DecoStop
  num_stops : Nat
  tts : Nat
  tts_at_surface : Nat
  first_stop_depth : ℚ
  is_valid : Bool

structure DecoConfig where
  gf_low : ℚ
  gf_high : ℚ
  last_stop_depth : ℚ
  ascent_rate : ℚ
  descent_rate : ℚ
  conservatism : Bool
  altitude_level : Nat
  safety_stop_required : Bool
  safety_stop_depth : ℚ
  safety_stop_time : Nat

structure ZHL16Model where
  compartments : List Compartment
  gases : Nat → GasMix
  current_gas : Nat
  num_gases : Nat
  config : DecoConfig
  current_depth : ℚ
  max_depth : ℚ
  average_depth : ℚ
  dive_time_seconds : Nat
  ambient_pressure : ℚ
  surface_pressure : ℚ
  water_vapor_pressure : ℚ
  ceiling : ℚ
  ndl : ℚ
  cns : ℚ
  otu : ℚ
  ascend_plan : AscendPlan
  ccr_mode : Bool
  setpoint : ℚ
  actual_ppO2 : ℚ
  gf_current : ℚ
  gf_surface : ℚ
  leading_compartment : Nat
  saturation_percent : ℚ

/-- The all-zero `GasMix` left by `memset`. -/
def zeroGas : GasMix :=
  { fO2 := 0, fN2 := 0, fHe := 0, ppO2_max := 0, ppO2_min := 0, mod := 0,
    is_diluent := false, is_enabled := false, is_bailout := false }

/-- The all-zero `DecoStop` left by `memset`. -/
def zeroStop : DecoStop := { depth := 0, time := 0, gas_idx := 0 }

/-- The all-zero `AscendPlan` left by `memset(plan, 0, sizeof(AscendPlan))`. -/
def zeroPlan : AscendPlan :=
  { stops := fun _ => zeroStop, num_stops := 0, tts := 0, tts_at_surface := 0,
    first_stop_depth := 0, is_valid := false }

/-! ## Utilities declared in `zhl16_core.h` -/

/-- Modelled from the spec: `ZHL16_GetAmbientPressure` is declared in
`zhl16_core.h` but its body is not part of the sources.  The spec converts
between pressure and depth at 10 m per bar above the surface pressure
("Convert to metres via (P_tol − P_surface)·10"). -/
def ZHL16_GetAmbientPressure (depth surface_pressure : ℚ) : ℚ :=
  surface_pressure + depth / 10

/-- Modelled from the spec: `ZHL16_GetPartialPressure` is declared in
`zhl16_core.h` but its body is not part of the sources.  The spec gives the
working ppO₂ as `P_amb·fO₂`. -/
def ZHL16_GetPartialPressure (ambient_pressure fraction : ℚ) : ℚ :=
  ambient_pressure * fraction

/-! ## `ZHL16_GetBestGas` -/

/-- The ppO₂ of gas `i` of the table at `depth`, as `ZHL16_GetBestGas`
computes it. -/
def gasPpO2 (model : ZHL16Model) (depth : ℚ) (i : Nat) : ℚ :=
  ZHL16_GetPartialPressure
    (ZHL16_GetAmbientPressure depth model.surface_pressure) (model.gases i).fO2

/-- One pass of the `for` loop of `ZHL16_GetBestGas`; the state is
`(best_gas, best_ppO2)`. -/
def bestGasStep (model : ZHL16Model) (depth : ℚ) (st : Nat × ℚ) (i : Nat) : Nat × ℚ :=
  let gas := model.gases i
  if gas.is_enabled = false then st
  else
    let ppO2 := ZHL16_GetPartialPressure
      (ZHL16_GetAmbientPressure depth model.surface_pressure) gas.fO2
    if ppO2 > gas.ppO2_max ∨ ppO2 < gas.ppO2_min then st
    else if ppO2 > st.2 then (i, ppO2)
    else st

/-- The function `ZHL16_GetBestGas`. -/
def ZHL16_GetBestGas (model : ZHL16Model) (depth : ℚ) : Nat :=
  ((List.range model.num_gases).foldl (bestGasStep model depth) (model.current_gas, 0)).1

/-- Gas `i` is legal at `depth`: its ppO₂ there lies in its own window. -/
def gasInWindow (model : ZHL16Model) (depth : ℚ) (i : Nat) : Prop :=
  (model.gases i).ppO2_min ≤ gasPpO2 model depth i ∧
    gasPpO2 model depth i ≤ (model.gases i).ppO2_max

/-- Gas `i` is a candidate of the scan of `ZHL16_GetBestGas`: in the table,
enabled, inside its window, with a positive ppO₂. -/
def gasCandidate (model : ZHL16Model) (depth : ℚ) (i : Nat) : Prop :=
  i < model.num_gases ∧ (model.gases i).is_enabled = true ∧
    gasInWindow model depth i ∧ 0 < gasPpO2 model depth i

/-! ## `ZHL16_UpdateTissues` -/

/-- Inspired nitrogen pressure, as computed inside the loop of
`ZHL16_UpdateTissues` (`gas` is `&model->gases[model->current_gas]`). -/
def inspiredN2 (model : ZHL16Model) : ℚ :=
  let gas := model.gases model.current_gas
  if model.ccr_mode = true then
    let diluent_pressure := model.ambient_pressure - model.actual_ppO2
    let total_inert := gas.fN2 + gas.fHe
    if total_inert > 0 then diluent_pressure * (gas.fN2 / total_inert) else 0
  else
    (model.ambient_pressure - model.water_vapor_pressure) * gas.fN2

/-- Inspired helium pressure, as computed inside the loop of
`ZHL16_UpdateTissues`. -/
def inspiredHe (model : ZHL16Model) : ℚ :=
  let gas := model.gases model.current_gas
  if model.ccr_mode = true then
    let diluent_pressure := model.ambient_pressure - model.actual_ppO2
    let total_inert := gas.fN2 + gas.fHe
    if total_inert > 0 then diluent_pressure * (gas.fHe / total_inert) else 0
  else
    (model.ambient_pressure - model.water_vapor_pressure) * gas.fHe

/-- The body of the compartment loop of `ZHL16_UpdateTissues` for one
compartment: Schreiner update of both inert gases, then the loading. -/
def updateCompartment (expf : ℚ → ℚ) (model : ZHL16Model) (time_minutes : ℚ)
    (comp : Compartment) : Compartment :=
  let inspired_N2 := inspiredN2 model
  let inspired_He := inspiredHe model
  let k_N2 := (693147 / 1000000 : ℚ) / comp.half_time_N2
  let k_He := (693147 / 1000000 : ℚ) / comp.half_time_He
  let pN2 := inspired_N2 + (comp.pressure_N2 - inspired_N2) * expf (-k_N2 * time_minutes)
  let pHe := inspired_He + (comp.pressure_He - inspired_He) * expf (-k_He * time_minutes)
  let p_total := pN2 + pHe
  let a := (comp.a_N2 * pN2 + comp.a_He * pHe) / p_total
  let b := (comp.b_N2 * pN2 + comp.b_He * pHe) / p_total
  let m_value := a + model.ambient_pressure / b
  { comp with pressure_N2 := pN2, pressure_He := pHe, loading := (p_total / m_value) * 100 }

/-- The compartment loop of `ZHL16_UpdateTissues`: the arguments after the
list are the loop index `i`, `max_loading` and `leading_compartment`; the
result is the updated compartments with the final `max_loading` and
`leading_compartment`. -/
def updateTissuesLoop (expf : ℚ → ℚ) (model : ZHL16Model) (time_minutes : ℚ) :
    List Compartment → Nat → ℚ → Nat → List Compartment × ℚ × Nat
  | [], _, max_loading, leading => ([], max_loading, leading)
  | comp :: rest, i, max_loading, leading =>
    let comp1 := updateCompartment expf model time_minutes comp
    let r :=
      if comp1.loading > max_loading then
        updateTissuesLoop expf model time_minutes rest (i + 1) comp1.loading i
      else
        updateTissuesLoop expf model time_minutes rest (i + 1) max_loading leading
    (comp1 :: r.1, r.2.1, r.2.2)

/-- The function `ZHL16_UpdateTissues`. -/
def ZHL16_UpdateTissues (expf : ℚ → ℚ) (model : ZHL16Model) (time_seconds : ℚ) :
    ZHL16Model :=
  let time_minutes := time_seconds / 60
  let r := updateTissuesLoop expf model time_minutes model.compartments 0 0 0
  { model with
    compartments := r.1
    leading_compartment := r.2.2
    saturation_percent := r.2.1
    dive_time_seconds := toUInt32 ((model.dive_time_seconds : ℚ) + time_seconds) }

/-! ## `ZHL16_GetCeiling` -/

/-- The gradient factor (percent) that `ZHL16_GetCeiling` uses. -/
def currentGF (model : ZHL16Model) : ℚ :=
  if model.current_depth ≤ 0 then model.config.gf_high
  else
    let gf_slope := (model.config.gf_high - model.config.gf_low) / model.max_depth
    model.config.gf_low + gf_slope * (model.max_depth - model.current_depth)

/-- One pass of the compartment loop of `ZHL16_GetCeiling`; the state is the
running `ceiling`. -/
def ceilingStep (model : ZHL16Model) (ceiling : ℚ) (comp : Compartment) : ℚ :=
  let p_total := comp.pressure_N2 + comp.pressure_He
  if p_total ≤ 0 then ceiling
  else
    let a := (comp.a_N2 * comp.pressure_N2 + comp.a_He * comp.pressure_He) / p_total
    let b := (comp.b_N2 * comp.pressure_N2 + comp.b_He * comp.pressure_He) / p_total
    let gf := currentGF model
    let p_tolerated := (p_total - a * (gf / 100)) / (1 / b - gf / 100 + 1)
    let comp_ceiling := (p_tolerated - model.surface_pressure) * 10
    if comp_ceiling > ceiling then comp_ceiling else ceiling

/-- The value returned by `ZHL16_GetCeiling`: the largest compartment
ceiling, rounded up to a multiple of `last_stop_depth` when positive. -/
def ceilingValue (model : ZHL16Model) : ℚ :=
  let ceiling := model.compartments.foldl (ceilingStep model) 0
  if ceiling > 0 then
    (⌈ceiling / model.config.last_stop_depth⌉ : ℚ) * model.config.last_stop_depth
  else ceiling

/-- The function `ZHL16_GetCeiling`: the model with `ceiling` stored, and the
returned value. -/
def ZHL16_GetCeiling (model : ZHL16Model) : ZHL16Model × ℚ :=
  ({ model with ceiling := ceilingValue model }, ceilingValue model)

/-- Modelled from the spec: `ZHL16_NeedsDecoStop` is declared in
`zhl16_core.h` but its body is not part of the sources.  The spec reads the
ceiling: "A non-positive result means no obligation", and a stop is needed
when the ceiling is positive. -/
def ZHL16_NeedsDecoStop (model : ZHL16Model) : Bool :=
  decide (0 < (ZHL16_GetCeiling model).2)

/-! ## `ZHL16_CalculateAscendPlan` -/

/-- The inner loop of the planner,
`while (ZHL16_GetCeiling(&sim_model) > current_depth - last_stop_depth)`;
`limit` is `current_depth - last_stop_depth`.  The state is the scratch model,
`stop->time` and `total_time`.  `stop->time` starts at `0` and stays at most
`3660`, so it never wraps its sixteen bits. -/
def waitAtStop (expf : ℚ → ℚ) (limit : ℚ) (sim : ZHL16Model) (time total_time : Nat) :
    ZHL16Model × Nat × Nat :=
  if (ZHL16_GetCeiling sim).2 > limit then
    let sim1 := ZHL16_UpdateTissues expf (ZHL16_GetCeiling sim).1 60
    let time1 := time + 60
    let total1 := (total_time + 1) % 65536
    if time1 > 3600 then (sim1, time1, total1)
    else waitAtStop expf limit sim1 time1 total1
  else ((ZHL16_GetCeiling sim).1, time, total_time)
termination_by 3660 - time
decreasing_by omega

/-- The locals of `ZHL16_CalculateAscendPlan` that live across the stop loop,
with the plan being written. -/
structure PlanState where
  sim_model : ZHL16Model
  current_depth : ℚ
  total_time : Nat
  stop_idx : Nat
  plan : AscendPlan

/-- The body of the outer loop `while (current_depth > 0 && stop_idx <
MAX_DECO_STOPS)` of the planner; `model` is the live model, read for its
configuration. -/
def planStep (expf : ℚ → ℚ) (model : ZHL16Model) (st : PlanState) : PlanState :=
  let gas_idx := ZHL16_GetBestGas st.sim_model st.current_depth
  let sim1 :=
    if gas_idx ≠ st.sim_model.current_gas then { st.sim_model with current_gas := gas_idx }
    else st.sim_model
  let w := waitAtStop expf (st.current_depth - model.config.last_stop_depth) sim1 0 st.total_time
  let stop : DecoStop := { depth := st.current_depth, time := w.2.1, gas_idx := gas_idx }
  let plan1 := { st.plan with stops := Function.update st.plan.stops st.stop_idx stop }
  let stop_idx1 := if stop.time > 0 then st.stop_idx + 1 else st.stop_idx
  let current_depth1 := st.current_depth - model.config.last_stop_depth
  if current_depth1 > 0 then
    let ascent_time := model.config.last_stop_depth / model.config.ascent_rate
    { sim_model := ZHL16_UpdateTissues expf w.1 (ascent_time * 60)
      current_depth := current_depth1
      total_time := toUInt16 ((w.2.2 : ℚ) + ascent_time)
      stop_idx := stop_idx1
      plan := plan1 }
  else
    { sim_model := w.1
      current_depth := current_depth1
      total_time := w.2.2
      stop_idx := stop_idx1
      plan := plan1 }

/-- The outer loop of the planner, run for at most `fuel` passes; `none` when
the loop condition still holds after `fuel` passes. -/
def planLoop (expf : ℚ → ℚ) (model : ZHL16Model) : Nat → PlanState → Option PlanState
  | 0, st =>
    if st.current_depth > 0 ∧ st.stop_idx < MAX_DECO_STOPS then none else some st
  | fuel + 1, st =>
    if st.current_depth > 0 ∧ st.stop_idx < MAX_DECO_STOPS then
      planLoop expf model fuel (planStep expf model st)
    else some st

/-- The state in which the planner enters its stop loop: scratch copy of the
model, ascent to the first stop. `model` is the live model after the `memset`
of its plan. -/
def planStart (expf : ℚ → ℚ) (model : ZHL16Model) : PlanState :=
  let sim_model := model
  let current_depth := model.current_depth
  let first_stop := (ZHL16_GetCeiling sim_model).2
  let sim_model := (ZHL16_GetCeiling sim_model).1
  if first_stop > 0 then
    let ascent_time := (current_depth - first_stop) / model.config.ascent_rate
    { sim_model := ZHL16_UpdateTissues expf sim_model (ascent_time * 60)
      current_depth := first_stop
      total_time := toUInt16 ((0 : ℚ) + ascent_time)
      stop_idx := 0
      plan := { model.ascend_plan with first_stop_depth := first_stop } }
  else
    { sim_model := sim_model
      current_depth := current_depth
      total_time := 0
      stop_idx := 0
      plan := model.ascend_plan }

/-- The part of `ZHL16_CalculateAscendPlan` after the early return: the final
locals (with the scratch model) once the stop loop has ended. -/
def planAscent (expf : ℚ → ℚ) (fuel : Nat) (model : ZHL16Model) : Option PlanState :=
  planLoop expf model fuel (planStart expf model)

/-- The closing statements of `ZHL16_CalculateAscendPlan`: final ascent, then
`num_stops`, `tts` and `is_valid`. -/
def planFinish (model : ZHL16Model) (st : PlanState) : AscendPlan :=
  let total_time :=
    if st.current_depth > 0 then
      toUInt16 ((st.total_time : ℚ) + st.current_depth / model.config.ascent_rate)
    else st.total_time
  { st.plan with num_stops := st.stop_idx, tts := total_time, is_valid := true }

/-- The function `ZHL16_CalculateAscendPlan`; `fuel` bounds the passes of the
stop loop, and the result is `none` when they do not suffice. -/
def ZHL16_CalculateAscendPlan (expf : ℚ → ℚ) (fuel : Nat) (model : ZHL16Model) :
    Option ZHL16Model :=
  let model0 := { model with ascend_plan := zeroPlan }
  if ZHL16_NeedsDecoStop model0 = false then
    some { model0 with
      ascend_plan := { zeroPlan with
        is_valid := true
        tts := toUInt16 (model0.current_depth / model0.config.ascent_rate) } }
  else
    match planAscent expf fuel model0 with
    | none => none
    | some st => some { model0 with ascend_plan := planFinish model0 st }

/-! ## Data model of `ccr_manager.h` -/

def NUM_O2_CELLS : Nat := 3
def CELL_MV_WINDOW_SIZE : Nat := 10

inductive CellStatus where
  | CELL_OK
  | CELL_CURRENT_LIMITED
  | CELL_DRIFT
  | CELL_FAIL
  | CELL_NOT_CALIBRATED
  deriving DecidableEq, Repr

structure O2Cell where
  mv : ℚ
  ppO2 : ℚ
  mv_history : Nat → ℚ
  history_idx : Nat
  calibration_factor : ℚ
  calibration_ppO2 : ℚ
  calibration_timestamp : Nat
  temperature_comp : ℚ
  status : CellStatus
  is_voting : Bool
  deviation : ℚ

inductive RecyclerMode where
  | CCR_MODE_FIXED_SETPOINT
  | CCR_MODE_AUTO_SETPOINT
  | SCR_MODE_PASSIVE
  | SCR_MODE_ACTIVE
  | PSCR_MODE
  deriving DecidableEq, Repr

structure CCRManager where
  cells : List O2Cell
  voted_ppO2 : ℚ
  voting_cells : Nat
  setpoint_low : ℚ
  setpoint_high : ℚ
  setpoint_deco : ℚ
  current_setpoint : ℚ
  auto_sp_switch_depth : ℚ
  mode : RecyclerMode
  is_bailout : Bool
  diluent_idx : Nat
  bailout_gas_idx : Nat
  scr_ratio : ℚ
  scr_drop : ℚ
  alarm_ppO2_high : Bool
  alarm_ppO2_low : Bool
  alarm_cells_divergent : Bool
  alarm_cells_failed : Bool
  ppO2_average_1min : ℚ
  ppO2_max : ℚ
  ppO2_min : ℚ
  time_on_loop : Nat

/-! ## `CCR_Init` -/

/-- One cell as `CCR_Init` leaves it: zeroed by `memset`, then not
calibrated, factor 47.6, not voting. -/
def initCell : O2Cell :=
  { mv := 0, ppO2 := 0, mv_history := fun _ => 0, history_idx := 0,
    calibration_factor := 238 / 5, calibration_ppO2 := 0, calibration_timestamp := 0,
    temperature_comp := 0, status := CellStatus.CELL_NOT_CALIBRATED, is_voting := false,
    deviation := 0 }

/-- The function `CCR_Init` (the state it writes). -/
def CCR_Init : CCRManager :=
  { cells := List.replicate NUM_O2_CELLS initCell
    voted_ppO2 := 0, voting_cells := 0
    setpoint_low := 7 / 10, setpoint_high := 13 / 10, setpoint_deco := 14 / 10
    current_setpoint := 7 / 10, auto_sp_switch_depth := 6
    mode := RecyclerMode.CCR_MODE_FIXED_SETPOINT
    is_bailout := false, diluent_idx := 0, bailout_gas_idx := 0
    scr_ratio := 10, scr_drop := 1 / 20
    alarm_ppO2_high := false, alarm_ppO2_low := false
    alarm_cells_divergent := false, alarm_cells_failed := false
    ppO2_average_1min := 0, ppO2_max := 0, ppO2_min := 0, time_on_loop := 0 }

/-! ## `CCR_ValidateCells` -/

/-- The summing loops of `CCR_ValidateCells`: `(sum, valid_cells)` over the
cells that vote. -/
def votingSum (cells : List O2Cell) : ℚ × Nat :=
  cells.foldl (fun acc cell => if cell.is_voting = true then (acc.1 + cell.ppO2, acc.2 + 1) else acc)
    (0, 0)

/-- The body of the divergence loop of `CCR_ValidateCells` for one cell. -/
def checkDivergence (average : ℚ) (cell : O2Cell) : O2Cell :=
  if cell.is_voting = true then
    let deviation := |cell.ppO2 - average|
    if deviation > 1 / 10 ∨ deviation > average * (1 / 10) then
      { cell with deviation := deviation, is_voting := false, status := CellStatus.CELL_DRIFT }
    else
      { cell with deviation := deviation }
  else cell

/-- The function `CCR_ValidateCells`: the manager afterwards and the returned
flag. -/
def CCR_ValidateCells (ccr : CCRManager) : CCRManager × Bool :=
  let sv := votingSum ccr.cells
  if sv.2 < 2 then
    ({ ccr with alarm_cells_failed := true }, false)
  else
    let average := sv.1 / (sv.2 : ℚ)
    let cells1 := ccr.cells.map (checkDivergence average)
    let sv1 := votingSum cells1
    if sv1.2 ≥ 2 then
      ({ ccr with
          cells := cells1
          voted_ppO2 := sv1.1 / (sv1.2 : ℚ)
          voting_cells := sv1.2
          alarm_cells_divergent := decide (sv1.2 < 3) }, true)
    else
      ({ ccr with cells := cells1, alarm_cells_failed := true }, false)

/-! ## `CCR_UpdateCellReadings` -/

/-- The body of the cell loop of `CCR_UpdateCellReadings` for one cell and
its raw reading. -/
def updateCell (cell : O2Cell) (cell_mv : ℚ) : O2Cell :=
  let hist := Function.update cell.mv_history cell.history_idx cell_mv
  let idx := (cell.history_idx + 1) % CELL_MV_WINDOW_SIZE
  let sum := (List.range CELL_MV_WINDOW_SIZE).foldl (fun s j => s + hist j) 0
  let mv := sum / (CELL_MV_WINDOW_SIZE : ℚ)
  let ppO2 := mv / cell.calibration_factor
  let cell1 := { cell with mv_history := hist, history_idx := idx, mv := mv, ppO2 := ppO2 }
  if ppO2 < 1 / 20 ∨ ppO2 > 2 then
    { cell1 with status := CellStatus.CELL_FAIL, is_voting := false }
  else if cell1.status ≠ CellStatus.CELL_FAIL then
    { cell1 with status := CellStatus.CELL_OK, is_voting := true }
  else cell1

/-- The reading loop of `CCR_UpdateCellReadings`, before the final call of
`CCR_ValidateCells`: cell `i` takes reading `i` of the three. -/
def readCells (ccr : CCRManager) (cell1_mv cell2_mv cell3_mv : ℚ) : CCRManager :=
  { ccr with cells := List.zipWith updateCell ccr.cells [cell1_mv, cell2_mv, cell3_mv] }

/-- The function `CCR_UpdateCellReadings`. -/
def CCR_UpdateCellReadings (ccr : CCRManager) (cell1_mv cell2_mv cell3_mv : ℚ) : CCRManager :=
  (CCR_ValidateCells (readCells ccr cell1_mv cell2_mv cell3_mv)).1

/-! ## `CCR_CalibrateCell` -/

/-- The function `CCR_CalibrateCell`; `sys_tick` is the value returned by
`HAL_GetSysTick()`. -/
def CCR_CalibrateCell (sys_tick : Nat) (ccr : CCRManager) (cell_idx : Nat)
    (reference_ppO2 : ℚ) : CCRManager :=
  if cell_idx ≥ NUM_O2_CELLS then ccr
  else
    match ccr.cells[cell_idx]? with
    | none => ccr
    | some cell =>
      if cell.mv > 0 ∧ reference_ppO2 > 0 then
        { ccr with
          cells := ccr.cells.set cell_idx
            { cell with
              calibration_factor := cell.mv / reference_ppO2
              calibration_ppO2 := reference_ppO2
              calibration_timestamp := sys_tick / 1000
              status := CellStatus.CELL_OK
              is_voting := true } }
      else ccr

/-! ## `CCR_UpdateAutoSetpoint` -/

/-- The target `new_setpoint` that `CCR_UpdateAutoSetpoint` computes for
`depth`. -/
def autoSetpointTarget (ccr : CCRManager) (depth : ℚ) : ℚ :=
  if depth < 3 then ccr.setpoint_low
  else if depth < ccr.auto_sp_switch_depth then
    let ratio := (depth - 3) / (ccr.auto_sp_switch_depth - 3)
    ccr.setpoint_low + (ccr.setpoint_high - ccr.setpoint_low) * ratio
  else ccr.setpoint_high

/-- The function `CCR_UpdateAutoSetpoint`. -/
def CCR_UpdateAutoSetpoint (ccr : CCRManager) (depth : ℚ) : CCRManager :=
  if ccr.mode ≠ RecyclerMode.CCR_MODE_AUTO_SETPOINT then ccr
  else
    let new_setpoint := autoSetpointTarget ccr depth
    let delta := new_setpoint - ccr.current_setpoint
    if |delta| > 1 / 100 then
      { ccr with current_setpoint := ccr.current_setpoint + delta * (1 / 10) }
    else ccr

/-! ## `CCR_CheckAlarms`, `CCR_SwitchToBailout`, `CCR_ReturnToLoop` -/

/-- The function `CCR_CheckAlarms`. -/
def CCR_CheckAlarms (ccr : CCRManager) : CCRManager :=
  let ccr1 := { ccr with
    alarm_ppO2_high := decide (ccr.voted_ppO2 > 16 / 10)
    alarm_ppO2_low := decide (ccr.voted_ppO2 < 4 / 10) }
  let ccr2 := if ccr1.voted_ppO2 > ccr1.ppO2_max then { ccr1 with ppO2_max := ccr1.voted_ppO2 }
    else ccr1
  if ccr2.voted_ppO2 < ccr2.ppO2_min ∨ ccr2.ppO2_min = 0 then
    { ccr2 with ppO2_min := ccr2.voted_ppO2 }
  else ccr2

/-- The function `CCR_SwitchToBailout`. -/
def CCR_SwitchToBailout (ccr : CCRManager) (bailout_gas : Nat) : CCRManager :=
  { ccr with is_bailout := true, bailout_gas_idx := bailout_gas }

/-- The function `CCR_ReturnToLoop`. -/
def CCR_ReturnToLoop (ccr : CCRManager) : CCRManager :=
  { ccr with is_bailout := false }

/-- Failed cells do not vote: the state invariant of the cell array that
`CCR_Init` establishes and every function of `ccr_manager.c` keeps. -/
def failedCellsSilent (ccr : CCRManager) : Prop :=
  ∀ cell ∈ ccr.cells, cell.status = CellStatus.CELL_FAIL → cell.is_voting = false

/-- The manager states that the functions of `ccr_manager.c` produce from
`CCR_Init`. -/
inductive CCRReachable : CCRManager → Prop where
  | init : CCRReachable CCR_Init
  | readings (ccr : CCRManager) (m1 m2 m3 : ℚ) :
      CCRReachable ccr → CCRReachable (CCR_UpdateCellReadings ccr m1 m2 m3)
  | validate (ccr : CCRManager) : CCRReachable ccr → CCRReachable (CCR_ValidateCells ccr).1
  | calibrate (ccr : CCRManager) (sys_tick cell_idx : Nat) (reference_ppO2 : ℚ) :
      CCRReachable ccr → CCRReachable (CCR_CalibrateCell sys_tick ccr cell_idx reference_ppO2)
  | autoSetpoint (ccr : CCRManager) (depth : ℚ) :
      CCRReachable ccr → CCRReachable (CCR_UpdateAutoSetpoint ccr depth)
  | checkAlarms (ccr : CCRManager) : CCRReachable ccr → CCRReachable (CCR_CheckAlarms ccr)
  | bailout (ccr : CCRManager) (g : Nat) :
      CCRReachable ccr → CCRReachable (CCR_SwitchToBailout ccr g)
  | toLoop (ccr : CCRManager) : CCRReachable ccr → CCRReachable (CCR_ReturnToLoop ccr)

/-- The cells of a list that vote. -/
def votingCells (cells : List O2Cell) : List O2Cell :=
  cells.filter (fun cell => cell.is_voting)

/-- The arithmetic mean of the ppO₂ of the voting cells of a list. -/
def votingMean (cells : List O2Cell) : ℚ :=
  ((votingCells cells).map (fun cell => cell.ppO2)).sum / ((votingCells cells).length : ℚ)

/-- A calibrated, voting cell that reads `p` bar. -/
def cellReading (p : ℚ) : O2Cell :=
  { initCell with ppO2 := p, status := CellStatus.CELL_OK, is_voting := true }

/-- The manager of `CCR_Init` with the given cell array. -/
def managerWith (cells : List O2Cell) : CCRManager :=
  { CCR_Init with cells := cells }

/-- Three voting cells reading 0.50, 0.50 and 0.62 bar. -/
def cellsNearMean : CCRManager :=
  managerWith [cellReading (1 / 2), cellReading (1 / 2), cellReading (31 / 50)]

/-- Three voting cells reading 1.0, 1.0 and 2.0 bar. -/
def cellsFarOutlier : CCRManager :=
  managerWith [cellReading 1, cellReading 1, cellReading 2]

/-- Three voting cells reading 1.20, 1.22 and 1.45 bar (scenario S3). -/
def cellsS3 : CCRManager :=
  managerWith [cellReading (120 / 100), cellReading (122 / 100), cellReading (145 / 100)]

/-- The cell array after the divergence loop of `CCR_ValidateCells`, when at
least two cells vote on entry. -/
def afterRejection (cells : List O2Cell) : List O2Cell :=
  cells.map (checkDivergence (votingMean cells))

/-- One call of a function of `ccr_manager.c` other than `CCR_CalibrateCell`
(and `CCR_Init`). -/
inductive NonCalibratingCall : CCRManager → CCRManager → Prop where
  | readings (ccr : CCRManager) (m1 m2 m3 : ℚ) :
      NonCalibratingCall ccr (CCR_UpdateCellReadings ccr m1 m2 m3)
  | validate (ccr : CCRManager) : NonCalibratingCall ccr (CCR_ValidateCells ccr).1
  | autoSetpoint (ccr : CCRManager) (depth : ℚ) :
      NonCalibratingCall ccr (CCR_UpdateAutoSetpoint ccr depth)
  | checkAlarms (ccr : CCRManager) : NonCalibratingCall ccr (CCR_CheckAlarms ccr)
  | bailout (ccr : CCRManager) (g : Nat) : NonCalibratingCall ccr (CCR_SwitchToBailout ccr g)
  | toLoop (ccr : CCRManager) : NonCalibratingCall ccr (CCR_ReturnToLoop ccr)

/-- The manager after `CCR_Init` and one reading of 0 mV on every cell. -/
def allCellsFailed : CCRManager := CCR_UpdateCellReadings CCR_Init 0 0 0

/-- The manager of `CCR_Init` (setpoints 0.7 and 1.3, switch depth 6 m,
current setpoint 0.70) put in auto-setpoint mode (scenario S4). -/
def autoSetpointS4 : CCRManager :=
  { CCR_Init with mode := RecyclerMode.CCR_MODE_AUTO_SETPOINT }

/-- The depth schedule of the auto setpoint, in the words of the spec. -/
def setpointSchedule (low high switch_depth depth : ℚ) : ℚ :=
  if depth < 3 then low
  else if depth < switch_depth then low + (high - low) * (depth - 3) / (switch_depth - 3)
  else high

/-- The state `(best_gas, best_ppO2)` of the scan of `ZHL16_GetBestGas` holds
a gas that the scan has accepted. -/
def bestGasGood (model : ZHL16Model) (depth : ℚ) (st : Nat × ℚ) : Prop :=
  st.1 < model.num_gases ∧ (model.gases st.1).is_enabled = true ∧
    gasInWindow model depth st.1 ∧ st.2 = gasPpO2 model depth st.1 ∧ 0 < st.2

/-- Two models agree on everything the planner never writes in its scratch
copy: gas table, configuration, depths, pressures and the CCR inputs. -/
def SameSetting (a b : ZHL16Model) : Prop :=
  a.gases = b.gases ∧ a.num_gases = b.num_gases ∧ a.config = b.config ∧
    a.current_depth = b.current_depth ∧ a.max_depth = b.max_depth ∧
    a.ambient_pressure = b.ambient_pressure ∧ a.surface_pressure = b.surface_pressure ∧
    a.water_vapor_pressure = b.water_vapor_pressure ∧ a.ccr_mode = b.ccr_mode ∧
    a.actual_ppO2 = b.actual_ppO2

/-- Air alone in slot 0 of the gas table, as `ZHL16_AddGas(model, 0, "AIR",
0.21, 0.79, 0, false)` writes it. -/
def airOnly : Nat → GasMix := fun i =>
  if i = 0 then
    { fO2 := 21 / 100, fN2 := 79 / 100, fHe := 0, ppO2_max := 14 / 10, ppO2_min := 16 / 100,
      mod := (14 / 10 / (21 / 100) - 1) * 10, is_diluent := false, is_enabled := true,
      is_bailout := false }
  else zeroGas

/-- The configuration written by `ZHL16_Init`. -/
def defaultConfig : DecoConfig :=
  { gf_low := 30, gf_high := 85, last_stop_depth := 3, ascent_rate := 10, descent_rate := 20,
    conservatism := false, altitude_level := 0, safety_stop_required := true,
    safety_stop_depth := 5, safety_stop_time := 180 }

/-- The ZHL-16B table rows `(half_time_N2, half_time_He, a_N2, b_N2)` of
`zhl16_core.c`. -/
def ZHL16B_rows : List (ℚ × ℚ × ℚ × ℚ) :=
  [(4, 151 / 100, 12599 / 10000, 5050 / 10000),
   (8, 302 / 100, 10000 / 10000, 6514 / 10000),
   (125 / 10, 472 / 100, 8618 / 10000, 7222 / 10000),
   (185 / 10, 699 / 100, 7562 / 10000, 7825 / 10000),
   (27, 1021 / 100, 6667 / 10000, 8126 / 10000),
   (383 / 10, 1448 / 100, 5933 / 10000, 8434 / 10000),
   (543 / 10, 2053 / 100, 5282 / 10000, 8693 / 10000),
   (77, 2911 / 100, 4701 / 10000, 8910 / 10000),
   (109, 4120 / 100, 4187 / 10000, 9092 / 10000),
   (146, 5519 / 100, 3798 / 10000, 9222 / 10000),
   (187, 7069 / 100, 3497 / 10000, 9319 / 10000),
   (239, 9034 / 100, 3223 / 10000, 9403 / 10000),
   (305, 11529 / 100, 2971 / 10000, 9477 / 10000),
   (390, 14742 / 100, 2737 / 10000, 9544 / 10000),
   (498, 18824 / 100, 2523 / 10000, 9602 / 10000),
   (635, 24003 / 100, 2327 / 10000, 9653 / 10000)]

/-- A compartment as `ZHL16_Init` sets it up from a ZHL-16B row, holding the
nitrogen pressure `pN2` and no helium. -/
def compartmentOfRow (pN2 : ℚ) (row : ℚ × ℚ × ℚ × ℚ) : Compartment :=
  { half_time_N2 := row.1, half_time_He := row.2.1, a_N2 := row.2.2.1, b_N2 := row.2.2.2,
    a_He := row.2.2.1 * (3 / 2), b_He := row.2.2.2 * (9 / 10),
    pressure_N2 := pN2, pressure_He := 0, loading := 0 }

/-- An open-circuit air diver at `depth` metres (surface pressure 1.013 bar,
ZHL-16B, default configuration) whose sixteen compartments all hold the
nitrogen pressure `pN2`. -/
def airDiver (depth pN2 : ℚ) : ZHL16Model :=
  { compartments := ZHL16B_rows.map (compartmentOfRow pN2)
    gases := airOnly, current_gas := 0, num_gases := 1
    config := defaultConfig
    current_depth := depth, max_depth := depth, average_depth := 0
    dive_time_seconds := 0
    ambient_pressure := 1013 / 1000 + depth / 10
    surface_pressure := 1013 / 1000
    water_vapor_pressure := 627 / 10000
    ceiling := 0, ndl := 0, cns := 0, otu := 0
    ascend_plan := zeroPlan
    ccr_mode := false, setpoint := 0, actual_ppO2 := 0
    gf_current := 0, gf_surface := 0, leading_compartment := 0, saturation_percent := 0 }

/-- The stops recorded so far carry a gas that is legal at their depth,
whenever the gas table of `model` has a candidate at that depth. -/
def stopsLegal (model : ZHL16Model) (stops : Nat → DecoStop) (n : Nat) : Prop :=
  ∀ i, i < n → (∃ j, gasCandidate model (stops i).depth j) →
    gasInWindow model (stops i).depth (stops i).gas_idx

/-- A compartment with its derived `loading` blanked. -/
def eraseLoading (comp : Compartment) : Compartment := { comp with loading := 0 }

/-- The scratch model `sim` still holds the tissue pressures, gas and setting
of `model`. -/
def Frozen (model sim : ZHL16Model) : Prop :=
  sim.compartments.map eraseLoading = model.compartments.map eraseLoading ∧
    SameSetting sim model ∧ sim.current_gas = model.current_gas

/-- Every compartment of `model` is in equilibrium with the inspired inert
gas pressures at the model's ambient pressure (a saturated diver). -/
def Equilibrium (model : ZHL16Model) : Prop :=
  ∀ comp ∈ model.compartments,
    comp.pressure_N2 = inspiredN2 model ∧ comp.pressure_He = inspiredHe model

/-- An air diver saturated at 40 m: every compartment holds the inspired
nitrogen pressure (5.013 − 0.0627)·0.79 bar of that depth. -/
def saturatedDiver : ZHL16Model := airDiver 40 (3910737 / 1000000)

/-- The shape of the stops recorded so far by the stop loop, at spacing `lsd`
and with the loop now at `current_depth`: every recorded stop lies at a
positive whole multiple of `lsd` above `current_depth` and has a non-zero
duration, and the recorded depths decrease strictly. -/
def stopsShape (lsd current_depth : ℚ) (stops : Nat → DecoStop) (n : Nat) : Prop :=
  (∃ k : ℤ, current_depth = (k : ℚ) * lsd) ∧
  (∀ i, i < n → 0 < (stops i).depth ∧ 0 < (stops i).time ∧ current_depth < (stops i).depth ∧
    ∃ k : ℤ, (stops i).depth = (k : ℚ) * lsd) ∧
  (∀ i j, i < j → j < n → (stops j).depth < (stops i).depth)

/-- An air diver who has just arrived at 30 m with the tissues still in
equilibrium with air at the surface, (1.013 − 0.0627)·0.79 bar of nitrogen. -/
def freshDiver : ZHL16Model := airDiver 30 (750737 / 1000000)

/-! ## `ZHL16_GetNDL` -/

/-- Inspired nitrogen pressure as `ZHL16_GetNDL` computes it (in CCR mode
without the `total_inert > 0` test of `ZHL16_UpdateTissues`). -/
def ndlInspiredN2 (model : ZHL16Model) : ℚ :=
  let gas := model.gases model.current_gas
  if model.ccr_mode = true then
    let diluent_pressure := model.ambient_pressure - model.actual_ppO2
    let total_inert := gas.fN2 + gas.fHe
    diluent_pressure * (gas.fN2 / total_inert)
  else
    (model.ambient_pressure - model.water_vapor_pressure) * gas.fN2

/-- Inspired helium pressure as `ZHL16_GetNDL` computes it. -/
def ndlInspiredHe (model : ZHL16Model) : ℚ :=
  let gas := model.gases model.current_gas
  if model.ccr_mode = true then
    let diluent_pressure := model.ambient_pressure - model.actual_ppO2
    let total_inert := gas.fN2 + gas.fHe
    diluent_pressure * (gas.fHe / total_inert)
  else
    (model.ambient_pressure - model.water_vapor_pressure) * gas.fHe

/-- The statements `remaining = -logf((m - inspired) / (p - inspired)) / k;
if (remaining < ndl) ndl = remaining;` of `ZHL16_GetNDL`, with
`k = 0.693147 / half_time`; the result is the new `ndl`.  `logf` is the libm
routine, a parameter.  For an argument that is not positive `logf` yields NaN
or −∞, `remaining` is then NaN or +∞ (half-times are positive) and the test
`remaining < ndl` fails: the guard `x > 0` stands for that. -/
def ndlRemaining (logf : ℚ → ℚ) (m_value inspired pressure half_time ndl : ℚ) : ℚ :=
  let k := (693147 / 1000000 : ℚ) / half_time
  let x := (m_value - inspired) / (pressure - inspired)
  if x > 0 then
    let remaining := -(logf x) / k
    if remaining < ndl then remaining else ndl
  else ndl

/-- The block "Temps restant pour N2" of the loop of `ZHL16_GetNDL`; the
result is the new `ndl`. -/
def ndlStepN2 (logf : ℚ → ℚ) (model : ZHL16Model) (ndl : ℚ) (comp : Compartment) : ℚ :=
  let inspired_N2 := ndlInspiredN2 model
  let gf := model.config.gf_high / 100
  let m_value_surface := (model.surface_pressure - comp.a_N2 * gf) / (comp.b_N2 - gf + 1)
  if inspired_N2 > comp.pressure_N2 ∧ comp.pressure_N2 < m_value_surface then
    ndlRemaining logf m_value_surface inspired_N2 comp.pressure_N2 comp.half_time_N2 ndl
  else ndl

/-- The block "Temps restant pour He" of the loop of `ZHL16_GetNDL`; the
result is the new `ndl`. -/
def ndlStepHe (logf : ℚ → ℚ) (model : ZHL16Model) (ndl : ℚ) (comp : Compartment) : ℚ :=
  let gas := model.gases model.current_gas
  let inspired_He := ndlInspiredHe model
  let gf := model.config.gf_high / 100
  if gas.fHe > 0 ∧ inspired_He > comp.pressure_He then
    let m_value_He := (model.surface_pressure - comp.a_He * gf) / (comp.b_He - gf + 1)
    if comp.pressure_He < m_value_He then
      ndlRemaining logf m_value_He inspired_He comp.pressure_He comp.half_time_He ndl
    else ndl
  else ndl

/-- One pass of the compartment loop of `ZHL16_GetNDL`: the nitrogen block,
then the helium block; the state is the running `ndl`. -/
def ndlStep (logf : ℚ → ℚ) (model : ZHL16Model) (ndl : ℚ) (comp : Compartment) : ℚ :=
  ndlStepHe logf model (ndlStepN2 logf model ndl comp) comp

/-- The function `ZHL16_GetNDL`: the model afterwards (`ndl` is stored only
when no stop is needed) and the returned value. -/
def ZHL16_GetNDL (logf : ℚ → ℚ) (model : ZHL16Model) : ZHL16Model × ℚ :=
  if ZHL16_NeedsDecoStop model = true then (model, 0)
  else
    let ndl := model.compartments.foldl (ndlStep logf model) 999
    ({ model with ndl := ndl }, ndl)

/-- The value `comp_ceiling` that the loop of `ZHL16_GetCeiling` computes for
a compartment it does not skip: `(p_tolerated - surface_pressure) * 10`. -/
def compCeiling (model : ZHL16Model) (comp : Compartment) : ℚ :=
  let p_total := comp.pressure_N2 + comp.pressure_He
  let a := (comp.a_N2 * comp.pressure_N2 + comp.a_He * comp.pressure_He) / p_total
  let b := (comp.b_N2 * comp.pressure_N2 + comp.b_He * comp.pressure_He) / p_total
  let gf := currentGF model
  let p_tolerated := (p_total - a * (gf / 100)) / (1 / b - gf / 100 + 1)
  (p_tolerated - model.surface_pressure) * 10

/-- The compartment ceilings over which `ZHL16_GetCeiling` takes its maximum:
those of the compartments with a positive total inert pressure (the others
are skipped by `continue`). -/
def compCeilings (model : ZHL16Model) : List ℚ :=
  (model.compartments.filter
    (fun comp => decide (0 < comp.pressure_N2 + comp.pressure_He))).map (compCeiling model)

/-! ## `ZHL16_Init` -/

/-- The table `ZHL16B_N2_halftimes`. -/
def ZHL16B_N2_halftimes : List ℚ :=
  [4, 8, 125 / 10, 185 / 10, 27, 383 / 10, 543 / 10, 77,
   109, 146, 187, 239, 305, 390, 498, 635]

/-- The table `ZHL16B_He_halftimes`. -/
def ZHL16B_He_halftimes : List ℚ :=
  [151 / 100, 302 / 100, 472 / 100, 699 / 100, 1021 / 100, 1448 / 100, 2053 / 100, 2911 / 100,
   4120 / 100, 5519 / 100, 7069 / 100, 9034 / 100, 11529 / 100, 14742 / 100, 18824 / 100,
   24003 / 100]

/-- The table `ZHL16B_N2_a`. -/
def ZHL16B_N2_a : List ℚ :=
  [12599 / 10000, 10000 / 10000, 8618 / 10000, 7562 / 10000, 6667 / 10000, 5933 / 10000,
   5282 / 10000, 4701 / 10000, 4187 / 10000, 3798 / 10000, 3497 / 10000, 3223 / 10000,
   2971 / 10000, 2737 / 10000, 2523 / 10000, 2327 / 10000]

/-- The table `ZHL16B_N2_b`. -/
def ZHL16B_N2_b : List ℚ :=
  [5050 / 10000, 6514 / 10000, 7222 / 10000, 7825 / 10000, 8126 / 10000, 8434 / 10000,
   8693 / 10000, 8910 / 10000, 9092 / 10000, 9222 / 10000, 9319 / 10000, 9403 / 10000,
   9477 / 10000, 9544 / 10000, 9602 / 10000, 9653 / 10000]

/-- The table `ZHL16C_N2_halftimes`. -/
def ZHL16C_N2_halftimes : List ℚ :=
  [4, 8, 125 / 10, 185 / 10, 27, 383 / 10, 543 / 10, 77,
   109, 146, 187, 239, 305, 390, 498, 635]

/-- The table `ZHL16C_N2_a`. -/
def ZHL16C_N2_a : List ℚ :=
  [12599 / 10000, 10000 / 10000, 8618 / 10000, 7562 / 10000, 6200 / 10000, 5043 / 10000,
   4410 / 10000, 4000 / 10000, 3750 / 10000, 3500 / 10000, 3295 / 10000, 3065 / 10000,
   2835 / 10000, 2610 / 10000, 2480 / 10000, 2327 / 10000]

/-- The table `ZHL16C_N2_b`. -/
def ZHL16C_N2_b : List ℚ :=
  [5050 / 10000, 6514 / 10000, 7222 / 10000, 7825 / 10000, 8126 / 10000, 8434 / 10000,
   8693 / 10000, 8910 / 10000, 9092 / 10000, 9222 / 10000, 9319 / 10000, 9403 / 10000,
   9477 / 10000, 9544 / 10000, 9602 / 10000, 9653 / 10000]

/-- The body of the compartment loop of `ZHL16_Init` for index `i`. -/
def initCompartment (surface_pressure : ℚ) (use_zhl16c : Bool) (i : Nat) : Compartment :=
  let half_time_N2 :=
    if use_zhl16c = true then ZHL16C_N2_halftimes.getD i 0 else ZHL16B_N2_halftimes.getD i 0
  let a_N2 := if use_zhl16c = true then ZHL16C_N2_a.getD i 0 else ZHL16B_N2_a.getD i 0
  let b_N2 := if use_zhl16c = true then ZHL16C_N2_b.getD i 0 else ZHL16B_N2_b.getD i 0
  let air_pressure := (surface_pressure - 627 / 10000) * (79 / 100)
  { half_time_N2 := half_time_N2
    half_time_He := ZHL16B_He_halftimes.getD i 0
    a_N2 := a_N2
    b_N2 := b_N2
    a_He := a_N2 * (3 / 2)
    b_He := b_N2 * (9 / 10)
    pressure_N2 := air_pressure
    pressure_He := 0
    loading := 0 }

/-- The function `ZHL16_Init` (the model it writes): everything zeroed by
`memset`, then the pressures, the default configuration and the sixteen
compartments. -/
def ZHL16_Init (surface_pressure : ℚ) (use_zhl16c : Bool) : ZHL16Model :=
  { compartments := (List.range NUM_COMPARTMENTS).map (initCompartment surface_pressure use_zhl16c)
    gases := fun _ => zeroGas, current_gas := 0, num_gases := 0
    config := defaultConfig
    current_depth := 0, max_depth := 0, average_depth := 0
    dive_time_seconds := 0
    ambient_pressure := surface_pressure
    surface_pressure := surface_pressure
    water_vapor_pressure := 627 / 10000
    ceiling := 0, ndl := 0, cns := 0, otu := 0
    ascend_plan := zeroPlan
    ccr_mode := false, setpoint := 0, actual_ppO2 := 0
    gf_current := 0, gf_surface := 0, leading_compartment := 0, saturation_percent := 0 }

/-- The conditions under which the tissues are updated, as the claim about
non-negative pressures words them: ambient pressure at least the surface
pressure, fractions of the breathed gas in [0, 1], and in CCR mode a measured
ppO₂ in the valid cell range [0.05, 2.00]. -/
def breathingAsClaimed (model : ZHL16Model) : Prop :=
  model.surface_pressure ≤ model.ambient_pressure ∧
  0 ≤ (model.gases model.current_gas).fO2 ∧ (model.gases model.current_gas).fO2 ≤ 1 ∧
  0 ≤ (model.gases model.current_gas).fN2 ∧ (model.gases model.current_gas).fN2 ≤ 1 ∧
  0 ≤ (model.gases model.current_gas).fHe ∧ (model.gases model.current_gas).fHe ≤ 1 ∧
  (model.ccr_mode = true → 1 / 20 ≤ model.actual_ppO2 ∧ model.actual_ppO2 ≤ 2)

/-- The same conditions with, in CCR mode, a measured ppO₂ that does not
exceed the ambient pressure. -/
def breathingWithinAmbient (model : ZHL16Model) : Prop :=
  breathingAsClaimed model ∧
  (model.ccr_mode = true → model.actual_ppO2 ≤ model.ambient_pressure)

/-- The models obtained from `ZHL16_Init surface_pressure use_zhl16c` by
calls of `ZHL16_UpdateTissues` with `dt ≥ 0`. Between two calls everything
but the compartments, the surface pressure and the water vapour pressure may
change (depth, ambient pressure, gas, mode, measured ppO₂), as long as the
model satisfies `env` when the tissues are updated. -/
inductive TissueReachable (expf : ℚ → ℚ) (env : ZHL16Model → Prop) (surface_pressure : ℚ)
    (use_zhl16c : Bool) : ZHL16Model → Prop where
  | init : TissueReachable expf env surface_pressure use_zhl16c
      (ZHL16_Init surface_pressure use_zhl16c)
  | update (model model1 : ZHL16Model) (dt : ℚ) :
      TissueReachable expf env surface_pressure use_zhl16c model →
      model1.compartments = model.compartments →
      model1.surface_pressure = model.surface_pressure →
      model1.water_vapor_pressure = model.water_vapor_pressure →
      env model1 → 0 ≤ dt →
      TissueReachable expf env surface_pressure use_zhl16c (ZHL16_UpdateTissues expf model1 dt)

/-- The exponential stays in [0, 1] on arguments that are not positive. -/
def ExpfUnit (expf : ℚ → ℚ) : Prop := ∀ x, x ≤ 0 → 0 ≤ expf x ∧ expf x ≤ 1

/-- Heliox 21/79 in slot 0 of the gas table, as `ZHL16_AddGas(model, 0, ...,
0.21, 0, 0.79, true)` writes it. -/
def helioxOnly : Nat → GasMix := fun i =>
  if i = 0 then
    { fO2 := 21 / 100, fN2 := 0, fHe := 79 / 100, ppO2_max := 14 / 10, ppO2_min := 16 / 100,
      mod := (14 / 10 / (21 / 100) - 1) * 10, is_diluent := true, is_enabled := true,
      is_bailout := false }
  else zeroGas

/-- The model of `ZHL16_Init(1.013, ZHL-16B)` at the surface, in CCR mode on a
heliox diluent, with a measured ppO₂ of 2.0 bar. -/
def ccrAtSurface : ZHL16Model :=
  { ZHL16_Init (1013 / 1000) false with
    gases := helioxOnly, num_gases := 1, ccr_mode := true, actual_ppO2 := 2 }

/-- The model of `ZHL16_Init(1.013, ZHL-16B)` at 30 m, in CCR mode on a
heliox diluent, with a measured ppO₂ of 1.3 bar. -/
def ccrAtThirty : ZHL16Model :=
  { ZHL16_Init (1013 / 1000) false with
    gases := helioxOnly, num_gases := 1, ccr_mode := true, actual_ppO2 := 13 / 10
    current_depth := 30, max_depth := 30, ambient_pressure := 4013 / 1000 }

/-! ## The dive manager (`dive_manager.h`, `dive_manager.c`) -/

/-- The constant `DIVE_START_DEPTH` (metres). -/
def DIVE_START_DEPTH : ℚ := 12 / 10

/-- The constant `DIVE_END_DEPTH` (metres). -/
def DIVE_END_DEPTH : ℚ := 8 / 10

/-- The constant `DIVE_END_TIME` (seconds). -/
def DIVE_END_TIME : Nat := 300

/-- The constant `MAX_DIVE_SAMPLES`. -/
def MAX_DIVE_SAMPLES : Nat := 3600

/-- Conversion `(int16_t) q`: truncation toward zero, kept in sixteen bits
(two's complement). -/
def toInt16 (q : ℚ) : Int :=
  let t : Int := if 0 ≤ q then ⌊q⌋ else ⌈q⌉
  (t + 32768) % 65536 - 32768

/-- Subtraction `a - b` of two `uint32_t` values. -/
def subUInt32 (a b : Nat) : Nat := (a + 4294967296 - b) % 4294967296

/-- The enumeration `DivePhase`. -/
inductive DivePhase where
  | PHASE_SURFACE
  | PHASE_DESCENT
  | PHASE_BOTTOM
  | PHASE_ASCENT
  | PHASE_DECO_STOP
  | PHASE_SAFETY_STOP
  | PHASE_SURFACE_INTERVAL
  deriving DecidableEq, Repr

/-- The structure `DiveSample`. -/
structure DiveSample where
  time : Nat
  depth : Int
  temperature : Int
  gas_idx : Nat
  deco_time : Nat
  cns : Nat
  events : Nat
  deriving DecidableEq

/-- A sample of zero bytes. -/
def zeroSample : DiveSample :=
  { time := 0, depth := 0, temperature := 0, gas_idx := 0, deco_time := 0, cns := 0, events := 0 }

/-- The structure `DiveProfile`. -/
structure DiveProfile where
  dive_number : Nat
  start_timestamp : Nat
  end_timestamp : Nat
  max_depth : ℚ
  avg_depth : ℚ
  duration : Nat
  min_temperature : ℚ
  surface_interval : Nat
  deco_violations : Nat
  max_deco_time : Nat
  max_gf : ℚ
  max_cns : ℚ
  max_otu : ℚ
  gases_used : Nat
  sac_rate : ℚ
  samples : Nat → DiveSample
  num_samples : Nat

/-- A profile of zero bytes, as `memset` leaves it. -/
def zeroProfile : DiveProfile :=
  { dive_number := 0, start_timestamp := 0, end_timestamp := 0, max_depth := 0, avg_depth := 0,
    duration := 0, min_temperature := 0, surface_interval := 0, deco_violations := 0,
    max_deco_time := 0, max_gf := 0, max_cns := 0, max_otu := 0, gases_used := 0, sac_rate := 0,
    samples := fun _ => zeroSample, num_samples := 0 }

/-- The structure `DiveManager`. -/
structure DiveManager where
  phase : DivePhase
  is_diving : Bool
  dive_start_time : Nat
  phase_start_time : Nat
  current_dive : DiveProfile
  sample_counter : Nat
  ascent_rate : ℚ
  descent_rate : ℚ
  avg_depth_sum : ℚ
  avg_depth_samples : Nat
  ascent_rate_alarm : Bool
  deco_ceiling_alarm : Bool
  ppO2_alarm : Bool
  missed_deco_stops : Nat
  safety_stop_required : Bool
  safety_stop_completed : Bool
  safety_stop_timer : Nat
  surface_interval_start : Nat
  surface_interval_mins : Nat
  max_ascent_rate : ℚ
  fast_ascent_rate : ℚ
  auto_start_dive : Bool
  safety_stop_enforce : Bool

/-- The `static` variables of `dive_manager.c`: `start_time` of
`DiveManager_CheckDiveStart`, `surface_time` of `DiveManager_CheckDiveEnd`,
`last_depth` and `last_time` of `DiveManager_UpdateRates`. -/
structure DiveStatics where
  start_time : Nat
  surface_time : Nat
  last_depth : ℚ
  last_time : Nat

/-- The `static` variables as their initialisers leave them. -/
def bootStatics : DiveStatics :=
  { start_time := 0, surface_time := 0, last_depth := 0, last_time := 0 }

/-- The function `DiveManager_Init` (the manager it writes). -/
def DiveManager_Init : DiveManager :=
  { phase := DivePhase.PHASE_SURFACE
    is_diving := false
    dive_start_time := 0, phase_start_time := 0
    current_dive := zeroProfile
    sample_counter := 0
    ascent_rate := 0, descent_rate := 0, avg_depth_sum := 0, avg_depth_samples := 0
    ascent_rate_alarm := false, deco_ceiling_alarm := false, ppO2_alarm := false
    missed_deco_stops := 0
    safety_stop_required := false, safety_stop_completed := false, safety_stop_timer := 0
    surface_interval_start := 0, surface_interval_mins := 0
    max_ascent_rate := 10
    fast_ascent_rate := 18
    auto_start_dive := true
    safety_stop_enforce := true }

/-- The function `DiveManager_CheckDiveStart`; `now` is the value of
`HAL_GetSysTick() / 1000` during the call. The manager, which the function
does not use, is left out. -/
def DiveManager_CheckDiveStart (now : Nat) (s : DiveStatics) (depth : ℚ) : Bool × DiveStatics :=
  if depth ≥ DIVE_START_DEPTH then
    if s.start_time = 0 then (false, { s with start_time := now })
    else if subUInt32 now s.start_time ≥ 20 then (true, { s with start_time := 0 })
    else (false, s)
  else (false, { s with start_time := 0 })

/-- The function `DiveManager_CheckDiveEnd`; `now` is the value of
`HAL_GetSysTick() / 1000` during the call. -/
def DiveManager_CheckDiveEnd (now : Nat) (s : DiveStatics) (depth : ℚ) : Bool × DiveStatics :=
  if depth ≤ DIVE_END_DEPTH then
    if s.surface_time = 0 then (false, { s with surface_time := now })
    else if subUInt32 now s.surface_time ≥ DIVE_END_TIME then (true, { s with surface_time := 0 })
    else (false, s)
  else (false, { s with surface_time := 0 })

/-- The function `DiveManager_StartDive`. `DiveManager_GetLastDiveNumber`
belongs to the logbook storage, whose code is not part of the sources:
`last_dive_number` is the value that call returns. -/
def DiveManager_StartDive (last_dive_number now : Nat) (dm : DiveManager) : DiveManager :=
  { dm with
    is_diving := true
    dive_start_time := now
    phase := DivePhase.PHASE_DESCENT
    current_dive :=
      { zeroProfile with
        dive_number := (last_dive_number + 1) % 4294967296
        start_timestamp := now
        surface_interval := dm.surface_interval_mins }
    sample_counter := 0
    avg_depth_sum := 0
    avg_depth_samples := 0
    safety_stop_required := false
    safety_stop_completed := false
    safety_stop_timer := 0 }

/-- The loop of `DiveManager_CompressSamples`, from the values `i` and `j` of
its two `uint16_t` counters, over a buffer holding `n` samples. When `i += 2`
wraps to zero the loop condition stays true for ever: this is `none`. -/
def compressLoop (n : Nat) (samples : Nat → DiveSample) (i j : Nat) :
    Option ((Nat → DiveSample) × Nat) :=
  if i < n then
    if i + 2 < 65536 then
      compressLoop n (Function.update samples j (samples i)) (i + 2) ((j + 1) % 65536)
    else none
  else some (samples, j)
termination_by n - i

/-- The function `DiveManager_CompressSamples`. -/
def DiveManager_CompressSamples (dm : DiveManager) : Option DiveManager :=
  (compressLoop dm.current_dive.num_samples dm.current_dive.samples 0 0).map fun r =>
    { dm with current_dive := { dm.current_dive with samples := r.1, num_samples := r.2 } }

/-- The function `DiveManager_EndDive`. `DiveManager_SaveDive` belongs to the
logbook storage, whose code is not part of the sources; it receives the
manager returned here. Where the source divides by a zero
`avg_depth_samples` the quotient is `0`. -/
def DiveManager_EndDive (now : Nat) (dm : DiveManager) : Option DiveManager :=
  DiveManager_CompressSamples
    { dm with
      is_diving := false
      phase := DivePhase.PHASE_SURFACE_INTERVAL
      surface_interval_start := now
      current_dive :=
        { dm.current_dive with
          end_timestamp := now
          duration := subUInt32 now dm.current_dive.start_timestamp
          avg_depth := dm.avg_depth_sum / (dm.avg_depth_samples : ℚ) } }

/-- The function `DiveManager_UpdateRates`; `now` is the value of
`HAL_GetSysTick() / 1000` during the call. -/
def DiveManager_UpdateRates (now : Nat) (dm : DiveManager) (s : DiveStatics) (depth : ℚ) :
    DiveManager × DiveStatics :=
  if s.last_time = 0 then (dm, { s with last_time := now, last_depth := depth })
  else
    let time_delta : ℚ := (subUInt32 now s.last_time : ℚ) / 60
    let dm1 :=
      if time_delta > 0 then
        let depth_delta := depth - s.last_depth
        let rate := depth_delta / time_delta
        let dm2 := { dm with ascent_rate := dm.ascent_rate * (7 / 10) + rate * (3 / 10) }
        if rate < 0 then { dm2 with descent_rate := -rate } else dm2
      else dm
    (dm1, { s with last_depth := depth, last_time := now })

/-- The function `DiveManager_CheckAscentRate`. -/
def DiveManager_CheckAscentRate (dm : DiveManager) : Bool :=
  decide (dm.ascent_rate > dm.fast_ascent_rate)

/-- The function `DiveManager_UpdateSafetyStop`. The source reads
`dm->config.safety_stop_time`, and `DiveManager` declares no `config`: the
value read is the parameter `safety_stop_time`. -/
def DiveManager_UpdateSafetyStop (safety_stop_time : Nat) (dm : DiveManager) (depth : ℚ) :
    DiveManager :=
  let dm1 :=
    if dm.current_dive.max_depth > 10 ∧ dm.safety_stop_completed = false then
      { dm with safety_stop_required := true }
    else dm
  if dm1.phase = DivePhase.PHASE_SAFETY_STOP ∧ dm1.safety_stop_required = true then
    if depth ≥ 45 / 10 ∧ depth ≤ 55 / 10 then
      let dm2 := { dm1 with safety_stop_timer := (dm1.safety_stop_timer + 1) % 65536 }
      if dm2.safety_stop_timer ≥ safety_stop_time then
        { dm2 with safety_stop_completed := true, safety_stop_required := false }
      else dm2
    else { dm1 with safety_stop_timer := 0 }
  else dm1

/-- The function `DiveManager_RecordSample`. -/
def DiveManager_RecordSample (dm : DiveManager) (depth temp : ℚ) (gas deco : Nat) :
    Option DiveManager :=
  (if dm.current_dive.num_samples ≥ MAX_DIVE_SAMPLES then DiveManager_CompressSamples dm
    else some dm).map fun dm1 =>
    let sample : DiveSample :=
      { time := dm1.sample_counter
        depth := toInt16 (depth * 100)
        temperature := toInt16 (temp * 10)
        gas_idx := gas
        deco_time := deco
        cns := 0
        events := 0 }
    let profile := dm1.current_dive
    { dm1 with
      current_dive :=
        { profile with
          samples := Function.update profile.samples profile.num_samples sample
          max_depth := if depth > profile.max_depth then depth else profile.max_depth
          min_temperature :=
            if temp < profile.min_temperature ∨ profile.min_temperature = 0 then temp
            else profile.min_temperature
          num_samples := (profile.num_samples + 1) % 65536 } }

/-- The automatic start and end of a dive at the head of
`DiveManager_Update`. -/
def autoStartEnd (last_dive_number now : Nat) (dm : DiveManager) (s : DiveStatics) (depth : ℚ) :
    Option (DiveManager × DiveStatics) :=
  if dm.auto_start_dive = true then
    if dm.is_diving = false then
      let c := DiveManager_CheckDiveStart now s depth
      if c.1 = true then some (DiveManager_StartDive last_dive_number now dm, c.2)
      else some (dm, c.2)
    else
      let c := DiveManager_CheckDiveEnd now s depth
      if c.1 = true then (DiveManager_EndDive now dm).map fun dm1 => (dm1, c.2)
      else some (dm, c.2)
  else some (dm, s)

/-- The phase cascade of `DiveManager_Update`. -/
def phaseCascade (dm : DiveManager) (depth : ℚ) (model : ZHL16Model) : DivePhase :=
  if dm.ascent_rate < -5 then DivePhase.PHASE_DESCENT
  else if dm.ascent_rate > 3 then
    if model.ceiling > 0 ∧ depth ≤ model.ceiling + 3 then DivePhase.PHASE_DECO_STOP
    else DivePhase.PHASE_ASCENT
  else if depth ≥ 3 ∧ depth ≤ 6 ∧ dm.safety_stop_required = true then
    DivePhase.PHASE_SAFETY_STOP
  else DivePhase.PHASE_BOTTOM

/-- The block of `DiveManager_Update` that updates the mean depth. -/
def tickAverage (dm : DiveManager) (depth : ℚ) : DiveManager :=
  { dm with
    avg_depth_sum := dm.avg_depth_sum + depth
    avg_depth_samples := (dm.avg_depth_samples + 1) % 4294967296 }

/-- The block of `DiveManager_Update` that checks the ascent rate. -/
def tickAscentAlarm (dm : DiveManager) : DiveManager :=
  if DiveManager_CheckAscentRate dm = true then { dm with ascent_rate_alarm := true }
  else { dm with ascent_rate_alarm := false }

/-- The block of `DiveManager_Update` that checks the decompression
ceiling. -/
def tickCeilingAlarm (dm : DiveManager) (depth : ℚ) (model : ZHL16Model) : DiveManager :=
  if depth < model.ceiling then
    { dm with
      deco_ceiling_alarm := true
      missed_deco_stops := (dm.missed_deco_stops + 1) % 256 }
  else { dm with deco_ceiling_alarm := false }

/-- The block of `DiveManager_Update` that sets the phase. -/
def tickPhase (dm : DiveManager) (depth : ℚ) (model : ZHL16Model) : DiveManager :=
  { dm with phase := phaseCascade dm depth model }

/-- The block of `DiveManager_Update` that runs the safety stop. -/
def tickSafetyStop (safety_stop_time : Nat) (dm : DiveManager) (depth : ℚ) : DiveManager :=
  if dm.safety_stop_enforce = true then DiveManager_UpdateSafetyStop safety_stop_time dm depth
  else dm

/-- The block of `DiveManager_Update` that records a sample. -/
def tickSample (now : Nat) (dm : DiveManager) (depth temperature : ℚ) (model : ZHL16Model) :
    Option DiveManager :=
  if subUInt32 now dm.current_dive.start_timestamp ≥ dm.sample_counter then
    (DiveManager_RecordSample dm depth temperature model.current_gas
      ((if model.ceiling > 0 then model.ascend_plan.tts else 0) % 256)).map fun dm1 =>
      { dm1 with sample_counter := (dm1.sample_counter + 1) % 65536 }
  else some dm

/-- The part of `DiveManager_Update` that runs while diving: rates, mean
depth, the two alarms, the phase, the safety stop and the sample. -/
def divingTick (safety_stop_time now : Nat) (dm : DiveManager) (s : DiveStatics)
    (depth temperature : ℚ) (model : ZHL16Model) : Option (DiveManager × DiveStatics) :=
  let r := DiveManager_UpdateRates now dm s depth
  let dm1 := tickAverage r.1 depth
  let dm2 := tickAscentAlarm dm1
  let dm3 := tickCeilingAlarm dm2 depth model
  let dm4 := tickPhase dm3 depth model
  let dm5 := tickSafetyStop safety_stop_time dm4 depth
  (tickSample now dm5 depth temperature model).map fun dm6 => (dm6, r.2)

/-- The function `DiveManager_Update`. `now` is the value of
`HAL_GetSysTick() / 1000` during the call, `last_dive_number` the result of
`DiveManager_GetLastDiveNumber`, `safety_stop_time` the configured length of
the safety stop; the result is `none` when a sample compression never
ends. -/
def DiveManager_Update (safety_stop_time last_dive_number now : Nat) (dm : DiveManager)
    (s : DiveStatics) (depth temperature : ℚ) (model : ZHL16Model) :
    Option (DiveManager × DiveStatics) :=
  (autoStartEnd last_dive_number now dm s depth).bind fun r =>
    if r.1.is_diving = false then
      some (if r.1.surface_interval_start > 0 then
          { r.1 with
            surface_interval_mins := (subUInt32 now r.1.surface_interval_start / 60) % 65536 }
        else r.1, r.2)
    else divingTick safety_stop_time now r.1 r.2 depth temperature model

/-- A manager in a dive: `DiveManager_Init`, then `DiveManager_StartDive` at
second 100 (first dive of the logbook). -/
def divingManager : DiveManager := DiveManager_StartDive 0 100 DiveManager_Init

/-- Feeding `(now, depth)` readings to `DiveManager_Update`, one call per
reading, at 20 °C, with the tissue model `freshDiver` (no ceiling) and a
safety stop of 180 s. -/
def feedReadings (readings : List (Nat × ℚ)) (start : DiveManager × DiveStatics) :
    Option (DiveManager × DiveStatics) :=
  readings.foldl
    (fun st r => st.bind fun x => DiveManager_Update 180 0 r.1 x.1 x.2 r.2 20 freshDiver)
    (some start)

/-- The depth readings 10.0, 9.7, 9.4, 9.0, 8.5 m, one per second from
second 100. -/
def ascentReadings : List (Nat × ℚ) :=
  [(100, 10), (101, 97 / 10), (102, 94 / 10), (103, 9), (104, 85 / 10)]

/-- The expression `p_tolerated` of `ZHL16_GetCeiling`, as a function of the
compartment's coefficients, the gradient factor `g = gf / 100` and the two
inert-gas pressures. -/
def toleratedPressure (a_N2 a_He b_N2 b_He g pN2 pHe : ℚ) : ℚ :=
  let p_total := pN2 + pHe
  let a := (a_N2 * pN2 + a_He * pHe) / p_total
  let b := (b_N2 * pN2 + b_He * pHe) / p_total
  (p_total - a * g) / (1 / b - g + 1)

/-- A compartment with positive half-times, non-negative `a` and positive `b`
coefficients where those of one gas are at most twice those of the other (as
for the tables of `ZHL16_Init`, with `a_He = 1.5 a_N2` and `b_He = 0.9
b_N2`), and non-negative pressures. -/
def CompartmentSane (comp : Compartment) : Prop :=
  0 < comp.half_time_N2 ∧ 0 < comp.half_time_He ∧
  0 ≤ comp.a_N2 ∧ 0 ≤ comp.a_He ∧ comp.a_He ≤ 2 * comp.a_N2 ∧ comp.a_N2 ≤ 2 * comp.a_He ∧
  0 < comp.b_N2 ∧ 0 < comp.b_He ∧ comp.b_He ≤ 2 * comp.b_N2 ∧ comp.b_N2 ≤ 2 * comp.b_He ∧
  0 ≤ comp.pressure_N2 ∧ 0 ≤ comp.pressure_He

/-- An open-circuit air diver at 10 m whose tissues are still saturated
from 40 m. -/
def ascendedDiver : ZHL16Model := airDiver 10 (3910737 / 1000000)

/-- The compartment `hi` has the coefficients of `lo` and at least its
pressures, which are not negative. -/
def TissueLe (lo hi : Compartment) : Prop :=
  hi.a_N2 = lo.a_N2 ∧ hi.a_He = lo.a_He ∧ hi.b_N2 = lo.b_N2 ∧ hi.b_He = lo.b_He ∧
  0 ≤ lo.pressure_N2 ∧ 0 ≤ lo.pressure_He ∧
  lo.pressure_N2 ≤ hi.pressure_N2 ∧ lo.pressure_He ≤ hi.pressure_He

/-! ## `ZHL16_UpdateCNS` -/

/-- The function `ZHL16_GetCNSAtDepth`: the NOAA table, in percent per
minute. -/
def ZHL16_GetCNSAtDepth (ppO2 : ℚ) : ℚ :=
  if ppO2 ≤ 5 / 10 then 0
  else if ppO2 ≤ 6 / 10 then 100 / 720
  else if ppO2 ≤ 7 / 10 then 100 / 570
  else if ppO2 ≤ 8 / 10 then 100 / 450
  else if ppO2 ≤ 9 / 10 then 100 / 360
  else if ppO2 ≤ 1 then 100 / 300
  else if ppO2 ≤ 11 / 10 then 100 / 240
  else if ppO2 ≤ 12 / 10 then 100 / 210
  else if ppO2 ≤ 13 / 10 then 100 / 180
  else if ppO2 ≤ 14 / 10 then 100 / 150
  else if ppO2 ≤ 15 / 10 then 100 / 120
  else if ppO2 ≤ 16 / 10 then 100 / 45
  else 100 / 6

/-- The working ppO₂ of `ZHL16_UpdateCNS`: the measured one in CCR mode, the
partial pressure of oxygen in the current gas otherwise. -/
def workingPpO2 (model : ZHL16Model) : ℚ :=
  if model.ccr_mode = true then model.actual_ppO2
  else ZHL16_GetPartialPressure model.ambient_pressure (model.gases model.current_gas).fO2

/-- The function `ZHL16_UpdateCNS`. -/
def ZHL16_UpdateCNS (expf : ℚ → ℚ) (model : ZHL16Model) (time_seconds : ℚ) : ZHL16Model :=
  let ppO2 := workingPpO2 model
  let cns_rate := ZHL16_GetCNSAtDepth ppO2
  let cns1 := model.cns + cns_rate * time_seconds / 60
  let cns2 :=
    if ppO2 < 5 / 10 then
      let half_time : ℚ := 90
      cns1 * expf (-(693147 / 1000000) * time_seconds / (half_time * 60))
    else cns1
  let cns3 := if cns2 > 100 then 100 else cns2
  let cns4 := if cns3 < 0 then 0 else cns3
  { model with cns := cns4 }

/-- An open-circuit air diver at 40 m with 50 % of CNS load: working ppO₂
1.05 bar. -/
def cnsHalfDiver : ZHL16Model := { airDiver 40 (3910737 / 1000000) with cns := 50 }

/-- The same diver back at the surface: working ppO₂ 0.21 bar. -/
def cnsSurfaceDiver : ZHL16Model := { airDiver 0 (750737 / 1000000) with cns := 50 }

/-- The manager of `CCR_Init` whose first cell has failed while reading a
smoothed 10 mV. -/
def failedCellTenMv : CCRManager :=
  managerWith
    [{ initCell with mv := 10, status := CellStatus.CELL_FAIL }, initCell, initCell]

/-! ## Gas table and bailout -/

/-- The function `ZHL16_CalculateMOD`. -/
def ZHL16_CalculateMOD (fO2 ppO2_max : ℚ) : ℚ := (ppO2_max / fO2 - 1) * 10

/-- The function `ZHL16_AddGas` (the `name` is left out). -/
def ZHL16_AddGas (model : ZHL16Model) (idx : Nat) (fO2 fN2 fHe : ℚ) (is_diluent : Bool) :
    ZHL16Model :=
  if idx ≥ MAX_GASES then model
  else
    let gas : GasMix :=
      { fO2 := fO2, fN2 := fN2, fHe := fHe, ppO2_max := 14 / 10, ppO2_min := 16 / 100,
        mod := ZHL16_CalculateMOD fO2 (14 / 10), is_diluent := is_diluent, is_enabled := true,
        is_bailout := false }
    { model with
      gases := Function.update model.gases idx gas
      num_gases := if idx ≥ model.num_gases then idx + 1 else model.num_gases }

/-- The function `ZHL16_SetCCRMode`. -/
def ZHL16_SetCCRMode (model : ZHL16Model) (enable : Bool) (setpoint : ℚ) : ZHL16Model :=
  let model1 := { model with ccr_mode := enable, setpoint := setpoint }
  if enable = false then { model1 with actual_ppO2 := 0 } else model1

/-- The function `ZHL16_SwitchToBailout`: the loop stops at the first index
below `num_gases` whose gas is flagged as bailout and enabled. -/
def ZHL16_SwitchToBailout (model : ZHL16Model) : ZHL16Model :=
  let model1 := { model with ccr_mode := false, actual_ppO2 := 0 }
  match (List.range model.num_gases).find?
      (fun i => (model.gases i).is_bailout && (model.gases i).is_enabled) with
  | some i => { model1 with current_gas := i }
  | none => model1

/-- A diver on the loop: `ZHL16_Init(1.013, ZHL-16B)`, air as diluent in slot
0 and nitrox 50 in slot 1, both entered with `ZHL16_AddGas`, then
`ZHL16_SetCCRMode(true, 0.7)`. -/
def loopDiver : ZHL16Model :=
  ZHL16_SetCCRMode
    (ZHL16_AddGas (ZHL16_AddGas (ZHL16_Init (1013 / 1000) false) 0 (21 / 100) (79 / 100) 0 true)
      1 (50 / 100) (50 / 100) 0 false)
    true (7 / 10)

/-- The diver `loopDiver` with the gas of slot 1 flagged as bailout. -/
def loopDiverWithBailout : ZHL16Model :=
  { loopDiver with
    gases := Function.update loopDiver.gases 1 { loopDiver.gases 1 with is_bailout := true } }

/-- The diver `loopDiver` with the gas of slot 1 flagged as bailout but
disabled. -/
def loopDiverBailoutOff : ZHL16Model :=
  { loopDiver with
    gases := Function.update loopDiver.gases 1
      { loopDiver.gases 1 with is_bailout := true, is_enabled := false } }

/-- A dive whose sample buffer is full: sample `k` was taken at time `k`. -/
def fullBuffer : DiveManager :=
  { divingManager with
    current_dive :=
      { divingManager.current_dive with
        samples := fun k => { zeroSample with time := k }
        num_samples := MAX_DIVE_SAMPLES } }

/-! ## Runs of `DiveManager_Update` -/

/-- The diving part of `DiveManager_Update` up to, and without, the block that
records a sample. -/
def tickBlocks (safety_stop_time now : Nat) (dm : DiveManager) (s : DiveStatics) (depth : ℚ)
    (model : ZHL16Model) : DiveManager :=
  tickSafetyStop safety_stop_time
    (tickPhase
      (tickCeilingAlarm
        (tickAscentAlarm (tickAverage (DiveManager_UpdateRates now dm s depth).1 depth))
        depth model)
      depth model)
    depth

/-- What one call of `DiveManager_Update` is given: the clock in whole
seconds, the depth, the temperature and the tissue model. -/
structure Reading where
  now : Nat
  depth : ℚ
  temperature : ℚ
  model : ZHL16Model

/-- One call of `DiveManager_Update` per reading, in order. -/
def updateAll (safety_stop_time last_dive_number : Nat) (readings : List Reading)
    (start : DiveManager × DiveStatics) : Option (DiveManager × DiveStatics) :=
  readings.foldl
    (fun st r =>
      st.bind fun x =>
        DiveManager_Update safety_stop_time last_dive_number r.now x.1 x.2 r.depth
          r.temperature r.model)
    (some start)

/-- An 18 m dive 170 s into its safety stop: the manager `divingManager` in
the phase SafetyStop with the stop required, the timer at 170 and a recorded
maximum depth of 18 m. -/
def stopManager : DiveManager :=
  { divingManager with
    phase := DivePhase.PHASE_SAFETY_STOP
    safety_stop_required := true
    safety_stop_timer := 170
    current_dive := { divingManager.current_dive with max_depth := 18 } }

/-- The statics after a call of `DiveManager_Update` at second 1000 at a depth
of 5.0 m, in a dive. -/
def stopStatics : DiveStatics :=
  { start_time := 0, surface_time := 0, last_depth := 5, last_time := 1000 }

/-- The tissue model `freshDiver` with a ceiling of 11.2 m. -/
def ceilingDiver : ZHL16Model := { freshDiver with ceiling := 112 / 10 }

/-- The statics after a call of `DiveManager_Update` at second 1000 at a depth
of 10.0 m, in a dive. -/
def tenMetreStatics : DiveStatics :=
  { start_time := 0, surface_time := 0, last_depth := 10, last_time := 1000 }

/-- The reading of second `k` at a depth of 1.5 m, at 20 °C, with the tissue
model `freshDiver`. -/
def heldReading (k : Nat) : Reading :=
  { now := k, depth := 3 / 2, temperature := 20, model := freshDiver }

/-- One reading per second at 1.5 m, at the seconds 0, 1, ..., 20 after the
boot. -/
def bootReadings : List Reading := (List.range' 0 21).map heldReading

/-- One call of any function of `ccr_manager.c` other than `CCR_Init`. -/
inductive CCRCall : CCRManager → CCRManager → Prop where
  | readings (ccr : CCRManager) (m1 m2 m3 : ℚ) :
      CCRCall ccr (CCR_UpdateCellReadings ccr m1 m2 m3)
  | validate (ccr : CCRManager) : CCRCall ccr (CCR_ValidateCells ccr).1
  | calibrate (ccr : CCRManager) (sys_tick cell_idx : Nat) (reference_ppO2 : ℚ) :
      CCRCall ccr (CCR_CalibrateCell sys_tick ccr cell_idx reference_ppO2)
  | autoSetpoint (ccr : CCRManager) (depth : ℚ) : CCRCall ccr (CCR_UpdateAutoSetpoint ccr depth)
  | checkAlarms (ccr : CCRManager) : CCRCall ccr (CCR_CheckAlarms ccr)
  | bailout (ccr : CCRManager) (g : Nat) : CCRCall ccr (CCR_SwitchToBailout ccr g)
  | toLoop (ccr : CCRManager) : CCRCall ccr (CCR_ReturnToLoop ccr)

/-- Three calibrated, voting cells that all read 1.0 bar, in a manager whose
`alarm_cells_failed` was raised earlier. -/
def agreeingAfterAlarm : CCRManager :=
  { managerWith [cellReading 1, cellReading 1, cellReading 1] with alarm_cells_failed := true }

/-- A cell that the previous validation marked Drift and dropped, with an
empty history and the factor of `CCR_Init`. -/
def driftedCell : O2Cell :=
  { initCell with status := CellStatus.CELL_DRIFT, is_voting := false }

/-- The safety stop is not both required and completed. -/
def safetyStopExclusive (dm : DiveManager) : Prop :=
  ¬ (dm.safety_stop_required = true ∧ dm.safety_stop_completed = true)

/-- A dive whose safety stop has been completed: the manager `stopManager`
with the stop completed and no longer required. -/
def stopDone : DiveManager :=
  { stopManager with safety_stop_required := false, safety_stop_completed := true }

/-- A dive that ends with five samples (sample `k` taken at time `k`) after
four depth readings that add up to 40 m, started at second 100. -/
def shortDive : DiveManager :=
  { divingManager with
    avg_depth_sum := 40
    avg_depth_samples := 4
    current_dive :=
      { divingManager.current_dive with
        samples := fun k => { zeroSample with time := k }
        num_samples := 5 } }

/-! ## Runs of `CCR_UpdateCellReadings` -/

/-- The raw reading of cell `c` in a triple `(cell1_mv, cell2_mv, cell3_mv)`. -/
def readingOf (c : Nat) (r : ℚ × ℚ × ℚ) : ℚ := [r.1, r.2.1, r.2.2].getD c 0

/-- One call of `CCR_UpdateCellReadings` per triple of readings, in order. -/
def readAll (readings : List (ℚ × ℚ × ℚ)) (ccr : CCRManager) : CCRManager :=
  readings.foldl (fun c r => CCR_UpdateCellReadings c r.1 r.2.1 r.2.2) ccr

/-- The ten slots of a ring `mv_history` in the order in which they will be
overwritten from the index `idx`: the oldest slot first. -/
def ringList (hist : Nat → ℚ) (idx : Nat) : List ℚ :=
  (List.range CELL_MV_WINDOW_SIZE).map fun m => hist ((idx + m) % CELL_MV_WINDOW_SIZE)

/-- The arithmetic mean of the last ten readings of a list, in the words of
the spec; with fewer than ten readings the missing ones count as 0. -/
def lastTenMean (vs : List ℚ) : ℚ := (vs.drop (vs.length - 10)).sum / 10

/-- Twelve identical readings of 100 mV on every cell. -/
def steadyReadings : List (ℚ × ℚ × ℚ) := List.replicate 12 (100, 100, 100)

/-- The body of the wait loop of the planner after its test: one minute at
the stop, `ZHL16_UpdateTissues(&sim_model, 60)` on the model in which the
test has stored the ceiling. -/
def waitStep (expf : ℚ → ℚ) (sim : ZHL16Model) : ZHL16Model :=
  ZHL16_UpdateTissues expf (ZHL16_GetCeiling sim).1 60

/-- The depth at which the planner enters its stop loop: the first stop when
`ZHL16_GetCeiling` is positive, the current depth otherwise. -/
def planStartDepth (model : ZHL16Model) : ℚ :=
  if (ZHL16_GetCeiling model).2 > 0 then (ZHL16_GetCeiling model).2 else model.current_depth

/-- The bound on the passes of the stop loop:
`ceil(start_depth / last_stop_depth)`. -/
def planPasses (model : ZHL16Model) : Nat :=
  ⌈planStartDepth model / model.config.last_stop_depth⌉.toNat

/-- The local `m_value_surface` of the loop of `ZHL16_GetNDL`: the surface
limit of a compartment at `gf_high`. -/
def surfaceLimit (model : ZHL16Model) (comp : Compartment) : ℚ :=
  (model.surface_pressure - comp.a_N2 * (model.config.gf_high / 100))
    / (comp.b_N2 - model.config.gf_high / 100 + 1)

/-- The local `remaining` of the nitrogen block of `ZHL16_GetNDL` for one
compartment: `-logf((m_value_surface - inspired_N2) / (pressure_N2 -
inspired_N2)) / k` with `k = 0.693147 / half_time_N2`. -/
def ndlTime (logf : ℚ → ℚ) (model : ZHL16Model) (comp : Compartment) : ℚ :=
  -(logf ((surfaceLimit model comp - ndlInspiredN2 model)
      / (comp.pressure_N2 - ndlInspiredN2 model)))
    / ((693147 / 1000000 : ℚ) / comp.half_time_N2)

/-- A compartment that is taking up nitrogen towards a surface limit it has
not reached and will reach: `inspired_N2 > pressure_N2` and
`pressure_N2 < m_value_surface < inspired_N2`. -/
def ndlQualifies (model : ZHL16Model) (comp : Compartment) : Prop :=
  ndlInspiredN2 model > comp.pressure_N2 ∧ comp.pressure_N2 < surfaceLimit model comp ∧
    surfaceLimit model comp < ndlInspiredN2 model

/-- An air diver at 30 m whose sixteen compartments hold 0.72 bar of nitrogen,
a little below the surface equilibrium. -/
def restedDiver : ZHL16Model := airDiver 30 (72 / 100)

/-- A diver at the surface pressure 1.013 bar with air in slot 0 and pure
helium in slot 1, both entered with `ZHL16_AddGas`, whose helium window has
then been opened down to `ppO2_min = 0`; the current gas is air (slot 0). -/
def openWindowDiver : ZHL16Model :=
  { ZHL16_AddGas
      (ZHL16_AddGas (ZHL16_Init (1013 / 1000) false) 0 (21 / 100) (79 / 100) 0 false)
      1 0 0 1 false with
    gases := Function.update
      (ZHL16_AddGas
        (ZHL16_AddGas (ZHL16_Init (1013 / 1000) false) 0 (21 / 100) (79 / 100) 0 false)
        1 0 0 1 false).gases 1
      { fO2 := 0, fN2 := 0, fHe := 1, ppO2_max := 14 / 10, ppO2_min := 0,
        mod := ZHL16_CalculateMOD 0 (14 / 10), is_diluent := false, is_enabled := true,
        is_bailout := false } }

/-! # Theorems -/

/-! ## Cell voting -/

theorem votingSum_foldl (cells : List O2Cell) (acc : ℚ × Nat) :
    cells.foldl
        (fun acc cell => if cell.is_voting = true then (acc.1 + cell.ppO2, acc.2 + 1) else acc)
        acc
      = (acc.1 + ((votingCells cells).map (fun cell => cell.ppO2)).sum,
          acc.2 + (votingCells cells).length) := by
  induction cells generalizing acc with
  | nil => simp [votingCells]
  | cons c cs ih =>
    rw [List.foldl_cons, ih]
    by_cases hv : c.is_voting = true
    · simp [votingCells, hv, List.filter_cons, add_assoc, Nat.add_assoc, Nat.add_comm 1]
    · simp [votingCells, hv, List.filter_cons]

theorem votingSum_eq (cells : List O2Cell) :
    votingSum cells
      = (((votingCells cells).map (fun cell => cell.ppO2)).sum, (votingCells cells).length) := by
  unfold votingSum
  rw [votingSum_foldl]
  simp

theorem votingSum_mean (cells : List O2Cell) :
    (votingSum cells).1 / ((votingSum cells).2 : ℚ) = votingMean cells := by
  rw [votingSum_eq]
  rfl

theorem validate_cells_of_two (ccr : CCRManager) (h : 2 ≤ (votingCells ccr.cells).length) :
    (CCR_ValidateCells ccr).1.cells = ccr.cells.map (checkDivergence (votingMean ccr.cells)) := by
  have h2 : ¬ (votingSum ccr.cells).2 < 2 := by
    rw [votingSum_eq]; simpa using h
  unfold CCR_ValidateCells
  simp only [h2, if_false, votingSum_mean]
  split <;> rfl

theorem validate_cells_of_lt_two (ccr : CCRManager) (h : (votingCells ccr.cells).length < 2) :
    CCR_ValidateCells ccr = ({ ccr with alarm_cells_failed := true }, false) := by
  have h2 : (votingSum ccr.cells).2 < 2 := by
    rw [votingSum_eq]; simpa using h
  unfold CCR_ValidateCells
  simp only [h2, if_true]

theorem checkDivergence_voting (average : ℚ) (cell : O2Cell) (hv : cell.is_voting = true) :
    ((checkDivergence average cell).status = CellStatus.CELL_DRIFT ∧
        (checkDivergence average cell).is_voting = false ↔
      min (1 / 10) (average * (1 / 10)) < |cell.ppO2 - average|) ∧
    ((checkDivergence average cell).is_voting = true ↔
      |cell.ppO2 - average| ≤ min (1 / 10) (average * (1 / 10))) := by
  unfold checkDivergence
  by_cases hd : |cell.ppO2 - average| > 1 / 10 ∨ |cell.ppO2 - average| > average * (1 / 10)
  · have hlt : min (1 / 10) (average * (1 / 10)) < |cell.ppO2 - average| :=
      min_lt_iff.mpr hd
    rw [if_pos hv, if_pos hd]
    exact ⟨⟨fun _ => hlt, fun _ => ⟨rfl, rfl⟩⟩,
      ⟨fun hf => absurd hf (by simp), fun hle => absurd hlt (not_lt.mpr hle)⟩⟩
  · have hle : |cell.ppO2 - average| ≤ min (1 / 10) (average * (1 / 10)) :=
      not_lt.mp (fun hlt => hd (min_lt_iff.mp hlt))
    rw [if_pos hv, if_neg hd]
    exact ⟨⟨fun hf => absurd hv (by simpa using hf.2), fun hlt => absurd hlt (not_lt.mpr hle)⟩,
      ⟨fun _ => hle, fun _ => hv⟩⟩

/-- C2 (amended): with at least two cells voting on entry, a voting cell is
marked Drift and removed from the vote by `CCR_ValidateCells` exactly when its
deviation from the entry mean exceeds the smaller of 0.10 bar and 10% of that
mean (it exceeds 0.10 bar or it exceeds 10% of the mean); a cell whose
deviation is at most that threshold keeps voting. -/
theorem CCR_ValidateCells_drift_iff (ccr : CCRManager)
    (h : 2 ≤ (votingCells ccr.cells).length) (i : Nat) (cell : O2Cell)
    (hc : ccr.cells[i]? = some cell) (hv : cell.is_voting = true) :
    ∃ cell1, (CCR_ValidateCells ccr).1.cells[i]? = some cell1 ∧
      ((cell1.status = CellStatus.CELL_DRIFT ∧ cell1.is_voting = false) ↔
        min (1 / 10) (votingMean ccr.cells * (1 / 10)) < |cell.ppO2 - votingMean ccr.cells|) ∧
      (cell1.is_voting = true ↔
        |cell.ppO2 - votingMean ccr.cells| ≤ min (1 / 10) (votingMean ccr.cells * (1 / 10))) := by
  refine ⟨checkDivergence (votingMean ccr.cells) cell, ?_, ?_⟩
  · rw [validate_cells_of_two ccr h, List.getElem?_map, hc]; rfl
  · exact checkDivergence_voting _ cell hv

theorem cellsNearMean_mean : votingMean cellsNearMean.cells = 27 / 50 := by
  simp [votingMean, votingCells, cellsNearMean, managerWith, cellReading, List.filter_cons]
  norm_num

theorem CCR_ValidateCells_drift_iff_witness :
    ∃ cell1, (CCR_ValidateCells cellsNearMean).1.cells[2]? = some cell1 ∧
      ((cell1.status = CellStatus.CELL_DRIFT ∧ cell1.is_voting = false) ↔
        min (1 / 10) (votingMean cellsNearMean.cells * (1 / 10))
          < |(cellReading (31 / 50)).ppO2 - votingMean cellsNearMean.cells|) ∧
      (cell1.is_voting = true ↔
        |(cellReading (31 / 50)).ppO2 - votingMean cellsNearMean.cells|
          ≤ min (1 / 10) (votingMean cellsNearMean.cells * (1 / 10))) :=
  CCR_ValidateCells_drift_iff cellsNearMean
    (by simp [votingCells, cellsNearMean, managerWith, cellReading, List.filter_cons])
    2 (cellReading (31 / 50)) (by simp [cellsNearMean, managerWith]) (by simp [cellReading])

/-- C2 (as stated) fails: with cells at 0.50, 0.50 and 0.62 bar the mean is
0.54 and the third cell deviates by 0.08, which is not greater than
max(0.10, 0.054); it is marked Drift and dropped all the same. -/
theorem CCR_ValidateCells_drift_max_counterexample :
    2 ≤ (votingCells cellsNearMean.cells).length ∧
    votingMean cellsNearMean.cells = 27 / 50 ∧
    ¬ (max (1 / 10) (votingMean cellsNearMean.cells * (1 / 10))
        < |(31 / 50 : ℚ) - votingMean cellsNearMean.cells|) ∧
    (CCR_ValidateCells cellsNearMean).1.cells.map (fun c => (c.ppO2, c.status, c.is_voting))
      = [(1 / 2, CellStatus.CELL_OK, true), (1 / 2, CellStatus.CELL_OK, true),
          (31 / 50, CellStatus.CELL_DRIFT, false)] := by
  have hlen : 2 ≤ (votingCells cellsNearMean.cells).length := by
    simp [votingCells, cellsNearMean, managerWith, cellReading, List.filter_cons]
  refine ⟨hlen, cellsNearMean_mean, ?_, ?_⟩
  · rw [cellsNearMean_mean]; norm_num [abs_of_nonneg]
  · rw [validate_cells_of_two _ hlen, cellsNearMean_mean]
    simp [cellsNearMean, managerWith, cellReading, checkDivergence]
    norm_num [abs_of_nonneg, abs_of_neg]

theorem validate_of_survivors (ccr : CCRManager) (h : 2 ≤ (votingCells ccr.cells).length)
    (h1 : 2 ≤ (votingCells (afterRejection ccr.cells)).length) :
    CCR_ValidateCells ccr =
      ({ ccr with
          cells := afterRejection ccr.cells
          voted_ppO2 := votingMean (afterRejection ccr.cells)
          voting_cells := (votingCells (afterRejection ccr.cells)).length
          alarm_cells_divergent := decide ((votingCells (afterRejection ccr.cells)).length < 3) },
        true) := by
  have h2 : ¬ (votingSum ccr.cells).2 < 2 := by
    rw [votingSum_eq]; simpa using h
  unfold afterRejection at h1 ⊢
  have h3 : (votingSum (ccr.cells.map (checkDivergence (votingMean ccr.cells)))).2 ≥ 2 := by
    rw [votingSum_eq]; simpa using h1
  unfold CCR_ValidateCells
  simp only [h2, if_false, votingSum_mean]
  rw [if_pos h3]
  simp only [votingSum_eq]

theorem validate_of_few_survivors (ccr : CCRManager) (h : 2 ≤ (votingCells ccr.cells).length)
    (h1 : (votingCells (afterRejection ccr.cells)).length < 2) :
    CCR_ValidateCells ccr =
      ({ ccr with cells := afterRejection ccr.cells, alarm_cells_failed := true }, false) := by
  have h2 : ¬ (votingSum ccr.cells).2 < 2 := by
    rw [votingSum_eq]; simpa using h
  unfold afterRejection at h1 ⊢
  have h3 : ¬ (votingSum (ccr.cells.map (checkDivergence (votingMean ccr.cells)))).2 ≥ 2 := by
    rw [votingSum_eq]; simpa using h1
  unfold CCR_ValidateCells
  simp only [h2, if_false, votingSum_mean]
  rw [if_neg h3]

theorem checkDivergence_ppO2 (average : ℚ) (cell : O2Cell) :
    (checkDivergence average cell).ppO2 = cell.ppO2 := by
  unfold checkDivergence
  dsimp only
  split_ifs <;> rfl

theorem checkDivergence_not_voting (average : ℚ) (cell : O2Cell) (hv : cell.is_voting = false) :
    checkDivergence average cell = cell := by
  unfold checkDivergence
  simp [hv]

/-- C4: when at least two cells still vote after divergence rejection,
`CCR_ValidateCells` returns true, publishes the arithmetic mean of the
survivors as `voted_ppO2`, their number as `voting_cells`, and raises
`alarm_cells_divergent` exactly when fewer than three survive; for cells at
1.20, 1.22 and 1.45 bar the 1.45 cell is dropped, `voted_ppO2 = 1.21`,
`voting_cells = 2` and the alarm is raised. -/
theorem CCR_ValidateCells_publish :
    (∀ ccr : CCRManager, 2 ≤ (votingCells (CCR_ValidateCells ccr).1.cells).length →
      (CCR_ValidateCells ccr).2 = true ∧
      (CCR_ValidateCells ccr).1.voted_ppO2 = votingMean (CCR_ValidateCells ccr).1.cells ∧
      (CCR_ValidateCells ccr).1.voting_cells
        = (votingCells (CCR_ValidateCells ccr).1.cells).length ∧
      ((CCR_ValidateCells ccr).1.alarm_cells_divergent = true ↔
        (votingCells (CCR_ValidateCells ccr).1.cells).length < 3)) ∧
    ((CCR_ValidateCells cellsS3).2 = true ∧
      (CCR_ValidateCells cellsS3).1.cells.map (fun c => (c.ppO2, c.is_voting))
        = [(120 / 100, true), (122 / 100, true), (145 / 100, false)] ∧
      (CCR_ValidateCells cellsS3).1.voted_ppO2 = 121 / 100 ∧
      (CCR_ValidateCells cellsS3).1.voting_cells = 2 ∧
      (CCR_ValidateCells cellsS3).1.alarm_cells_divergent = true) := by
  constructor
  · intro ccr hs
    by_cases h : 2 ≤ (votingCells ccr.cells).length
    · by_cases h1 : 2 ≤ (votingCells (afterRejection ccr.cells)).length
      · rw [validate_of_survivors ccr h h1]
        simp
      · rw [validate_of_few_survivors ccr h (not_le.mp h1)] at hs
        exact absurd hs h1
    · rw [validate_cells_of_lt_two ccr (not_le.mp h)] at hs
      exact absurd hs h
  · have hlen : 2 ≤ (votingCells cellsS3.cells).length := by
      simp [votingCells, cellsS3, managerWith, cellReading, List.filter_cons]
    have hmean : votingMean cellsS3.cells = 129 / 100 := by
      simp [votingMean, votingCells, cellsS3, managerWith, cellReading, List.filter_cons]
      norm_num
    have hafter : afterRejection cellsS3.cells
        = [{ cellReading (120 / 100) with deviation := 9 / 100 },
            { cellReading (122 / 100) with deviation := 7 / 100 },
            { cellReading (145 / 100) with
              deviation := 16 / 100, is_voting := false, status := CellStatus.CELL_DRIFT }] := by
      unfold afterRejection
      rw [hmean]
      simp [cellsS3, managerWith, cellReading, checkDivergence]
      norm_num [abs_of_nonneg, abs_of_neg]
    have hlen1 : 2 ≤ (votingCells (afterRejection cellsS3.cells)).length := by
      rw [hafter]; simp [votingCells, cellReading, List.filter_cons]
    rw [validate_of_survivors cellsS3 hlen hlen1, hafter]
    simp [votingMean, votingCells, cellReading, List.filter_cons]
    norm_num

theorem CCR_ValidateCells_publish_witness :
    2 ≤ (votingCells (CCR_ValidateCells cellsS3).1.cells).length ∧
    ((CCR_ValidateCells cellsS3).2 = true ∧
      (CCR_ValidateCells cellsS3).1.voted_ppO2 = votingMean (CCR_ValidateCells cellsS3).1.cells ∧
      (CCR_ValidateCells cellsS3).1.voting_cells
        = (votingCells (CCR_ValidateCells cellsS3).1.cells).length ∧
      ((CCR_ValidateCells cellsS3).1.alarm_cells_divergent = true ↔
        (votingCells (CCR_ValidateCells cellsS3).1.cells).length < 3)) := by
  have hs : 2 ≤ (votingCells (CCR_ValidateCells cellsS3).1.cells).length := by
    have h := congrArg (fun l => (l.filter (fun c => c.2)).length)
      CCR_ValidateCells_publish.2.2.1
    simp [List.filter_cons] at h
    simpa [votingCells, List.filter_map, Function.comp_def] using h.ge
  exact ⟨hs, CCR_ValidateCells_publish.1 cellsS3 hs⟩

/-- C5: whenever `CCR_ValidateCells` returns false, which happens exactly when
fewer than two cells vote on entry or fewer than two survive divergence
rejection, `alarm_cells_failed` is true afterwards and `voted_ppO2` still has
the value it had before the call. -/
theorem CCR_ValidateCells_failed (ccr : CCRManager) :
    ((CCR_ValidateCells ccr).2 = false →
      (CCR_ValidateCells ccr).1.alarm_cells_failed = true ∧
      (CCR_ValidateCells ccr).1.voted_ppO2 = ccr.voted_ppO2) ∧
    ((CCR_ValidateCells ccr).2 = false ↔
      ((votingCells ccr.cells).length < 2 ∨
        (votingCells (afterRejection ccr.cells)).length < 2)) := by
  by_cases h : 2 ≤ (votingCells ccr.cells).length
  · by_cases h1 : 2 ≤ (votingCells (afterRejection ccr.cells)).length
    · rw [validate_of_survivors ccr h h1]
      simp only [Bool.true_eq_false, false_implies, true_and, false_iff, not_or, not_lt]
      exact ⟨h, h1⟩
    · rw [validate_of_few_survivors ccr h (not_le.mp h1)]
      simp only [forall_const, and_self, true_and, true_iff]
      exact Or.inr (not_le.mp h1)
  · rw [validate_cells_of_lt_two ccr (not_le.mp h)]
    simp only [forall_const, and_self, true_and, true_iff]
    exact Or.inl (not_le.mp h)

theorem CCR_ValidateCells_failed_witness :
    (CCR_ValidateCells cellsFarOutlier).2 = false ∧
    (CCR_ValidateCells cellsFarOutlier).1.alarm_cells_failed = true ∧
    (CCR_ValidateCells cellsFarOutlier).1.voted_ppO2 = cellsFarOutlier.voted_ppO2 := by
  have hlen : 2 ≤ (votingCells cellsFarOutlier.cells).length := by
    simp [votingCells, cellsFarOutlier, managerWith, cellReading, List.filter_cons]
  have hmean : votingMean cellsFarOutlier.cells = 4 / 3 := by
    simp [votingMean, votingCells, cellsFarOutlier, managerWith, cellReading, List.filter_cons]
    norm_num
  have hfew : (votingCells (afterRejection cellsFarOutlier.cells)).length < 2 := by
    unfold afterRejection
    rw [hmean]
    simp [cellsFarOutlier, managerWith, cellReading, checkDivergence, votingCells,
      List.filter_cons]
    norm_num [abs_of_nonneg, abs_of_neg]
  have hf : (CCR_ValidateCells cellsFarOutlier).2 = false :=
    (CCR_ValidateCells_failed cellsFarOutlier).2.mpr (Or.inr hfew)
  exact ⟨hf, (CCR_ValidateCells_failed cellsFarOutlier).1 hf⟩

/-- C3 (amended): for three voting cells of which one deviates from the
three-cell mean by more than min(0.10 bar, 10% of that mean) while the two
others each deviate by at most that much, `CCR_ValidateCells` returns true,
drops exactly that cell, and sets `voted_ppO2` to the mean of the two other
cells. -/
theorem CCR_ValidateCells_lone_outlier (ccr : CCRManager) (hlen : ccr.cells.length = 3)
    (hall : ∀ cell ∈ ccr.cells, cell.is_voting = true)
    (k : Nat) (out : O2Cell) (hk : ccr.cells[k]? = some out)
    (hout : min (1 / 10) (votingMean ccr.cells * (1 / 10)) < |out.ppO2 - votingMean ccr.cells|)
    (hin : ∀ j cell, j ≠ k → ccr.cells[j]? = some cell →
      |cell.ppO2 - votingMean ccr.cells| ≤ min (1 / 10) (votingMean ccr.cells * (1 / 10))) :
    (CCR_ValidateCells ccr).2 = true ∧
    (∀ j cell1, (CCR_ValidateCells ccr).1.cells[j]? = some cell1 →
      (cell1.is_voting = false ↔ j = k)) ∧
    (CCR_ValidateCells ccr).1.voted_ppO2
      = ((ccr.cells.map (fun cell => cell.ppO2)).sum - out.ppO2) / 2 ∧
    (CCR_ValidateCells ccr).1.voting_cells = 2 := by
  obtain ⟨x, y, z, hxyz⟩ : ∃ x y z, ccr.cells = [x, y, z] := List.length_eq_three.mp hlen
  have hx : x.is_voting = true := hall x (by simp [hxyz])
  have hy : y.is_voting = true := hall y (by simp [hxyz])
  have hz : z.is_voting = true := hall z (by simp [hxyz])
  have hentry : 2 ≤ (votingCells ccr.cells).length := by
    simp [hxyz, votingCells, List.filter_cons, hx, hy, hz]
  have hafter : afterRejection ccr.cells
      = [checkDivergence (votingMean ccr.cells) x, checkDivergence (votingMean ccr.cells) y,
          checkDivergence (votingMean ccr.cells) z] := by
    unfold afterRejection
    rw [hxyz]
    rfl
  have keep : ∀ cell : O2Cell, cell.is_voting = true →
      |cell.ppO2 - votingMean ccr.cells| ≤ min (1 / 10) (votingMean ccr.cells * (1 / 10)) →
      (checkDivergence (votingMean ccr.cells) cell).is_voting = true :=
    fun cell hv hle => (checkDivergence_voting _ cell hv).2.mpr hle
  have drop : ∀ cell : O2Cell, cell.is_voting = true →
      min (1 / 10) (votingMean ccr.cells * (1 / 10)) < |cell.ppO2 - votingMean ccr.cells| →
      (checkDivergence (votingMean ccr.cells) cell).is_voting = false :=
    fun cell hv hlt => ((checkDivergence_voting _ cell hv).1.mpr hlt).2
  have hk3 : k < 3 := by
    have := (List.getElem?_eq_some.mp hk).1
    omega
  interval_cases k
  · have ho : out = x := by simpa [hxyz] using hk.symm
    subst ho
    have h0 := drop out hx hout
    have h1 := keep y hy (hin 1 y (by decide) (by simp [hxyz]))
    have h2 := keep z hz (hin 2 z (by decide) (by simp [hxyz]))
    have hsurv : votingCells (afterRejection ccr.cells)
        = [checkDivergence (votingMean ccr.cells) y, checkDivergence (votingMean ccr.cells) z] := by
      rw [hafter]; simp [votingCells, List.filter_cons, h0, h1, h2]
    rw [validate_of_survivors ccr hentry (by rw [hsurv]; simp)]
    refine ⟨rfl, ?_, ?_, ?_⟩
    · intro j cell1 hj
      simp only [hafter] at hj
      match j, hj with
      | 0, hj => simp at hj; subst hj; simp [h0]
      | 1, hj => simp at hj; subst hj; simp [h1]
      | 2, hj => simp at hj; subst hj; simp [h2]
    · show votingMean (afterRejection ccr.cells) = _
      unfold votingMean
      rw [hsurv, hxyz]
      simp only [List.map_cons, List.map_nil, List.sum_cons, List.sum_nil, List.length_cons,
        List.length_nil, checkDivergence_ppO2]
      norm_num
    · simp only [hsurv]; rfl
  · have ho : out = y := by simpa [hxyz] using hk.symm
    subst ho
    have h0 := keep x hx (hin 0 x (by decide) (by simp [hxyz]))
    have h1 := drop out hy hout
    have h2 := keep z hz (hin 2 z (by decide) (by simp [hxyz]))
    have hsurv : votingCells (afterRejection ccr.cells)
        = [checkDivergence (votingMean ccr.cells) x, checkDivergence (votingMean ccr.cells) z] := by
      rw [hafter]; simp [votingCells, List.filter_cons, h0, h1, h2]
    rw [validate_of_survivors ccr hentry (by rw [hsurv]; simp)]
    refine ⟨rfl, ?_, ?_, ?_⟩
    · intro j cell1 hj
      simp only [hafter] at hj
      match j, hj with
      | 0, hj => simp at hj; subst hj; simp [h0]
      | 1, hj => simp at hj; subst hj; simp [h1]
      | 2, hj => simp at hj; subst hj; simp [h2]
    · show votingMean (afterRejection ccr.cells) = _
      unfold votingMean
      rw [hsurv, hxyz]
      simp only [List.map_cons, List.map_nil, List.sum_cons, List.sum_nil, List.length_cons,
        List.length_nil, checkDivergence_ppO2]
      norm_num
      ring
    · simp only [hsurv]; rfl
  · have ho : out = z := by simpa [hxyz] using hk.symm
    subst ho
    have h0 := keep x hx (hin 0 x (by decide) (by simp [hxyz]))
    have h1 := keep y hy (hin 1 y (by decide) (by simp [hxyz]))
    have h2 := drop out hz hout
    have hsurv : votingCells (afterRejection ccr.cells)
        = [checkDivergence (votingMean ccr.cells) x, checkDivergence (votingMean ccr.cells) y] := by
      rw [hafter]; simp [votingCells, List.filter_cons, h0, h1, h2]
    rw [validate_of_survivors ccr hentry (by rw [hsurv]; simp)]
    refine ⟨rfl, ?_, ?_, ?_⟩
    · intro j cell1 hj
      simp only [hafter] at hj
      match j, hj with
      | 0, hj => simp at hj; subst hj; simp [h0]
      | 1, hj => simp at hj; subst hj; simp [h1]
      | 2, hj => simp at hj; subst hj; simp [h2]
    · show votingMean (afterRejection ccr.cells) = _
      unfold votingMean
      rw [hsurv, hxyz]
      simp only [List.map_cons, List.map_nil, List.sum_cons, List.sum_nil, List.length_cons,
        List.length_nil, checkDivergence_ppO2]
      norm_num
      ring
    · simp only [hsurv]; rfl

theorem cellsS3_mean : votingMean cellsS3.cells = 129 / 100 := by
  simp [votingMean, votingCells, cellsS3, managerWith, cellReading, List.filter_cons]
  norm_num

theorem CCR_ValidateCells_lone_outlier_witness :
    (CCR_ValidateCells cellsS3).2 = true ∧
    (∀ j cell1, (CCR_ValidateCells cellsS3).1.cells[j]? = some cell1 →
      (cell1.is_voting = false ↔ j = 2)) ∧
    (CCR_ValidateCells cellsS3).1.voted_ppO2
      = ((cellsS3.cells.map (fun cell => cell.ppO2)).sum - (cellReading (145 / 100)).ppO2) / 2 ∧
    (CCR_ValidateCells cellsS3).1.voting_cells = 2 :=
  CCR_ValidateCells_lone_outlier cellsS3 (by simp [cellsS3, managerWith])
    (by simp [cellsS3, managerWith, cellReading])
    2 (cellReading (145 / 100)) (by simp [cellsS3, managerWith])
    (by rw [cellsS3_mean]; norm_num [cellReading, abs_of_nonneg])
    (by
      intro j cell hj hc
      rw [cellsS3_mean]
      match j, hj, hc with
      | 0, _, hc =>
        simp [cellsS3, managerWith] at hc; subst hc
        norm_num [cellReading, abs_of_neg]
      | 1, _, hc =>
        simp [cellsS3, managerWith] at hc; subst hc
        norm_num [cellReading, abs_of_neg]
      | 2, hj, _ => exact absurd rfl hj
      | (n + 3), _, hc => simp [cellsS3, managerWith] at hc)

/-- C3 (as stated) fails: with cells at 1.0, 1.0 and 2.0 bar two cells agree
exactly and the third is further than 10% from both, yet `CCR_ValidateCells`
drops all three cells, returns false and leaves `voted_ppO2` at its previous
value 0 instead of the agreeing cells' mean 1.0. -/
theorem CCR_ValidateCells_outlier_counterexample :
    cellsFarOutlier.cells.map (fun c => (c.ppO2, c.is_voting))
      = [(1, true), (1, true), (2, true)] ∧
    |(1 : ℚ) - 1| ≤ 1 / 10 * 1 ∧ 1 / 10 * 2 < |(2 : ℚ) - 1| ∧
    (CCR_ValidateCells cellsFarOutlier).2 = false ∧
    (CCR_ValidateCells cellsFarOutlier).1.cells.map (fun c => (c.ppO2, c.status, c.is_voting))
      = [(1, CellStatus.CELL_DRIFT, false), (1, CellStatus.CELL_DRIFT, false),
          (2, CellStatus.CELL_DRIFT, false)] ∧
    (CCR_ValidateCells cellsFarOutlier).1.voted_ppO2 = 0 := by
  have hlen : 2 ≤ (votingCells cellsFarOutlier.cells).length := by
    simp [votingCells, cellsFarOutlier, managerWith, cellReading, List.filter_cons]
  have hmean : votingMean cellsFarOutlier.cells = 4 / 3 := by
    simp [votingMean, votingCells, cellsFarOutlier, managerWith, cellReading, List.filter_cons]
    norm_num
  have hafter : afterRejection cellsFarOutlier.cells
      = [{ cellReading 1 with
            deviation := 1 / 3, is_voting := false, status := CellStatus.CELL_DRIFT },
          { cellReading 1 with
            deviation := 1 / 3, is_voting := false, status := CellStatus.CELL_DRIFT },
          { cellReading 2 with
            deviation := 2 / 3, is_voting := false, status := CellStatus.CELL_DRIFT }] := by
    unfold afterRejection
    rw [hmean]
    simp [cellsFarOutlier, managerWith, cellReading, checkDivergence]
    norm_num [abs_of_nonneg, abs_of_neg]
  have hfew : (votingCells (afterRejection cellsFarOutlier.cells)).length < 2 := by
    rw [hafter]; simp [votingCells, List.filter_cons]
  refine ⟨by simp [cellsFarOutlier, managerWith, cellReading], by norm_num,
    by norm_num [abs_of_nonneg], ?_⟩
  rw [validate_of_few_survivors cellsFarOutlier hlen hfew, hafter]
  simp [cellReading, cellsFarOutlier, managerWith, CCR_Init]

/-! ## Failed cells -/

theorem updateCell_out_of_range (cell : O2Cell) (mv : ℚ)
    (h : (updateCell cell mv).ppO2 < 1 / 20 ∨ (updateCell cell mv).ppO2 > 2) :
    (updateCell cell mv).status = CellStatus.CELL_FAIL ∧
      (updateCell cell mv).is_voting = false := by
  unfold updateCell at h ⊢
  dsimp only at h ⊢
  split_ifs at h ⊢ with h1 h2
  · exact ⟨rfl, rfl⟩
  · exact absurd h h1
  · exact absurd h h1

theorem updateCell_failed (cell : O2Cell) (mv : ℚ) (hs : cell.status = CellStatus.CELL_FAIL)
    (hv : cell.is_voting = false) :
    (updateCell cell mv).status = CellStatus.CELL_FAIL ∧
      (updateCell cell mv).is_voting = false := by
  unfold updateCell
  dsimp only
  split_ifs with h1 h2
  · exact ⟨rfl, rfl⟩
  · exact absurd hs h2
  · exact ⟨hs, hv⟩

theorem updateCell_silent (cell : O2Cell) (mv : ℚ)
    (hc : cell.status = CellStatus.CELL_FAIL → cell.is_voting = false) :
    (updateCell cell mv).status = CellStatus.CELL_FAIL →
      (updateCell cell mv).is_voting = false := by
  unfold updateCell
  dsimp only
  split_ifs with h1 h2
  · exact fun _ => rfl
  · intro h; exact absurd h (by decide)
  · exact hc

theorem checkDivergence_silent (average : ℚ) (cell : O2Cell)
    (hc : cell.status = CellStatus.CELL_FAIL → cell.is_voting = false) :
    (checkDivergence average cell).status = CellStatus.CELL_FAIL →
      (checkDivergence average cell).is_voting = false := by
  unfold checkDivergence
  dsimp only
  split_ifs with h1 h2
  · exact fun _ => rfl
  · intro h
    have := hc h
    rw [h1] at this
    exact absurd this (by decide)
  · exact hc

theorem validate_cells_cases (ccr : CCRManager) :
    (CCR_ValidateCells ccr).1.cells = ccr.cells ∨
      (CCR_ValidateCells ccr).1.cells = afterRejection ccr.cells := by
  by_cases h : 2 ≤ (votingCells ccr.cells).length
  · exact Or.inr (validate_cells_of_two ccr h)
  · rw [validate_cells_of_lt_two ccr (not_le.mp h)]
    exact Or.inl rfl

theorem readings_cell_origin (ccr : CCRManager) (m1 m2 m3 : ℚ) (i : Nat) (cell1 : O2Cell)
    (h1 : (CCR_UpdateCellReadings ccr m1 m2 m3).cells[i]? = some cell1) :
    ∃ cell mv, ccr.cells[i]? = some cell ∧
      (cell1 = updateCell cell mv ∨
        cell1 = checkDivergence (votingMean (readCells ccr m1 m2 m3).cells)
          (updateCell cell mv)) := by
  unfold CCR_UpdateCellReadings at h1
  rcases validate_cells_cases (readCells ccr m1 m2 m3) with h | h
  · rw [h] at h1
    obtain ⟨c0, mv, hc0, _, rfl⟩ := List.getElem?_zipWith_eq_some.mp h1
    exact ⟨c0, mv, hc0, Or.inl rfl⟩
  · rw [h] at h1
    unfold afterRejection at h1
    rw [List.getElem?_map] at h1
    obtain ⟨c1, hc1, rfl⟩ := Option.map_eq_some'.mp h1
    obtain ⟨c0, mv, hc0, _, rfl⟩ := List.getElem?_zipWith_eq_some.mp hc1
    exact ⟨c0, mv, hc0, Or.inr rfl⟩

theorem validate_failed_cell (ccr : CCRManager) (i : Nat) (cell : O2Cell)
    (hc : ccr.cells[i]? = some cell) (hv : cell.is_voting = false) :
    (CCR_ValidateCells ccr).1.cells[i]? = some cell := by
  rcases validate_cells_cases ccr with h | h
  · rw [h]; exact hc
  · rw [h]
    unfold afterRejection
    rw [List.getElem?_map, hc, Option.map_some', checkDivergence_not_voting _ cell hv]

theorem validate_silent (ccr : CCRManager) (h : failedCellsSilent ccr) :
    failedCellsSilent (CCR_ValidateCells ccr).1 := by
  intro cell hmem
  rcases validate_cells_cases ccr with hc | hc
  · rw [hc] at hmem
    exact h cell hmem
  · rw [hc] at hmem
    unfold afterRejection at hmem
    obtain ⟨c0, hc0, rfl⟩ := List.mem_map.mp hmem
    exact checkDivergence_silent _ c0 (h c0 hc0)

theorem readCells_silent (ccr : CCRManager) (m1 m2 m3 : ℚ) (h : failedCellsSilent ccr) :
    failedCellsSilent (readCells ccr m1 m2 m3) := by
  intro cell hmem
  obtain ⟨i, hi⟩ := List.getElem?_of_mem hmem
  obtain ⟨c0, mv, hc0, _, rfl⟩ := List.getElem?_zipWith_eq_some.mp hi
  exact updateCell_silent c0 mv (h c0 (List.getElem?_mem hc0))

theorem calibrate_silent (sys_tick : Nat) (ccr : CCRManager) (cell_idx : Nat) (ref : ℚ)
    (h : failedCellsSilent ccr) :
    failedCellsSilent (CCR_CalibrateCell sys_tick ccr cell_idx ref) := by
  unfold CCR_CalibrateCell
  split_ifs with h1
  · exact h
  · split
    · exact h
    · split_ifs with h2
      · intro cell hmem
        rcases List.mem_or_eq_of_mem_set hmem with hm | hm
        · exact h cell hm
        · subst hm
          intro hf
          cases hf
      · exact h

theorem autoSetpoint_cells (ccr : CCRManager) (depth : ℚ) :
    (CCR_UpdateAutoSetpoint ccr depth).cells = ccr.cells := by
  unfold CCR_UpdateAutoSetpoint
  dsimp only
  split_ifs <;> rfl

theorem checkAlarms_cells (ccr : CCRManager) : (CCR_CheckAlarms ccr).cells = ccr.cells := by
  unfold CCR_CheckAlarms
  dsimp only
  split_ifs <;> rfl

theorem reachable_silent (ccr : CCRManager) (h : CCRReachable ccr) : failedCellsSilent ccr := by
  induction h with
  | init =>
    intro cell hmem
    have : cell = initCell := List.eq_of_mem_replicate hmem
    subst this
    intro hf
    exact absurd hf (by decide)
  | readings ccr m1 m2 m3 _ ih => exact validate_silent _ (readCells_silent ccr m1 m2 m3 ih)
  | validate ccr _ ih => exact validate_silent ccr ih
  | calibrate ccr t i r _ ih => exact calibrate_silent t ccr i r ih
  | autoSetpoint ccr d _ ih =>
    intro cell hmem
    rw [autoSetpoint_cells] at hmem
    exact ih cell hmem
  | checkAlarms ccr _ ih =>
    intro cell hmem
    rw [checkAlarms_cells] at hmem
    exact ih cell hmem
  | bailout ccr g _ ih => exact ih
  | toLoop ccr _ ih => exact ih

theorem readings_failed_cell (ccr : CCRManager) (m1 m2 m3 : ℚ) (i : Nat) (cell cell1 : O2Cell)
    (hc : ccr.cells[i]? = some cell) (hs : cell.status = CellStatus.CELL_FAIL)
    (hv : cell.is_voting = false)
    (h1 : (CCR_UpdateCellReadings ccr m1 m2 m3).cells[i]? = some cell1) :
    cell1.status = CellStatus.CELL_FAIL ∧ cell1.is_voting = false := by
  unfold CCR_UpdateCellReadings at h1
  rcases validate_cells_cases (readCells ccr m1 m2 m3) with h | h
  · rw [h] at h1
    obtain ⟨c0, mv, hc0, _, rfl⟩ := List.getElem?_zipWith_eq_some.mp h1
    rw [hc] at hc0
    cases hc0
    exact updateCell_failed cell mv hs hv
  · rw [h] at h1
    unfold afterRejection at h1
    rw [List.getElem?_map] at h1
    obtain ⟨c1, hc1, rfl⟩ := Option.map_eq_some'.mp h1
    obtain ⟨c0, mv, hc0, _, rfl⟩ := List.getElem?_zipWith_eq_some.mp hc1
    rw [hc] at hc0
    cases hc0
    have hf := updateCell_failed cell mv hs hv
    rw [checkDivergence_not_voting _ _ hf.2]
    exact hf

theorem nonCalibrating_failed_cell (ccr ccr1 : CCRManager) (hstep : NonCalibratingCall ccr ccr1)
    (i : Nat) (cell cell1 : O2Cell) (hc : ccr.cells[i]? = some cell)
    (hs : cell.status = CellStatus.CELL_FAIL) (hv : cell.is_voting = false)
    (h1 : ccr1.cells[i]? = some cell1) :
    cell1.status = CellStatus.CELL_FAIL ∧ cell1.is_voting = false := by
  cases hstep with
  | readings m1 m2 m3 => exact readings_failed_cell ccr m1 m2 m3 i cell cell1 hc hs hv h1
  | validate =>
    rw [validate_failed_cell ccr i cell hc hv] at h1
    cases h1
    exact ⟨hs, hv⟩
  | autoSetpoint d =>
    rw [autoSetpoint_cells, hc] at h1
    cases h1
    exact ⟨hs, hv⟩
  | checkAlarms =>
    rw [checkAlarms_cells, hc] at h1
    cases h1
    exact ⟨hs, hv⟩
  | bailout g =>
    change ccr.cells[i]? = some cell1 at h1
    rw [hc] at h1
    cases h1
    exact ⟨hs, hv⟩
  | toLoop =>
    change ccr.cells[i]? = some cell1 at h1
    rw [hc] at h1
    cases h1
    exact ⟨hs, hv⟩

/-- C6: after `CCR_UpdateCellReadings`, every cell whose derived ppO₂ is below
0.05 or above 2.00 bar has status Fail and is not voting; and in every state
the manager reaches from `CCR_Init`, a cell whose status is Fail still has
status Fail and is not voting after `CCR_UpdateCellReadings`, whatever the
readings, and after any sequence of calls other than `CCR_CalibrateCell`. -/
theorem CCR_UpdateCellReadings_failed :
    (∀ (ccr : CCRManager) (m1 m2 m3 : ℚ) (i : Nat) (cell1 : O2Cell),
      (CCR_UpdateCellReadings ccr m1 m2 m3).cells[i]? = some cell1 →
      (cell1.ppO2 < 1 / 20 ∨ cell1.ppO2 > 2) →
      cell1.status = CellStatus.CELL_FAIL ∧ cell1.is_voting = false) ∧
    (∀ (ccr : CCRManager), CCRReachable ccr →
      ∀ (m1 m2 m3 : ℚ) (i : Nat) (cell : O2Cell), i < NUM_O2_CELLS →
      ccr.cells[i]? = some cell → cell.status = CellStatus.CELL_FAIL →
      ∃ cell1, (CCR_UpdateCellReadings ccr m1 m2 m3).cells[i]? = some cell1 ∧
        cell1.status = CellStatus.CELL_FAIL ∧ cell1.is_voting = false) ∧
    (∀ (ccr ccr1 : CCRManager), CCRReachable ccr →
      Relation.ReflTransGen NonCalibratingCall ccr ccr1 →
      ∀ (i : Nat) (cell cell1 : O2Cell),
      ccr.cells[i]? = some cell → cell.status = CellStatus.CELL_FAIL →
      ccr1.cells[i]? = some cell1 →
      cell1.status = CellStatus.CELL_FAIL ∧ cell1.is_voting = false) := by
  refine ⟨?_, ?_, ?_⟩
  · intro ccr m1 m2 m3 i cell1 h1 hr
    obtain ⟨cell, mv, _, h | h⟩ := readings_cell_origin ccr m1 m2 m3 i cell1 h1
    · subst h
      exact updateCell_out_of_range cell mv hr
    · subst h
      rw [checkDivergence_ppO2] at hr
      have hf := updateCell_out_of_range cell mv hr
      rw [checkDivergence_not_voting _ _ hf.2]
      exact hf
  · intro ccr hreach m1 m2 m3 i cell hi hc hs
    have hv : cell.is_voting = false := reachable_silent ccr hreach cell (List.getElem?_mem hc) hs
    have hlen : i < (CCR_UpdateCellReadings ccr m1 m2 m3).cells.length := by
      have hl : i < ccr.cells.length := (List.getElem?_eq_some.mp hc).1
      have hz : (readCells ccr m1 m2 m3).cells.length = min ccr.cells.length 3 := by
        simp [readCells]
      unfold CCR_UpdateCellReadings
      rcases validate_cells_cases (readCells ccr m1 m2 m3) with h | h
      · rw [h, hz]; exact lt_min hl hi
      · rw [h]; unfold afterRejection; rw [List.length_map, hz]; exact lt_min hl hi
    refine ⟨(CCR_UpdateCellReadings ccr m1 m2 m3).cells[i], List.getElem?_eq_getElem hlen, ?_⟩
    exact readings_failed_cell ccr m1 m2 m3 i cell _ hc hs hv (List.getElem?_eq_getElem hlen)
  · intro ccr ccr1 hreach hsteps
    induction hsteps with
    | refl =>
      intro i cell cell1 hc hs h1
      rw [hc] at h1
      cases h1
      exact ⟨hs, reachable_silent ccr hreach cell (List.getElem?_mem hc) hs⟩
    | tail hsteps hstep ih =>
      rename_i mid last
      intro i cell cell1 hc hs h1
      have hlen : i < mid.cells.length := by
        have hl : i < last.cells.length := (List.getElem?_eq_some.mp h1).1
        cases hstep with
        | readings m1 m2 m3 =>
          unfold CCR_UpdateCellReadings at hl
          have hz : (readCells mid m1 m2 m3).cells.length = min mid.cells.length 3 := by
            simp [readCells]
          rcases validate_cells_cases (readCells mid m1 m2 m3) with h | h
          · rw [h, hz] at hl; exact lt_of_lt_of_le hl (min_le_left _ _)
          · rw [h] at hl; unfold afterRejection at hl
            rw [List.length_map, hz] at hl; exact lt_of_lt_of_le hl (min_le_left _ _)
        | validate =>
          rcases validate_cells_cases mid with h | h
          · rw [h] at hl; exact hl
          · rw [h] at hl; unfold afterRejection at hl
            rw [List.length_map] at hl; exact hl
        | autoSetpoint d => rw [autoSetpoint_cells] at hl; exact hl
        | checkAlarms => rw [checkAlarms_cells] at hl; exact hl
        | bailout g => exact hl
        | toLoop => exact hl
      have hm := ih i cell mid.cells[i] hc hs (List.getElem?_eq_getElem hlen)
      exact nonCalibrating_failed_cell mid last hstep i mid.cells[i] cell1
        (List.getElem?_eq_getElem hlen) hm.1 hm.2 h1

theorem updateCell_init_zero :
    (updateCell initCell 0).status = CellStatus.CELL_FAIL ∧
      (updateCell initCell 0).is_voting = false := by
  apply updateCell_out_of_range
  left
  simp [updateCell, initCell, CELL_MV_WINDOW_SIZE, List.range_succ, Function.update]

theorem allCellsFailed_cells :
    allCellsFailed.cells = [updateCell initCell 0, updateCell initCell 0, updateCell initCell 0] := by
  have hread : (readCells CCR_Init 0 0 0).cells
      = [updateCell initCell 0, updateCell initCell 0, updateCell initCell 0] := by
    simp [readCells, CCR_Init, NUM_O2_CELLS, List.replicate]
  have hfew : (votingCells (readCells CCR_Init 0 0 0).cells).length < 2 := by
    rw [hread]
    simp [votingCells, List.filter_cons, updateCell_init_zero.2]
  unfold allCellsFailed CCR_UpdateCellReadings
  rw [validate_cells_of_lt_two _ hfew]
  exact hread

theorem CCR_UpdateCellReadings_failed_witness :
    ∃ cell1, (CCR_UpdateCellReadings allCellsFailed 476 476 476).cells[0]? = some cell1 ∧
      cell1.status = CellStatus.CELL_FAIL ∧ cell1.is_voting = false :=
  CCR_UpdateCellReadings_failed.2.1 allCellsFailed
    (CCRReachable.readings CCR_Init 0 0 0 CCRReachable.init) 476 476 476 0
    (updateCell initCell 0) (by decide) (by rw [allCellsFailed_cells]; rfl)
    updateCell_init_zero.1

/-! ## Auto setpoint -/

theorem autoSetpointTarget_eq (ccr : CCRManager) (depth : ℚ) :
    autoSetpointTarget ccr depth
      = setpointSchedule ccr.setpoint_low ccr.setpoint_high ccr.auto_sp_switch_depth depth := by
  unfold autoSetpointTarget setpointSchedule
  dsimp only
  split_ifs <;> first | rfl | ring

/-- C7: in auto-setpoint mode one call of `CCR_UpdateAutoSetpoint(depth)`
computes the target of the depth schedule (low below 3 m, linear between 3 m
and the switch depth, high from the switch depth on) and moves
`current_setpoint` by a tenth of the residual when the residual exceeds
0.01 bar in absolute value, leaving it unchanged otherwise; with low 0.7,
high 1.3, switch depth 6, depth 4.5 and current 0.70 the target is 1.00 and
the new setpoint 0.73; in any other mode the call changes nothing. -/
theorem CCR_UpdateAutoSetpoint_slew :
    (∀ (ccr : CCRManager) (depth : ℚ), ccr.mode = RecyclerMode.CCR_MODE_AUTO_SETPOINT →
      CCR_UpdateAutoSetpoint ccr depth =
        if |setpointSchedule ccr.setpoint_low ccr.setpoint_high ccr.auto_sp_switch_depth depth
            - ccr.current_setpoint| > 1 / 100 then
          { ccr with
            current_setpoint := ccr.current_setpoint +
              (1 / 10) * (setpointSchedule ccr.setpoint_low ccr.setpoint_high
                ccr.auto_sp_switch_depth depth - ccr.current_setpoint) }
        else ccr) ∧
    (autoSetpointS4.setpoint_low = 7 / 10 ∧ autoSetpointS4.setpoint_high = 13 / 10 ∧
      autoSetpointS4.auto_sp_switch_depth = 6 ∧ autoSetpointS4.current_setpoint = 70 / 100 ∧
      setpointSchedule (7 / 10) (13 / 10) 6 (45 / 10) = 1 ∧
      (CCR_UpdateAutoSetpoint autoSetpointS4 (45 / 10)).current_setpoint = 73 / 100) ∧
    (∀ (ccr : CCRManager) (depth : ℚ), ccr.mode ≠ RecyclerMode.CCR_MODE_AUTO_SETPOINT →
      CCR_UpdateAutoSetpoint ccr depth = ccr) := by
  refine ⟨?_, ?_, ?_⟩
  · intro ccr depth hmode
    unfold CCR_UpdateAutoSetpoint
    rw [if_neg (by simp [hmode])]
    dsimp only
    rw [autoSetpointTarget_eq]
    split_ifs
    · congr 1; ring
    · rfl
  · have hs : setpointSchedule (7 / 10) (13 / 10) 6 (45 / 10) = 1 := by
      unfold setpointSchedule; norm_num
    refine ⟨by norm_num [autoSetpointS4, CCR_Init], by norm_num [autoSetpointS4, CCR_Init],
      rfl, by norm_num [autoSetpointS4, CCR_Init], hs, ?_⟩
    unfold CCR_UpdateAutoSetpoint
    rw [if_neg (by simp [autoSetpointS4])]
    dsimp only
    rw [autoSetpointTarget_eq]
    simp only [autoSetpointS4, CCR_Init, hs]
    norm_num [abs_of_nonneg]
  · intro ccr depth hmode
    unfold CCR_UpdateAutoSetpoint
    rw [if_pos hmode]

theorem CCR_UpdateAutoSetpoint_slew_witness :
    CCR_UpdateAutoSetpoint autoSetpointS4 (45 / 10) =
      if |setpointSchedule autoSetpointS4.setpoint_low autoSetpointS4.setpoint_high
          autoSetpointS4.auto_sp_switch_depth (45 / 10) - autoSetpointS4.current_setpoint|
          > 1 / 100 then
        { autoSetpointS4 with
          current_setpoint := autoSetpointS4.current_setpoint +
            (1 / 10) * (setpointSchedule autoSetpointS4.setpoint_low autoSetpointS4.setpoint_high
              autoSetpointS4.auto_sp_switch_depth (45 / 10) - autoSetpointS4.current_setpoint) }
      else autoSetpointS4 :=
  CCR_UpdateAutoSetpoint_slew.1 autoSetpointS4 (45 / 10) rfl

/-! ## Best gas -/

theorem bestGasStep_cases (model : ZHL16Model) (depth : ℚ) (st : Nat × ℚ) (i : Nat) :
    bestGasStep model depth st i = st ∨
      (bestGasStep model depth st i = (i, gasPpO2 model depth i) ∧
        (model.gases i).is_enabled = true ∧ gasInWindow model depth i ∧
        st.2 < gasPpO2 model depth i) := by
  unfold bestGasStep
  dsimp only
  split_ifs with h1 h2 h3
  · exact Or.inl rfl
  · exact Or.inl rfl
  · refine Or.inr ⟨rfl, by simpa using h1, ?_, h3⟩
    unfold gasInWindow gasPpO2
    constructor
    · exact not_lt.mp (fun h => h2 (Or.inr h))
    · exact not_lt.mp (fun h => h2 (Or.inl h))
  · exact Or.inl rfl

theorem bestGasStep_good (model : ZHL16Model) (depth : ℚ) (st : Nat × ℚ) (i : Nat)
    (hi : i < model.num_gases) (hst : bestGasGood model depth st) :
    bestGasGood model depth (bestGasStep model depth st i) := by
  rcases bestGasStep_cases model depth st i with h | ⟨h, he, hw, hlt⟩
  · rw [h]; exact hst
  · rw [h]
    exact ⟨hi, he, hw, rfl, lt_trans hst.2.2.2.2 hlt⟩

theorem bestGasStep_candidate (model : ZHL16Model) (depth : ℚ) (st : Nat × ℚ) (i : Nat)
    (hst : st.2 = 0 ∨ bestGasGood model depth st) (hc : gasCandidate model depth i) :
    bestGasGood model depth (bestGasStep model depth st i) := by
  rcases hst with h0 | hg
  · have hstep : bestGasStep model depth st i = (i, gasPpO2 model depth i) := by
      obtain ⟨_, he, hw, hp⟩ := hc
      unfold gasInWindow gasPpO2 at hw
      unfold gasPpO2 at hp
      unfold bestGasStep
      dsimp only
      rw [if_neg (by simp [he]), if_neg (by
        intro h
        rcases h with h | h
        · exact absurd hw.2 (not_le.mpr h)
        · exact absurd hw.1 (not_le.mpr h)), if_pos (by rw [h0]; exact hp)]
      rfl
    rw [hstep]
    exact ⟨hc.1, hc.2.1, hc.2.2.1, rfl, hc.2.2.2⟩
  · exact bestGasStep_good model depth st i hc.1 hg

theorem bestGas_fold_good (model : ZHL16Model) (depth : ℚ) (l : List Nat)
    (hl : ∀ i ∈ l, i < model.num_gases) (st : Nat × ℚ)
    (hst : st.2 = 0 ∨ bestGasGood model depth st)
    (hc : bestGasGood model depth st ∨ ∃ i ∈ l, gasCandidate model depth i) :
    bestGasGood model depth (l.foldl (bestGasStep model depth) st) := by
  induction l generalizing st with
  | nil =>
    rcases hc with hg | ⟨i, hi, _⟩
    · exact hg
    · cases hi
  | cons j js ih =>
    rw [List.foldl_cons]
    have hjs : ∀ i ∈ js, i < model.num_gases := fun i hi => hl i (List.mem_cons_of_mem _ hi)
    have hj : j < model.num_gases := hl j (List.mem_cons_self _ _)
    rcases hc with hg | ⟨i, hi, hcand⟩
    · have := bestGasStep_good model depth st j hj hg
      exact ih hjs _ (Or.inr this) (Or.inl this)
    · rcases List.mem_cons.mp hi with rfl | hi'
      · have := bestGasStep_candidate model depth st i hst hcand
        exact ih hjs _ (Or.inr this) (Or.inl this)
      · have hst' : (bestGasStep model depth st j).2 = 0 ∨
            bestGasGood model depth (bestGasStep model depth st j) := by
          rcases hst with h0 | hg
          · rcases bestGasStep_cases model depth st j with h | ⟨h, he, hw, hlt⟩
            · rw [h]; exact Or.inl h0
            · rw [h]
              exact Or.inr ⟨hj, he, hw, rfl, by rw [h0] at hlt; exact hlt⟩
          · exact Or.inr (bestGasStep_good model depth st j hj hg)
        exact ih hjs _ hst' (Or.inr ⟨i, hi', hcand⟩)

theorem bestGas_fold_none (model : ZHL16Model) (depth : ℚ) (l : List Nat)
    (hl : ∀ i ∈ l, i < model.num_gases) (st : Nat × ℚ) (hst : st.2 = 0)
    (hc : ¬ ∃ i, gasCandidate model depth i) :
    l.foldl (bestGasStep model depth) st = st := by
  induction l with
  | nil => rfl
  | cons j js ih =>
    rw [List.foldl_cons]
    rcases bestGasStep_cases model depth st j with h | ⟨_, he, hw, hlt⟩
    · rw [h]
      exact ih (fun i hi => hl i (List.mem_cons_of_mem _ hi))
    · exact absurd ⟨j, hl j (List.mem_cons_self _ _), he, hw, by rw [hst] at hlt; exact hlt⟩ hc

theorem getBestGas_legal (model : ZHL16Model) (depth : ℚ)
    (hc : ∃ i, gasCandidate model depth i) :
    ZHL16_GetBestGas model depth < model.num_gases ∧
      (model.gases (ZHL16_GetBestGas model depth)).is_enabled = true ∧
      gasInWindow model depth (ZHL16_GetBestGas model depth) := by
  obtain ⟨i, hi⟩ := hc
  have := bestGas_fold_good model depth (List.range model.num_gases)
    (fun j hj => List.mem_range.mp hj) (model.current_gas, 0) (Or.inl rfl)
    (Or.inr ⟨i, List.mem_range.mpr hi.1, hi⟩)
  exact ⟨this.1, this.2.1, this.2.2.1⟩

theorem getBestGas_default (model : ZHL16Model) (depth : ℚ)
    (hc : ¬ ∃ i, gasCandidate model depth i) :
    ZHL16_GetBestGas model depth = model.current_gas := by
  unfold ZHL16_GetBestGas
  rw [bestGas_fold_none model depth _ (fun j hj => List.mem_range.mp hj) _ rfl hc]

theorem gasCandidate_congr (a b : ZHL16Model) (hs : SameSetting a b) (depth : ℚ) (i : Nat) :
    gasCandidate a depth i ↔ gasCandidate b depth i := by
  obtain ⟨hg, hn, _, _, _, _, hsp, _⟩ := hs
  unfold gasCandidate gasInWindow gasPpO2
  rw [hg, hn, hsp]

theorem gasInWindow_congr (a b : ZHL16Model) (hs : SameSetting a b) (depth : ℚ) (i : Nat) :
    gasInWindow a depth i ↔ gasInWindow b depth i := by
  obtain ⟨hg, _, _, _, _, _, hsp, _⟩ := hs
  unfold gasInWindow gasPpO2
  rw [hg, hsp]

/-! ## The planner: frame properties -/

theorem sameSetting_refl (a : ZHL16Model) : SameSetting a a :=
  ⟨rfl, rfl, rfl, rfl, rfl, rfl, rfl, rfl, rfl, rfl⟩

theorem sameSetting_trans {a b c : ZHL16Model} (h1 : SameSetting a b) (h2 : SameSetting b c) :
    SameSetting a c := by
  obtain ⟨a1, a2, a3, a4, a5, a6, a7, a8, a9, a10⟩ := h1
  obtain ⟨b1, b2, b3, b4, b5, b6, b7, b8, b9, b10⟩ := h2
  exact ⟨a1.trans b1, a2.trans b2, a3.trans b3, a4.trans b4, a5.trans b5, a6.trans b6,
    a7.trans b7, a8.trans b8, a9.trans b9, a10.trans b10⟩

theorem updateTissues_setting (expf : ℚ → ℚ) (model : ZHL16Model) (t : ℚ) :
    SameSetting (ZHL16_UpdateTissues expf model t) model :=
  ⟨rfl, rfl, rfl, rfl, rfl, rfl, rfl, rfl, rfl, rfl⟩

theorem getCeiling_setting (model : ZHL16Model) : SameSetting (ZHL16_GetCeiling model).1 model :=
  ⟨rfl, rfl, rfl, rfl, rfl, rfl, rfl, rfl, rfl, rfl⟩

theorem setGas_setting (model : ZHL16Model) (g : Nat) :
    SameSetting (if g ≠ model.current_gas then { model with current_gas := g } else model)
      model := by
  split_ifs
  · exact ⟨rfl, rfl, rfl, rfl, rfl, rfl, rfl, rfl, rfl, rfl⟩
  · exact sameSetting_refl model

theorem waitAtStop_setting (expf : ℚ → ℚ) (limit : ℚ) (sim : ZHL16Model) (time total : Nat) :
    SameSetting (waitAtStop expf limit sim time total).1 sim := by
  induction sim, time, total using waitAtStop.induct expf limit with
  | case1 sim time total hc time1 ht =>
    rw [waitAtStop, if_pos hc]
    dsimp only
    rw [if_pos ht]
    exact sameSetting_trans (updateTissues_setting _ _ _) (getCeiling_setting sim)
  | case2 sim time total hc sim1 time1 total1 ht ih =>
    rw [waitAtStop, if_pos hc]
    dsimp only
    rw [if_neg ht]
    exact sameSetting_trans ih
      (sameSetting_trans (updateTissues_setting _ _ _) (getCeiling_setting sim))
  | case3 sim time total hc =>
    rw [waitAtStop, if_neg hc]
    exact getCeiling_setting sim

theorem waitAtStop_time_le (expf : ℚ → ℚ) (limit : ℚ) (sim : ZHL16Model) (time total : Nat)
    (h : time ≤ 3600) : (waitAtStop expf limit sim time total).2.1 ≤ 3660 := by
  induction sim, time, total using waitAtStop.induct expf limit with
  | case1 sim time total hc time1 ht =>
    rw [waitAtStop, if_pos hc]
    dsimp only
    rw [if_pos ht]
    show time + 60 ≤ 3660
    omega
  | case2 sim time total hc sim1 time1 total1 ht ih =>
    rw [waitAtStop, if_pos hc]
    dsimp only
    rw [if_neg ht]
    exact ih (by omega)
  | case3 sim time total hc =>
    rw [waitAtStop, if_neg hc]
    exact le_trans h (by decide)

theorem planStep_stops (expf : ℚ → ℚ) (model : ZHL16Model) (st : PlanState) :
    (planStep expf model st).plan.stops
      = Function.update st.plan.stops st.stop_idx
          { depth := st.current_depth
            time := (waitAtStop expf (st.current_depth - model.config.last_stop_depth)
              (if ZHL16_GetBestGas st.sim_model st.current_depth ≠ st.sim_model.current_gas then
                { st.sim_model with
                  current_gas := ZHL16_GetBestGas st.sim_model st.current_depth }
              else st.sim_model) 0 st.total_time).2.1
            gas_idx := ZHL16_GetBestGas st.sim_model st.current_depth } := by
  unfold planStep
  dsimp only
  split_ifs <;> rfl

theorem planStep_stop_idx (expf : ℚ → ℚ) (model : ZHL16Model) (st : PlanState) :
    (planStep expf model st).stop_idx = st.stop_idx ∨
      (planStep expf model st).stop_idx = st.stop_idx + 1 := by
  unfold planStep
  dsimp only
  split_ifs <;> simp

theorem planStep_setting (expf : ℚ → ℚ) (model : ZHL16Model) (st : PlanState) :
    SameSetting (planStep expf model st).sim_model st.sim_model := by
  unfold planStep
  dsimp only
  split_ifs
  all_goals
    first
      | exact sameSetting_trans (updateTissues_setting _ _ _)
          (sameSetting_trans (waitAtStop_setting _ _ _ _ _) (setGas_setting _ _))
      | exact sameSetting_trans (waitAtStop_setting _ _ _ _ _) (setGas_setting _ _)
      | exact sameSetting_trans (updateTissues_setting _ _ _) (waitAtStop_setting _ _ _ _ _)
      | exact waitAtStop_setting _ _ _ _ _

theorem planLoop_invariant (expf : ℚ → ℚ) (model : ZHL16Model) (P : PlanState → Prop)
    (hstep : ∀ st, P st → st.current_depth > 0 ∧ st.stop_idx < MAX_DECO_STOPS →
      P (planStep expf model st))
    (fuel : Nat) (st st1 : PlanState) (h0 : P st)
    (h : planLoop expf model fuel st = some st1) :
    P st1 ∧ ¬ (st1.current_depth > 0 ∧ st1.stop_idx < MAX_DECO_STOPS) := by
  induction fuel generalizing st with
  | zero =>
    unfold planLoop at h
    split_ifs at h with hc
    cases h
    exact ⟨h0, hc⟩
  | succ n ih =>
    unfold planLoop at h
    split_ifs at h with hc
    · exact ih _ (hstep st h0 hc) h
    · cases h
      exact ⟨h0, hc⟩

theorem planStart_setting (expf : ℚ → ℚ) (model : ZHL16Model) :
    SameSetting (planStart expf model).sim_model model := by
  unfold planStart
  dsimp only
  split_ifs
  · exact sameSetting_trans (updateTissues_setting _ _ _) (getCeiling_setting model)
  · exact getCeiling_setting model

theorem planStart_stop_idx (expf : ℚ → ℚ) (model : ZHL16Model) :
    (planStart expf model).stop_idx = 0 := by
  unfold planStart
  dsimp only
  split_ifs <;> rfl

theorem planStep_stopsLegal (expf : ℚ → ℚ) (model : ZHL16Model) (st : PlanState)
    (hs : SameSetting st.sim_model model)
    (hl : stopsLegal model st.plan.stops st.stop_idx) :
    stopsLegal model (planStep expf model st).plan.stops (planStep expf model st).stop_idx := by
  intro i hi hc
  rw [planStep_stops] at hc ⊢
  by_cases hidx : i = st.stop_idx
  · subst hidx
    simp only [Function.update_same] at hc ⊢
    obtain ⟨j, hj⟩ := hc
    have hcand : ∃ j, gasCandidate st.sim_model st.current_depth j :=
      ⟨j, (gasCandidate_congr _ _ hs _ _).mpr hj⟩
    exact (gasInWindow_congr _ _ hs _ _).mp (getBestGas_legal st.sim_model st.current_depth hcand).2.2
  · simp only [Function.update_noteq hidx] at hc ⊢
    have hlt : i < st.stop_idx := by
      rcases planStep_stop_idx expf model st with h | h
      · rw [h] at hi; exact hi
      · rw [h] at hi; omega
    exact hl i hlt hc

theorem planLoop_continue (expf : ℚ → ℚ) (model : ZHL16Model) (fuel : Nat) (st : PlanState)
    (hd : st.current_depth > 0) (hi : st.stop_idx < MAX_DECO_STOPS) :
    planLoop expf model (fuel + 1) st = planLoop expf model fuel (planStep expf model st) := by
  rw [planLoop, if_pos ⟨hd, hi⟩]

theorem planLoop_stop (expf : ℚ → ℚ) (model : ZHL16Model) (fuel : Nat) (st : PlanState)
    (h : ¬ (st.current_depth > 0 ∧ st.stop_idx < MAX_DECO_STOPS)) :
    planLoop expf model fuel st = some st := by
  cases fuel with
  | zero => rw [planLoop, if_neg h]
  | succ n => rw [planLoop, if_neg h]

theorem planStep_current_depth (expf : ℚ → ℚ) (model : ZHL16Model) (st : PlanState) :
    (planStep expf model st).current_depth
      = st.current_depth - model.config.last_stop_depth := by
  unfold planStep
  dsimp only
  split_ifs <;> rfl

theorem planLoop_total (expf : ℚ → ℚ) (model : ZHL16Model) (fuel : Nat) (st : PlanState)
    (hf : st.current_depth ≤ (fuel : ℚ) * model.config.last_stop_depth) :
    ∃ st1, planLoop expf model fuel st = some st1 := by
  induction fuel generalizing st with
  | zero =>
    refine ⟨st, planLoop_stop expf model 0 st ?_⟩
    intro h
    have h1 : st.current_depth > 0 := h.1
    simp only [Nat.cast_zero, zero_mul] at hf
    linarith
  | succ n ih =>
    by_cases hc : st.current_depth > 0 ∧ st.stop_idx < MAX_DECO_STOPS
    · rw [planLoop_continue expf model n st hc.1 hc.2]
      apply ih
      rw [planStep_current_depth]
      push_cast at hf
      linarith
    · exact ⟨st, planLoop_stop expf model _ st hc⟩

theorem calculate_total (expf : ℚ → ℚ) (model : ZHL16Model)
    (hl : 0 < model.config.last_stop_depth) :
    ∃ fuel result, ZHL16_CalculateAscendPlan expf fuel model = some result := by
  have hfuel : ∃ fuel : Nat,
      (planStart expf { model with ascend_plan := zeroPlan }).current_depth
        ≤ (fuel : ℚ) * model.config.last_stop_depth := by
    refine ⟨⌈(planStart expf { model with ascend_plan := zeroPlan }).current_depth
      / model.config.last_stop_depth⌉.toNat, ?_⟩
    rw [← div_le_iff₀ hl]
    calc (planStart expf { model with ascend_plan := zeroPlan }).current_depth
          / model.config.last_stop_depth
        ≤ ((⌈(planStart expf { model with ascend_plan := zeroPlan }).current_depth
            / model.config.last_stop_depth⌉ : ℤ) : ℚ) := Int.le_ceil _
      _ ≤ ((⌈(planStart expf { model with ascend_plan := zeroPlan }).current_depth
            / model.config.last_stop_depth⌉.toNat : ℤ) : ℚ) := by
          exact_mod_cast Int.self_le_toNat _
      _ = _ := by norm_cast
  obtain ⟨fuel, hf⟩ := hfuel
  obtain ⟨st1, hst1⟩ := planLoop_total expf { model with ascend_plan := zeroPlan } fuel _ hf
  refine ⟨fuel, ?_⟩
  unfold ZHL16_CalculateAscendPlan
  dsimp only
  split_ifs
  · exact ⟨_, rfl⟩
  · unfold planAscent
    rw [hst1]
    exact ⟨_, rfl⟩

/-- C1 (amended): whenever the gas table has a candidate at the depth (an
enabled gas with index below `num_gases` whose ppO₂ there is positive and
inside its own window), the index returned by `ZHL16_GetBestGas` denotes an
enabled gas whose ppO₂ at that depth lies within that gas's window; when there
is no candidate the function returns `current_gas` unchanged; and the gas
stored in each planned stop is legal at the stop's depth whenever the table
has a candidate at that depth (and the planner does return a plan when
`last_stop_depth` is positive). -/
theorem ZHL16_GetBestGas_in_window :
    (∀ (model : ZHL16Model) (depth : ℚ), (∃ i, gasCandidate model depth i) →
      (model.gases (ZHL16_GetBestGas model depth)).is_enabled = true ∧
      (model.gases (ZHL16_GetBestGas model depth)).ppO2_min
        ≤ (model.surface_pressure + depth / 10) * (model.gases (ZHL16_GetBestGas model depth)).fO2 ∧
      (model.surface_pressure + depth / 10) * (model.gases (ZHL16_GetBestGas model depth)).fO2
        ≤ (model.gases (ZHL16_GetBestGas model depth)).ppO2_max) ∧
    (∀ (model : ZHL16Model) (depth : ℚ), (¬ ∃ i, gasCandidate model depth i) →
      ZHL16_GetBestGas model depth = model.current_gas) ∧
    (∀ (expf : ℚ → ℚ) (fuel : Nat) (model result : ZHL16Model),
      ZHL16_CalculateAscendPlan expf fuel model = some result →
      ∀ i, i < result.ascend_plan.num_stops →
      (∃ j, gasCandidate model (result.ascend_plan.stops i).depth j) →
      gasInWindow model (result.ascend_plan.stops i).depth
        (result.ascend_plan.stops i).gas_idx) ∧
    (∀ (expf : ℚ → ℚ) (model : ZHL16Model), 0 < model.config.last_stop_depth →
      ∃ fuel result, ZHL16_CalculateAscendPlan expf fuel model = some result) := by
  refine ⟨?_, ?_, ?_, calculate_total⟩
  · intro model depth hc
    have h := getBestGas_legal model depth hc
    exact ⟨h.2.1, h.2.2.1, h.2.2.2⟩
  · exact getBestGas_default
  · intro expf fuel model result hres i hi hc
    have hm0 : SameSetting { model with ascend_plan := zeroPlan } model :=
      ⟨rfl, rfl, rfl, rfl, rfl, rfl, rfl, rfl, rfl, rfl⟩
    unfold ZHL16_CalculateAscendPlan at hres
    dsimp only at hres
    split_ifs at hres with hneeds
    · cases hres
      exact absurd hi (Nat.not_lt_zero i)
    · split at hres
      · cases hres
      · rename_i st hst
        cases hres
        unfold planAscent at hst
        have hinv := planLoop_invariant expf { model with ascend_plan := zeroPlan }
          (fun s => SameSetting s.sim_model { model with ascend_plan := zeroPlan } ∧
            stopsLegal { model with ascend_plan := zeroPlan } s.plan.stops s.stop_idx)
          (fun s hs _ => ⟨sameSetting_trans (planStep_setting expf _ s) hs.1,
            planStep_stopsLegal expf _ s hs.1 hs.2⟩)
          fuel _ st
          ⟨planStart_setting expf _, by
            intro k hk
            rw [planStart_stop_idx] at hk
            exact absurd hk (Nat.not_lt_zero k)⟩
          hst
        have hlegal := hinv.1.2 i hi
          (by
            obtain ⟨j, hj⟩ := hc
            exact ⟨j, (gasCandidate_congr _ _ hm0 _ _).mpr hj⟩)
        exact (gasInWindow_congr _ _ hm0 _ _).mp hlegal

theorem airDiver_gas_zero (depth pN2 : ℚ) : (airDiver depth pN2).gases 0 = airOnly 0 := rfl

theorem ZHL16_GetBestGas_in_window_witness :
    ((airDiver 40 (3910737 / 1000000)).gases
        (ZHL16_GetBestGas (airDiver 40 (3910737 / 1000000)) 12)).is_enabled = true ∧
    ((airDiver 40 (3910737 / 1000000)).gases
        (ZHL16_GetBestGas (airDiver 40 (3910737 / 1000000)) 12)).ppO2_min
      ≤ ((airDiver 40 (3910737 / 1000000)).surface_pressure + 12 / 10) *
        ((airDiver 40 (3910737 / 1000000)).gases
          (ZHL16_GetBestGas (airDiver 40 (3910737 / 1000000)) 12)).fO2 ∧
    ((airDiver 40 (3910737 / 1000000)).surface_pressure + 12 / 10) *
        ((airDiver 40 (3910737 / 1000000)).gases
          (ZHL16_GetBestGas (airDiver 40 (3910737 / 1000000)) 12)).fO2
      ≤ ((airDiver 40 (3910737 / 1000000)).gases
          (ZHL16_GetBestGas (airDiver 40 (3910737 / 1000000)) 12)).ppO2_max :=
  ZHL16_GetBestGas_in_window.1 (airDiver 40 (3910737 / 1000000)) 12
    ⟨0, by
      unfold gasCandidate gasInWindow gasPpO2 ZHL16_GetPartialPressure ZHL16_GetAmbientPressure
      rw [airDiver_gas_zero]
      norm_num [airDiver, airOnly]⟩

/-- C1 (as stated) fails: an air diver at 100 m has no legal gas (air gives
ppO₂ 2.31 bar, above its limit 1.4); `ZHL16_GetBestGas` returns the current
gas 0, whose ppO₂ is outside its window. -/
theorem ZHL16_GetBestGas_window_counterexample :
    ZHL16_GetBestGas (airDiver 100 (750737 / 1000000)) 100 = 0 ∧
    ((airDiver 100 (750737 / 1000000)).surface_pressure + 100 / 10) *
        ((airDiver 100 (750737 / 1000000)).gases 0).fO2 = 231273 / 100000 ∧
    ((airDiver 100 (750737 / 1000000)).gases 0).ppO2_max = 14 / 10 ∧
    ¬ gasInWindow (airDiver 100 (750737 / 1000000)) 100
        (ZHL16_GetBestGas (airDiver 100 (750737 / 1000000)) 100) := by
  have hbest : ZHL16_GetBestGas (airDiver 100 (750737 / 1000000)) 100 = 0 := by
    apply getBestGas_default
    rintro ⟨i, hi, he, hw, hp⟩
    have hi0 : i = 0 := by
      have : i < 1 := hi
      omega
    subst hi0
    unfold gasInWindow gasPpO2 ZHL16_GetPartialPressure ZHL16_GetAmbientPressure at hw
    rw [airDiver_gas_zero] at hw
    norm_num [airDiver, airOnly] at hw
  refine ⟨hbest, ?_, ?_, ?_⟩
  · rw [airDiver_gas_zero]; norm_num [airDiver, airOnly]
  · rw [airDiver_gas_zero]; norm_num [airOnly]
  · rw [hbest]
    unfold gasInWindow gasPpO2 ZHL16_GetPartialPressure ZHL16_GetAmbientPressure
    rw [airDiver_gas_zero]
    norm_num [airDiver, airOnly]

/-! ## The planner on a saturated diver -/

theorem updateTissuesLoop_fst (expf : ℚ → ℚ) (model : ZHL16Model) (t : ℚ)
    (comps : List Compartment) (i : Nat) (ml : ℚ) (ld : Nat) :
    (updateTissuesLoop expf model t comps i ml ld).1
      = comps.map (updateCompartment expf model t) := by
  induction comps generalizing i ml ld with
  | nil => rfl
  | cons c cs ih =>
    unfold updateTissuesLoop
    dsimp only
    split_ifs <;> simp [ih]

theorem updateTissues_compartments (expf : ℚ → ℚ) (model : ZHL16Model) (t : ℚ) :
    (ZHL16_UpdateTissues expf model t).compartments
      = model.compartments.map (updateCompartment expf model (t / 60)) := by
  unfold ZHL16_UpdateTissues
  exact updateTissuesLoop_fst expf model (t / 60) model.compartments 0 0 0

theorem inspired_congr (a b : ZHL16Model) (hs : SameSetting a b)
    (hg : a.current_gas = b.current_gas) :
    inspiredN2 a = inspiredN2 b ∧ inspiredHe a = inspiredHe b := by
  obtain ⟨h1, _, _, _, _, h6, _, h8, h9, h10⟩ := hs
  unfold inspiredN2 inspiredHe
  rw [h1, hg, h6, h8, h9, h10]
  exact ⟨rfl, rfl⟩

theorem ceilingStep_congr (a b : ZHL16Model) (hs : SameSetting a b) (acc : ℚ)
    (comp : Compartment) : ceilingStep a acc comp = ceilingStep b acc comp := by
  obtain ⟨_, _, h3, h4, h5, _, h7, _⟩ := hs
  unfold ceilingStep currentGF
  rw [h3, h4, h5, h7]

theorem ceilingStep_erase (model : ZHL16Model) (acc : ℚ) (comp : Compartment) :
    ceilingStep model acc (eraseLoading comp) = ceilingStep model acc comp := rfl

theorem ceilingFold_erase (model : ZHL16Model) (comps : List Compartment) (acc : ℚ) :
    (comps.map eraseLoading).foldl (ceilingStep model) acc
      = comps.foldl (ceilingStep model) acc := by
  induction comps generalizing acc with
  | nil => rfl
  | cons c cs ih =>
    simp only [List.map_cons, List.foldl_cons, ceilingStep_erase, ih]

theorem ceilingValue_frozen (model sim : ZHL16Model) (hF : Frozen model sim) :
    ceilingValue sim = ceilingValue model := by
  obtain ⟨hc, hs, _⟩ := hF
  have hstep : ceilingStep sim = ceilingStep model := by
    funext acc comp
    exact ceilingStep_congr sim model hs acc comp
  have hfold : sim.compartments.foldl (ceilingStep sim) 0
      = model.compartments.foldl (ceilingStep model) 0 := by
    rw [hstep, ← ceilingFold_erase model sim.compartments, hc, ceilingFold_erase]
  unfold ceilingValue
  rw [hfold, hs.2.2.1]

theorem updateCompartment_equilibrium (expf : ℚ → ℚ) (model : ZHL16Model) (t : ℚ)
    (comp : Compartment) (h1 : comp.pressure_N2 = inspiredN2 model)
    (h2 : comp.pressure_He = inspiredHe model) :
    eraseLoading (updateCompartment expf model t comp) = eraseLoading comp := by
  unfold updateCompartment eraseLoading
  dsimp only
  rw [← h1, ← h2]
  simp

theorem frozen_equilibrium (model sim : ZHL16Model) (hE : Equilibrium model)
    (hF : Frozen model sim) : Equilibrium sim := by
  intro comp hmem
  obtain ⟨hc, hs, hg⟩ := hF
  have hin := inspired_congr sim model hs hg
  have : eraseLoading comp ∈ model.compartments.map eraseLoading := by
    rw [← hc]
    exact List.mem_map_of_mem _ hmem
  obtain ⟨c0, hc0, he⟩ := List.mem_map.mp this
  have hp1 : c0.pressure_N2 = comp.pressure_N2 := by
    have h := congrArg (fun c : Compartment => c.pressure_N2) he
    exact h
  have hp2 : c0.pressure_He = comp.pressure_He := by
    have h := congrArg (fun c : Compartment => c.pressure_He) he
    exact h
  rw [hin.1, hin.2, ← hp1, ← hp2]
  exact hE c0 hc0

theorem updateTissues_frozen (expf : ℚ → ℚ) (model sim : ZHL16Model) (t : ℚ)
    (hE : Equilibrium model) (hF : Frozen model sim) :
    Frozen model (ZHL16_UpdateTissues expf sim t) := by
  have hEs := frozen_equilibrium model sim hE hF
  refine ⟨?_, sameSetting_trans (updateTissues_setting expf sim t) hF.2.1, hF.2.2⟩
  rw [updateTissues_compartments, ← hF.1, List.map_map]
  apply List.map_congr_left
  intro comp hmem
  exact updateCompartment_equilibrium expf sim _ comp (hEs comp hmem).1 (hEs comp hmem).2

theorem getCeiling_frozen (model sim : ZHL16Model) (hF : Frozen model sim) :
    Frozen model (ZHL16_GetCeiling sim).1 :=
  ⟨hF.1, sameSetting_trans (getCeiling_setting sim) hF.2.1, hF.2.2⟩

theorem waitAtStop_frozen (expf : ℚ → ℚ) (limit : ℚ) (model : ZHL16Model)
    (hE : Equilibrium model) (hlim : ceilingValue model > limit)
    (sim : ZHL16Model) (time total : Nat) (hF : Frozen model sim)
    (hk : time % 60 = 0) (ht : time ≤ 3600) (htot : total + (3660 - time) / 60 < 65536) :
    Frozen model (waitAtStop expf limit sim time total).1 ∧
      (waitAtStop expf limit sim time total).2.1 = 3660 ∧
      (waitAtStop expf limit sim time total).2.2 = total + (3660 - time) / 60 := by
  induction sim, time, total using waitAtStop.induct expf limit with
  | case1 sim time total hc time1 h1 =>
    rw [waitAtStop, if_pos hc]
    dsimp only
    rw [if_pos h1]
    have h1' : time + 60 > 3600 := h1
    refine ⟨updateTissues_frozen expf model _ 60 hE (getCeiling_frozen model sim hF), ?_, ?_⟩
    · show time + 60 = 3660
      omega
    · show (total + 1) % 65536 = total + (3660 - time) / 60
      omega
  | case2 sim time total hc sim1 time1 total1 h1 ih =>
    rw [waitAtStop, if_pos hc]
    dsimp only
    rw [if_neg h1]
    have h1' : ¬ time + 60 > 3600 := h1
    have hF1 : Frozen model sim1 :=
      updateTissues_frozen expf model _ 60 hE (getCeiling_frozen model sim hF)
    have htot1 : total1 = total + 1 := by
      show (total + 1) % 65536 = total + 1
      omega
    have := ih hF1 (by show (time + 60) % 60 = 0; omega) (by show time + 60 ≤ 3600; omega)
      (by rw [htot1]; show total + 1 + (3660 - (time + 60)) / 60 < 65536; omega)
    refine ⟨this.1, this.2.1, ?_⟩
    rw [this.2.2, htot1]
    show total + 1 + (3660 - (time + 60)) / 60 = total + (3660 - time) / 60
    omega
  | case3 sim time total hc =>
    exact absurd (by
      show ceilingValue sim > limit
      rw [ceilingValue_frozen model sim hF]
      exact hlim) hc

theorem bestGasStep_congr (a b : ZHL16Model) (hs : SameSetting a b) (depth : ℚ) :
    bestGasStep a depth = bestGasStep b depth := by
  obtain ⟨h1, _, _, _, _, _, h7, _⟩ := hs
  funext st i
  unfold bestGasStep
  rw [h1, h7]

theorem getBestGas_frozen (model sim : ZHL16Model) (hF : Frozen model sim) (depth : ℚ) :
    ZHL16_GetBestGas sim depth = ZHL16_GetBestGas model depth := by
  unfold ZHL16_GetBestGas
  rw [bestGasStep_congr sim model hF.2.1, hF.2.1.2.1, hF.2.2]

theorem saturated_gf : currentGF saturatedDiver = 30 := by
  norm_num [currentGF, saturatedDiver, airDiver, defaultConfig]

theorem ceilingStep_N2 (model : ZHL16Model) (acc pN2 : ℚ) (row : ℚ × ℚ × ℚ × ℚ)
    (hp : 0 < pN2) (hgf : currentGF model = 30) :
    ceilingStep model acc (compartmentOfRow pN2 row)
      = max acc (((pN2 - row.2.2.1 * (30 / 100)) / (1 / row.2.2.2 - 30 / 100 + 1)
          - model.surface_pressure) * 10) := by
  unfold ceilingStep compartmentOfRow
  dsimp only
  rw [hgf, if_neg (by simpa using hp)]
  have hne : pN2 + 0 ≠ 0 := by simpa using hp.ne'
  have ha : (row.2.2.1 * pN2 + row.2.2.1 * (3 / 2) * 0) / (pN2 + 0) = row.2.2.1 := by
    field_simp
  have hb : (row.2.2.2 * pN2 + row.2.2.2 * (9 / 10) * 0) / (pN2 + 0) = row.2.2.2 := by
    field_simp
  rw [ha, hb, add_zero]
  split_ifs with h
  · exact (max_eq_right (le_of_lt h)).symm
  · exact (max_eq_left (not_lt.mp h)).symm

theorem saturated_rawCeiling :
    saturatedDiver.compartments.foldl (ceilingStep saturatedDiver) 0
      = 6700508677 / 558570000 := by
  have hstep : ∀ (acc : ℚ) (row : ℚ × ℚ × ℚ × ℚ),
      ceilingStep saturatedDiver acc (compartmentOfRow (3910737 / 1000000) row)
        = max acc (((3910737 / 1000000 - row.2.2.1 * (30 / 100))
            / (1 / row.2.2.2 - 30 / 100 + 1) - 1013 / 1000) * 10) :=
    fun acc row => ceilingStep_N2 saturatedDiver acc _ row (by norm_num) saturated_gf
  show (ZHL16B_rows.map (compartmentOfRow (3910737 / 1000000))).foldl
    (ceilingStep saturatedDiver) 0 = _
  simp only [ZHL16B_rows, List.map_cons, List.map_nil, List.foldl_cons, List.foldl_nil, hstep]
  norm_num

theorem toUInt16_nat_add (n : Nat) (q : ℚ) (h0 : 0 ≤ q) (h1 : q < 1) (hn : n < 65536) :
    toUInt16 ((n : ℚ) + q) = n := by
  have hfloor : ⌊(n : ℚ) + q⌋ = (n : ℤ) := by
    rw [Int.floor_eq_iff]
    constructor
    · push_cast; linarith
    · push_cast; linarith
  unfold toUInt16
  rw [hfloor, Int.toNat_ofNat, Nat.mod_eq_of_lt hn]

theorem saturated_ceiling : ceilingValue saturatedDiver = 12 := by
  unfold ceilingValue
  rw [saturated_rawCeiling]
  have hlsd : saturatedDiver.config.last_stop_depth = 3 := rfl
  have hceil : ⌈(6700508677 / 558570000 : ℚ) / 3⌉ = 4 := by
    rw [Int.ceil_eq_iff]
    constructor <;> norm_num
  dsimp only
  rw [if_pos (by norm_num), hlsd, hceil]
  norm_num

theorem saturated_equilibrium : Equilibrium saturatedDiver := by
  intro comp hmem
  have hN2 : inspiredN2 saturatedDiver = 3910737 / 1000000 := by
    norm_num [inspiredN2, saturatedDiver, airDiver, airOnly]
  have hHe : inspiredHe saturatedDiver = 0 := by
    norm_num [inspiredHe, saturatedDiver, airDiver, airOnly]
  obtain ⟨row, _, rfl⟩ := List.mem_map.mp hmem
  rw [hN2, hHe]
  exact ⟨rfl, rfl⟩

theorem saturated_bestGas (depth : ℚ) : ZHL16_GetBestGas saturatedDiver depth = 0 := by
  unfold ZHL16_GetBestGas
  have hn : saturatedDiver.num_gases = 1 := rfl
  have hg : saturatedDiver.current_gas = 0 := rfl
  have hr : List.range 1 = [0] := rfl
  rw [hn, hg, hr, List.foldl_cons, List.foldl_nil]
  rcases bestGasStep_cases saturatedDiver depth (0, 0) 0 with h | ⟨h, _⟩
  · rw [h]
  · rw [h]

theorem planStep_frozen (expf : ℚ → ℚ) (model : ZHL16Model) (hE : Equilibrium model)
    (sim : ZHL16Model) (depth : ℚ) (total idx : Nat) (plan : AscendPlan)
    (hF : Frozen model sim)
    (hgas : ZHL16_GetBestGas model depth = model.current_gas)
    (hceil : ceilingValue model > depth - model.config.last_stop_depth)
    (hfrac0 : 0 ≤ model.config.last_stop_depth / model.config.ascent_rate)
    (hfrac1 : model.config.last_stop_depth / model.config.ascent_rate < 1)
    (htot : total + 61 < 65536) :
    ∃ sim1, Frozen model sim1 ∧
      planStep expf model
          { sim_model := sim, current_depth := depth, total_time := total, stop_idx := idx,
            plan := plan }
        = { sim_model := sim1
            current_depth := depth - model.config.last_stop_depth
            total_time := total + 61
            stop_idx := idx + 1
            plan := { plan with
              stops := Function.update plan.stops idx
                { depth := depth, time := 3660, gas_idx := model.current_gas } } } := by
  have hg : ZHL16_GetBestGas sim depth = sim.current_gas := by
    rw [getBestGas_frozen model sim hF, hgas, hF.2.2]
  have hw := waitAtStop_frozen expf (depth - model.config.last_stop_depth) model hE hceil
    sim 0 total hF (by decide) (by decide) (by omega)
  have hw3 : (waitAtStop expf (depth - model.config.last_stop_depth) sim 0 total).2.2
      = total + 61 := hw.2.2
  unfold planStep
  dsimp only
  rw [hg, if_neg (show ¬ (sim.current_gas ≠ sim.current_gas) by simp), hw.2.1, hw3,
    if_pos (show 3660 > 0 by decide), hF.2.2]
  split_ifs with hd
  · refine ⟨ZHL16_UpdateTissues expf
        (waitAtStop expf (depth - model.config.last_stop_depth) sim 0 total).1
        (model.config.last_stop_depth / model.config.ascent_rate * 60),
      updateTissues_frozen expf model _ _ hE hw.1, ?_⟩
    rw [toUInt16_nat_add (total + 61) _ hfrac0 hfrac1 htot]
  · exact ⟨_, hw.1, rfl⟩

theorem toUInt16_eq (q : ℚ) (n : Nat) (h0 : (n : ℚ) ≤ q) (h1 : q < (n : ℚ) + 1)
    (hn : n < 65536) : toUInt16 q = n := by
  have hfloor : ⌊q⌋ = (n : ℤ) := by
    rw [Int.floor_eq_iff]
    constructor
    · push_cast; exact h0
    · push_cast; exact h1
  unfold toUInt16
  rw [hfloor, Int.toNat_ofNat, Nat.mod_eq_of_lt hn]

theorem planStart_saturated (expf : ℚ → ℚ) :
    ∃ sim0, Frozen saturatedDiver sim0 ∧
      planStart expf saturatedDiver
        = { sim_model := sim0, current_depth := 12, total_time := 2, stop_idx := 0,
            plan := { zeroPlan with first_stop_depth := 12 } } := by
  have hc : (ZHL16_GetCeiling saturatedDiver).2 = 12 := saturated_ceiling
  have hF : Frozen saturatedDiver (ZHL16_GetCeiling saturatedDiver).1 :=
    getCeiling_frozen _ _ ⟨rfl, sameSetting_refl _, rfl⟩
  have ht : toUInt16 ((0 : ℚ) + (saturatedDiver.current_depth - 12)
      / saturatedDiver.config.ascent_rate) = 2 := by
    apply toUInt16_eq
    · norm_num [saturatedDiver, airDiver, defaultConfig]
    · norm_num [saturatedDiver, airDiver, defaultConfig]
    · decide
  refine ⟨ZHL16_UpdateTissues expf (ZHL16_GetCeiling saturatedDiver).1
    ((saturatedDiver.current_depth - 12) / saturatedDiver.config.ascent_rate * 60),
    updateTissues_frozen expf _ _ _ saturated_equilibrium hF, ?_⟩
  unfold planStart
  dsimp only
  rw [hc, if_pos (by norm_num), ht]
  rfl

theorem saturated_step (expf : ℚ → ℚ) (sim : ZHL16Model) (depth : ℚ) (total idx : Nat)
    (plan : AscendPlan) (hF : Frozen saturatedDiver sim) (hd : depth ≤ 12)
    (htot : total + 61 < 65536) :
    ∃ sim1, Frozen saturatedDiver sim1 ∧
      planStep expf saturatedDiver
          { sim_model := sim, current_depth := depth, total_time := total, stop_idx := idx,
            plan := plan }
        = { sim_model := sim1, current_depth := depth - 3, total_time := total + 61,
            stop_idx := idx + 1
            plan := { plan with
              stops := Function.update plan.stops idx
                { depth := depth, time := 3660, gas_idx := 0 } } } :=
  planStep_frozen expf saturatedDiver saturated_equilibrium sim depth total idx plan hF
    (saturated_bestGas depth)
    (by
      rw [saturated_ceiling]
      show depth - 3 < 12
      linarith)
    (by norm_num [saturatedDiver, airDiver, defaultConfig])
    (by norm_num [saturatedDiver, airDiver, defaultConfig])
    htot

theorem saturated_loop (expf : ℚ → ℚ) (n : Nat) :
    ∀ (sim : ZHL16Model) (depth : ℚ) (total idx : Nat) (plan : AscendPlan),
      Frozen saturatedDiver sim → depth = 3 * (n : ℚ) → n ≤ 4 → idx + n ≤ MAX_DECO_STOPS →
      total + 61 * n < 65536 →
      ∃ st, planLoop expf saturatedDiver n
            { sim_model := sim, current_depth := depth, total_time := total, stop_idx := idx,
              plan := plan } = some st ∧
        Frozen saturatedDiver st.sim_model ∧ st.current_depth = 0 ∧
        st.total_time = total + 61 * n ∧ st.stop_idx = idx + n ∧
        st.plan.first_stop_depth = plan.first_stop_depth ∧
        (∀ j, j < idx → st.plan.stops j = plan.stops j) ∧
        (∀ k, k < n → st.plan.stops (idx + k)
          = { depth := depth - 3 * (k : ℚ), time := 3660, gas_idx := 0 }) := by
  induction n with
  | zero =>
    intro sim depth total idx plan hF hd _ _ _
    refine ⟨_, planLoop_stop _ _ _ _ ?_, hF, ?_, rfl, rfl, rfl, fun _ _ => rfl, ?_⟩
    · intro h
      have h1 : depth > 0 := h.1
      rw [hd] at h1
      norm_num at h1
    · show depth = 0
      rw [hd]; norm_num
    · intro k hk
      exact absurd hk (Nat.not_lt_zero k)
  | succ n ih =>
    intro sim depth total idx plan hF hd hn hidx htot
    have hdpos : depth > 0 := by
      rw [hd]; push_cast; positivity
    have hd12 : depth ≤ 12 := by
      rw [hd]
      have : ((n + 1 : Nat) : ℚ) ≤ 4 := by exact_mod_cast hn
      linarith
    obtain ⟨sim1, hF1, h1⟩ := saturated_step expf sim depth total idx plan hF hd12 (by omega)
    obtain ⟨st, hrun, hFs, hcd, htt, hsi, hfs, hkeep, hnew⟩ :=
      ih sim1 (depth - 3) (total + 61) (idx + 1)
        { plan with
          stops := Function.update plan.stops idx { depth := depth, time := 3660, gas_idx := 0 } }
        hF1 (by rw [hd]; push_cast; ring) (by omega) (by omega) (by omega)
    refine ⟨st, ?_, hFs, hcd, ?_, ?_, hfs, ?_, ?_⟩
    · rw [planLoop_continue _ _ _ _ hdpos (by show idx < MAX_DECO_STOPS; omega), h1]
      exact hrun
    · rw [htt]; ring
    · rw [hsi]; ring
    · intro j hj
      rw [hkeep j (by omega)]
      exact Function.update_noteq (by omega) _ _
    · intro k hk
      cases k with
      | zero =>
        rw [Nat.add_zero, hkeep idx (by omega)]
        simp
      | succ m =>
        have := hnew m (by omega)
        rw [show idx + (m + 1) = idx + 1 + m by ring, this]
        congr 1
        push_cast
        ring

theorem planAscent_saturated (expf : ℚ → ℚ) :
    ∃ st, planAscent expf 4 saturatedDiver = some st ∧
      Frozen saturatedDiver st.sim_model ∧
      st.current_depth = 0 ∧ st.total_time = 246 ∧ st.stop_idx = 4 ∧
      st.plan.first_stop_depth = 12 ∧
      st.plan.stops 0 = { depth := 12, time := 3660, gas_idx := 0 } ∧
      st.plan.stops 1 = { depth := 9, time := 3660, gas_idx := 0 } ∧
      st.plan.stops 2 = { depth := 6, time := 3660, gas_idx := 0 } ∧
      st.plan.stops 3 = { depth := 3, time := 3660, gas_idx := 0 } := by
  obtain ⟨sim0, hF0, h0⟩ := planStart_saturated expf
  obtain ⟨st, hrun, hFs, hcd, htt, hsi, hfs, _, hnew⟩ :=
    saturated_loop expf 4 sim0 12 2 0 { zeroPlan with first_stop_depth := 12 } hF0
      (by norm_num) (by decide) (by decide) (by decide)
  refine ⟨st, ?_, hFs, hcd, htt, hsi, hfs, ?_, ?_, ?_, ?_⟩
  · unfold planAscent
    rw [h0]
    exact hrun
  · have := hnew 0 (by decide)
    simpa using this
  · have := hnew 1 (by decide)
    rw [this]
    norm_num
  · have := hnew 2 (by decide)
    rw [this]
    norm_num
  · have := hnew 3 (by decide)
    rw [this]
    norm_num

theorem calculate_of_needs (expf : ℚ → ℚ) (fuel : Nat) (model : ZHL16Model) (st : PlanState)
    (hneeds : ZHL16_NeedsDecoStop { model with ascend_plan := zeroPlan } = true)
    (h : planAscent expf fuel { model with ascend_plan := zeroPlan } = some st) :
    ZHL16_CalculateAscendPlan expf fuel model
      = some { model with
          ascend_plan := planFinish { model with ascend_plan := zeroPlan } st } := by
  unfold ZHL16_CalculateAscendPlan
  simp only [hneeds, h]
  rfl

theorem saturated_needs : ZHL16_NeedsDecoStop saturatedDiver = true := by
  unfold ZHL16_NeedsDecoStop
  have hc : (ZHL16_GetCeiling saturatedDiver).2 = 12 := saturated_ceiling
  rw [hc]
  simp

theorem saturated_plan_zero : { saturatedDiver with ascend_plan := zeroPlan } = saturatedDiver :=
  rfl

theorem calculate_saturated (expf : ℚ → ℚ) (st : PlanState)
    (h : planAscent expf 4 saturatedDiver = some st) :
    ZHL16_CalculateAscendPlan expf 4 saturatedDiver
      = some { saturatedDiver with ascend_plan := planFinish saturatedDiver st } := by
  have hn : ZHL16_NeedsDecoStop { saturatedDiver with ascend_plan := zeroPlan } = true := by
    rw [saturated_plan_zero]; exact saturated_needs
  have hp : planAscent expf 4 { saturatedDiver with ascend_plan := zeroPlan } = some st := by
    rw [saturated_plan_zero]; exact h
  rw [calculate_of_needs expf 4 saturatedDiver st hn hp, saturated_plan_zero]

theorem saturated_current_depth : saturatedDiver.current_depth = 40 := rfl

theorem saturated_ascent_rate : saturatedDiver.config.ascent_rate = 10 := rfl

theorem saturated_surface : saturatedDiver.surface_pressure = 1013 / 1000 := rfl

theorem saturated_ambient : saturatedDiver.ambient_pressure = 5013 / 1000 := by
  show (1013 / 1000 + 40 / 10 : ℚ) = 5013 / 1000
  norm_num

theorem planFinish_stops (model : ZHL16Model) (st : PlanState) :
    (planFinish model st).stops = st.plan.stops := rfl

theorem planFinish_num_stops (model : ZHL16Model) (st : PlanState) :
    (planFinish model st).num_stops = st.stop_idx := rfl

theorem planFinish_tts_surfaced (model : ZHL16Model) (st : PlanState)
    (h : st.current_depth = 0) : (planFinish model st).tts = st.total_time := by
  unfold planFinish
  dsimp only
  rw [h, if_neg (by norm_num)]

theorem planStep_time_le (expf : ℚ → ℚ) (model : ZHL16Model) (st : PlanState) (i : Nat)
    (hi : i < (planStep expf model st).stop_idx)
    (hl : ∀ j, j < st.stop_idx → (st.plan.stops j).time ≤ 3660) :
    ((planStep expf model st).plan.stops i).time ≤ 3660 := by
  rw [planStep_stops]
  by_cases hidx : i = st.stop_idx
  · subst hidx
    simp only [Function.update_same]
    exact waitAtStop_time_le _ _ _ _ _ (by decide)
  · simp only [Function.update_noteq hidx]
    have hlt : i < st.stop_idx := by
      rcases planStep_stop_idx expf model st with h | h
      · rw [h] at hi; exact hi
      · rw [h] at hi; omega
    exact hl i hlt

theorem planner_stop_bounds (expf : ℚ → ℚ) (fuel : Nat) (model result : ZHL16Model)
    (h : ZHL16_CalculateAscendPlan expf fuel model = some result) :
    result.ascend_plan.num_stops ≤ MAX_DECO_STOPS ∧
      ∀ i, i < result.ascend_plan.num_stops → (result.ascend_plan.stops i).time ≤ 3660 := by
  unfold ZHL16_CalculateAscendPlan at h
  dsimp only at h
  split_ifs at h with hneeds
  · cases h
    exact ⟨Nat.zero_le _, fun i hi => absurd hi (Nat.not_lt_zero i)⟩
  · split at h
    · cases h
    · rename_i st hst
      cases h
      unfold planAscent at hst
      have hinv := planLoop_invariant expf { model with ascend_plan := zeroPlan }
        (fun s => s.stop_idx ≤ MAX_DECO_STOPS ∧
          ∀ j, j < s.stop_idx → (s.plan.stops j).time ≤ 3660)
        (fun s hs hc => ⟨by
            rcases planStep_stop_idx expf { model with ascend_plan := zeroPlan } s with h | h
            · rw [h]; exact hs.1
            · rw [h]; exact hc.2,
          fun j hj => planStep_time_le expf _ s j hj hs.2⟩)
        fuel _ st
        ⟨by rw [planStart_stop_idx]; exact Nat.zero_le _, by
          intro j hj
          rw [planStart_stop_idx] at hj
          exact absurd hj (Nat.not_lt_zero j)⟩
        hst
      exact hinv.1

/-- C8: evaluated on an air diver saturated at 40 m (whatever `expf` is), the
planner records four stops, within `MAX_DECO_STOPS`, and each of them lasts
3660 s: the wait loop adds 60 s before it tests `stop->time > 3600`, so a stop
ends at 3660 s, above the 3600 s cap. -/
theorem ZHL16_CalculateAscendPlan_stop_exceeds_hour (expf : ℚ → ℚ) :
    ∃ result, ZHL16_CalculateAscendPlan expf 4 saturatedDiver = some result ∧
      result.ascend_plan.num_stops = 4 ∧
      result.ascend_plan.num_stops ≤ MAX_DECO_STOPS ∧
      (result.ascend_plan.stops 0).time = 3660 ∧
      (result.ascend_plan.stops 1).time = 3660 ∧
      (result.ascend_plan.stops 2).time = 3660 ∧
      (result.ascend_plan.stops 3).time = 3660 ∧
      ¬ (result.ascend_plan.stops 0).time ≤ 3600 := by
  obtain ⟨st, hrun, _, _, _, hidx, _, h0, h1, h2, h3⟩ := planAscent_saturated expf
  refine ⟨_, calculate_saturated expf st hrun, ?_⟩
  simp only [planFinish_stops, planFinish_num_stops, h0, h1, h2, h3, hidx]
  decide

/-- C9: no pass of the planner's stop loop changes the ambient pressure or
the depth of the scratch model, so every integration runs at the pressure of
the live model. On an air diver saturated at 40 m the first stop is at 12 m
and lasts its full 3660 s, yet the scratch model still has ambient pressure
5.013 bar (not 1.013 + 12/10 = 2.213 bar) and depth 40 m, and after all four
stops its nitrogen pressures are those of the live model. -/
theorem ZHL16_CalculateAscendPlan_ambient_fixed (expf : ℚ → ℚ) :
    (∀ (model : ZHL16Model) (st : PlanState),
      (planStep expf model st).sim_model.ambient_pressure = st.sim_model.ambient_pressure ∧
      (planStep expf model st).sim_model.current_depth = st.sim_model.current_depth) ∧
    (∀ (limit : ℚ) (sim : ZHL16Model) (time total : Nat),
      (waitAtStop expf limit sim time total).1.ambient_pressure = sim.ambient_pressure ∧
      (waitAtStop expf limit sim time total).1.current_depth = sim.current_depth) ∧
    (∃ st, planAscent expf 4 saturatedDiver = some st ∧
      (st.plan.stops 0).depth = 12 ∧ (st.plan.stops 0).time = 3660 ∧
      st.sim_model.ambient_pressure = 5013 / 1000 ∧
      saturatedDiver.surface_pressure + (st.plan.stops 0).depth / 10 = 2213 / 1000 ∧
      st.sim_model.current_depth = 40 ∧
      st.sim_model.compartments.map (fun c => c.pressure_N2)
        = saturatedDiver.compartments.map (fun c => c.pressure_N2)) := by
  refine ⟨?_, ?_, ?_⟩
  · intro model st
    have h := planStep_setting expf model st
    exact ⟨h.2.2.2.2.2.1, h.2.2.2.1⟩
  · intro limit sim time total
    have h := waitAtStop_setting expf limit sim time total
    exact ⟨h.2.2.2.2.2.1, h.2.2.2.1⟩
  · obtain ⟨st, hrun, hF, _, _, _, _, h0, _⟩ := planAscent_saturated expf
    refine ⟨st, hrun, by rw [h0], by rw [h0], ?_, ?_, ?_, ?_⟩
    · rw [hF.2.1.2.2.2.2.2.1, saturated_ambient]
    · rw [h0, saturated_surface]
      norm_num
    · rw [hF.2.1.2.2.2.1, saturated_current_depth]
    · have h := congrArg (List.map (fun c : Compartment => c.pressure_N2)) hF.1
      simpa [List.map_map, Function.comp_def, eraseLoading] using h

/-- C10: on an air diver saturated at 40 m the planner writes `tts = 246`,
while the ascent segments (40 m to the first stop at 12 m, three stop-to-stop
intervals and the last stop to the surface, at 10 m/min) and the four stop
durations add up to 248 minutes: each segment is truncated to whole minutes
when it is added to the `uint16_t` total, and the segment from the last stop
to the surface is never added. -/
theorem ZHL16_CalculateAscendPlan_tts_truncated (expf : ℚ → ℚ) :
    ∃ result, ZHL16_CalculateAscendPlan expf 4 saturatedDiver = some result ∧
      result.ascend_plan.num_stops = 4 ∧
      result.ascend_plan.tts = 246 ∧
      (saturatedDiver.current_depth - (result.ascend_plan.stops 0).depth)
          / saturatedDiver.config.ascent_rate
        + ((result.ascend_plan.stops 0).depth - (result.ascend_plan.stops 1).depth)
          / saturatedDiver.config.ascent_rate
        + ((result.ascend_plan.stops 1).depth - (result.ascend_plan.stops 2).depth)
          / saturatedDiver.config.ascent_rate
        + ((result.ascend_plan.stops 2).depth - (result.ascend_plan.stops 3).depth)
          / saturatedDiver.config.ascent_rate
        + ((result.ascend_plan.stops 3).depth - 0) / saturatedDiver.config.ascent_rate
        + (((result.ascend_plan.stops 0).time + (result.ascend_plan.stops 1).time
            + (result.ascend_plan.stops 2).time + (result.ascend_plan.stops 3).time : Nat) : ℚ)
          / 60
        = 248 := by
  obtain ⟨st, hrun, _, hcd, htt, hidx, _, h0, h1, h2, h3⟩ := planAscent_saturated expf
  refine ⟨_, calculate_saturated expf st hrun, ?_⟩
  simp only [planFinish_stops, planFinish_num_stops, planFinish_tts_surfaced _ st hcd, h0, h1,
    h2, h3, hidx, htt, saturated_current_depth, saturated_ascent_rate]
  norm_num

/-! ## The planner: shape of the stop list -/

theorem planStep_stop_idx_time (expf : ℚ → ℚ) (model : ZHL16Model) (st : PlanState) :
    (planStep expf model st).stop_idx
      = if ((planStep expf model st).plan.stops st.stop_idx).time > 0 then st.stop_idx + 1
        else st.stop_idx := by
  unfold planStep
  dsimp only
  split_ifs <;> simp_all [Function.update_same]

theorem planStep_stop_depth (expf : ℚ → ℚ) (model : ZHL16Model) (st : PlanState) :
    ((planStep expf model st).plan.stops st.stop_idx).depth = st.current_depth := by
  rw [planStep_stops]
  simp only [Function.update_same]

theorem planStep_stops_other (expf : ℚ → ℚ) (model : ZHL16Model) (st : PlanState) (i : Nat)
    (hi : i ≠ st.stop_idx) : (planStep expf model st).plan.stops i = st.plan.stops i := by
  rw [planStep_stops]
  exact Function.update_noteq hi _ _

theorem planStep_shape (expf : ℚ → ℚ) (model : ZHL16Model) (st : PlanState)
    (hl : 0 < model.config.last_stop_depth) (hcd : 0 < st.current_depth)
    (h : stopsShape model.config.last_stop_depth st.current_depth st.plan.stops st.stop_idx) :
    stopsShape model.config.last_stop_depth (planStep expf model st).current_depth
      (planStep expf model st).plan.stops (planStep expf model st).stop_idx := by
  obtain ⟨⟨k, hk⟩, hstop, hdec⟩ := h
  have hidx := planStep_stop_idx_time expf model st
  have hle : (planStep expf model st).stop_idx ≤ st.stop_idx + 1 := by
    rw [hidx]; split_ifs <;> omega
  refine ⟨⟨k - 1, ?_⟩, ?_, ?_⟩
  · rw [planStep_current_depth, hk]; push_cast; ring
  · intro i hi
    rw [planStep_current_depth]
    by_cases hieq : i = st.stop_idx
    · subst hieq
      have htime : ((planStep expf model st).plan.stops st.stop_idx).time > 0 := by
        by_contra hn
        rw [hidx, if_neg hn] at hi
        exact absurd hi (lt_irrefl _)
      rw [planStep_stop_depth]
      exact ⟨hcd, htime, by linarith, ⟨k, hk⟩⟩
    · have hlt : i < st.stop_idx := by omega
      rw [planStep_stops_other expf model st i hieq]
      obtain ⟨h1, h2, h3, h4⟩ := hstop i hlt
      exact ⟨h1, h2, by linarith, h4⟩
  · intro i j hij hj
    by_cases hjeq : j = st.stop_idx
    · subst hjeq
      rw [planStep_stop_depth, planStep_stops_other expf model st i (by omega)]
      exact (hstop i hij).2.2.1
    · have hjlt : j < st.stop_idx := by omega
      rw [planStep_stops_other expf model st j hjeq,
        planStep_stops_other expf model st i (by omega)]
      exact hdec i j hij hjlt

theorem ceilingValue_multiple (model : ZHL16Model) (h : 0 < ceilingValue model) :
    ∃ k : ℤ, ceilingValue model = (k : ℚ) * model.config.last_stop_depth := by
  unfold ceilingValue at h ⊢
  dsimp only at h ⊢
  split_ifs at h ⊢ with hraw
  · exact ⟨_, rfl⟩
  · exact absurd h hraw

theorem planStart_shape (expf : ℚ → ℚ) (model : ZHL16Model)
    (hneeds : ZHL16_NeedsDecoStop model = true) :
    stopsShape model.config.last_stop_depth (planStart expf model).current_depth
      (planStart expf model).plan.stops (planStart expf model).stop_idx := by
  have hpos : 0 < ceilingValue model := by
    unfold ZHL16_NeedsDecoStop at hneeds
    exact of_decide_eq_true hneeds
  have hcd : (planStart expf model).current_depth = ceilingValue model := by
    unfold planStart
    dsimp only
    rw [if_pos (show (ZHL16_GetCeiling model).2 > 0 from hpos)]
    rfl
  rw [planStart_stop_idx, hcd]
  exact ⟨ceilingValue_multiple model hpos, fun i hi => absurd hi (Nat.not_lt_zero i),
    fun i j _ hj => absurd hj (Nat.not_lt_zero j)⟩

theorem calculate_cases (expf : ℚ → ℚ) (fuel : Nat) (model result : ZHL16Model)
    (h : ZHL16_CalculateAscendPlan expf fuel model = some result) :
    (ZHL16_NeedsDecoStop { model with ascend_plan := zeroPlan } = false ∧
      result = { model with
        ascend_plan := { zeroPlan with
          is_valid := true
          tts := toUInt16 (model.current_depth / model.config.ascent_rate) } }) ∨
    (ZHL16_NeedsDecoStop { model with ascend_plan := zeroPlan } = true ∧
      ∃ st, planAscent expf fuel { model with ascend_plan := zeroPlan } = some st ∧
        result = { model with
          ascend_plan := planFinish { model with ascend_plan := zeroPlan } st }) := by
  unfold ZHL16_CalculateAscendPlan at h
  dsimp only at h
  split_ifs at h with hneeds
  · cases h
    exact Or.inl ⟨hneeds, rfl⟩
  · split at h
    · cases h
    · rename_i st hst
      cases h
      exact Or.inr ⟨by simpa using hneeds, st, hst, rfl⟩

theorem planAscent_shape (expf : ℚ → ℚ) (fuel : Nat) (model : ZHL16Model) (st : PlanState)
    (hl : 0 < model.config.last_stop_depth) (hneeds : ZHL16_NeedsDecoStop model = true)
    (hst : planAscent expf fuel model = some st) :
    stopsShape model.config.last_stop_depth st.current_depth st.plan.stops st.stop_idx :=
  (planLoop_invariant expf model
    (fun s => stopsShape model.config.last_stop_depth s.current_depth s.plan.stops s.stop_idx)
    (fun s hs hc => planStep_shape expf model s hl hc.1 hs)
    fuel (planStart expf model) st (planStart_shape expf model hneeds) hst).1

/-- C11: for every model with `last_stop_depth > 0`, the stops
`stops[0..num_stops)` written by `ZHL16_CalculateAscendPlan` have strictly
decreasing depths, and every recorded stop has a depth greater than 0, a
non-zero duration and a depth of at least `last_stop_depth` (the first stop is
the rounded ceiling, a whole multiple of `last_stop_depth`); and the planner
does return a plan for such a model. -/
theorem ZHL16_CalculateAscendPlan_stops_shape :
    (∀ (expf : ℚ → ℚ) (fuel : Nat) (model result : ZHL16Model),
      0 < model.config.last_stop_depth →
      ZHL16_CalculateAscendPlan expf fuel model = some result →
      (∀ i j, i < j → j < result.ascend_plan.num_stops →
        (result.ascend_plan.stops j).depth < (result.ascend_plan.stops i).depth) ∧
      (∀ i, i < result.ascend_plan.num_stops →
        0 < (result.ascend_plan.stops i).depth ∧ 0 < (result.ascend_plan.stops i).time ∧
        model.config.last_stop_depth ≤ (result.ascend_plan.stops i).depth)) ∧
    (∀ (expf : ℚ → ℚ) (model : ZHL16Model), 0 < model.config.last_stop_depth →
      ∃ fuel result, ZHL16_CalculateAscendPlan expf fuel model = some result) := by
  refine ⟨?_, calculate_total⟩
  intro expf fuel model result hl hres
  rcases calculate_cases expf fuel model result hres with ⟨_, rfl⟩ | ⟨hneeds, st, hst, rfl⟩
  · exact ⟨fun i j _ hj => absurd hj (Nat.not_lt_zero j),
      fun i hi => absurd hi (Nat.not_lt_zero i)⟩
  · obtain ⟨_, hstop, hdec⟩ :=
      planAscent_shape expf fuel { model with ascend_plan := zeroPlan } st hl hneeds hst
    refine ⟨fun i j hij hj => hdec i j hij hj, fun i hi => ?_⟩
    obtain ⟨h1, h2, _, k, hk⟩ := hstop i hi
    refine ⟨h1, h2, ?_⟩
    show model.config.last_stop_depth ≤ (st.plan.stops i).depth
    rw [hk] at h1 ⊢
    have hkpos : (0 : ℚ) < (k : ℚ) := by
      by_contra hn
      have : (k : ℚ) * model.config.last_stop_depth ≤ 0 :=
        mul_nonpos_of_nonpos_of_nonneg (not_lt.mp hn) hl.le
      linarith
    have hk1 : (1 : ℚ) ≤ (k : ℚ) := by
      have : (0 : ℤ) < k := by exact_mod_cast hkpos
      exact_mod_cast this
    nlinarith

theorem saturated_lsd : saturatedDiver.config.last_stop_depth = 3 := rfl

theorem ZHL16_CalculateAscendPlan_stops_shape_witness :
    ∃ result, ZHL16_CalculateAscendPlan (fun _ => 1 / 2) 4 saturatedDiver = some result ∧
      (∀ i j, i < j → j < result.ascend_plan.num_stops →
        (result.ascend_plan.stops j).depth < (result.ascend_plan.stops i).depth) ∧
      (∀ i, i < result.ascend_plan.num_stops →
        0 < (result.ascend_plan.stops i).depth ∧ 0 < (result.ascend_plan.stops i).time ∧
        saturatedDiver.config.last_stop_depth ≤ (result.ascend_plan.stops i).depth) :=
  (planAscent_saturated (fun _ => 1 / 2)).elim fun st h =>
    ⟨_, calculate_saturated _ st h.1,
      ZHL16_CalculateAscendPlan_stops_shape.1 _ 4 saturatedDiver _
        (by rw [saturated_lsd]; norm_num) (calculate_saturated _ st h.1)⟩

/-! ## The planner: frame, idempotence, empty plan -/

theorem planLoop_fuel_independent (expf : ℚ → ℚ) (model : ZHL16Model) (fuel1 fuel2 : Nat)
    (st a b : PlanState) (ha : planLoop expf model fuel1 st = some a)
    (hb : planLoop expf model fuel2 st = some b) : a = b := by
  induction fuel1 generalizing fuel2 st with
  | zero =>
    unfold planLoop at ha
    split_ifs at ha with hc
    cases ha
    rw [planLoop_stop expf model fuel2 _ hc] at hb
    cases hb
    rfl
  | succ n ih =>
    by_cases hc : st.current_depth > 0 ∧ st.stop_idx < MAX_DECO_STOPS
    · rw [planLoop_continue expf model n st hc.1 hc.2] at ha
      cases fuel2 with
      | zero =>
        unfold planLoop at hb
        rw [if_pos hc] at hb
        cases hb
      | succ m =>
        rw [planLoop_continue expf model m st hc.1 hc.2] at hb
        exact ih m _ ha hb
    · rw [planLoop_stop expf model _ st hc] at ha
      rw [planLoop_stop expf model _ st hc] at hb
      cases ha
      cases hb
      rfl

theorem calculate_fuel_independent (expf : ℚ → ℚ) (model : ZHL16Model) (fuel1 fuel2 : Nat)
    (a b : ZHL16Model) (ha : ZHL16_CalculateAscendPlan expf fuel1 model = some a)
    (hb : ZHL16_CalculateAscendPlan expf fuel2 model = some b) : a = b := by
  rcases calculate_cases expf fuel1 model a ha with ⟨h1, rfl⟩ | ⟨h1, st1, hst1, rfl⟩
  · rcases calculate_cases expf fuel2 model b hb with ⟨_, rfl⟩ | ⟨h2, _⟩
    · rfl
    · rw [h1] at h2; cases h2
  · rcases calculate_cases expf fuel2 model b hb with ⟨h2, _⟩ | ⟨_, st2, hst2, rfl⟩
    · rw [h1] at h2; cases h2
    · unfold planAscent at hst1 hst2
      rw [planLoop_fuel_independent expf _ fuel1 fuel2 _ st1 st2 hst1 hst2]

theorem calculate_frame (expf : ℚ → ℚ) (fuel : Nat) (model result : ZHL16Model)
    (h : ZHL16_CalculateAscendPlan expf fuel model = some result) :
    result = { model with ascend_plan := result.ascend_plan } := by
  rcases calculate_cases expf fuel model result h with ⟨_, rfl⟩ | ⟨_, st, _, rfl⟩ <;> rfl

theorem calculate_ignores_plan (expf : ℚ → ℚ) (fuel : Nat) (model : ZHL16Model)
    (plan : AscendPlan) :
    ZHL16_CalculateAscendPlan expf fuel { model with ascend_plan := plan }
      = ZHL16_CalculateAscendPlan expf fuel model := rfl

/-- C12: `ZHL16_CalculateAscendPlan` changes no part of the live model other
than its `ascend_plan`: the result is the model with a new plan, so the
compartments (with their `pressure_N2`, `pressure_He` and `loading`),
`current_gas`, `dive_time_seconds`, `leading_compartment` and
`saturation_percent` are those of the model before the call; and the planner
does return for every model with `last_stop_depth > 0`. -/
theorem ZHL16_CalculateAscendPlan_frame :
    (∀ (expf : ℚ → ℚ) (fuel : Nat) (model result : ZHL16Model),
      ZHL16_CalculateAscendPlan expf fuel model = some result →
      result = { model with ascend_plan := result.ascend_plan } ∧
      result.compartments = model.compartments ∧
      result.current_gas = model.current_gas ∧
      result.dive_time_seconds = model.dive_time_seconds ∧
      result.leading_compartment = model.leading_compartment ∧
      result.saturation_percent = model.saturation_percent) ∧
    (∀ (expf : ℚ → ℚ) (model : ZHL16Model), 0 < model.config.last_stop_depth →
      ∃ fuel result, ZHL16_CalculateAscendPlan expf fuel model = some result) := by
  refine ⟨?_, calculate_total⟩
  intro expf fuel model result h
  have hf := calculate_frame expf fuel model result h
  refine ⟨hf, ?_, ?_, ?_, ?_, ?_⟩ <;> rw [hf]

theorem ZHL16_CalculateAscendPlan_frame_witness :
    ∃ result, ZHL16_CalculateAscendPlan (fun _ => 1 / 2) 4 saturatedDiver = some result ∧
      result = { saturatedDiver with ascend_plan := result.ascend_plan } ∧
      result.compartments = saturatedDiver.compartments ∧
      result.current_gas = saturatedDiver.current_gas ∧
      result.dive_time_seconds = saturatedDiver.dive_time_seconds ∧
      result.leading_compartment = saturatedDiver.leading_compartment ∧
      result.saturation_percent = saturatedDiver.saturation_percent :=
  (planAscent_saturated (fun _ => 1 / 2)).elim fun st h =>
    ⟨_, calculate_saturated _ st h.1,
      ZHL16_CalculateAscendPlan_frame.1 _ 4 saturatedDiver _ (calculate_saturated _ st h.1)⟩

/-- C13: running `ZHL16_CalculateAscendPlan` a second time on the model
returned by a first run (which differs from the original only by the plan the
first run wrote) returns, and returns that same model: the same `num_stops`,
the same stop depths, durations and gas indices, the same `first_stop_depth`
and the same `tts`. -/
theorem ZHL16_CalculateAscendPlan_idempotent :
    (∀ (expf : ℚ → ℚ) (fuel : Nat) (model first : ZHL16Model),
      ZHL16_CalculateAscendPlan expf fuel model = some first →
      ZHL16_CalculateAscendPlan expf fuel first = some first) ∧
    (∀ (expf : ℚ → ℚ) (fuel1 fuel2 : Nat) (model first second : ZHL16Model),
      ZHL16_CalculateAscendPlan expf fuel1 model = some first →
      ZHL16_CalculateAscendPlan expf fuel2 first = some second →
      second = first ∧
      second.ascend_plan.num_stops = first.ascend_plan.num_stops ∧
      (∀ i, (second.ascend_plan.stops i).depth = (first.ascend_plan.stops i).depth ∧
        (second.ascend_plan.stops i).time = (first.ascend_plan.stops i).time ∧
        (second.ascend_plan.stops i).gas_idx = (first.ascend_plan.stops i).gas_idx) ∧
      second.ascend_plan.first_stop_depth = first.ascend_plan.first_stop_depth ∧
      second.ascend_plan.tts = first.ascend_plan.tts) := by
  have key : ∀ (expf : ℚ → ℚ) (fuel : Nat) (model first : ZHL16Model),
      ZHL16_CalculateAscendPlan expf fuel model = some first →
      ZHL16_CalculateAscendPlan expf fuel first = some first := by
    intro expf fuel model first h
    rw [calculate_frame expf fuel model first h, calculate_ignores_plan,
      ← calculate_frame expf fuel model first h]
    exact h
  refine ⟨key, ?_⟩
  intro expf fuel1 fuel2 model first second h1 h2
  have heq : second = first :=
    calculate_fuel_independent expf first fuel2 fuel1 second first h2
      (key expf fuel1 model first h1)
  subst heq
  exact ⟨rfl, rfl, fun i => ⟨rfl, rfl, rfl⟩, rfl, rfl⟩

theorem ZHL16_CalculateAscendPlan_idempotent_witness :
    ∃ first, ZHL16_CalculateAscendPlan (fun _ => 1 / 2) 4 saturatedDiver = some first ∧
      ZHL16_CalculateAscendPlan (fun _ => 1 / 2) 4 first = some first :=
  (planAscent_saturated (fun _ => 1 / 2)).elim fun st h =>
    ⟨_, calculate_saturated _ st h.1,
      ZHL16_CalculateAscendPlan_idempotent.1 _ 4 saturatedDiver _
        (calculate_saturated _ st h.1)⟩

theorem needsDecoStop_iff (model : ZHL16Model) :
    ZHL16_NeedsDecoStop model = false ↔ (ZHL16_GetCeiling model).2 ≤ 0 := by
  unfold ZHL16_NeedsDecoStop
  rw [decide_eq_false_iff_not, not_lt]

theorem toUInt16_floor (q : ℚ) (h0 : 0 ≤ q) (h1 : q < 65536) :
    ((toUInt16 q : Nat) : ℚ) ≤ q ∧ q < ((toUInt16 q : Nat) : ℚ) + 1 := by
  have hfl : 0 ≤ ⌊q⌋ := Int.floor_nonneg.mpr h0
  have hlt : ⌊q⌋ < 65536 := by
    rw [Int.floor_lt]
    exact_mod_cast h1
  have hnat : (⌊q⌋.toNat : ℤ) = ⌊q⌋ := Int.toNat_of_nonneg hfl
  have hmod : toUInt16 q = ⌊q⌋.toNat := by
    unfold toUInt16
    apply Nat.mod_eq_of_lt
    omega
  have hcast : ((toUInt16 q : Nat) : ℚ) = ((⌊q⌋ : ℤ) : ℚ) := by
    rw [hmod]
    exact_mod_cast hnat
  rw [hcast]
  exact ⟨Int.floor_le q, Int.lt_floor_add_one q⟩

/-- C14: when no deco stop is needed, which is when the ceiling is not
positive, `ZHL16_CalculateAscendPlan` returns (whatever the fuel) the model
with an empty plan: `num_stops = 0`, `first_stop_depth = 0`, `is_valid = true`
and `tts = (uint16_t)(current_depth / ascent_rate)`, the whole minutes of
`current_depth / ascent_rate` when that quotient is in the range of the
field. -/
theorem ZHL16_CalculateAscendPlan_no_stop (expf : ℚ → ℚ) (fuel : Nat) (model : ZHL16Model)
    (h : ZHL16_NeedsDecoStop model = false) :
    (ZHL16_GetCeiling model).2 ≤ 0 ∧
    ∃ result, ZHL16_CalculateAscendPlan expf fuel model = some result ∧
      result.ascend_plan.num_stops = 0 ∧
      result.ascend_plan.first_stop_depth = 0 ∧
      result.ascend_plan.is_valid = true ∧
      result.ascend_plan.tts = toUInt16 (model.current_depth / model.config.ascent_rate) ∧
      (0 ≤ model.current_depth / model.config.ascent_rate →
        model.current_depth / model.config.ascent_rate < 65536 →
        (result.ascend_plan.tts : ℚ) ≤ model.current_depth / model.config.ascent_rate ∧
        model.current_depth / model.config.ascent_rate < (result.ascend_plan.tts : ℚ) + 1) := by
  refine ⟨(needsDecoStop_iff model).mp h,
    { model with
      ascend_plan := { zeroPlan with
        is_valid := true
        tts := toUInt16 (model.current_depth / model.config.ascent_rate) } },
    ?_, rfl, rfl, rfl, rfl, ?_⟩
  · have h0 : ZHL16_NeedsDecoStop { model with ascend_plan := zeroPlan } = false := h
    unfold ZHL16_CalculateAscendPlan
    simp only [h0, if_true]
  · intro hq0 hq1
    exact toUInt16_floor _ hq0 hq1

theorem airDiver_gf (depth pN2 : ℚ) (hd : 0 < depth) : currentGF (airDiver depth pN2) = 30 := by
  unfold currentGF
  have h1 : (airDiver depth pN2).current_depth = depth := rfl
  have h2 : (airDiver depth pN2).max_depth = depth := rfl
  have h3 : (airDiver depth pN2).config.gf_low = 30 := rfl
  rw [h1, h2, h3, if_neg (not_le.mpr hd)]
  simp

theorem freshDiver_rawCeiling :
    freshDiver.compartments.foldl (ceilingStep freshDiver) 0 = 0 := by
  have hstep : ∀ (acc : ℚ) (row : ℚ × ℚ × ℚ × ℚ),
      ceilingStep freshDiver acc (compartmentOfRow (750737 / 1000000) row)
        = max acc (((750737 / 1000000 - row.2.2.1 * (30 / 100))
            / (1 / row.2.2.2 - 30 / 100 + 1) - 1013 / 1000) * 10) :=
    fun acc row => ceilingStep_N2 freshDiver acc _ row (by norm_num)
      (airDiver_gf 30 _ (by norm_num))
  show (ZHL16B_rows.map (compartmentOfRow (750737 / 1000000))).foldl
    (ceilingStep freshDiver) 0 = _
  simp only [ZHL16B_rows, List.map_cons, List.map_nil, List.foldl_cons, List.foldl_nil, hstep]
  norm_num

theorem freshDiver_ceiling : ceilingValue freshDiver = 0 := by
  unfold ceilingValue
  rw [freshDiver_rawCeiling]
  simp

theorem freshDiver_needs : ZHL16_NeedsDecoStop freshDiver = false := by
  rw [needsDecoStop_iff]
  exact le_of_eq freshDiver_ceiling

theorem ZHL16_CalculateAscendPlan_no_stop_witness :
    (ZHL16_GetCeiling freshDiver).2 ≤ 0 ∧
    ∃ result, ZHL16_CalculateAscendPlan (fun _ => 1 / 2) 0 freshDiver = some result ∧
      result.ascend_plan.num_stops = 0 ∧
      result.ascend_plan.first_stop_depth = 0 ∧
      result.ascend_plan.is_valid = true ∧
      result.ascend_plan.tts
        = toUInt16 (freshDiver.current_depth / freshDiver.config.ascent_rate) ∧
      (0 ≤ freshDiver.current_depth / freshDiver.config.ascent_rate →
        freshDiver.current_depth / freshDiver.config.ascent_rate < 65536 →
        (result.ascend_plan.tts : ℚ) ≤ freshDiver.current_depth / freshDiver.config.ascent_rate ∧
        freshDiver.current_depth / freshDiver.config.ascent_rate
          < (result.ascend_plan.tts : ℚ) + 1) :=
  ZHL16_CalculateAscendPlan_no_stop (fun _ => 1 / 2) 0 freshDiver freshDiver_needs

/-! ## The no-decompression limit -/

theorem ndlRemaining_pos (logf : ℚ → ℚ) (hlog : ∀ x, 0 < x → x < 1 → logf x < 0)
    (m_value inspired pressure half_time ndl : ℚ) (hh : 0 < half_time)
    (hins : inspired > pressure) (hm : pressure < m_value) (hndl : 0 < ndl) (hle : ndl ≤ 999) :
    0 < ndlRemaining logf m_value inspired pressure half_time ndl ∧
      ndlRemaining logf m_value inspired pressure half_time ndl ≤ 999 := by
  unfold ndlRemaining
  dsimp only
  split_ifs with hx hr
  · have hden : pressure - inspired < 0 := by linarith
    have hx1 : (m_value - inspired) / (pressure - inspired) < 1 := by
      rw [div_lt_one_of_neg hden]
      linarith
    have hl := hlog _ hx hx1
    have hk : (0 : ℚ) < 693147 / 1000000 / half_time := by positivity
    exact ⟨div_pos (by linarith) hk, le_trans hr.le hle⟩
  · exact ⟨hndl, hle⟩
  · exact ⟨hndl, hle⟩

theorem ndlStep_pos (logf : ℚ → ℚ) (hlog : ∀ x, 0 < x → x < 1 → logf x < 0)
    (model : ZHL16Model) (ndl : ℚ) (comp : Compartment)
    (hN : 0 < comp.half_time_N2) (hH : 0 < comp.half_time_He)
    (hndl : 0 < ndl) (hle : ndl ≤ 999) :
    0 < ndlStep logf model ndl comp ∧ ndlStep logf model ndl comp ≤ 999 := by
  have h1 : 0 < ndlStepN2 logf model ndl comp ∧ ndlStepN2 logf model ndl comp ≤ 999 := by
    unfold ndlStepN2
    dsimp only
    split_ifs with hc
    · exact ndlRemaining_pos logf hlog _ _ _ _ _ hN hc.1 hc.2 hndl hle
    · exact ⟨hndl, hle⟩
  unfold ndlStep ndlStepHe
  dsimp only
  split_ifs with hc2 hc3
  · exact ndlRemaining_pos logf hlog _ _ _ _ _ hH hc2.2 hc3 h1.1 h1.2
  · exact h1
  · exact h1

theorem ndlFold_pos (logf : ℚ → ℚ) (hlog : ∀ x, 0 < x → x < 1 → logf x < 0)
    (model : ZHL16Model) (comps : List Compartment)
    (hh : ∀ comp ∈ comps, 0 < comp.half_time_N2 ∧ 0 < comp.half_time_He)
    (ndl : ℚ) (hndl : 0 < ndl) (hle : ndl ≤ 999) :
    0 < comps.foldl (ndlStep logf model) ndl ∧ comps.foldl (ndlStep logf model) ndl ≤ 999 := by
  induction comps generalizing ndl with
  | nil => exact ⟨hndl, hle⟩
  | cons c cs ih =>
    rw [List.foldl_cons]
    have hc := hh c (List.mem_cons_self _ _)
    have hs := ndlStep_pos logf hlog model ndl c hc.1 hc.2 hndl hle
    exact ih (fun comp hm => hh comp (List.mem_cons_of_mem _ hm)) _ hs.1 hs.2

/-- C15: `ZHL16_GetNDL` returns 0 whenever a stop is needed (the ceiling is
greater than 0); whenever no stop is needed the value it returns is strictly
positive and at most the default 999; so it returns 0 if and only if the
ceiling is greater than 0. Stated for compartments with positive half-times
and a `logf` that is negative between 0 and 1. -/
theorem ZHL16_GetNDL_zero_iff (logf : ℚ → ℚ) (hlog : ∀ x, 0 < x → x < 1 → logf x < 0)
    (model : ZHL16Model)
    (hh : ∀ comp ∈ model.compartments, 0 < comp.half_time_N2 ∧ 0 < comp.half_time_He) :
    (0 < (ZHL16_GetCeiling model).2 → (ZHL16_GetNDL logf model).2 = 0) ∧
    (¬ 0 < (ZHL16_GetCeiling model).2 →
      0 < (ZHL16_GetNDL logf model).2 ∧ (ZHL16_GetNDL logf model).2 ≤ 999) ∧
    ((ZHL16_GetNDL logf model).2 = 0 ↔ 0 < (ZHL16_GetCeiling model).2) := by
  have hzero : 0 < (ZHL16_GetCeiling model).2 → (ZHL16_GetNDL logf model).2 = 0 := by
    intro hc
    have hn : ZHL16_NeedsDecoStop model = true := decide_eq_true hc
    unfold ZHL16_GetNDL
    rw [if_pos hn]
  have hpos : ¬ 0 < (ZHL16_GetCeiling model).2 →
      0 < (ZHL16_GetNDL logf model).2 ∧ (ZHL16_GetNDL logf model).2 ≤ 999 := by
    intro hc
    have hn : ¬ ZHL16_NeedsDecoStop model = true := by
      intro h
      exact hc (of_decide_eq_true h)
    unfold ZHL16_GetNDL
    rw [if_neg hn]
    exact ndlFold_pos logf hlog model _ hh 999 (by norm_num) (le_refl _)
  refine ⟨hzero, hpos, ?_, hzero⟩
  intro h0
  by_contra hc
  have := (hpos hc).1
  rw [h0] at this
  exact lt_irrefl _ this

theorem ZHL16B_rows_sane : ∀ row ∈ ZHL16B_rows,
    0 < row.1 ∧ 0 < row.2.1 ∧ 0 < row.2.2.1 ∧ 0 < row.2.2.2 := by
  intro row hrow
  simp only [ZHL16B_rows, List.mem_cons, List.mem_singleton, List.not_mem_nil, or_false] at hrow
  rcases hrow with h | h | h | h | h | h | h | h | h | h | h | h | h | h | h | h <;>
    subst h <;> norm_num

theorem airDiver_half_times (depth pN2 : ℚ) :
    ∀ comp ∈ (airDiver depth pN2).compartments,
      0 < comp.half_time_N2 ∧ 0 < comp.half_time_He := by
  intro comp hmem
  obtain ⟨row, hrow, rfl⟩ := List.mem_map.mp hmem
  have h := ZHL16B_rows_sane row hrow
  exact ⟨h.1, h.2.1⟩

theorem ZHL16_GetNDL_zero_iff_witness :
    (0 < (ZHL16_GetCeiling freshDiver).2 → (ZHL16_GetNDL (fun x => x - 1) freshDiver).2 = 0) ∧
    (¬ 0 < (ZHL16_GetCeiling freshDiver).2 →
      0 < (ZHL16_GetNDL (fun x => x - 1) freshDiver).2 ∧
      (ZHL16_GetNDL (fun x => x - 1) freshDiver).2 ≤ 999) ∧
    ((ZHL16_GetNDL (fun x => x - 1) freshDiver).2 = 0 ↔ 0 < (ZHL16_GetCeiling freshDiver).2) :=
  ZHL16_GetNDL_zero_iff (fun x => x - 1) (fun x _ h1 => by show x - 1 < 0; linarith) freshDiver
    (airDiver_half_times 30 _)

/-! ## The ceiling -/

theorem ceilingStep_eq (model : ZHL16Model) (acc : ℚ) (comp : Compartment) :
    ceilingStep model acc comp
      = if comp.pressure_N2 + comp.pressure_He ≤ 0 then acc
        else max acc (compCeiling model comp) := by
  unfold ceilingStep compCeiling
  dsimp only
  split_ifs with h1 h2
  · rfl
  · exact (max_eq_right (le_of_lt h2)).symm
  · exact (max_eq_left (not_lt.mp h2)).symm

theorem ceilingFold_eq (model : ZHL16Model) (comps : List Compartment) (acc : ℚ) :
    comps.foldl (ceilingStep model) acc
      = ((comps.filter (fun comp => decide (0 < comp.pressure_N2 + comp.pressure_He))).map
          (compCeiling model)).foldl max acc := by
  induction comps generalizing acc with
  | nil => rfl
  | cons c cs ih =>
    rw [List.foldl_cons, ih, ceilingStep_eq]
    by_cases h : c.pressure_N2 + c.pressure_He ≤ 0
    · rw [if_pos h, List.filter_cons_of_neg (by simpa using h)]
    · rw [if_neg h, List.filter_cons_of_pos (by simpa using h)]
      rfl

theorem foldl_max_ge_acc (l : List ℚ) (acc : ℚ) : acc ≤ l.foldl max acc := by
  induction l generalizing acc with
  | nil => exact le_refl _
  | cons x xs ih => exact le_trans (le_max_left acc x) (ih (max acc x))

theorem foldl_max_ge_mem (l : List ℚ) (acc x : ℚ) (hx : x ∈ l) : x ≤ l.foldl max acc := by
  induction l generalizing acc with
  | nil => cases hx
  | cons y ys ih =>
    rcases List.mem_cons.mp hx with rfl | h
    · exact le_trans (le_max_right acc x) (foldl_max_ge_acc ys (max acc x))
    · exact ih (max acc y) h

theorem foldl_max_cases (l : List ℚ) (acc : ℚ) :
    l.foldl max acc = acc ∨ l.foldl max acc ∈ l := by
  induction l generalizing acc with
  | nil => exact Or.inl rfl
  | cons y ys ih =>
    rw [List.foldl_cons]
    rcases ih (max acc y) with h | h
    · rw [h]
      rcases max_choice acc y with h1 | h1
      · exact Or.inl h1
      · rw [h1]; exact Or.inr (List.mem_cons_self _ _)
    · exact Or.inr (List.mem_cons_of_mem _ h)

theorem rawCeiling_eq (model : ZHL16Model) :
    model.compartments.foldl (ceilingStep model) 0 = (compCeilings model).foldl max 0 :=
  ceilingFold_eq model model.compartments 0

theorem rawCeiling_of_max (model : ZHL16Model) (M : ℚ) (hM : M ∈ compCeilings model)
    (hmax : ∀ x ∈ compCeilings model, x ≤ M) (hpos : 0 < M) :
    model.compartments.foldl (ceilingStep model) 0 = M := by
  rw [rawCeiling_eq]
  apply le_antisymm
  · rcases foldl_max_cases (compCeilings model) 0 with h | h
    · rw [h]; exact hpos.le
    · exact hmax _ h
  · exact foldl_max_ge_mem _ 0 M hM

theorem rawCeiling_of_nonpos (model : ZHL16Model) (h : ∀ x ∈ compCeilings model, x ≤ 0) :
    model.compartments.foldl (ceilingStep model) 0 = 0 := by
  rw [rawCeiling_eq]
  rcases foldl_max_cases (compCeilings model) 0 with h0 | h0
  · exact h0
  · exact le_antisymm (h _ h0) (foldl_max_ge_acc _ 0)

/-- C17: for `last_stop_depth > 0`, `ZHL16_GetCeiling` returns 0 when no
compartment ceiling `(P_tolerated − surface_pressure)·10` is positive, and
otherwise returns the least whole multiple of `last_stop_depth` that is at
least the maximum `M` of the compartment ceilings; the result is never
negative, never below any compartment ceiling, and is the value stored in
`model.ceiling`. (The maximum runs over the compartments that the loop does
not skip, those with a positive total inert pressure.) -/
theorem ZHL16_GetCeiling_rounding (model : ZHL16Model)
    (hl : 0 < model.config.last_stop_depth) :
    ((∀ x ∈ compCeilings model, x ≤ 0) → (ZHL16_GetCeiling model).2 = 0) ∧
    (∀ M ∈ compCeilings model, (∀ x ∈ compCeilings model, x ≤ M) → 0 < M →
      ∃ k : ℤ, (ZHL16_GetCeiling model).2 = (k : ℚ) * model.config.last_stop_depth ∧
        M ≤ (k : ℚ) * model.config.last_stop_depth ∧
        ∀ j : ℤ, M ≤ (j : ℚ) * model.config.last_stop_depth →
          (k : ℚ) * model.config.last_stop_depth ≤ (j : ℚ) * model.config.last_stop_depth) ∧
    0 ≤ (ZHL16_GetCeiling model).2 ∧
    (∀ x ∈ compCeilings model, x ≤ (ZHL16_GetCeiling model).2) ∧
    (ZHL16_GetCeiling model).1.ceiling = (ZHL16_GetCeiling model).2 := by
  have hval : (ZHL16_GetCeiling model).2 = ceilingValue model := rfl
  have hround : ∀ r : ℚ, 0 < r →
      r ≤ (⌈r / model.config.last_stop_depth⌉ : ℚ) * model.config.last_stop_depth := by
    intro r _
    have := Int.le_ceil (r / model.config.last_stop_depth)
    rwa [div_le_iff₀ hl] at this
  have hraw0 : 0 ≤ model.compartments.foldl (ceilingStep model) 0 := by
    rw [rawCeiling_eq]; exact foldl_max_ge_acc _ 0
  have hge : model.compartments.foldl (ceilingStep model) 0 ≤ ceilingValue model := by
    unfold ceilingValue
    dsimp only
    split_ifs with h
    · exact hround _ h
    · exact le_refl _
  refine ⟨?_, ?_, ?_, ?_, rfl⟩
  · intro h
    rw [hval]
    unfold ceilingValue
    rw [rawCeiling_of_nonpos model h]
    simp
  · intro M hM hmax hpos
    rw [hval]
    unfold ceilingValue
    rw [rawCeiling_of_max model M hM hmax hpos]
    dsimp only
    rw [if_pos hpos]
    refine ⟨⌈M / model.config.last_stop_depth⌉, rfl, hround M hpos, ?_⟩
    intro j hj
    have hle : ⌈M / model.config.last_stop_depth⌉ ≤ j := by
      rw [Int.ceil_le, div_le_iff₀ hl]
      exact hj
    have : ((⌈M / model.config.last_stop_depth⌉ : ℤ) : ℚ) ≤ (j : ℚ) := by exact_mod_cast hle
    exact mul_le_mul_of_nonneg_right this hl.le
  · rw [hval]; exact le_trans hraw0 hge
  · intro x hx
    rw [hval]
    refine le_trans ?_ hge
    rw [rawCeiling_eq]
    exact foldl_max_ge_mem _ 0 x hx

theorem ZHL16_GetCeiling_rounding_witness :
    ((∀ x ∈ compCeilings saturatedDiver, x ≤ 0) → (ZHL16_GetCeiling saturatedDiver).2 = 0) ∧
    (∀ M ∈ compCeilings saturatedDiver, (∀ x ∈ compCeilings saturatedDiver, x ≤ M) → 0 < M →
      ∃ k : ℤ, (ZHL16_GetCeiling saturatedDiver).2
          = (k : ℚ) * saturatedDiver.config.last_stop_depth ∧
        M ≤ (k : ℚ) * saturatedDiver.config.last_stop_depth ∧
        ∀ j : ℤ, M ≤ (j : ℚ) * saturatedDiver.config.last_stop_depth →
          (k : ℚ) * saturatedDiver.config.last_stop_depth
            ≤ (j : ℚ) * saturatedDiver.config.last_stop_depth) ∧
    0 ≤ (ZHL16_GetCeiling saturatedDiver).2 ∧
    (∀ x ∈ compCeilings saturatedDiver, x ≤ (ZHL16_GetCeiling saturatedDiver).2) ∧
    (ZHL16_GetCeiling saturatedDiver).1.ceiling = (ZHL16_GetCeiling saturatedDiver).2 :=
  ZHL16_GetCeiling_rounding saturatedDiver (by rw [saturated_lsd]; norm_num)

/-! ## Tissue pressures stay non-negative -/

theorem initCompartment_half_times (surface_pressure : ℚ) (use_zhl16c : Bool) (i : Nat)
    (hi : i < NUM_COMPARTMENTS) :
    0 < (initCompartment surface_pressure use_zhl16c i).half_time_N2 ∧
      0 < (initCompartment surface_pressure use_zhl16c i).half_time_He := by
  have hB : ∀ x ∈ ZHL16B_N2_halftimes, (0 : ℚ) < x := by
    norm_num [ZHL16B_N2_halftimes]
  have hC : ∀ x ∈ ZHL16C_N2_halftimes, (0 : ℚ) < x := by
    norm_num [ZHL16C_N2_halftimes]
  have hHe : ∀ x ∈ ZHL16B_He_halftimes, (0 : ℚ) < x := by
    norm_num [ZHL16B_He_halftimes]
  have hiB : i < ZHL16B_N2_halftimes.length := hi
  have hiC : i < ZHL16C_N2_halftimes.length := hi
  have hiHe : i < ZHL16B_He_halftimes.length := hi
  unfold initCompartment
  dsimp only
  rw [List.getD_eq_getElem _ 0 hiB, List.getD_eq_getElem _ 0 hiC, List.getD_eq_getElem _ 0 hiHe]
  refine ⟨?_, hHe _ (List.getElem_mem hiHe)⟩
  split_ifs
  · exact hC _ (List.getElem_mem hiC)
  · exact hB _ (List.getElem_mem hiB)

/-- One Schreiner step keeps non-negative pressures non-negative when the
inspired pressures are non-negative. -/
theorem updateCompartment_nonneg (expf : ℚ → ℚ) (hexp : ExpfUnit expf) (model : ZHL16Model)
    (t : ℚ) (ht : 0 ≤ t) (comp : Compartment)
    (hN : 0 < comp.half_time_N2) (hH : 0 < comp.half_time_He)
    (hpN : 0 ≤ comp.pressure_N2) (hpH : 0 ≤ comp.pressure_He)
    (hiN : 0 ≤ inspiredN2 model) (hiH : 0 ≤ inspiredHe model) :
    0 ≤ (updateCompartment expf model t comp).pressure_N2 ∧
      0 ≤ (updateCompartment expf model t comp).pressure_He := by
  have hargN : -(693147 / 1000000 / comp.half_time_N2) * t ≤ 0 := by
    have : 0 ≤ 693147 / 1000000 / comp.half_time_N2 * t := by positivity
    linarith
  have hargH : -(693147 / 1000000 / comp.half_time_He) * t ≤ 0 := by
    have : 0 ≤ 693147 / 1000000 / comp.half_time_He * t := by positivity
    linarith
  obtain ⟨e1, e2⟩ := hexp _ hargN
  obtain ⟨e3, e4⟩ := hexp _ hargH
  unfold updateCompartment
  dsimp only
  constructor
  · nlinarith [mul_nonneg hpN e1, mul_nonneg hiN (sub_nonneg.mpr e2)]
  · nlinarith [mul_nonneg hpH e3, mul_nonneg hiH (sub_nonneg.mpr e4)]

theorem inspired_nonneg (model : ZHL16Model) (henv : breathingWithinAmbient model)
    (hwv : model.water_vapor_pressure ≤ model.surface_pressure) :
    0 ≤ inspiredN2 model ∧ 0 ≤ inspiredHe model := by
  obtain ⟨⟨hamb, _, _, hN0, _, hH0, _, _⟩, hccr⟩ := henv
  unfold inspiredN2 inspiredHe
  dsimp only
  by_cases hm : model.ccr_mode = true
  · have hdp : 0 ≤ model.ambient_pressure - model.actual_ppO2 := sub_nonneg.mpr (hccr hm)
    rw [if_pos hm, if_pos hm]
    split_ifs with hti
    · exact ⟨mul_nonneg hdp (div_nonneg hN0 hti.le), mul_nonneg hdp (div_nonneg hH0 hti.le)⟩
    · exact ⟨le_refl _, le_refl _⟩
  · rw [if_neg hm, if_neg hm]
    have : 0 ≤ model.ambient_pressure - model.water_vapor_pressure := by linarith
    exact ⟨mul_nonneg this hN0, mul_nonneg this hH0⟩

/-- What the non-negativity proof carries along: the constants of the model,
positive half-times and non-negative pressures. -/
theorem tissueReachable_nonneg (expf : ℚ → ℚ) (hexp : ExpfUnit expf) (surface_pressure : ℚ)
    (hs : 627 / 10000 ≤ surface_pressure) (use_zhl16c : Bool) (model : ZHL16Model)
    (h : TissueReachable expf breathingWithinAmbient surface_pressure use_zhl16c model) :
    model.surface_pressure = surface_pressure ∧ model.water_vapor_pressure = 627 / 10000 ∧
    ∀ comp ∈ model.compartments,
      0 < comp.half_time_N2 ∧ 0 < comp.half_time_He ∧
      0 ≤ comp.pressure_N2 ∧ 0 ≤ comp.pressure_He := by
  induction h with
  | init =>
    refine ⟨rfl, rfl, ?_⟩
    intro comp hmem
    obtain ⟨i, hi, rfl⟩ := List.mem_map.mp hmem
    have hlt : i < NUM_COMPARTMENTS := List.mem_range.mp hi
    have hh := initCompartment_half_times surface_pressure use_zhl16c i hlt
    refine ⟨hh.1, hh.2, ?_, le_refl _⟩
    show 0 ≤ (surface_pressure - 627 / 10000) * (79 / 100)
    have : 0 ≤ surface_pressure - 627 / 10000 := by linarith
    positivity
  | update m m1 dt _ hcomp hsurf hwv henv hdt ih =>
    obtain ⟨ihs, ihw, ihc⟩ := ih
    refine ⟨hsurf.trans ihs, hwv.trans ihw, ?_⟩
    intro comp hmem
    rw [updateTissues_compartments, hcomp] at hmem
    obtain ⟨c0, hc0, rfl⟩ := List.mem_map.mp hmem
    obtain ⟨h1, h2, h3, h4⟩ := ihc c0 hc0
    have hins := inspired_nonneg m1 henv (by rw [hwv, hsurf, ihw, ihs]; exact hs)
    have hnn := updateCompartment_nonneg expf hexp m1 (dt / 60) (by positivity) c0 h1 h2 h3 h4
      hins.1 hins.2
    exact ⟨h1, h2, hnn.1, hnn.2⟩

/-- C18 (amended): starting from `ZHL16_Init` with `surface_pressure >= 0.0627`
bar, after every sequence of `ZHL16_UpdateTissues` calls with `dt >= 0` - in
open-circuit mode, or in CCR mode with a measured ppO₂ in [0.05, 2.00] that
does not exceed the ambient pressure, at any ambient pressure at least the
surface pressure and with any gas whose fractions are in [0, 1] - every
compartment has `pressure_N2 >= 0` and `pressure_He >= 0` (for an
exponential with values in [0, 1] on non-positive arguments). -/
theorem ZHL16_UpdateTissues_nonneg (expf : ℚ → ℚ) (hexp : ExpfUnit expf)
    (surface_pressure : ℚ) (hs : 627 / 10000 ≤ surface_pressure) (use_zhl16c : Bool)
    (model : ZHL16Model)
    (h : TissueReachable expf breathingWithinAmbient surface_pressure use_zhl16c model) :
    ∀ comp ∈ model.compartments, 0 ≤ comp.pressure_N2 ∧ 0 ≤ comp.pressure_He := by
  intro comp hmem
  have := (tissueReachable_nonneg expf hexp surface_pressure hs use_zhl16c model h).2.2 comp hmem
  exact ⟨this.2.2.1, this.2.2.2⟩

theorem ccrAtThirty_within : breathingWithinAmbient ccrAtThirty := by
  unfold breathingWithinAmbient breathingAsClaimed
  simp [ccrAtThirty, ZHL16_Init, helioxOnly]
  norm_num

theorem ccrAtThirty_reachable :
    TissueReachable (fun _ => 1 / 2) breathingWithinAmbient (1013 / 1000) false
      (ZHL16_UpdateTissues (fun _ => 1 / 2) ccrAtThirty 60) :=
  TissueReachable.update (ZHL16_Init (1013 / 1000) false) ccrAtThirty 60
    TissueReachable.init rfl rfl rfl ccrAtThirty_within (by norm_num)

theorem ZHL16_UpdateTissues_nonneg_witness :
    TissueReachable (fun _ => 1 / 2) breathingWithinAmbient (1013 / 1000) false
        (ZHL16_UpdateTissues (fun _ => 1 / 2) ccrAtThirty 60) ∧
      ∀ comp ∈ (ZHL16_UpdateTissues (fun _ => 1 / 2) ccrAtThirty 60).compartments,
        0 ≤ comp.pressure_N2 ∧ 0 ≤ comp.pressure_He :=
  ⟨ccrAtThirty_reachable,
    ZHL16_UpdateTissues_nonneg (fun _ => 1 / 2) (fun _ _ => by norm_num) (1013 / 1000)
      (by norm_num) false _ ccrAtThirty_reachable⟩

theorem ccrAtSurface_claimed : breathingAsClaimed ccrAtSurface := by
  unfold breathingAsClaimed
  simp [ccrAtSurface, ZHL16_Init, helioxOnly]
  norm_num

theorem ccrAtSurface_reachable (expf : ℚ → ℚ) :
    TissueReachable expf breathingAsClaimed (1013 / 1000) false
      (ZHL16_UpdateTissues expf ccrAtSurface 60) :=
  TissueReachable.update (ZHL16_Init (1013 / 1000) false) ccrAtSurface 60 TissueReachable.init
    rfl rfl rfl ccrAtSurface_claimed (by norm_num)

theorem ccrAtSurface_inspiredHe : inspiredHe ccrAtSurface = -(987 / 1000) := by
  simp [inspiredHe, ccrAtSurface, ZHL16_Init, helioxOnly]
  norm_num

theorem ccrAtSurface_helium (expf : ℚ → ℚ) :
    ∃ comp ∈ (ZHL16_UpdateTissues expf ccrAtSurface 60).compartments,
      comp.pressure_He
        = -(987 / 1000) * (1 - expf (-(693147 / 1000000 / (151 / 100)) * (60 / 60))) := by
  refine ⟨updateCompartment expf ccrAtSurface (60 / 60)
    (initCompartment (1013 / 1000) false 0), ?_, ?_⟩
  · rw [updateTissues_compartments]
    refine List.mem_map.mpr ⟨initCompartment (1013 / 1000) false 0, ?_, rfl⟩
    exact List.mem_map.mpr ⟨0, List.mem_range.mpr (by decide), rfl⟩
  · have hh : (initCompartment (1013 / 1000) false 0).half_time_He = 151 / 100 := rfl
    have hp : (initCompartment (1013 / 1000) false 0).pressure_He = 0 := rfl
    unfold updateCompartment
    dsimp only
    rw [ccrAtSurface_inspiredHe, hh, hp]
    ring

/-- C18 (as stated) fails: after `ZHL16_Init(1.013, ZHL-16B)`, one
`ZHL16_UpdateTissues` call of 60 s at the surface in CCR mode, on a heliox
21/79 diluent with a measured ppO₂ of 2.0 bar, leaves the first compartment
with the helium pressure `-0.987 * (1 - e)`, `e` the value of `expf` at
`-(0.693147 / 1.51) * 1`: no exponential with `e < 1` keeps the pressures
non-negative. -/
theorem ZHL16_UpdateTissues_nonneg_counterexample :
    ¬ ∃ expf : ℚ → ℚ, expf (-(693147 / 1000000 / (151 / 100)) * (60 / 60)) < 1 ∧
      ∀ model, TissueReachable expf breathingAsClaimed (1013 / 1000) false model →
        ∀ comp ∈ model.compartments, 0 ≤ comp.pressure_N2 ∧ 0 ≤ comp.pressure_He := by
  rintro ⟨expf, he, hall⟩
  obtain ⟨comp, hmem, hval⟩ := ccrAtSurface_helium expf
  have h := (hall _ (ccrAtSurface_reachable expf) comp hmem).2
  rw [hval] at h
  nlinarith

/-! ## The Schreiner update: half-time and splitting -/

theorem init_compartments_rows :
    (ZHL16_Init (1013 / 1000) false).compartments
      = ZHL16B_rows.map (compartmentOfRow ((1013 / 1000 - 627 / 10000) * (79 / 100))) := rfl

theorem updateTissues_getElem (expf : ℚ → ℚ) (model : ZHL16Model) (t : ℚ) (i : Nat)
    (comp : Compartment) (h : model.compartments[i]? = some comp) :
    (ZHL16_UpdateTissues expf model t).compartments[i]?
      = some (updateCompartment expf model (t / 60) comp) := by
  rw [updateTissues_compartments, List.getElem?_map, h]
  rfl

/-- Halving within one percent: a factor within 1/200 of 1/2 leaves a
distance within 1 % of half the distance. -/
theorem half_within (d e : ℚ) (he : |e - 1 / 2| ≤ 1 / 200) :
    abs (|d * e| - |d| / 2) ≤ 1 / 100 * (|d| / 2) := by
  have he1 := (abs_le.mp he).1
  have he2 := (abs_le.mp he).2
  have hepos : 0 ≤ e := by linarith
  rw [abs_mul, abs_of_nonneg hepos]
  have hd : 0 ≤ |d| := abs_nonneg d
  have : |d| * e - |d| / 2 = |d| * (e - 1 / 2) := by ring
  rw [this, abs_mul, abs_of_nonneg hd]
  calc |d| * |e - 1 / 2| ≤ |d| * (1 / 200) := mul_le_mul_of_nonneg_left he hd
    _ = 1 / 100 * (|d| / 2) := by ring

theorem updateCompartment_split (expf : ℚ → ℚ) (model model1 : ZHL16Model) (t1 t2 : ℚ)
    (comp : Compartment)
    (hiN : inspiredN2 model1 = inspiredN2 model) (hiH : inspiredHe model1 = inspiredHe model)
    (hamb : model1.ambient_pressure = model.ambient_pressure)
    (hN : expf (-(693147 / 1000000 / comp.half_time_N2) * ((t1 + t2) / 60))
      = expf (-(693147 / 1000000 / comp.half_time_N2) * (t1 / 60))
        * expf (-(693147 / 1000000 / comp.half_time_N2) * (t2 / 60)))
    (hH : expf (-(693147 / 1000000 / comp.half_time_He) * ((t1 + t2) / 60))
      = expf (-(693147 / 1000000 / comp.half_time_He) * (t1 / 60))
        * expf (-(693147 / 1000000 / comp.half_time_He) * (t2 / 60))) :
    updateCompartment expf model1 (t2 / 60) (updateCompartment expf model (t1 / 60) comp)
      = updateCompartment expf model ((t1 + t2) / 60) comp := by
  have hpN : (updateCompartment expf model1 (t2 / 60)
      (updateCompartment expf model (t1 / 60) comp)).pressure_N2
      = (updateCompartment expf model ((t1 + t2) / 60) comp).pressure_N2 := by
    unfold updateCompartment
    dsimp only
    rw [hN, hiN]
    ring
  have hpH : (updateCompartment expf model1 (t2 / 60)
      (updateCompartment expf model (t1 / 60) comp)).pressure_He
      = (updateCompartment expf model ((t1 + t2) / 60) comp).pressure_He := by
    unfold updateCompartment
    dsimp only
    rw [hH, hiH]
    ring
  unfold updateCompartment at hpN hpH ⊢
  dsimp only at hpN hpH ⊢
  rw [hpN, hpH, hamb]

/-- The real exponential is within 1/200 of 1/2 at `-0.693147`, the constant
the update uses for `ln 2`. -/
theorem exp_half_time_constant :
    |Real.exp (-(693147 / 1000000 : ℝ)) - 1 / 2| ≤ 1 / 200 := by
  have hlo := Real.log_two_gt_d9
  have hhi := Real.log_two_lt_d9
  have h2 : Real.exp (Real.log 2) = 2 := Real.exp_log (by norm_num)
  have hsplit : Real.exp (-(693147 / 1000000 : ℝ))
      = Real.exp (Real.log 2 - 693147 / 1000000) / 2 := by
    rw [Real.exp_sub, h2]
    rw [Real.exp_neg]
    field_simp
  have hd0 : 0 ≤ Real.log 2 - 693147 / 1000000 := by linarith
  have hd1 : Real.log 2 - 693147 / 1000000 ≤ 1 / 1000000 := by linarith
  have hge : 1 ≤ Real.exp (Real.log 2 - 693147 / 1000000) := Real.one_le_exp hd0
  have hle : Real.exp (Real.log 2 - 693147 / 1000000) ≤ 101 / 100 := by
    have h := Real.add_one_le_exp (-(Real.log 2 - 693147 / 1000000))
    rw [Real.exp_neg] at h
    have hpos := Real.exp_pos (Real.log 2 - 693147 / 1000000)
    have h3 : (1 - 1 / 1000000 : ℝ) ≤ (Real.exp (Real.log 2 - 693147 / 1000000))⁻¹ := by
      linarith
    have h4 : Real.exp (Real.log 2 - 693147 / 1000000) ≤ (1 - 1 / 1000000 : ℝ)⁻¹ := by
      rw [le_inv_comm₀ hpos (by norm_num)]
      exact h3
    have h5 : (1 - 1 / 1000000 : ℝ)⁻¹ ≤ 101 / 100 := by norm_num
    linarith
  rw [hsplit, abs_le]
  constructor <;> linarith

/-- C19: for every compartment, one `ZHL16_UpdateTissues` call computes
`p' = p_insp + (p - p_insp) * expf (-k * dt_min)` with `k = 0.693147 /
half_time` for each inert gas; a call covering exactly the compartment's
half-time (`half_time_N2 * 60` seconds for N₂, `half_time_He * 60` seconds for
He) leaves `|p' - p_insp|` within 1 % of half of `|p - p_insp|`, as soon as
`expf (-0.693147)` is within 1/200 of 1/2; and two consecutive updates give
the same compartments as one update of the total length wherever `expf` is
multiplicative at the arguments of the three calls. -/
theorem ZHL16_UpdateTissues_half_time (expf : ℚ → ℚ) (model : ZHL16Model) :
    (∀ (t : ℚ) (i : Nat) (comp : Compartment), model.compartments[i]? = some comp →
      ∃ comp1, (ZHL16_UpdateTissues expf model t).compartments[i]? = some comp1 ∧
        comp1.pressure_N2 = inspiredN2 model + (comp.pressure_N2 - inspiredN2 model)
          * expf (-(693147 / 1000000 / comp.half_time_N2) * (t / 60)) ∧
        comp1.pressure_He = inspiredHe model + (comp.pressure_He - inspiredHe model)
          * expf (-(693147 / 1000000 / comp.half_time_He) * (t / 60))) ∧
    (|expf (-(693147 / 1000000)) - 1 / 2| ≤ 1 / 200 →
      ∀ (i : Nat) (comp : Compartment), model.compartments[i]? = some comp →
        (comp.half_time_N2 ≠ 0 →
          ∃ comp1, (ZHL16_UpdateTissues expf model (comp.half_time_N2 * 60)).compartments[i]?
              = some comp1 ∧
            abs (|comp1.pressure_N2 - inspiredN2 model|
                - |comp.pressure_N2 - inspiredN2 model| / 2)
              ≤ 1 / 100 * (|comp.pressure_N2 - inspiredN2 model| / 2)) ∧
        (comp.half_time_He ≠ 0 →
          ∃ comp1, (ZHL16_UpdateTissues expf model (comp.half_time_He * 60)).compartments[i]?
              = some comp1 ∧
            abs (|comp1.pressure_He - inspiredHe model|
                - |comp.pressure_He - inspiredHe model| / 2)
              ≤ 1 / 100 * (|comp.pressure_He - inspiredHe model| / 2))) ∧
    (∀ t1 t2 : ℚ,
      (∀ comp ∈ model.compartments,
        expf (-(693147 / 1000000 / comp.half_time_N2) * ((t1 + t2) / 60))
          = expf (-(693147 / 1000000 / comp.half_time_N2) * (t1 / 60))
            * expf (-(693147 / 1000000 / comp.half_time_N2) * (t2 / 60)) ∧
        expf (-(693147 / 1000000 / comp.half_time_He) * ((t1 + t2) / 60))
          = expf (-(693147 / 1000000 / comp.half_time_He) * (t1 / 60))
            * expf (-(693147 / 1000000 / comp.half_time_He) * (t2 / 60))) →
      (ZHL16_UpdateTissues expf (ZHL16_UpdateTissues expf model t1) t2).compartments
        = (ZHL16_UpdateTissues expf model (t1 + t2)).compartments) := by
  refine ⟨?_, ?_, ?_⟩
  · intro t i comp h
    exact ⟨_, updateTissues_getElem expf model t i comp h, rfl, rfl⟩
  · intro hexp i comp h
    constructor
    · intro hne
      refine ⟨_, updateTissues_getElem expf model _ i comp h, ?_⟩
      have harg : -(693147 / 1000000 / comp.half_time_N2) * (comp.half_time_N2 * 60 / 60)
          = -(693147 / 1000000) := by
        field_simp
        ring
      have hp : (updateCompartment expf model (comp.half_time_N2 * 60 / 60) comp).pressure_N2
          - inspiredN2 model
          = (comp.pressure_N2 - inspiredN2 model) * expf (-(693147 / 1000000)) := by
        unfold updateCompartment
        dsimp only
        rw [harg]
        ring
      rw [hp]
      exact half_within _ _ hexp
    · intro hne
      refine ⟨_, updateTissues_getElem expf model _ i comp h, ?_⟩
      have harg : -(693147 / 1000000 / comp.half_time_He) * (comp.half_time_He * 60 / 60)
          = -(693147 / 1000000) := by
        field_simp
        ring
      have hp : (updateCompartment expf model (comp.half_time_He * 60 / 60) comp).pressure_He
          - inspiredHe model
          = (comp.pressure_He - inspiredHe model) * expf (-(693147 / 1000000)) := by
        unfold updateCompartment
        dsimp only
        rw [harg]
        ring
      rw [hp]
      exact half_within _ _ hexp
  · intro t1 t2 hmul
    have hins := inspired_congr (ZHL16_UpdateTissues expf model t1) model
      (updateTissues_setting expf model t1) rfl
    rw [updateTissues_compartments, updateTissues_compartments, updateTissues_compartments,
      List.map_map]
    apply List.map_congr_left
    intro comp hmem
    exact updateCompartment_split expf model _ t1 t2 comp hins.1 hins.2 rfl
      (hmul comp hmem).1 (hmul comp hmem).2

theorem freshDiver_first :
    freshDiver.compartments[0]? = some (compartmentOfRow (750737 / 1000000)
      (4, 151 / 100, 12599 / 10000, 5050 / 10000)) := rfl

theorem ZHL16_UpdateTissues_half_time_witness :
    (∃ comp1, (ZHL16_UpdateTissues (fun _ => 1 / 2) freshDiver (4 * 60)).compartments[0]?
        = some comp1 ∧
      abs (|comp1.pressure_N2 - inspiredN2 freshDiver|
          - |750737 / 1000000 - inspiredN2 freshDiver| / 2)
        ≤ 1 / 100 * (|750737 / 1000000 - inspiredN2 freshDiver| / 2)) ∧
    (ZHL16_UpdateTissues (fun x => if x = 0 then 1 else 0)
        (ZHL16_UpdateTissues (fun x => if x = 0 then 1 else 0) freshDiver 60) 120).compartments
      = (ZHL16_UpdateTissues (fun x => if x = 0 then 1 else 0) freshDiver (60 + 120)).compartments :=
  ⟨((ZHL16_UpdateTissues_half_time (fun _ => 1 / 2) freshDiver).2.1 (by norm_num) 0 _
      freshDiver_first).1 (by norm_num [compartmentOfRow]),
    (ZHL16_UpdateTissues_half_time (fun x => if x = 0 then 1 else 0) freshDiver).2.2 60 120
      (fun comp hmem => by
        have hh := airDiver_half_times 30 (750737 / 1000000) comp hmem
        have h1 : comp.half_time_N2 ≠ 0 := hh.1.ne.symm
        have h2 : comp.half_time_He ≠ 0 := hh.2.ne.symm
        simp [h1, h2]
        norm_num)⟩

/-! ## The dive manager: rates and the ascent-rate alarm -/

theorem updateRates_statics (now : Nat) (dm : DiveManager) (s : DiveStatics) (depth : ℚ) :
    (DiveManager_UpdateRates now dm s depth).2.last_time = now ∧
      (DiveManager_UpdateRates now dm s depth).2.last_depth = depth ∧
      (DiveManager_UpdateRates now dm s depth).2.start_time = s.start_time ∧
      (DiveManager_UpdateRates now dm s depth).2.surface_time = s.surface_time := by
  unfold DiveManager_UpdateRates
  split_ifs <;> exact ⟨rfl, rfl, rfl, rfl⟩

/-- What `DiveManager_UpdateRates` leaves alone. -/
theorem updateRates_frame (now : Nat) (dm : DiveManager) (s : DiveStatics) (depth : ℚ) :
    (DiveManager_UpdateRates now dm s depth).1.is_diving = dm.is_diving ∧
      (DiveManager_UpdateRates now dm s depth).1.fast_ascent_rate = dm.fast_ascent_rate ∧
      (DiveManager_UpdateRates now dm s depth).1.auto_start_dive = dm.auto_start_dive ∧
      (DiveManager_UpdateRates now dm s depth).1.current_dive = dm.current_dive ∧
      (DiveManager_UpdateRates now dm s depth).1.sample_counter = dm.sample_counter := by
  unfold DiveManager_UpdateRates
  dsimp only
  split_ifs <;> exact ⟨rfl, rfl, rfl, rfl, rfl⟩

theorem updateRates_first (now : Nat) (dm : DiveManager) (s : DiveStatics) (depth : ℚ)
    (h : s.last_time = 0) :
    (DiveManager_UpdateRates now dm s depth).1 = dm := by
  unfold DiveManager_UpdateRates
  rw [if_pos h]

/-- The smoothed rate after a call that follows the previous one by a
positive time: `0.7 * rate + 0.3 * (depth - last_depth) / minutes`. -/
theorem updateRates_rate (now : Nat) (dm : DiveManager) (s : DiveStatics) (depth : ℚ)
    (h : s.last_time ≠ 0) (hpos : 0 < subUInt32 now s.last_time) :
    (DiveManager_UpdateRates now dm s depth).1.ascent_rate
      = dm.ascent_rate * (7 / 10)
        + (depth - s.last_depth) / ((subUInt32 now s.last_time : ℚ) / 60) * (3 / 10) := by
  have hq : ((subUInt32 now s.last_time : ℚ) / 60) > 0 := by
    have : (0 : ℚ) < (subUInt32 now s.last_time : ℚ) := by exact_mod_cast hpos
    positivity
  unfold DiveManager_UpdateRates
  dsimp only
  rw [if_neg h, if_pos hq]
  split_ifs <;> rfl

/-- What `DiveManager_UpdateSafetyStop` leaves alone. -/
theorem updateSafetyStop_frame (t : Nat) (dm : DiveManager) (depth : ℚ) :
    (DiveManager_UpdateSafetyStop t dm depth).is_diving = dm.is_diving ∧
      (DiveManager_UpdateSafetyStop t dm depth).fast_ascent_rate = dm.fast_ascent_rate ∧
      (DiveManager_UpdateSafetyStop t dm depth).auto_start_dive = dm.auto_start_dive ∧
      (DiveManager_UpdateSafetyStop t dm depth).current_dive = dm.current_dive ∧
      (DiveManager_UpdateSafetyStop t dm depth).sample_counter = dm.sample_counter ∧
      (DiveManager_UpdateSafetyStop t dm depth).ascent_rate = dm.ascent_rate ∧
      (DiveManager_UpdateSafetyStop t dm depth).ascent_rate_alarm = dm.ascent_rate_alarm ∧
      (DiveManager_UpdateSafetyStop t dm depth).deco_ceiling_alarm = dm.deco_ceiling_alarm ∧
      (DiveManager_UpdateSafetyStop t dm depth).missed_deco_stops = dm.missed_deco_stops ∧
      (DiveManager_UpdateSafetyStop t dm depth).phase = dm.phase := by
  unfold DiveManager_UpdateSafetyStop
  dsimp only
  split_ifs <;> exact ⟨rfl, rfl, rfl, rfl, rfl, rfl, rfl, rfl, rfl, rfl⟩

/-- With room in the buffer `DiveManager_RecordSample` returns, adds one
sample, and leaves the rates, alarms and phase alone. -/
theorem recordSample_frame (dm : DiveManager) (depth temp : ℚ) (gas deco : Nat)
    (hn : dm.current_dive.num_samples < MAX_DIVE_SAMPLES) :
    ∃ dm1, DiveManager_RecordSample dm depth temp gas deco = some dm1 ∧
      dm1.is_diving = dm.is_diving ∧ dm1.fast_ascent_rate = dm.fast_ascent_rate ∧
      dm1.auto_start_dive = dm.auto_start_dive ∧
      dm1.current_dive.num_samples = dm.current_dive.num_samples + 1 ∧
      dm1.sample_counter = dm.sample_counter ∧
      dm1.ascent_rate = dm.ascent_rate ∧ dm1.ascent_rate_alarm = dm.ascent_rate_alarm ∧
      dm1.deco_ceiling_alarm = dm.deco_ceiling_alarm ∧
      dm1.missed_deco_stops = dm.missed_deco_stops ∧ dm1.phase = dm.phase := by
  unfold DiveManager_RecordSample
  rw [if_neg (not_le.mpr hn)]
  refine ⟨_, rfl, rfl, rfl, rfl, ?_, rfl, rfl, rfl, rfl, rfl, rfl⟩
  show (dm.current_dive.num_samples + 1) % 65536 = dm.current_dive.num_samples + 1
  unfold MAX_DIVE_SAMPLES at hn
  omega

/-- With room in the buffer the sample block returns, adds at most one sample
and leaves the diving flag, the configuration, the smoothed rate and the
alarm alone. -/
theorem tickSample_frame (now : Nat) (dm : DiveManager) (depth temperature : ℚ)
    (model : ZHL16Model) (hn : dm.current_dive.num_samples < MAX_DIVE_SAMPLES) :
    ∃ dm1, tickSample now dm depth temperature model = some dm1 ∧
      dm1.is_diving = dm.is_diving ∧ dm1.fast_ascent_rate = dm.fast_ascent_rate ∧
      dm1.auto_start_dive = dm.auto_start_dive ∧
      dm1.current_dive.num_samples ≤ dm.current_dive.num_samples + 1 ∧
      dm1.ascent_rate = dm.ascent_rate ∧ dm1.ascent_rate_alarm = dm.ascent_rate_alarm := by
  unfold tickSample
  generalize (if model.ceiling > 0 then model.ascend_plan.tts else 0) % 256 = deco
  split_ifs with h
  · obtain ⟨dm1, h0, h1, h2, h3, h4, _, h6, h7, _⟩ :=
      recordSample_frame dm depth temperature model.current_gas deco hn
    rw [h0]
    exact ⟨_, rfl, h1, h2, h3, h4.le, h6, h7⟩
  · exact ⟨dm, rfl, rfl, rfl, rfl, Nat.le_succ _, rfl, rfl⟩

theorem tickAscentAlarm_spec (dm : DiveManager) :
    (tickAscentAlarm dm).ascent_rate_alarm = decide (dm.ascent_rate > dm.fast_ascent_rate) ∧
      (tickAscentAlarm dm).is_diving = dm.is_diving ∧
      (tickAscentAlarm dm).fast_ascent_rate = dm.fast_ascent_rate ∧
      (tickAscentAlarm dm).auto_start_dive = dm.auto_start_dive ∧
      (tickAscentAlarm dm).current_dive = dm.current_dive ∧
      (tickAscentAlarm dm).ascent_rate = dm.ascent_rate := by
  unfold tickAscentAlarm DiveManager_CheckAscentRate
  by_cases h : dm.ascent_rate > dm.fast_ascent_rate
  · rw [if_pos (decide_eq_true h)]
    exact ⟨(decide_eq_true h).symm, rfl, rfl, rfl, rfl, rfl⟩
  · rw [if_neg (by simp [h])]
    exact ⟨(decide_eq_false h).symm, rfl, rfl, rfl, rfl, rfl⟩

theorem tickCeilingAlarm_frame (dm : DiveManager) (depth : ℚ) (model : ZHL16Model) :
    (tickCeilingAlarm dm depth model).ascent_rate_alarm = dm.ascent_rate_alarm ∧
      (tickCeilingAlarm dm depth model).is_diving = dm.is_diving ∧
      (tickCeilingAlarm dm depth model).fast_ascent_rate = dm.fast_ascent_rate ∧
      (tickCeilingAlarm dm depth model).auto_start_dive = dm.auto_start_dive ∧
      (tickCeilingAlarm dm depth model).current_dive = dm.current_dive ∧
      (tickCeilingAlarm dm depth model).ascent_rate = dm.ascent_rate := by
  unfold tickCeilingAlarm
  split_ifs <;> exact ⟨rfl, rfl, rfl, rfl, rfl, rfl⟩

theorem tickSafetyStop_frame (t : Nat) (dm : DiveManager) (depth : ℚ) :
    (tickSafetyStop t dm depth).ascent_rate_alarm = dm.ascent_rate_alarm ∧
      (tickSafetyStop t dm depth).is_diving = dm.is_diving ∧
      (tickSafetyStop t dm depth).fast_ascent_rate = dm.fast_ascent_rate ∧
      (tickSafetyStop t dm depth).auto_start_dive = dm.auto_start_dive ∧
      (tickSafetyStop t dm depth).current_dive = dm.current_dive ∧
      (tickSafetyStop t dm depth).ascent_rate = dm.ascent_rate := by
  unfold tickSafetyStop
  split_ifs
  · obtain ⟨h1, h2, h3, h4, _, h6, h7, _⟩ := updateSafetyStop_frame t dm depth
    exact ⟨h7, h1, h2, h3, h4, h6⟩
  · exact ⟨rfl, rfl, rfl, rfl, rfl, rfl⟩

/-- A diving tick with room in the sample buffer returns; the smoothed rate
is the one `DiveManager_UpdateRates` computes and the alarm is exactly
`ascent_rate > fast_ascent_rate`. -/
theorem divingTick_alarm (t now : Nat) (dm : DiveManager) (s : DiveStatics)
    (depth temperature : ℚ) (model : ZHL16Model)
    (hn : dm.current_dive.num_samples < MAX_DIVE_SAMPLES) :
    ∃ r, divingTick t now dm s depth temperature model = some r ∧
      r.2 = (DiveManager_UpdateRates now dm s depth).2 ∧
      r.1.is_diving = dm.is_diving ∧ r.1.fast_ascent_rate = dm.fast_ascent_rate ∧
      r.1.auto_start_dive = dm.auto_start_dive ∧
      r.1.current_dive.num_samples ≤ dm.current_dive.num_samples + 1 ∧
      r.1.ascent_rate = (DiveManager_UpdateRates now dm s depth).1.ascent_rate ∧
      r.1.ascent_rate_alarm = decide (r.1.ascent_rate > r.1.fast_ascent_rate) := by
  obtain ⟨u1, u2, u3, u4, _⟩ := updateRates_frame now dm s depth
  obtain ⟨a0, a1, a2, a3, a4, a5⟩ :=
    tickAscentAlarm_spec (tickAverage (DiveManager_UpdateRates now dm s depth).1 depth)
  obtain ⟨c0, c1, c2, c3, c4, c5⟩ :=
    tickCeilingAlarm_frame
      (tickAscentAlarm (tickAverage (DiveManager_UpdateRates now dm s depth).1 depth)) depth model
  obtain ⟨s0, s1, s2, s3, s4, s5⟩ :=
    tickSafetyStop_frame t
      (tickPhase (tickCeilingAlarm
        (tickAscentAlarm (tickAverage (DiveManager_UpdateRates now dm s depth).1 depth))
        depth model) depth model) depth
  have hn5 : (tickSafetyStop t
      (tickPhase (tickCeilingAlarm
        (tickAscentAlarm (tickAverage (DiveManager_UpdateRates now dm s depth).1 depth))
        depth model) depth model) depth).current_dive.num_samples < MAX_DIVE_SAMPLES := by
    rw [s4]
    show (tickCeilingAlarm _ depth model).current_dive.num_samples < MAX_DIVE_SAMPLES
    rw [c4, a4]
    show (DiveManager_UpdateRates now dm s depth).1.current_dive.num_samples < MAX_DIVE_SAMPLES
    rw [u4]
    exact hn
  obtain ⟨dm6, h0, h1, h2, h3, h4, h5, h6⟩ := tickSample_frame now _ depth temperature model hn5
  unfold divingTick
  dsimp only
  rw [h0]
  refine ⟨(dm6, _), rfl, rfl, ?_, ?_, ?_, ?_, ?_, ?_⟩
  · show dm6.is_diving = dm.is_diving
    rw [h1, s1]
    show (tickCeilingAlarm _ depth model).is_diving = _
    rw [c1, a1]
    exact u1
  · show dm6.fast_ascent_rate = dm.fast_ascent_rate
    rw [h2, s2]
    show (tickCeilingAlarm _ depth model).fast_ascent_rate = _
    rw [c2, a2]
    exact u2
  · show dm6.auto_start_dive = dm.auto_start_dive
    rw [h3, s3]
    show (tickCeilingAlarm _ depth model).auto_start_dive = _
    rw [c3, a3]
    exact u3
  · show dm6.current_dive.num_samples ≤ dm.current_dive.num_samples + 1
    refine h4.trans ?_
    rw [s4]
    show (tickCeilingAlarm _ depth model).current_dive.num_samples + 1 ≤ _
    rw [c4, a4]
    show (DiveManager_UpdateRates now dm s depth).1.current_dive.num_samples + 1 ≤ _
    rw [u4]
  · show dm6.ascent_rate = _
    rw [h5, s5]
    show (tickCeilingAlarm _ depth model).ascent_rate = _
    rw [c5, a5]
    rfl
  · show dm6.ascent_rate_alarm = decide (dm6.ascent_rate > dm6.fast_ascent_rate)
    rw [h6, s0, h5, s5, h2, s2]
    show (tickCeilingAlarm _ depth model).ascent_rate_alarm
      = decide ((tickCeilingAlarm _ depth model).ascent_rate
          > (tickCeilingAlarm _ depth model).fast_ascent_rate)
    rw [c0, c5, c2, a0, a5, a2]

theorem updateRates_congr (now : Nat) (dm : DiveManager) (s s1 : DiveStatics) (depth : ℚ)
    (h1 : s1.last_time = s.last_time) (h2 : s1.last_depth = s.last_depth) :
    (DiveManager_UpdateRates now dm s1 depth).1 = (DiveManager_UpdateRates now dm s depth).1 := by
  unfold DiveManager_UpdateRates
  dsimp only
  rw [h1, h2]
  split_ifs <;> rfl

/-- While diving below `DIVE_END_DEPTH` the head of `DiveManager_Update`
changes nothing in the manager, and nothing `DiveManager_UpdateRates`
reads. -/
theorem autoStartEnd_diving (last now : Nat) (dm : DiveManager) (s : DiveStatics) (depth : ℚ)
    (hd : dm.is_diving = true) (hdepth : DIVE_END_DEPTH < depth) :
    ∃ s1, autoStartEnd last now dm s depth = some (dm, s1) ∧
      s1.last_time = s.last_time ∧ s1.last_depth = s.last_depth := by
  unfold autoStartEnd
  by_cases ha : dm.auto_start_dive = true
  · rw [if_pos ha, if_neg (by rw [hd]; decide)]
    unfold DiveManager_CheckDiveEnd
    rw [if_neg (not_le.mpr hdepth)]
    exact ⟨_, rfl, rfl, rfl⟩
  · rw [if_neg ha]
    exact ⟨s, rfl, rfl, rfl⟩

/-- A call of `DiveManager_Update` while diving below `DIVE_END_DEPTH`, with
room in the sample buffer: it returns, the dive goes on, the smoothed rate is
the one `DiveManager_UpdateRates` computes from the previous reading, and
`ascent_rate_alarm` is exactly `ascent_rate > fast_ascent_rate`. -/
theorem update_diving_alarm (t last now : Nat) (dm : DiveManager) (s : DiveStatics)
    (depth temperature : ℚ) (model : ZHL16Model)
    (hd : dm.is_diving = true) (hdepth : DIVE_END_DEPTH < depth)
    (hn : dm.current_dive.num_samples < MAX_DIVE_SAMPLES) :
    ∃ r, DiveManager_Update t last now dm s depth temperature model = some r ∧
      r.2.last_time = now ∧ r.2.last_depth = depth ∧
      r.1.is_diving = true ∧ r.1.fast_ascent_rate = dm.fast_ascent_rate ∧
      r.1.current_dive.num_samples ≤ dm.current_dive.num_samples + 1 ∧
      r.1.ascent_rate = (DiveManager_UpdateRates now dm s depth).1.ascent_rate ∧
      r.1.ascent_rate_alarm = decide (r.1.ascent_rate > r.1.fast_ascent_rate) := by
  obtain ⟨s1, h0, hs1, hs2⟩ := autoStartEnd_diving last now dm s depth hd hdepth
  obtain ⟨r, hr, hr2, d1, d2, _, d4, d5, d6⟩ :=
    divingTick_alarm t now dm s1 depth temperature model hn
  obtain ⟨q1, q2, _, _⟩ := updateRates_statics now dm s1 depth
  have hu : DiveManager_Update t last now dm s depth temperature model = some r := by
    unfold DiveManager_Update
    rw [h0, Option.some_bind]
    dsimp only
    rw [if_neg (by rw [hd]; decide), hr]
  refine ⟨r, hu, ?_, ?_, d1.trans hd, d2, d4, ?_, d6⟩
  · rw [hr2]
    exact q1
  · rw [hr2]
    exact q2
  · rw [d5, updateRates_congr now dm s s1 depth hs1 hs2]

theorem feedReadings_snoc (l : List (Nat × ℚ)) (x : Nat × ℚ) (start : DiveManager × DiveStatics) :
    feedReadings (l ++ [x]) start
      = (feedReadings l start).bind fun y =>
          DiveManager_Update 180 0 x.1 y.1 y.2 x.2 20 freshDiver := by
  unfold feedReadings
  rw [List.foldl_append]
  rfl

/-- One more reading while diving: the smoothed rate becomes
`0.7 * rate + 0.3 * (depth - last_depth) / minutes` - negative for a diver
who ascends - and the alarm compares it with `fast_ascent_rate`. -/
theorem feedReadings_step (l : List (Nat × ℚ)) (x : Nat × ℚ)
    (start r : DiveManager × DiveStatics) (h : feedReadings l start = some r)
    (hd : r.1.is_diving = true) (hdepth : DIVE_END_DEPTH < x.2)
    (hn : r.1.current_dive.num_samples < MAX_DIVE_SAMPLES)
    (hl : r.2.last_time ≠ 0) (hpos : 0 < subUInt32 x.1 r.2.last_time) :
    ∃ r1, feedReadings (l ++ [x]) start = some r1 ∧
      r1.2.last_time = x.1 ∧ r1.2.last_depth = x.2 ∧
      r1.1.is_diving = true ∧ r1.1.fast_ascent_rate = r.1.fast_ascent_rate ∧
      r1.1.current_dive.num_samples ≤ r.1.current_dive.num_samples + 1 ∧
      r1.1.ascent_rate = r.1.ascent_rate * (7 / 10)
        + (x.2 - r.2.last_depth) / ((subUInt32 x.1 r.2.last_time : ℚ) / 60) * (3 / 10) ∧
      r1.1.ascent_rate_alarm = decide (r1.1.ascent_rate > r1.1.fast_ascent_rate) := by
  obtain ⟨r1, h0, h1, h2, h3, h4, h5, h6, h7⟩ :=
    update_diving_alarm 180 0 x.1 r.1 r.2 x.2 20 freshDiver hd hdepth hn
  refine ⟨r1, ?_, h1, h2, h3, h4, h5, ?_, h7⟩
  · rw [feedReadings_snoc, h, Option.some_bind]
    exact h0
  · rw [h6]
    exact updateRates_rate x.1 r.1 r.2 x.2 hl hpos

theorem divingManager_first :
    ∃ r1, feedReadings [(100, 10)] (divingManager, bootStatics) = some r1 ∧
      r1.2.last_time = 100 ∧ r1.2.last_depth = 10 ∧
      r1.1.is_diving = true ∧ r1.1.fast_ascent_rate = 18 ∧
      r1.1.current_dive.num_samples ≤ 1 ∧
      r1.1.ascent_rate = 0 ∧ r1.1.ascent_rate_alarm = false := by
  obtain ⟨r1, h0, h1, h2, h3, h4, h5, h6, h7⟩ :=
    update_diving_alarm 180 0 100 divingManager bootStatics 10 20 freshDiver rfl
      (by norm_num [DIVE_END_DEPTH]) (by show 0 < 3600; norm_num)
  have hr : r1.1.ascent_rate = 0 := by
    rw [h6, updateRates_first 100 divingManager bootStatics 10 rfl]
    rfl
  have hf : r1.1.fast_ascent_rate = 18 := h4
  refine ⟨r1, ?_, h1, h2, h3, hf, h5, hr, ?_⟩
  · have hs := feedReadings_snoc [] (100, 10) (divingManager, bootStatics)
    rw [List.nil_append] at hs
    rw [hs]
    exact h0
  · rw [h7, hr, hf]
    simp

/-- C20 (as the code runs): from a manager in a dive (smoothed rate 0,
`fast_ascent_rate` 18), the readings 10.0, 9.7, 9.4, 9.0, 8.5 m fed to
`DiveManager_Update` at 1 s intervals give the smoothed rates 0, -5.4,
-9.18, -13.626 and -18.5382 m/min: the rate never exceeds 18 and
`ascent_rate_alarm` is false after every one of the five calls. -/
theorem DiveManager_Update_ascent_alarm_silent :
    divingManager.is_diving = true ∧ divingManager.ascent_rate = 0 ∧
    divingManager.fast_ascent_rate = 18 ∧
    ∃ r1 r2 r3 r4 r5 : DiveManager × DiveStatics,
      feedReadings (ascentReadings.take 1) (divingManager, bootStatics) = some r1 ∧
      feedReadings (ascentReadings.take 2) (divingManager, bootStatics) = some r2 ∧
      feedReadings (ascentReadings.take 3) (divingManager, bootStatics) = some r3 ∧
      feedReadings (ascentReadings.take 4) (divingManager, bootStatics) = some r4 ∧
      feedReadings ascentReadings (divingManager, bootStatics) = some r5 ∧
      r1.1.ascent_rate = 0 ∧ r2.1.ascent_rate = -(54 / 10) ∧ r3.1.ascent_rate = -(918 / 100) ∧
      r4.1.ascent_rate = -(13626 / 1000) ∧ r5.1.ascent_rate = -(185382 / 10000) ∧
      ¬ r5.1.ascent_rate > 18 ∧ r5.1.fast_ascent_rate = 18 ∧
      r1.1.ascent_rate_alarm = false ∧ r2.1.ascent_rate_alarm = false ∧
      r3.1.ascent_rate_alarm = false ∧ r4.1.ascent_rate_alarm = false ∧
      r5.1.ascent_rate_alarm = false := by
  refine ⟨rfl, rfl, rfl, ?_⟩
  obtain ⟨r1, e1, t1, d1, g1, f1, n1, a1, b1⟩ := divingManager_first
  obtain ⟨r2, e2, t2, d2, g2, f2, n2, a2, b2⟩ :=
    feedReadings_step [(100, 10)] (101, 97 / 10) _ r1 e1 g1 (by norm_num [DIVE_END_DEPTH])
      (by unfold MAX_DIVE_SAMPLES; omega) (by rw [t1]; decide)
      (by rw [t1]; norm_num [subUInt32])
  rw [f1] at f2
  have a2v : r2.1.ascent_rate = -(54 / 10) := by
    rw [a2, a1, d1, t1]
    norm_num [subUInt32]
  obtain ⟨r3, e3, t3, d3, g3, f3, n3, a3, b3⟩ :=
    feedReadings_step [(100, 10), (101, 97 / 10)] (102, 94 / 10) _ r2 e2 g2
      (by norm_num [DIVE_END_DEPTH]) (by unfold MAX_DIVE_SAMPLES; omega) (by rw [t2]; decide)
      (by rw [t2]; norm_num [subUInt32])
  rw [f2] at f3
  have a3v : r3.1.ascent_rate = -(918 / 100) := by
    rw [a3, a2v, d2, t2]
    norm_num [subUInt32]
  obtain ⟨r4, e4, t4, d4, g4, f4, n4, a4, b4⟩ :=
    feedReadings_step [(100, 10), (101, 97 / 10), (102, 94 / 10)] (103, 9) _ r3 e3 g3
      (by norm_num [DIVE_END_DEPTH]) (by unfold MAX_DIVE_SAMPLES; omega) (by rw [t3]; decide)
      (by rw [t3]; norm_num [subUInt32])
  rw [f3] at f4
  have a4v : r4.1.ascent_rate = -(13626 / 1000) := by
    rw [a4, a3v, d3, t3]
    norm_num [subUInt32]
  obtain ⟨r5, e5, t5, d5, g5, f5, n5, a5, b5⟩ :=
    feedReadings_step [(100, 10), (101, 97 / 10), (102, 94 / 10), (103, 9)] (104, 85 / 10) _
      r4 e4 g4 (by norm_num [DIVE_END_DEPTH]) (by unfold MAX_DIVE_SAMPLES; omega)
      (by rw [t4]; decide) (by rw [t4]; norm_num [subUInt32])
  rw [f4] at f5
  have a5v : r5.1.ascent_rate = -(185382 / 10000) := by
    rw [a5, a4v, d4, t4]
    norm_num [subUInt32]
  refine ⟨r1, r2, r3, r4, r5, e1, e2, e3, e4, e5, a1, a2v, a3v, a4v, a5v, ?_, f5, b1, ?_, ?_, ?_,
    ?_⟩
  · rw [a5v]
    norm_num
  · rw [b2, a2v, f2]
    simp
    norm_num
  · rw [b3, a3v, f3]
    simp
    norm_num
  · rw [b4, a4v, f4]
    simp
    norm_num
  · rw [b5, a5v, f5]
    simp
    norm_num

/-! ## The ceiling under on-gassing and off-gassing -/

/-- One step of growth of the tolerated pressure, with denominators cleared:
`pt`, `A`, `B` are the total pressure and the pressure-weighted sums of the
`a` and `b` coefficients, `α` and `β` the coefficients of the gas whose
pressure grows by `δ`. -/
theorem tolerated_step (pt A B α β g δ : ℚ) (hpt : 0 < pt) (hB : 0 < B) (hβ : 0 ≤ β)
    (hg0 : 0 ≤ g) (hg1 : g ≤ 1) (hδ : 0 ≤ δ) (hU : g * A ≤ pt ^ 2) (hα : α * pt ≤ 2 * A)
    (hβB : B ≤ 2 * β * pt) :
    B * (pt ^ 2 - g * A) / (pt * (pt + (1 - g) * B))
      ≤ (B + β * δ) * ((pt + δ) ^ 2 - g * (A + α * δ))
          / ((pt + δ) * (pt + δ + (1 - g) * (B + β * δ))) := by
  have hh : 0 ≤ 1 - g := by linarith
  have hB1 : 0 < B + β * δ := by
    have := mul_nonneg hβ hδ
    linarith
  have hpt1 : 0 < pt + δ := by linarith
  have hX : 0 < pt + (1 - g) * B := by
    have := mul_nonneg hh hB.le
    linarith
  have hX1 : 0 < pt + δ + (1 - g) * (B + β * δ) := by
    have := mul_nonneg hh hB1.le
    linarith
  have hU0 : 0 ≤ pt ^ 2 - g * A := by linarith
  have f1 : (pt ^ 2 - g * A) * (pt + 2 * δ) ≤ ((pt + δ) ^ 2 - g * (A + α * δ)) * pt := by
    have e : ((pt + δ) ^ 2 - g * (A + α * δ)) * pt - (pt ^ 2 - g * A) * (pt + 2 * δ)
        = pt * δ ^ 2 + g * δ * (2 * A - α * pt) := by ring
    have h1 : 0 ≤ pt * δ ^ 2 := mul_nonneg hpt.le (sq_nonneg δ)
    have h2 : 0 ≤ g * δ * (2 * A - α * pt) :=
      mul_nonneg (mul_nonneg hg0 hδ) (by linarith)
    linarith
  have f2 : B * (pt + δ) * (pt + δ + (1 - g) * (B + β * δ))
      ≤ (B + β * δ) * (pt + 2 * δ) * (pt + (1 - g) * B) := by
    have e : (B + β * δ) * (pt + 2 * δ) * (pt + (1 - g) * B)
        - B * (pt + δ) * (pt + δ + (1 - g) * (B + β * δ))
        = δ * ((1 - g) * B ^ 2 + β * pt ^ 2 + (1 - g) * β * B * δ + δ * (2 * β * pt - B)) := by
      ring
    have h1 : 0 ≤ (1 - g) * B ^ 2 := mul_nonneg hh (sq_nonneg B)
    have h2 : 0 ≤ β * pt ^ 2 := mul_nonneg hβ (sq_nonneg pt)
    have h3 : 0 ≤ (1 - g) * β * B * δ :=
      mul_nonneg (mul_nonneg (mul_nonneg hh hβ) hB.le) hδ
    have h4 : 0 ≤ δ * (2 * β * pt - B) := mul_nonneg hδ (by linarith)
    have h5 := mul_nonneg hδ (add_nonneg (add_nonneg (add_nonneg h1 h2) h3) h4)
    linarith
  rw [div_le_div_iff₀ (mul_pos hpt hX) (mul_pos hpt1 hX1)]
  have g1 : B * (pt ^ 2 - g * A) * ((pt + δ) * (pt + δ + (1 - g) * (B + β * δ)))
      = (pt ^ 2 - g * A) * (B * (pt + δ) * (pt + δ + (1 - g) * (B + β * δ))) := by ring
  have g2 : (B + β * δ) * ((pt + δ) ^ 2 - g * (A + α * δ)) * (pt * (pt + (1 - g) * B))
      = (((pt + δ) ^ 2 - g * (A + α * δ)) * pt) * ((B + β * δ) * (pt + (1 - g) * B)) := by ring
  rw [g1, g2]
  calc (pt ^ 2 - g * A) * (B * (pt + δ) * (pt + δ + (1 - g) * (B + β * δ)))
      ≤ (pt ^ 2 - g * A) * ((B + β * δ) * (pt + 2 * δ) * (pt + (1 - g) * B)) :=
        mul_le_mul_of_nonneg_left f2 hU0
    _ = ((pt ^ 2 - g * A) * (pt + 2 * δ)) * ((B + β * δ) * (pt + (1 - g) * B)) := by ring
    _ ≤ (((pt + δ) ^ 2 - g * (A + α * δ)) * pt) * ((B + β * δ) * (pt + (1 - g) * B)) :=
        mul_le_mul_of_nonneg_right f1 (mul_nonneg hB1.le hX.le)

/-- The tolerated pressure with its nested quotients cleared. -/
theorem toleratedPressure_normal (aN aH bN bH g N H : ℚ) (hpt : 0 < N + H)
    (hB : 0 < bN * N + bH * H) (hg1 : g ≤ 1) :
    toleratedPressure aN aH bN bH g N H
      = (bN * N + bH * H) * ((N + H) ^ 2 - g * (aN * N + aH * H))
          / ((N + H) * (N + H + (1 - g) * (bN * N + bH * H))) := by
  have hX : 0 < N + H + (1 - g) * (bN * N + bH * H) := by
    have := mul_nonneg (by linarith : 0 ≤ 1 - g) hB.le
    linarith
  unfold toleratedPressure
  dsimp only
  have h1 : (N + H) ≠ 0 := hpt.ne.symm
  have h2 : (bN * N + bH * H) ≠ 0 := hB.ne.symm
  have h3 : N + H + (1 - g) * (bN * N + bH * H) ≠ 0 := hX.ne.symm
  have h4 : 1 / ((bN * N + bH * H) / (N + H)) - g + 1
      = (N + H + (1 - g) * (bN * N + bH * H)) / (bN * N + bH * H) := by
    field_simp
    ring
  rw [h4]
  field_simp
  ring

theorem weighted_pos (bN bH N H : ℚ) (hbN : 0 < bN) (hbH : 0 < bH) (hN : 0 ≤ N) (hH : 0 ≤ H)
    (hpt : 0 < N + H) : 0 < bN * N + bH * H := by
  rcases hN.lt_or_eq with h | h
  · have := mul_pos hbN h
    have := mul_nonneg hbH.le hH
    linarith
  · have hH1 : 0 < H := by linarith
    have := mul_pos hbH hH1
    have := mul_nonneg hbN.le hN
    linarith

/-- A non-negative tolerated pressure means `g * A ≤ pt ^ 2`. -/
theorem tolerated_nonneg_iff (aN aH bN bH g N H : ℚ) (hpt : 0 < N + H)
    (hB : 0 < bN * N + bH * H) (hg1 : g ≤ 1)
    (h : 0 ≤ toleratedPressure aN aH bN bH g N H) :
    g * (aN * N + aH * H) ≤ (N + H) ^ 2 := by
  rw [toleratedPressure_normal aN aH bN bH g N H hpt hB hg1] at h
  have hX : 0 < N + H + (1 - g) * (bN * N + bH * H) := by
    have := mul_nonneg (by linarith : 0 ≤ 1 - g) hB.le
    linarith
  have hD : 0 < (N + H) * (N + H + (1 - g) * (bN * N + bH * H)) := mul_pos hpt hX
  have h1 : 0 ≤ (bN * N + bH * H) * ((N + H) ^ 2 - g * (aN * N + aH * H)) := by
    by_contra hneg
    exact absurd h (not_le.mpr (div_neg_of_neg_of_pos (not_le.mp hneg) hD))
  have h2 : 0 ≤ (N + H) ^ 2 - g * (aN * N + aH * H) := by
    by_contra hneg
    exact absurd h1 (not_le.mpr (mul_neg_of_pos_of_neg hB (not_le.mp hneg)))
  linarith

/-- The tolerated pressure does not fall when the nitrogen pressure grows. -/
theorem toleratedPressure_mono_N2 (aN aH bN bH g N H N1 : ℚ)
    (haN : 0 ≤ aN) (ha : aN ≤ 2 * aH)
    (hbN : 0 < bN) (hbH : 0 < bH) (hb : bH ≤ 2 * bN)
    (hg0 : 0 ≤ g) (hg1 : g ≤ 1) (hN : 0 ≤ N) (hH : 0 ≤ H) (hpt : 0 < N + H) (hNN : N ≤ N1)
    (hpos : 0 ≤ toleratedPressure aN aH bN bH g N H) :
    toleratedPressure aN aH bN bH g N H ≤ toleratedPressure aN aH bN bH g N1 H := by
  have hB := weighted_pos bN bH N H hbN hbH hN hH hpt
  have hN1 : 0 ≤ N1 := le_trans hN hNN
  have hpt1 : 0 < N1 + H := by linarith
  have hB1 := weighted_pos bN bH N1 H hbN hbH hN1 hH hpt1
  have hU := tolerated_nonneg_iff aN aH bN bH g N H hpt hB hg1 hpos
  have hα : aN * (N + H) ≤ 2 * (aN * N + aH * H) := by
    have h1 := mul_nonneg haN hN
    have h2 := mul_nonneg (by linarith : 0 ≤ 2 * aH - aN) hH
    linarith
  have hβ : bN * N + bH * H ≤ 2 * bN * (N + H) := by
    have h1 := mul_nonneg hbN.le hN
    have h2 := mul_nonneg (by linarith : 0 ≤ 2 * bN - bH) hH
    linarith
  have s := tolerated_step (N + H) (aN * N + aH * H) (bN * N + bH * H) aN bN g (N1 - N) hpt hB
    hbN.le hg0 hg1 (by linarith) hU hα hβ
  have e1 : N + H + (N1 - N) = N1 + H := by ring
  have e2 : aN * N + aH * H + aN * (N1 - N) = aN * N1 + aH * H := by ring
  have e3 : bN * N + bH * H + bN * (N1 - N) = bN * N1 + bH * H := by ring
  rw [e1, e2, e3] at s
  rw [toleratedPressure_normal aN aH bN bH g N H hpt hB hg1,
    toleratedPressure_normal aN aH bN bH g N1 H hpt1 hB1 hg1]
  exact s

theorem toleratedPressure_swap (aN aH bN bH g N H : ℚ) :
    toleratedPressure aN aH bN bH g N H = toleratedPressure aH aN bH bN g H N := by
  unfold toleratedPressure
  dsimp only
  rw [add_comm N H, add_comm (aN * N) (aH * H), add_comm (bN * N) (bH * H)]

/-- The tolerated pressure does not fall when both inert-gas pressures grow
from a point where it is non-negative. -/
theorem toleratedPressure_mono (aN aH bN bH g N H N1 H1 : ℚ)
    (haN : 0 ≤ aN) (haH : 0 ≤ aH) (ha1 : aH ≤ 2 * aN) (ha2 : aN ≤ 2 * aH)
    (hbN : 0 < bN) (hbH : 0 < bH) (hb1 : bH ≤ 2 * bN) (hb2 : bN ≤ 2 * bH)
    (hg0 : 0 ≤ g) (hg1 : g ≤ 1) (hN : 0 ≤ N) (hH : 0 ≤ H) (hpt : 0 < N + H)
    (hNN : N ≤ N1) (hHH : H ≤ H1)
    (hpos : 0 ≤ toleratedPressure aN aH bN bH g N H) :
    toleratedPressure aN aH bN bH g N H ≤ toleratedPressure aN aH bN bH g N1 H1 := by
  have s1 := toleratedPressure_mono_N2 aN aH bN bH g N H N1 haN ha2 hbN hbH hb1 hg0 hg1
    hN hH hpt hNN hpos
  have hN1 : 0 ≤ N1 := le_trans hN hNN
  have hpos1 : 0 ≤ toleratedPressure aH aN bH bN g H N1 := by
    rw [← toleratedPressure_swap aN aH bN bH g N1 H]
    exact le_trans hpos s1
  have s2 := toleratedPressure_mono_N2 aH aN bH bN g H N1 H1 haH ha1 hbH hbN hb2 hg0 hg1
    hH hN1 (by linarith) hHH hpos1
  refine le_trans s1 ?_
  rw [toleratedPressure_swap aN aH bN bH g N1 H, toleratedPressure_swap aN aH bN bH g N1 H1]
  exact s2

theorem compCeiling_tolerated (model : ZHL16Model) (comp : Compartment) :
    compCeiling model comp
      = (toleratedPressure comp.a_N2 comp.a_He comp.b_N2 comp.b_He (currentGF model / 100)
          comp.pressure_N2 comp.pressure_He - model.surface_pressure) * 10 := rfl

/-- One pass of the ceiling loop is monotone in the running ceiling and in
the compartment's pressures. -/
theorem ceilingStep_mono (model : ZHL16Model) (hgf0 : 0 ≤ currentGF model)
    (hgf1 : currentGF model ≤ 100) (hsurf : 0 ≤ model.surface_pressure)
    (lo hi : Compartment) (hle : TissueLe lo hi)
    (ha0 : 0 ≤ lo.a_N2) (ha1 : 0 ≤ lo.a_He) (ha2 : lo.a_He ≤ 2 * lo.a_N2)
    (ha3 : lo.a_N2 ≤ 2 * lo.a_He) (hb0 : 0 < lo.b_N2) (hb1 : 0 < lo.b_He)
    (hb2 : lo.b_He ≤ 2 * lo.b_N2) (hb3 : lo.b_N2 ≤ 2 * lo.b_He)
    (acc acc1 : ℚ) (hacc0 : 0 ≤ acc) (hacc : acc ≤ acc1) :
    ceilingStep model acc lo ≤ ceilingStep model acc1 hi := by
  obtain ⟨e1, e2, e3, e4, hN, hH, hNN, hHH⟩ := hle
  have hhi : acc1 ≤ ceilingStep model acc1 hi := by
    rw [ceilingStep_eq]
    split_ifs
    · exact le_refl _
    · exact le_max_left _ _
  rw [ceilingStep_eq model acc lo]
  by_cases hpt : lo.pressure_N2 + lo.pressure_He ≤ 0
  · rw [if_pos hpt]
    exact le_trans hacc hhi
  · rw [if_neg hpt]
    have hpt0 : 0 < lo.pressure_N2 + lo.pressure_He := not_le.mp hpt
    have hpt1 : ¬ hi.pressure_N2 + hi.pressure_He ≤ 0 := by
      have : 0 < hi.pressure_N2 + hi.pressure_He := by linarith
      exact not_le.mpr this
    apply max_le (le_trans hacc hhi)
    by_cases hc : compCeiling model lo ≤ acc
    · exact le_trans hc (le_trans hacc hhi)
    · have hc1 : acc < compCeiling model lo := not_le.mp hc
      rw [compCeiling_tolerated] at hc1
      have hpos : 0 ≤ toleratedPressure lo.a_N2 lo.a_He lo.b_N2 lo.b_He (currentGF model / 100)
          lo.pressure_N2 lo.pressure_He := by
        by_contra hneg
        have := not_le.mp hneg
        linarith
      have hm := toleratedPressure_mono lo.a_N2 lo.a_He lo.b_N2 lo.b_He (currentGF model / 100)
        lo.pressure_N2 lo.pressure_He hi.pressure_N2 hi.pressure_He ha0 ha1 ha2 ha3 hb0 hb1 hb2
        hb3 (by positivity) (by linarith) hN hH hpt0 hNN hHH hpos
      rw [ceilingStep_eq model acc1 hi, if_neg hpt1]
      refine le_trans ?_ (le_max_right _ _)
      rw [compCeiling_tolerated, compCeiling_tolerated, e1, e2, e3, e4]
      linarith

theorem ceilingStep_ge (model : ZHL16Model) (acc : ℚ) (comp : Compartment) :
    acc ≤ ceilingStep model acc comp := by
  rw [ceilingStep_eq]
  split_ifs
  · exact le_refl _
  · exact le_max_left _ _

/-- The ceiling loop over two images of the same compartments, the first
below the second. -/
theorem ceilingFold_mono (model : ZHL16Model) (hgf0 : 0 ≤ currentGF model)
    (hgf1 : currentGF model ≤ 100) (hsurf : 0 ≤ model.surface_pressure)
    (f1 f2 : Compartment → Compartment) (comps : List Compartment)
    (h : ∀ comp ∈ comps, TissueLe (f1 comp) (f2 comp) ∧
      0 ≤ (f1 comp).a_N2 ∧ 0 ≤ (f1 comp).a_He ∧ (f1 comp).a_He ≤ 2 * (f1 comp).a_N2 ∧
      (f1 comp).a_N2 ≤ 2 * (f1 comp).a_He ∧ 0 < (f1 comp).b_N2 ∧ 0 < (f1 comp).b_He ∧
      (f1 comp).b_He ≤ 2 * (f1 comp).b_N2 ∧ (f1 comp).b_N2 ≤ 2 * (f1 comp).b_He)
    (acc acc1 : ℚ) (hacc0 : 0 ≤ acc) (hacc : acc ≤ acc1) :
    (comps.map f1).foldl (ceilingStep model) acc
      ≤ (comps.map f2).foldl (ceilingStep model) acc1 := by
  induction comps generalizing acc acc1 with
  | nil => exact hacc
  | cons c cs ih =>
    rw [List.map_cons, List.map_cons, List.foldl_cons, List.foldl_cons]
    obtain ⟨hle, k1, k2, k3, k4, k5, k6, k7, k8⟩ := h c (List.mem_cons_self c cs)
    apply ih (fun comp hmem => h comp (List.mem_cons_of_mem c hmem))
    · exact le_trans hacc0 (ceilingStep_ge model acc (f1 c))
    · exact ceilingStep_mono model hgf0 hgf1 hsurf (f1 c) (f2 c) hle k1 k2 k3 k4 k5 k6 k7 k8
        acc acc1 hacc0 hacc

/-- Rounding up to a multiple of `last_stop_depth` is monotone. -/
theorem roundUp_mono (lsd r r1 : ℚ) (hlsd : 0 < lsd) (h : r ≤ r1) :
    (if r > 0 then (⌈r / lsd⌉ : ℚ) * lsd else r)
      ≤ (if r1 > 0 then (⌈r1 / lsd⌉ : ℚ) * lsd else r1) := by
  have hup : ∀ x : ℚ, x ≤ (⌈x / lsd⌉ : ℚ) * lsd := by
    intro x
    have := Int.le_ceil (x / lsd)
    exact (div_le_iff₀ hlsd).mp this
  by_cases h0 : r > 0
  · have h1 : r1 > 0 := lt_of_lt_of_le h0 h
    rw [if_pos h0, if_pos h1]
    have hc : ⌈r / lsd⌉ ≤ ⌈r1 / lsd⌉ := Int.ceil_mono (div_le_div_of_nonneg_right h hlsd.le)
    have hq : (⌈r / lsd⌉ : ℚ) ≤ (⌈r1 / lsd⌉ : ℚ) := by exact_mod_cast hc
    exact mul_le_mul_of_nonneg_right hq hlsd.le
  · rw [if_neg h0]
    by_cases h1 : r1 > 0
    · rw [if_pos h1]
      exact le_trans h (hup r1)
    · rw [if_neg h1]
      exact h

theorem ceilingValue_update (expf : ℚ → ℚ) (model : ZHL16Model) (dt : ℚ) :
    (ZHL16_GetCeiling (ZHL16_UpdateTissues expf model dt)).2
      = if (model.compartments.map (updateCompartment expf model (dt / 60))).foldl
            (ceilingStep model) 0 > 0 then
          (⌈(model.compartments.map (updateCompartment expf model (dt / 60))).foldl
              (ceilingStep model) 0 / model.config.last_stop_depth⌉ : ℚ)
            * model.config.last_stop_depth
        else (model.compartments.map (updateCompartment expf model (dt / 60))).foldl
          (ceilingStep model) 0 := by
  have hstep : ceilingStep (ZHL16_UpdateTissues expf model dt) = ceilingStep model :=
    funext fun acc => funext fun comp =>
      ceilingStep_congr _ _ (updateTissues_setting expf model dt) acc comp
  show ceilingValue (ZHL16_UpdateTissues expf model dt) = _
  unfold ceilingValue
  dsimp only
  rw [hstep, updateTissues_compartments]
  rfl

theorem expf_unit_at (expf : ℚ → ℚ) (hexp : ExpfUnit expf) (half_time t : ℚ)
    (hh : 0 < half_time) (ht : 0 ≤ t) :
    0 ≤ expf (-(693147 / 1000000 / half_time) * t) ∧
      expf (-(693147 / 1000000 / half_time) * t) ≤ 1 := by
  apply hexp
  have : 0 ≤ 693147 / 1000000 / half_time * t := by positivity
  linarith

/-- An on-gassing compartment: the update does not lower its pressures. -/
theorem updateCompartment_on_gassing (expf : ℚ → ℚ) (hexp : ExpfUnit expf) (model : ZHL16Model)
    (t : ℚ) (ht : 0 ≤ t) (comp : Compartment) (hs : CompartmentSane comp)
    (hN : comp.pressure_N2 ≤ inspiredN2 model) (hH : comp.pressure_He ≤ inspiredHe model) :
    TissueLe comp (updateCompartment expf model t comp) := by
  obtain ⟨h1, h2, _, _, _, _, _, _, _, _, p1, p2⟩ := hs
  obtain ⟨_, eN⟩ := expf_unit_at expf hexp comp.half_time_N2 t h1 ht
  obtain ⟨_, eH⟩ := expf_unit_at expf hexp comp.half_time_He t h2 ht
  refine ⟨rfl, rfl, rfl, rfl, p1, p2, ?_, ?_⟩
  · show comp.pressure_N2 ≤ inspiredN2 model
      + (comp.pressure_N2 - inspiredN2 model) * expf (-(693147 / 1000000 / comp.half_time_N2) * t)
    have hprod := mul_nonneg (sub_nonneg.mpr hN) (sub_nonneg.mpr eN)
    linarith
  · show comp.pressure_He ≤ inspiredHe model
      + (comp.pressure_He - inspiredHe model) * expf (-(693147 / 1000000 / comp.half_time_He) * t)
    have hprod := mul_nonneg (sub_nonneg.mpr hH) (sub_nonneg.mpr eH)
    linarith

/-- An off-gassing compartment breathing non-negative inspired pressures: the
update does not raise its pressures and keeps them non-negative. -/
theorem updateCompartment_off_gassing (expf : ℚ → ℚ) (hexp : ExpfUnit expf)
    (model : ZHL16Model) (t : ℚ) (ht : 0 ≤ t) (comp : Compartment) (hs : CompartmentSane comp)
    (hN : inspiredN2 model ≤ comp.pressure_N2) (hH : inspiredHe model ≤ comp.pressure_He)
    (hiN : 0 ≤ inspiredN2 model) (hiH : 0 ≤ inspiredHe model) :
    TissueLe (updateCompartment expf model t comp) comp := by
  obtain ⟨h1, h2, _, _, _, _, _, _, _, _, p1, p2⟩ := hs
  obtain ⟨eN0, eN⟩ := expf_unit_at expf hexp comp.half_time_N2 t h1 ht
  obtain ⟨eH0, eH⟩ := expf_unit_at expf hexp comp.half_time_He t h2 ht
  refine ⟨rfl, rfl, rfl, rfl, ?_, ?_, ?_, ?_⟩
  · show 0 ≤ inspiredN2 model
      + (comp.pressure_N2 - inspiredN2 model) * expf (-(693147 / 1000000 / comp.half_time_N2) * t)
    have hprod := mul_nonneg (sub_nonneg.mpr hN) eN0
    linarith
  · show 0 ≤ inspiredHe model
      + (comp.pressure_He - inspiredHe model) * expf (-(693147 / 1000000 / comp.half_time_He) * t)
    have hprod := mul_nonneg (sub_nonneg.mpr hH) eH0
    linarith
  · show inspiredN2 model
      + (comp.pressure_N2 - inspiredN2 model) * expf (-(693147 / 1000000 / comp.half_time_N2) * t)
      ≤ comp.pressure_N2
    have hprod := mul_nonneg (sub_nonneg.mpr hN) (sub_nonneg.mpr eN)
    linarith
  · show inspiredHe model
      + (comp.pressure_He - inspiredHe model) * expf (-(693147 / 1000000 / comp.half_time_He) * t)
      ≤ comp.pressure_He
    have hprod := mul_nonneg (sub_nonneg.mpr hH) (sub_nonneg.mpr eH)
    linarith

/-- C16 (amended): for a model with sane compartments (coefficients as
`ZHL16_Init` sets them, non-negative tissue pressures), a gradient factor in
[0, 100], a non-negative surface pressure and a positive `last_stop_depth`,
and an exponential with values in [0, 1] on non-positive arguments:
`ZHL16_UpdateTissues(dt)`, `dt >= 0`, leaves ambient pressure, depths and gas
as they are; if every compartment is on-gassing (inspired pressure >= tissue
pressure for N₂ and He) the value of `ZHL16_GetCeiling` after the update is
not smaller than before; if every compartment is off-gassing and the inspired
N₂ and He pressures are not negative, it is not larger. -/
theorem ZHL16_GetCeiling_monotone (expf : ℚ → ℚ) (hexp : ExpfUnit expf) (model : ZHL16Model)
    (dt : ℚ) (hdt : 0 ≤ dt) (hlsd : 0 < model.config.last_stop_depth)
    (hgf0 : 0 ≤ currentGF model) (hgf1 : currentGF model ≤ 100)
    (hsurf : 0 ≤ model.surface_pressure)
    (hsane : ∀ comp ∈ model.compartments, CompartmentSane comp) :
    (SameSetting (ZHL16_UpdateTissues expf model dt) model ∧
      (ZHL16_UpdateTissues expf model dt).current_gas = model.current_gas) ∧
    ((∀ comp ∈ model.compartments,
        comp.pressure_N2 ≤ inspiredN2 model ∧ comp.pressure_He ≤ inspiredHe model) →
      (ZHL16_GetCeiling model).2 ≤ (ZHL16_GetCeiling (ZHL16_UpdateTissues expf model dt)).2) ∧
    ((∀ comp ∈ model.compartments,
        inspiredN2 model ≤ comp.pressure_N2 ∧ inspiredHe model ≤ comp.pressure_He) →
      0 ≤ inspiredN2 model → 0 ≤ inspiredHe model →
      (ZHL16_GetCeiling (ZHL16_UpdateTissues expf model dt)).2 ≤ (ZHL16_GetCeiling model).2) := by
  have ht : 0 ≤ dt / 60 := by positivity
  have hbefore : (ZHL16_GetCeiling model).2
      = if (model.compartments.map id).foldl (ceilingStep model) 0 > 0 then
          (⌈(model.compartments.map id).foldl (ceilingStep model) 0
              / model.config.last_stop_depth⌉ : ℚ) * model.config.last_stop_depth
        else (model.compartments.map id).foldl (ceilingStep model) 0 := by
    rw [List.map_id]
    rfl
  refine ⟨⟨updateTissues_setting expf model dt, rfl⟩, ?_, ?_⟩
  · intro hon
    rw [ceilingValue_update, hbefore]
    apply roundUp_mono _ _ _ hlsd
    apply ceilingFold_mono model hgf0 hgf1 hsurf id (updateCompartment expf model (dt / 60))
      model.compartments _ 0 0 (le_refl _) (le_refl _)
    intro comp hmem
    obtain ⟨_, _, k1, k2, k3, k4, k5, k6, k7, k8, _, _⟩ := hsane comp hmem
    exact ⟨updateCompartment_on_gassing expf hexp model (dt / 60) ht comp (hsane comp hmem)
      (hon comp hmem).1 (hon comp hmem).2, k1, k2, k3, k4, k5, k6, k7, k8⟩
  · intro hoff hiN hiH
    rw [ceilingValue_update, hbefore]
    apply roundUp_mono _ _ _ hlsd
    apply ceilingFold_mono model hgf0 hgf1 hsurf (updateCompartment expf model (dt / 60)) id
      model.compartments _ 0 0 (le_refl _) (le_refl _)
    intro comp hmem
    obtain ⟨_, _, k1, k2, k3, k4, k5, k6, k7, k8, _, _⟩ := hsane comp hmem
    exact ⟨updateCompartment_off_gassing expf hexp model (dt / 60) ht comp (hsane comp hmem)
      (hoff comp hmem).1 (hoff comp hmem).2 hiN hiH, k1, k2, k3, k4, k5, k6, k7, k8⟩

theorem airDiver_sane (depth pN2 : ℚ) (hp : 0 ≤ pN2) :
    ∀ comp ∈ (airDiver depth pN2).compartments, CompartmentSane comp := by
  intro comp hmem
  obtain ⟨row, hrow, rfl⟩ := List.mem_map.mp hmem
  obtain ⟨h1, h2, h3, h4⟩ := ZHL16B_rows_sane row hrow
  unfold CompartmentSane compartmentOfRow
  dsimp only
  refine ⟨h1, h2, h3.le, ?_, ?_, ?_, h4, ?_, ?_, ?_, hp, le_refl _⟩ <;> linarith

theorem airDiver_inspired (depth pN2 : ℚ) :
    inspiredN2 (airDiver depth pN2) = (1013 / 1000 + depth / 10 - 627 / 10000) * (79 / 100) ∧
      inspiredHe (airDiver depth pN2) = 0 := by
  constructor
  · simp [inspiredN2, airDiver, airOnly]
  · simp [inspiredHe, airDiver, airOnly]

theorem airDiver_pressures (depth pN2 : ℚ) :
    ∀ comp ∈ (airDiver depth pN2).compartments,
      comp.pressure_N2 = pN2 ∧ comp.pressure_He = 0 := by
  intro comp hmem
  obtain ⟨row, _, rfl⟩ := List.mem_map.mp hmem
  exact ⟨rfl, rfl⟩

theorem ZHL16_GetCeiling_monotone_witness :
    (ZHL16_GetCeiling freshDiver).2
        ≤ (ZHL16_GetCeiling (ZHL16_UpdateTissues (fun _ => 1 / 2) freshDiver 60)).2 ∧
      (ZHL16_GetCeiling (ZHL16_UpdateTissues (fun _ => 1 / 2) ascendedDiver 60)).2
        ≤ (ZHL16_GetCeiling ascendedDiver).2 :=
  ⟨(ZHL16_GetCeiling_monotone (fun _ => 1 / 2) (fun _ _ => by norm_num) freshDiver 60
      (by norm_num) (by show (0 : ℚ) < 3; norm_num)
      (by rw [freshDiver, airDiver_gf 30 _ (by norm_num)]; norm_num)
      (by rw [freshDiver, airDiver_gf 30 _ (by norm_num)]; norm_num)
      (by show (0 : ℚ) ≤ 1013 / 1000; norm_num)
      (airDiver_sane 30 _ (by norm_num))).2.1
      (fun comp hmem => by
        obtain ⟨h1, h2⟩ := airDiver_pressures 30 (750737 / 1000000) comp hmem
        obtain ⟨i1, i2⟩ := airDiver_inspired 30 (750737 / 1000000)
        rw [h1, h2, freshDiver, i1, i2]
        constructor <;> norm_num),
    (ZHL16_GetCeiling_monotone (fun _ => 1 / 2) (fun _ _ => by norm_num) ascendedDiver 60
      (by norm_num) (by show (0 : ℚ) < 3; norm_num)
      (by rw [ascendedDiver, airDiver_gf 10 _ (by norm_num)]; norm_num)
      (by rw [ascendedDiver, airDiver_gf 10 _ (by norm_num)]; norm_num)
      (by show (0 : ℚ) ≤ 1013 / 1000; norm_num)
      (airDiver_sane 10 _ (by norm_num))).2.2
      (fun comp hmem => by
        obtain ⟨h1, h2⟩ := airDiver_pressures 10 (3910737 / 1000000) comp hmem
        obtain ⟨i1, i2⟩ := airDiver_inspired 10 (3910737 / 1000000)
        rw [h1, h2, ascendedDiver, i1, i2]
        constructor <;> norm_num)
      (by rw [ascendedDiver, (airDiver_inspired 10 _).1]; norm_num)
      (by rw [ascendedDiver, (airDiver_inspired 10 _).2])⟩

/-! ## Off-gassing with a measured ppO₂ above the ambient pressure -/

theorem ceilingStep_N2_at (model : ZHL16Model) (acc pN2 g : ℚ) (row : ℚ × ℚ × ℚ × ℚ)
    (hp : 0 < pN2) (hgf : currentGF model = g) :
    ceilingStep model acc (compartmentOfRow pN2 row)
      = max acc (((pN2 - row.2.2.1 * (g / 100)) / (1 / row.2.2.2 - g / 100 + 1)
          - model.surface_pressure) * 10) := by
  unfold ceilingStep compartmentOfRow
  dsimp only
  rw [hgf, if_neg (by simpa using hp)]
  have hne : pN2 + 0 ≠ 0 := by simpa using hp.ne.symm
  have ha : (row.2.2.1 * pN2 + row.2.2.1 * (3 / 2) * 0) / (pN2 + 0) = row.2.2.1 := by
    field_simp
  have hb : (row.2.2.2 * pN2 + row.2.2.2 * (9 / 10) * 0) / (pN2 + 0) = row.2.2.2 := by
    field_simp
  rw [ha, hb, add_zero]
  split_ifs with h
  · exact (max_eq_right (le_of_lt h)).symm
  · exact (max_eq_left (not_lt.mp h)).symm

theorem ccrAtSurface_gf : currentGF ccrAtSurface = 85 := by
  unfold currentGF
  have h1 : ccrAtSurface.current_depth = 0 := rfl
  have h2 : ccrAtSurface.config.gf_high = 85 := rfl
  rw [h1, h2, if_pos (le_refl _)]

theorem ccrAtSurface_inspiredN2 : inspiredN2 ccrAtSurface = 0 := by
  simp [inspiredN2, ccrAtSurface, ZHL16_Init, helioxOnly]

theorem ccrAtSurface_compartments :
    ccrAtSurface.compartments = ZHL16B_rows.map (compartmentOfRow (750737 / 1000000)) := by
  have hn : ((1013 : ℚ) / 1000 - 627 / 10000) * (79 / 100) = 750737 / 1000000 := by norm_num
  have hc : ccrAtSurface.compartments
      = ZHL16B_rows.map (compartmentOfRow ((1013 / 1000 - 627 / 10000) * (79 / 100))) :=
    init_compartments_rows
  rw [hn] at hc
  exact hc

theorem ccrAtSurface_rawCeiling :
    ccrAtSurface.compartments.foldl (ceilingStep ccrAtSurface) 0 = 0 := by
  have hstep : ∀ (acc : ℚ) (row : ℚ × ℚ × ℚ × ℚ),
      ceilingStep ccrAtSurface acc (compartmentOfRow (750737 / 1000000) row)
        = max acc (((750737 / 1000000 - row.2.2.1 * (85 / 100))
            / (1 / row.2.2.2 - 85 / 100 + 1) - 1013 / 1000) * 10) :=
    fun acc row => ceilingStep_N2_at ccrAtSurface acc _ 85 row (by norm_num) ccrAtSurface_gf
  rw [ccrAtSurface_compartments]
  simp only [ZHL16B_rows, List.map_cons, List.map_nil, List.foldl_cons, List.foldl_nil, hstep]
  norm_num

theorem ccrAtSurface_ceiling : (ZHL16_GetCeiling ccrAtSurface).2 = 0 := by
  show ceilingValue ccrAtSurface = 0
  unfold ceilingValue
  rw [ccrAtSurface_rawCeiling]
  simp

theorem ccrAtSurface_off_gassing :
    ∀ comp ∈ ccrAtSurface.compartments,
      inspiredN2 ccrAtSurface ≤ comp.pressure_N2 ∧
        inspiredHe ccrAtSurface ≤ comp.pressure_He := by
  intro comp hmem
  rw [ccrAtSurface_compartments] at hmem
  obtain ⟨row, _, rfl⟩ := List.mem_map.mp hmem
  rw [ccrAtSurface_inspiredN2, ccrAtSurface_inspiredHe]
  constructor
  · show (0 : ℚ) ≤ 750737 / 1000000
    norm_num
  · show -(987 / 1000 : ℚ) ≤ 0
    norm_num

/-- The first compartment of the model `ccrAtSurface` after 90 s. -/
theorem ccrAtSurface_first (expf : ℚ → ℚ) :
    ∃ comp ∈ (ZHL16_UpdateTissues expf ccrAtSurface 90).compartments,
      comp.a_N2 = 12599 / 10000 ∧ comp.a_He = 12599 / 10000 * (3 / 2) ∧
      comp.b_N2 = 5050 / 10000 ∧ comp.b_He = 5050 / 10000 * (9 / 10) ∧
      comp.pressure_N2
        = 750737 / 1000000 * expf (-(693147 / 1000000 / 4) * (90 / 60)) ∧
      comp.pressure_He
        = -(987 / 1000) * (1 - expf (-(693147 / 1000000 / (151 / 100)) * (90 / 60))) := by
  refine ⟨updateCompartment expf ccrAtSurface (90 / 60)
    (initCompartment (1013 / 1000) false 0), ?_, rfl, rfl, rfl, rfl, ?_, ?_⟩
  · rw [updateTissues_compartments]
    refine List.mem_map.mpr ⟨initCompartment (1013 / 1000) false 0, ?_, rfl⟩
    exact List.mem_map.mpr ⟨0, List.mem_range.mpr (by decide), rfl⟩
  · have hh : (initCompartment (1013 / 1000) false 0).half_time_N2 = 4 := rfl
    have hp : (initCompartment (1013 / 1000) false 0).pressure_N2
        = (1013 / 1000 - 627 / 10000) * (79 / 100) := rfl
    unfold updateCompartment
    dsimp only
    rw [ccrAtSurface_inspiredN2, hh, hp]
    ring
  · have hh : (initCompartment (1013 / 1000) false 0).half_time_He = 151 / 100 := rfl
    have hp : (initCompartment (1013 / 1000) false 0).pressure_He = 0 := rfl
    unfold updateCompartment
    dsimp only
    rw [ccrAtSurface_inspiredHe, hh, hp]
    ring

/-- The tolerated pressure of the first ZHL-16B compartment at gradient factor
85 %, for a nitrogen pressure `0.750737 * eN` and a helium pressure
`-0.987 * (1 - eH)` with `eN` and `eH` within 0.001 of 0.7711 and 0.5023: the
total pressure is positive and the tolerated pressure exceeds 1.013 bar. -/
theorem overread_tolerated (eN eH : ℚ) (hN : |eN - 7711 / 10000| ≤ 1 / 1000)
    (hH : |eH - 5023 / 10000| ≤ 1 / 1000) :
    0 < 750737 / 1000000 * eN + -(987 / 1000) * (1 - eH) ∧
    1013 / 1000 < toleratedPressure (12599 / 10000) (12599 / 10000 * (3 / 2)) (5050 / 10000)
      (5050 / 10000 * (9 / 10)) (85 / 100) (750737 / 1000000 * eN) (-(987 / 1000) * (1 - eH)) := by
  obtain ⟨n1, n2⟩ := abs_le.mp hN
  obtain ⟨k1, k2⟩ := abs_le.mp hH
  have hpt0 : 859 / 10000 ≤ 750737 / 1000000 * eN + -(987 / 1000) * (1 - eH) := by linarith
  have hpt1 : 750737 / 1000000 * eN + -(987 / 1000) * (1 - eH) ≤ 895 / 10000 := by linarith
  have hpt : 0 < 750737 / 1000000 * eN + -(987 / 1000) * (1 - eH) := by linarith
  have hB0 : 682 / 10000 ≤ 5050 / 10000 * (750737 / 1000000 * eN)
      + 5050 / 10000 * (9 / 10) * (-(987 / 1000) * (1 - eH)) := by linarith
  have hB1 : 5050 / 10000 * (750737 / 1000000 * eN)
      + 5050 / 10000 * (9 / 10) * (-(987 / 1000) * (1 - eH)) ≤ 7 / 100 := by linarith
  have hB : 0 < 5050 / 10000 * (750737 / 1000000 * eN)
      + 5050 / 10000 * (9 / 10) * (-(987 / 1000) * (1 - eH)) := by linarith
  have hA : 12599 / 10000 * (750737 / 1000000 * eN)
      + 12599 / 10000 * (3 / 2) * (-(987 / 1000) * (1 - eH)) ≤ -(196 / 1000) := by linarith
  refine ⟨hpt, ?_⟩
  rw [toleratedPressure_normal _ _ _ _ _ _ _ hpt hB (by norm_num)]
  generalize 750737 / 1000000 * eN + -(987 / 1000) * (1 - eH) = pt at hpt0 hpt1 hpt ⊢
  generalize 5050 / 10000 * (750737 / 1000000 * eN)
      + 5050 / 10000 * (9 / 10) * (-(987 / 1000) * (1 - eH)) = B at hB0 hB1 hB ⊢
  generalize 12599 / 10000 * (750737 / 1000000 * eN)
      + 12599 / 10000 * (3 / 2) * (-(987 / 1000) * (1 - eH)) = A at hA ⊢
  have hX : 0 < pt + (1 - 85 / 100) * B := by linarith
  rw [lt_div_iff₀ (mul_pos hpt hX)]
  have hU : 166 / 1000 ≤ pt ^ 2 - 85 / 100 * A := by
    have := sq_nonneg pt
    linarith
  have hL : 682 / 10000 * (166 / 1000) ≤ B * (pt ^ 2 - 85 / 100 * A) :=
    mul_le_mul hB0 hU (by norm_num) hB.le
  have hR : pt * (pt + (1 - 85 / 100) * B) ≤ 895 / 10000 * (1 / 10) :=
    mul_le_mul hpt1 (by linarith) hX.le (by norm_num)
  linarith

theorem ceilingFold_ge_acc (model : ZHL16Model) (comps : List Compartment) (acc : ℚ) :
    acc ≤ comps.foldl (ceilingStep model) acc := by
  induction comps generalizing acc with
  | nil => exact le_refl _
  | cons c cs ih => exact le_trans (ceilingStep_ge model acc c) (ih _)

/-- The ceiling loop ends at least as high as the ceiling of each compartment
it does not skip. -/
theorem ceilingFold_ge_mem (model : ZHL16Model) (comps : List Compartment) (acc : ℚ)
    (comp : Compartment) (hmem : comp ∈ comps)
    (hpt : 0 < comp.pressure_N2 + comp.pressure_He) :
    compCeiling model comp ≤ comps.foldl (ceilingStep model) acc := by
  induction comps generalizing acc with
  | nil => cases hmem
  | cons c cs ih =>
    rw [List.foldl_cons]
    rcases List.mem_cons.mp hmem with rfl | h
    · refine le_trans ?_ (ceilingFold_ge_acc model cs _)
      rw [ceilingStep_eq, if_neg (not_le.mpr hpt)]
      exact le_max_right _ _
    · exact ih _ h

/-- With a measured ppO₂ of 2.0 bar at the surface, 90 s of off-gassing leave
a positive ceiling, for every exponential within 0.001 of `e^x` at the two
arguments of the first compartment. -/
theorem ccrAtSurface_ceiling_after (expf : ℚ → ℚ)
    (hN : |expf (-(693147 / 1000000 / 4) * (90 / 60)) - 7711 / 10000| ≤ 1 / 1000)
    (hH : |expf (-(693147 / 1000000 / (151 / 100)) * (90 / 60)) - 5023 / 10000| ≤ 1 / 1000) :
    0 < (ZHL16_GetCeiling (ZHL16_UpdateTissues expf ccrAtSurface 90)).2 := by
  obtain ⟨comp, hmem, a1, a2, b1, b2, pN, pH⟩ := ccrAtSurface_first expf
  obtain ⟨hpt, htol⟩ := overread_tolerated _ _ hN hH
  rw [← pN, ← pH] at hpt htol
  have hcc : 0 < compCeiling (ZHL16_UpdateTissues expf ccrAtSurface 90) comp := by
    rw [compCeiling_tolerated, a1, a2, b1, b2]
    have hg : currentGF (ZHL16_UpdateTissues expf ccrAtSurface 90) / 100 = 85 / 100 := by
      have : currentGF (ZHL16_UpdateTissues expf ccrAtSurface 90) = currentGF ccrAtSurface := rfl
      rw [this, ccrAtSurface_gf]
    have hs : (ZHL16_UpdateTissues expf ccrAtSurface 90).surface_pressure = 1013 / 1000 := rfl
    rw [hg, hs]
    linarith
  have hraw := ceilingFold_ge_mem (ZHL16_UpdateTissues expf ccrAtSurface 90) _ 0 comp hmem hpt
  have hpos : 0 < (ZHL16_UpdateTissues expf ccrAtSurface 90).compartments.foldl
      (ceilingStep (ZHL16_UpdateTissues expf ccrAtSurface 90)) 0 := lt_of_lt_of_le hcc hraw
  show 0 < ceilingValue (ZHL16_UpdateTissues expf ccrAtSurface 90)
  unfold ceilingValue
  dsimp only
  rw [if_pos hpos]
  have hl : (ZHL16_UpdateTissues expf ccrAtSurface 90).config.last_stop_depth = 3 := rfl
  rw [hl]
  have hc := Int.le_ceil ((ZHL16_UpdateTissues expf ccrAtSurface 90).compartments.foldl
      (ceilingStep (ZHL16_UpdateTissues expf ccrAtSurface 90)) 0 / 3)
  have h3 := (div_le_iff₀ (by norm_num : (0 : ℚ) < 3)).mp hc
  linarith

/-- The real exponential is within 0.001 of 0.7711 and of 0.5023 at the
arguments `-(0.693147 / 4) * 1.5` and `-(0.693147 / 1.51) * 1.5` of the first
compartment after 90 s. -/
theorem exp_near_surface_overread :
    |Real.exp (-(693147 / 1000000 / 4) * (90 / 60)) - 7711 / 10000| ≤ 1 / 1000 ∧
    |Real.exp (-(693147 / 1000000 / (151 / 100)) * (90 / 60)) - 5023 / 10000| ≤ 1 / 1000 := by
  constructor
  · have hx : |(-(693147 / 1000000 / 4) * (90 / 60) : ℝ)| ≤ 1 := by
      rw [abs_le]; constructor <;> norm_num
    have h := Real.exp_bound hx (n := 5) (by norm_num)
    have hab : |(-(693147 / 1000000 / 4) * (90 / 60) : ℝ)| = 693147 / 1000000 / 4 * (90 / 60) := by
      rw [abs_of_nonpos (by norm_num)]; ring
    rw [hab] at h
    simp only [Finset.sum_range_succ, Finset.sum_range_zero, Nat.factorial, Nat.succ_eq_add_one]
      at h
    norm_num at h
    rw [abs_le] at h ⊢
    constructor <;> linarith [h.1, h.2]
  · have hx : |(-(693147 / 1000000 / (151 / 100)) * (90 / 60) : ℝ)| ≤ 1 := by
      rw [abs_le]; constructor <;> norm_num
    have h := Real.exp_bound hx (n := 7) (by norm_num)
    have hab : |(-(693147 / 1000000 / (151 / 100)) * (90 / 60) : ℝ)|
        = 693147 / 1000000 / (151 / 100) * (90 / 60) := by
      rw [abs_of_nonpos (by norm_num)]; ring
    rw [hab] at h
    simp only [Finset.sum_range_succ, Finset.sum_range_zero, Nat.factorial, Nat.succ_eq_add_one]
      at h
    norm_num at h
    rw [abs_le] at h ⊢
    constructor <;> linarith [h.1, h.2]

/-- C16 (as stated) fails: in the model of `ZHL16_Init(1.013, ZHL-16B)` at the
surface in CCR mode, on a heliox 21/79 diluent with a measured ppO₂ of 2.0
bar, every compartment is off-gassing (inspired N₂ 0 and He -0.987 bar, at
most the tissue pressures) and `ZHL16_GetCeiling` returns 0; after
`ZHL16_UpdateTissues(90)` it returns a positive ceiling, for every
exponential within 0.001 of 0.7711 and 0.5023 (the values of `e^x`) at the
two arguments of the first compartment. -/
theorem ZHL16_GetCeiling_monotone_counterexample :
    (∀ comp ∈ ccrAtSurface.compartments,
      inspiredN2 ccrAtSurface ≤ comp.pressure_N2 ∧
        inspiredHe ccrAtSurface ≤ comp.pressure_He) ∧
    (ZHL16_GetCeiling ccrAtSurface).2 = 0 ∧
    ¬ ∃ expf : ℚ → ℚ,
      |expf (-(693147 / 1000000 / 4) * (90 / 60)) - 7711 / 10000| ≤ 1 / 1000 ∧
      |expf (-(693147 / 1000000 / (151 / 100)) * (90 / 60)) - 5023 / 10000| ≤ 1 / 1000 ∧
      (ZHL16_GetCeiling (ZHL16_UpdateTissues expf ccrAtSurface 90)).2
        ≤ (ZHL16_GetCeiling ccrAtSurface).2 := by
  refine ⟨ccrAtSurface_off_gassing, ccrAtSurface_ceiling, ?_⟩
  rintro ⟨expf, hN, hH, hle⟩
  have hpos := ccrAtSurface_ceiling_after expf hN hH
  rw [ccrAtSurface_ceiling] at hle
  exact absurd hle (not_le.mpr hpos)

/-! ## `ZHL16_UpdateCNS` -/

theorem ite_mem_range (c : Prop) [Decidable c] (a b lo hi : ℚ) (ha : lo ≤ a ∧ a ≤ hi)
    (hb : lo ≤ b ∧ b ≤ hi) :
    lo ≤ (if c then a else b) ∧ (if c then a else b) ≤ hi := by
  by_cases h : c
  · rw [if_pos h]
    exact ha
  · rw [if_neg h]
    exact hb

/-- The two clamps at the end of `ZHL16_UpdateCNS`. -/
theorem cns_clamp (x : ℚ) :
    0 ≤ (if (if x > 100 then 100 else x) < 0 then 0 else (if x > 100 then 100 else x)) ∧
    (if (if x > 100 then 100 else x) < 0 then 0 else (if x > 100 then 100 else x)) ≤ 100 ∧
    (if (if x > 100 then 100 else x) < 0 then 0 else (if x > 100 then 100 else x))
      = max 0 (min x 100) := by
  by_cases h : x > 100
  · rw [if_pos h, if_neg (by norm_num)]
    refine ⟨by norm_num, le_refl _, ?_⟩
    rw [min_eq_right h.le, max_eq_right (by norm_num)]
  · rw [if_neg h]
    have hx : x ≤ 100 := not_lt.mp h
    by_cases h0 : x < 0
    · rw [if_pos h0]
      refine ⟨le_refl _, by norm_num, ?_⟩
      rw [min_eq_left hx, max_eq_left h0.le]
    · rw [if_neg h0]
      refine ⟨not_lt.mp h0, hx, ?_⟩
      rw [min_eq_left hx, max_eq_right (not_lt.mp h0)]

theorem updateCNS_cns (expf : ℚ → ℚ) (model : ZHL16Model) (dt : ℚ) :
    (ZHL16_UpdateCNS expf model dt).cns
      = max 0 (min
          (if workingPpO2 model < 5 / 10 then
            (model.cns + ZHL16_GetCNSAtDepth (workingPpO2 model) * dt / 60)
              * expf (-(693147 / 1000000) * dt / (90 * 60))
          else model.cns + ZHL16_GetCNSAtDepth (workingPpO2 model) * dt / 60) 100) := by
  unfold ZHL16_UpdateCNS
  dsimp only
  exact (cns_clamp _).2.2

/-- C26: after every `ZHL16_UpdateCNS` call, for every prior `cns`, working
ppO₂ and time step, `cns` lies in [0, 100] and nothing else in the model has
changed; when the working ppO₂ is below 0.5 bar and `dt >= 0` (exponential
in [0, 1] on non-positive arguments) the new value is at most `max cns 0`, so
the call never increases a non-negative `cns`; when the working ppO₂ is at
least 0.5 bar the new value is `cns + rate(ppO₂) * dt / 60` clamped to
[0, 100]; `rate` is the step table, 0 at or below 0.5 bar and 100/6 per minute
above 1.6 bar. -/
theorem ZHL16_UpdateCNS_bounds (expf : ℚ → ℚ) (model : ZHL16Model) (dt : ℚ) :
    (0 ≤ (ZHL16_UpdateCNS expf model dt).cns ∧ (ZHL16_UpdateCNS expf model dt).cns ≤ 100) ∧
    { ZHL16_UpdateCNS expf model dt with cns := model.cns } = model ∧
    (workingPpO2 model < 5 / 10 → 0 ≤ dt → ExpfUnit expf →
      (ZHL16_UpdateCNS expf model dt).cns ≤ max model.cns 0 ∧
      (0 ≤ model.cns → (ZHL16_UpdateCNS expf model dt).cns ≤ model.cns)) ∧
    (5 / 10 ≤ workingPpO2 model →
      (ZHL16_UpdateCNS expf model dt).cns
        = max 0 (min (model.cns + ZHL16_GetCNSAtDepth (workingPpO2 model) * dt / 60) 100)) ∧
    (∀ p : ℚ, p ≤ 5 / 10 → ZHL16_GetCNSAtDepth p = 0) ∧
    (∀ p : ℚ, 16 / 10 < p → ZHL16_GetCNSAtDepth p = 100 / 6) ∧
    (∀ p : ℚ, 0 ≤ ZHL16_GetCNSAtDepth p ∧ ZHL16_GetCNSAtDepth p ≤ 100 / 6) := by
  have hrate0 : ∀ p : ℚ, p ≤ 5 / 10 → ZHL16_GetCNSAtDepth p = 0 := by
    intro p hp
    unfold ZHL16_GetCNSAtDepth
    rw [if_pos hp]
  refine ⟨?_, rfl, ?_, ?_, hrate0, ?_, ?_⟩
  · unfold ZHL16_UpdateCNS
    dsimp only
    exact ⟨(cns_clamp _).1, (cns_clamp _).2.1⟩
  · intro hp hdt hexp
    have harg : -(693147 / 1000000) * dt / (90 * 60) ≤ 0 := by
      have : 0 ≤ 693147 / 1000000 * dt / (90 * 60) := by positivity
      linarith
    obtain ⟨e0, e1⟩ := hexp _ harg
    have hval : (ZHL16_UpdateCNS expf model dt).cns
        = max 0 (min (model.cns * expf (-(693147 / 1000000) * dt / (90 * 60))) 100) := by
      rw [updateCNS_cns, if_pos hp, hrate0 _ hp.le, zero_mul, zero_div, add_zero]
    have hle : (ZHL16_UpdateCNS expf model dt).cns ≤ max model.cns 0 := by
      rw [hval]
      apply max_le (le_max_right _ _)
      refine le_trans (min_le_left _ _) ?_
      by_cases hc : 0 ≤ model.cns
      · refine le_trans ?_ (le_max_left _ _)
        have := mul_le_mul_of_nonneg_left e1 hc
        linarith
      · refine le_trans ?_ (le_max_right _ _)
        exact mul_nonpos_of_nonpos_of_nonneg (not_le.mp hc).le e0
    exact ⟨hle, fun hc => by rwa [max_eq_left hc] at hle⟩
  · intro hp
    rw [updateCNS_cns, if_neg (not_lt.mpr hp)]
  · intro p hp
    unfold ZHL16_GetCNSAtDepth
    have h : ∀ q : ℚ, q ≤ 16 / 10 → ¬ p ≤ q := fun q hq hpq => by linarith
    rw [if_neg (h _ (by norm_num)), if_neg (h _ (by norm_num)), if_neg (h _ (by norm_num)),
      if_neg (h _ (by norm_num)), if_neg (h _ (by norm_num)), if_neg (h _ (by norm_num)),
      if_neg (h _ (by norm_num)), if_neg (h _ (by norm_num)), if_neg (h _ (by norm_num)),
      if_neg (h _ (by norm_num)), if_neg (h _ (by norm_num)), if_neg (h _ (by norm_num))]
  · intro p
    unfold ZHL16_GetCNSAtDepth
    iterate 12 refine ite_mem_range _ _ _ _ _ (by constructor <;> norm_num) ?_
    constructor <;> norm_num

theorem cnsSurfaceDiver_ppO2 : workingPpO2 cnsSurfaceDiver = 21273 / 100000 := by
  simp [workingPpO2, cnsSurfaceDiver, airDiver, airOnly, ZHL16_GetPartialPressure]
  norm_num

theorem ZHL16_UpdateCNS_bounds_witness :
    (ZHL16_UpdateCNS (fun _ => 1 / 2) cnsSurfaceDiver 60).cns ≤ max cnsSurfaceDiver.cns 0 ∧
      (0 ≤ cnsSurfaceDiver.cns →
        (ZHL16_UpdateCNS (fun _ => 1 / 2) cnsSurfaceDiver 60).cns ≤ cnsSurfaceDiver.cns) :=
  (ZHL16_UpdateCNS_bounds (fun _ => 1 / 2) cnsSurfaceDiver 60).2.2.1
    (by rw [cnsSurfaceDiver_ppO2]; norm_num) (by norm_num) (fun _ _ => by norm_num)

/-! ## `CCR_CalibrateCell` -/

theorem calibrate_of_guard (sys_tick : Nat) (ccr : CCRManager) (i : Nat) (ref : ℚ)
    (cell : O2Cell) (hi : i < NUM_O2_CELLS) (hc : ccr.cells[i]? = some cell)
    (hg : cell.mv > 0 ∧ ref > 0) :
    CCR_CalibrateCell sys_tick ccr i ref
      = { ccr with
          cells := ccr.cells.set i
            { cell with
              calibration_factor := cell.mv / ref
              calibration_ppO2 := ref
              calibration_timestamp := sys_tick / 1000
              status := CellStatus.CELL_OK
              is_voting := true } } := by
  unfold CCR_CalibrateCell
  rw [if_neg (not_le.mpr hi), hc]
  dsimp only
  rw [if_pos hg]

theorem calibrate_of_no_guard (sys_tick : Nat) (ccr : CCRManager) (i : Nat) (ref : ℚ)
    (cell : O2Cell) (hc : ccr.cells[i]? = some cell) (hg : ¬ (cell.mv > 0 ∧ ref > 0)) :
    CCR_CalibrateCell sys_tick ccr i ref = ccr := by
  unfold CCR_CalibrateCell
  split_ifs
  · rfl
  · rw [hc]
    dsimp only
    rw [if_neg hg]

/-- C27 (amended): for every cell index `i < 3`, when the cell's smoothed mV
and the reference are both positive, `CCR_CalibrateCell(i, ref)` stores
`calibration_factor = smoothed_mV / ref` and `calibration_ppO2 = ref`, sets
the cell's status to OK and re-enables its vote, whatever the cell's previous
status, so that the ppO₂ derived from the same smoothed mV equals `ref`; no
other cell and nothing else in the manager is changed. When the smoothed mV
or the reference is not positive the call changes nothing. -/
theorem CCR_CalibrateCell_stores (sys_tick : Nat) (ccr : CCRManager) (i : Nat) (ref : ℚ)
    (cell : O2Cell) (hi : i < NUM_O2_CELLS) (hc : ccr.cells[i]? = some cell) :
    (cell.mv > 0 ∧ ref > 0 →
      (∃ cell1, (CCR_CalibrateCell sys_tick ccr i ref).cells[i]? = some cell1 ∧
        cell1.calibration_factor = cell.mv / ref ∧ cell1.calibration_ppO2 = ref ∧
        cell1.status = CellStatus.CELL_OK ∧ cell1.is_voting = true ∧
        cell1.mv = cell.mv ∧ cell1.mv / cell1.calibration_factor = ref) ∧
      (∀ j, j ≠ i → (CCR_CalibrateCell sys_tick ccr i ref).cells[j]? = ccr.cells[j]?) ∧
      { CCR_CalibrateCell sys_tick ccr i ref with cells := ccr.cells } = ccr) ∧
    (¬ (cell.mv > 0 ∧ ref > 0) → CCR_CalibrateCell sys_tick ccr i ref = ccr) := by
  refine ⟨fun hg => ?_, calibrate_of_no_guard sys_tick ccr i ref cell hc⟩
  rw [calibrate_of_guard sys_tick ccr i ref cell hi hc hg]
  have hlt : i < ccr.cells.length := (List.getElem?_eq_some.mp hc).1
  refine ⟨⟨{ cell with
      calibration_factor := cell.mv / ref
      calibration_ppO2 := ref
      calibration_timestamp := sys_tick / 1000
      status := CellStatus.CELL_OK
      is_voting := true }, ?_, rfl, rfl, rfl, rfl, rfl, ?_⟩, ?_, rfl⟩
  · show (ccr.cells.set i _)[i]? = some _
    rw [List.getElem?_set_self hlt]
  · show cell.mv / (cell.mv / ref) = ref
    have h1 : cell.mv ≠ 0 := hg.1.ne.symm
    have h2 : ref ≠ 0 := hg.2.ne.symm
    field_simp
  · intro j hj
    show (ccr.cells.set i _)[j]? = ccr.cells[j]?
    rw [List.getElem?_set_ne (Ne.symm hj)]

theorem CCR_CalibrateCell_stores_witness :
    (∃ cell1, (CCR_CalibrateCell 5000 failedCellTenMv 0 (21 / 100)).cells[0]? = some cell1 ∧
        cell1.calibration_factor = 10 / (21 / 100) ∧ cell1.calibration_ppO2 = 21 / 100 ∧
        cell1.status = CellStatus.CELL_OK ∧ cell1.is_voting = true ∧
        cell1.mv = 10 ∧ cell1.mv / cell1.calibration_factor = 21 / 100) ∧
      (∀ j, j ≠ 0 →
        (CCR_CalibrateCell 5000 failedCellTenMv 0 (21 / 100)).cells[j]?
          = failedCellTenMv.cells[j]?) ∧
      { CCR_CalibrateCell 5000 failedCellTenMv 0 (21 / 100) with
          cells := failedCellTenMv.cells } = failedCellTenMv :=
  (CCR_CalibrateCell_stores 5000 failedCellTenMv 0 (21 / 100)
    { initCell with mv := 10, status := CellStatus.CELL_FAIL } (by decide) rfl).1
    ⟨by norm_num, by norm_num⟩

/-- C27 (as stated) fails: after `CCR_Init` and one reading of 0 mV the first
cell has failed with a smoothed 0 mV; `CCR_CalibrateCell(0, 0.21)` leaves it
failed, not voting, with the factor 47.6 of `CCR_Init`. -/
theorem CCR_CalibrateCell_counterexample :
    ∃ cell, (CCR_CalibrateCell 5000 allCellsFailed 0 (21 / 100)).cells[0]? = some cell ∧
      cell.mv = 0 ∧ cell.status = CellStatus.CELL_FAIL ∧ cell.is_voting = false ∧
      cell.calibration_factor = 238 / 5 ∧ cell.calibration_factor ≠ cell.mv / (21 / 100) ∧
      cell.calibration_ppO2 ≠ 21 / 100 := by
  have hc : allCellsFailed.cells[0]? = some (updateCell initCell 0) := by
    rw [allCellsFailed_cells]
    rfl
  have hmv : (updateCell initCell 0).mv = 0 := by
    simp [updateCell, initCell, CELL_MV_WINDOW_SIZE, List.range_succ, Function.update]
  have hf : (updateCell initCell 0).calibration_factor = 238 / 5 := by
    simp [updateCell, initCell, CELL_MV_WINDOW_SIZE, List.range_succ, Function.update]
  have hp : (updateCell initCell 0).calibration_ppO2 = 0 := by
    simp [updateCell, initCell, CELL_MV_WINDOW_SIZE, List.range_succ, Function.update]
  have hno : ¬ ((updateCell initCell 0).mv > 0 ∧ (21 / 100 : ℚ) > 0) := by
    rw [hmv]
    exact fun h => lt_irrefl _ h.1
  rw [calibrate_of_no_guard 5000 allCellsFailed 0 (21 / 100) _ hc hno]
  refine ⟨_, hc, hmv, updateCell_init_zero.1, updateCell_init_zero.2, hf, ?_, ?_⟩
  · rw [hf, hmv]
    norm_num
  · rw [hp]
    norm_num

/-! ## Best gas: maximal ppO₂, lowest index -/

theorem bestGasStep_skip (model : ZHL16Model) (depth : ℚ) (st : Nat × ℚ) (i : Nat)
    (h : ¬ ((model.gases i).is_enabled = true ∧ gasInWindow model depth i)) :
    bestGasStep model depth st i = st := by
  rcases bestGasStep_cases model depth st i with h1 | ⟨_, he, hw, _⟩
  · exact h1
  · exact absurd ⟨he, hw⟩ h

theorem bestGasStep_take (model : ZHL16Model) (depth : ℚ) (st : Nat × ℚ) (i : Nat)
    (he : (model.gases i).is_enabled = true) (hw : gasInWindow model depth i) :
    bestGasStep model depth st i
      = if gasPpO2 model depth i > st.2 then (i, gasPpO2 model depth i) else st := by
  unfold gasInWindow gasPpO2 at hw
  unfold bestGasStep gasPpO2
  dsimp only
  rw [if_neg (by simp [he]), if_neg (by
    intro h
    rcases h with h | h
    · exact absurd hw.2 (not_le.mpr h)
    · exact absurd hw.1 (not_le.mpr h))]

/-- The invariant of the scan of `ZHL16_GetBestGas` after the indices below
`n`: `best_ppO2` bounds the ppO₂ of every enabled in-window gas seen, and is
either still 0 with `best_gas` the current gas, or the ppO₂ of `best_gas`, an
enabled in-window gas that no earlier gas equals. -/
theorem bestGas_scan (model : ZHL16Model) (depth : ℚ) (n : Nat) :
    (∀ j, j < n → (model.gases j).is_enabled = true → gasInWindow model depth j →
      gasPpO2 model depth j
        ≤ ((List.range n).foldl (bestGasStep model depth) (model.current_gas, 0)).2) ∧
    ((((List.range n).foldl (bestGasStep model depth) (model.current_gas, 0)).2 = 0 ∧
      ((List.range n).foldl (bestGasStep model depth) (model.current_gas, 0)).1
        = model.current_gas) ∨
     (((List.range n).foldl (bestGasStep model depth) (model.current_gas, 0)).1 < n ∧
      (model.gases
        ((List.range n).foldl (bestGasStep model depth) (model.current_gas, 0)).1).is_enabled
          = true ∧
      gasInWindow model depth
        ((List.range n).foldl (bestGasStep model depth) (model.current_gas, 0)).1 ∧
      ((List.range n).foldl (bestGasStep model depth) (model.current_gas, 0)).2
        = gasPpO2 model depth
            ((List.range n).foldl (bestGasStep model depth) (model.current_gas, 0)).1 ∧
      0 < ((List.range n).foldl (bestGasStep model depth) (model.current_gas, 0)).2 ∧
      ∀ j, j < ((List.range n).foldl (bestGasStep model depth) (model.current_gas, 0)).1 →
        (model.gases j).is_enabled = true → gasInWindow model depth j →
        gasPpO2 model depth j
          < ((List.range n).foldl (bestGasStep model depth) (model.current_gas, 0)).2)) := by
  induction n with
  | zero =>
    refine ⟨fun j hj => absurd hj (Nat.not_lt_zero j), Or.inl ⟨rfl, rfl⟩⟩
  | succ m ih =>
    rw [List.range_succ, List.foldl_append, List.foldl_cons, List.foldl_nil]
    generalize (List.range m).foldl (bestGasStep model depth) (model.current_gas, 0) = st at ih ⊢
    obtain ⟨hmax, hcase⟩ := ih
    by_cases hew : (model.gases m).is_enabled = true ∧ gasInWindow model depth m
    · rw [bestGasStep_take model depth st m hew.1 hew.2]
      by_cases hgt : gasPpO2 model depth m > st.2
      · rw [if_pos hgt]
        have hpos : 0 < gasPpO2 model depth m := by
          rcases hcase with ⟨h0, _⟩ | ⟨_, _, _, _, hp, _⟩
          · rw [h0] at hgt
            exact hgt
          · exact lt_trans hp hgt
        refine ⟨fun j hj he hw => ?_, Or.inr ⟨Nat.lt_succ_self m, hew.1, hew.2, rfl, hpos, ?_⟩⟩
        · rcases Nat.lt_succ_iff_lt_or_eq.mp hj with h | h
          · exact le_of_lt (lt_of_le_of_lt (hmax j h he hw) hgt)
          · rw [h]
        · intro j hj he hw
          exact lt_of_le_of_lt (hmax j hj he hw) hgt
      · rw [if_neg hgt]
        refine ⟨fun j hj he hw => ?_, ?_⟩
        · rcases Nat.lt_succ_iff_lt_or_eq.mp hj with h | h
          · exact hmax j h he hw
          · rw [h]
            exact not_lt.mp hgt
        · rcases hcase with h | ⟨h1, h2⟩
          · exact Or.inl h
          · exact Or.inr ⟨Nat.lt_succ_of_lt h1, h2⟩
    · rw [bestGasStep_skip model depth st m hew]
      refine ⟨fun j hj he hw => ?_, ?_⟩
      · rcases Nat.lt_succ_iff_lt_or_eq.mp hj with h | h
        · exact hmax j h he hw
        · rw [h] at he hw
          exact absurd ⟨he, hw⟩ hew
      · rcases hcase with h | ⟨h1, h2⟩
        · exact Or.inl h
        · exact Or.inr ⟨Nat.lt_succ_of_lt h1, h2⟩

/-- An enabled in-window gas whose window has a positive lower bound, as
`ZHL16_AddGas` sets it, has a positive ppO₂: it is a candidate of the scan. -/
theorem gasCandidate_of_min (model : ZHL16Model) (depth : ℚ) (i : Nat)
    (hi : i < model.num_gases) (he : (model.gases i).is_enabled = true)
    (hw : gasInWindow model depth i) (hmin : 0 < (model.gases i).ppO2_min) :
    gasCandidate model depth i :=
  ⟨hi, he, hw, lt_of_lt_of_le hmin hw.1⟩

theorem addGas_window (model : ZHL16Model) (idx : Nat) (fO2 fN2 fHe : ℚ) (is_diluent : Bool)
    (h : idx < MAX_GASES) :
    ((ZHL16_AddGas model idx fO2 fN2 fHe is_diluent).gases idx).ppO2_min = 16 / 100 ∧
      ((ZHL16_AddGas model idx fO2 fN2 fHe is_diluent).gases idx).ppO2_max = 14 / 10 ∧
      ((ZHL16_AddGas model idx fO2 fN2 fHe is_diluent).gases idx).is_enabled = true := by
  unfold ZHL16_AddGas
  rw [if_neg (not_le.mpr h)]
  dsimp only
  rw [Function.update_same]
  exact ⟨rfl, rfl, rfl⟩

/-- C28: when at least one enabled gas with index below `num_gases` has a
positive ppO₂ at the given depth inside its window, `ZHL16_GetBestGas` returns
an enabled in-window gas of the table whose ppO₂ at that depth is maximal among
all enabled in-window gases, and it is the lowest index among the gases with
that maximal ppO₂. -/
theorem ZHL16_GetBestGas_maximal (model : ZHL16Model) (depth : ℚ)
    (hex : ∃ i, i < model.num_gases ∧ (model.gases i).is_enabled = true ∧
      gasInWindow model depth i ∧ 0 < gasPpO2 model depth i) :
    ZHL16_GetBestGas model depth < model.num_gases ∧
    (model.gases (ZHL16_GetBestGas model depth)).is_enabled = true ∧
    gasInWindow model depth (ZHL16_GetBestGas model depth) ∧
    (∀ j, j < model.num_gases → (model.gases j).is_enabled = true →
      gasInWindow model depth j →
      gasPpO2 model depth j ≤ gasPpO2 model depth (ZHL16_GetBestGas model depth)) ∧
    (∀ j, j < model.num_gases → (model.gases j).is_enabled = true →
      gasInWindow model depth j →
      gasPpO2 model depth j = gasPpO2 model depth (ZHL16_GetBestGas model depth) →
      ZHL16_GetBestGas model depth ≤ j) := by
  obtain ⟨hmax, hcase⟩ := bestGas_scan model depth model.num_gases
  obtain ⟨i, hi, hie, hiw, hipos⟩ := hex
  unfold ZHL16_GetBestGas
  generalize (List.range model.num_gases).foldl (bestGasStep model depth)
    (model.current_gas, 0) = st at hmax hcase ⊢
  rcases hcase with ⟨h0, _⟩ | ⟨h1, h2, h3, h4, _, h6⟩
  · have := hmax i hi hie hiw
    rw [h0] at this
    exact absurd this (not_le.mpr hipos)
  · refine ⟨h1, h2, h3, fun j hj he hw => ?_, fun j hj he hw heq => ?_⟩
    · rw [← h4]
      exact hmax j hj he hw
    · by_contra hlt
      have := h6 j (not_le.mp hlt) he hw
      rw [h4, heq] at this
      exact lt_irrefl _ this

/-! ## Switching to bailout -/

theorem switchToBailout_found (model : ZHL16Model) (k : Nat)
    (h : (List.range model.num_gases).find?
      (fun i => (model.gases i).is_bailout && (model.gases i).is_enabled) = some k) :
    ZHL16_SwitchToBailout model
      = { model with ccr_mode := false, actual_ppO2 := 0, current_gas := k } := by
  unfold ZHL16_SwitchToBailout
  rw [h]

theorem switchToBailout_none (model : ZHL16Model)
    (h : (List.range model.num_gases).find?
      (fun i => (model.gases i).is_bailout && (model.gases i).is_enabled) = none) :
    ZHL16_SwitchToBailout model = { model with ccr_mode := false, actual_ppO2 := 0 } := by
  unfold ZHL16_SwitchToBailout
  rw [h]

/-- The first index below `n` that satisfies `p`, as `find?` over `range n`
returns it. -/
theorem find_range_first (p : Nat → Bool) (n k : Nat) (hk : k < n) (hp : p k = true)
    (hfirst : ∀ j, j < k → p j = false) : (List.range n).find? p = some k := by
  induction n with
  | zero => exact absurd hk (Nat.not_lt_zero k)
  | succ m ih =>
    rw [List.range_succ, List.find?_append]
    by_cases hkm : k < m
    · rw [ih hkm]
      rfl
    · have hkeq : k = m := by omega
      subst hkeq
      have hnone : (List.range k).find? p = none := by
        rw [List.find?_eq_none]
        intro x hx
        rw [hfirst x (List.mem_range.mp hx)]
        exact Bool.false_ne_true
      rw [hnone]
      simp [hp]

theorem find_range_none (p : Nat → Bool) (n : Nat) (h : ∀ j, j < n → p j = false) :
    (List.range n).find? p = none := by
  rw [List.find?_eq_none]
  intro x hx
  rw [h x (List.mem_range.mp hx)]
  exact Bool.false_ne_true

/-- C29 (amended): `CCR_SwitchToBailout(i)` sets `is_bailout = true` and
`bailout_gas_idx = i` in the CCR manager and nothing else;
`ZHL16_SwitchToBailout` sets `ccr_mode = false` and `actual_ppO2 = 0`, and
sets `current_gas` to the lowest index below `num_gases` whose gas is flagged
as bailout and enabled when there is one; when no gas is both flagged and
enabled, `current_gas` keeps its value. Nothing else in the model changes. -/
theorem ZHL16_SwitchToBailout_first (ccr : CCRManager) (i : Nat) (model : ZHL16Model) :
    ((CCR_SwitchToBailout ccr i).is_bailout = true ∧
      (CCR_SwitchToBailout ccr i).bailout_gas_idx = i ∧
      { CCR_SwitchToBailout ccr i with
        is_bailout := ccr.is_bailout, bailout_gas_idx := ccr.bailout_gas_idx } = ccr) ∧
    (ZHL16_SwitchToBailout model).ccr_mode = false ∧
    (ZHL16_SwitchToBailout model).actual_ppO2 = 0 ∧
    { ZHL16_SwitchToBailout model with
      ccr_mode := model.ccr_mode, actual_ppO2 := model.actual_ppO2,
      current_gas := model.current_gas } = model ∧
    (∀ k, k < model.num_gases →
      (model.gases k).is_bailout = true → (model.gases k).is_enabled = true →
      (∀ j, j < k → ¬ ((model.gases j).is_bailout = true ∧ (model.gases j).is_enabled = true)) →
      (ZHL16_SwitchToBailout model).current_gas = k ∧
      ((ZHL16_SwitchToBailout model).gases (ZHL16_SwitchToBailout model).current_gas).is_bailout
        = true) ∧
    ((∀ j, j < model.num_gases →
        ¬ ((model.gases j).is_bailout = true ∧ (model.gases j).is_enabled = true)) →
      (ZHL16_SwitchToBailout model).current_gas = model.current_gas) := by
  have hfalse : ∀ j, ¬ ((model.gases j).is_bailout = true ∧ (model.gases j).is_enabled = true) →
      ((model.gases j).is_bailout && (model.gases j).is_enabled) = false := by
    intro j hj
    cases hb : (model.gases j).is_bailout <;> cases he : (model.gases j).is_enabled <;>
      simp_all
  refine ⟨⟨rfl, rfl, rfl⟩, ?_, ?_, ?_, ?_, ?_⟩
  · unfold ZHL16_SwitchToBailout
    dsimp only
    split <;> rfl
  · unfold ZHL16_SwitchToBailout
    dsimp only
    split <;> rfl
  · unfold ZHL16_SwitchToBailout
    dsimp only
    split <;> rfl
  · intro k hk hb he hfirst
    have hfind := find_range_first
      (fun i => (model.gases i).is_bailout && (model.gases i).is_enabled) model.num_gases k hk
      (by simp [hb, he]) (fun j hj => hfalse j (hfirst j hj))
    rw [switchToBailout_found model k hfind]
    exact ⟨rfl, hb⟩
  · intro hnone
    have hfind := find_range_none
      (fun i => (model.gases i).is_bailout && (model.gases i).is_enabled) model.num_gases
      (fun j hj => hfalse j (hnone j hj))
    rw [switchToBailout_none model hfind]

theorem loopDiver_num_gases : loopDiver.num_gases = 2 := by
  simp [loopDiver, ZHL16_SetCCRMode, ZHL16_AddGas, ZHL16_Init, MAX_GASES]

theorem loopDiver_current_gas : loopDiver.current_gas = 0 := by
  simp [loopDiver, ZHL16_SetCCRMode, ZHL16_AddGas, ZHL16_Init, MAX_GASES]

theorem loopDiver_no_bailout (i : Nat) : (loopDiver.gases i).is_bailout = false := by
  have hg : loopDiver.gases
      = Function.update
          (Function.update (fun _ => zeroGas) 0
            { fO2 := 21 / 100, fN2 := 79 / 100, fHe := 0, ppO2_max := 14 / 10,
              ppO2_min := 16 / 100, mod := ZHL16_CalculateMOD (21 / 100) (14 / 10),
              is_diluent := true, is_enabled := true, is_bailout := false })
          1
          { fO2 := 50 / 100, fN2 := 50 / 100, fHe := 0, ppO2_max := 14 / 10,
            ppO2_min := 16 / 100, mod := ZHL16_CalculateMOD (50 / 100) (14 / 10),
            is_diluent := false, is_enabled := true, is_bailout := false } := by
    simp [loopDiver, ZHL16_SetCCRMode, ZHL16_AddGas, ZHL16_Init, MAX_GASES]
  rw [hg]
  by_cases h1 : i = 1
  · subst h1
    simp
  · rw [Function.update_noteq h1]
    by_cases h0 : i = 0
    · subst h0
      simp
    · rw [Function.update_noteq h0]
      rfl

theorem loopDiverWithBailout_gases :
    loopDiverWithBailout.gases
      = Function.update loopDiver.gases 1 { loopDiver.gases 1 with is_bailout := true } := rfl

theorem loopDiverBailoutOff_gases :
    loopDiverBailoutOff.gases
      = Function.update loopDiver.gases 1
          { loopDiver.gases 1 with is_bailout := true, is_enabled := false } := rfl

theorem ZHL16_SwitchToBailout_first_witness :
    (ZHL16_SwitchToBailout loopDiverWithBailout).current_gas = 1 ∧
      ((ZHL16_SwitchToBailout loopDiverWithBailout).gases
        (ZHL16_SwitchToBailout loopDiverWithBailout).current_gas).is_bailout = true :=
  (ZHL16_SwitchToBailout_first CCR_Init 0 loopDiverWithBailout).2.2.2.2.1 1
    (by show 1 < loopDiver.num_gases; rw [loopDiver_num_gases]; decide)
    (by simp [loopDiverWithBailout])
    (by simp [loopDiverWithBailout, loopDiver, ZHL16_SetCCRMode, ZHL16_AddGas, ZHL16_Init,
      MAX_GASES])
    (fun j hj => by
      have hj0 : j = 0 := by omega
      subst hj0
      intro h
      have hb : (loopDiverWithBailout.gases 0).is_bailout = false := by
        rw [loopDiverWithBailout_gases, Function.update_noteq (by decide : (0 : Nat) ≠ 1)]
        exact loopDiver_no_bailout 0
      rw [hb] at h
      exact Bool.false_ne_true h.1)

/-- C29 (as stated) fails: for a diver whose gases were entered with
`ZHL16_AddGas` (which flags no gas as bailout) the switch leaves
`current_gas` at the diluent of slot 0, not a bailout gas; and a gas flagged
as bailout but disabled is passed over, so that `current_gas` is not the
first gas flagged as bailout either. -/
theorem ZHL16_SwitchToBailout_counterexample :
    ((CCR_SwitchToBailout CCR_Init 0).is_bailout = true ∧
      (ZHL16_SwitchToBailout loopDiver).current_gas = 0 ∧
      ((ZHL16_SwitchToBailout loopDiver).gases
        (ZHL16_SwitchToBailout loopDiver).current_gas).is_bailout = false) ∧
    ((loopDiverBailoutOff.gases 1).is_bailout = true ∧
      (ZHL16_SwitchToBailout loopDiverBailoutOff).current_gas = 0 ∧
      ((ZHL16_SwitchToBailout loopDiverBailoutOff).gases
        (ZHL16_SwitchToBailout loopDiverBailoutOff).current_gas).is_bailout = false) := by
  have h1 : (List.range loopDiver.num_gases).find?
      (fun i => (loopDiver.gases i).is_bailout && (loopDiver.gases i).is_enabled) = none :=
    find_range_none _ _ (fun j _ => by simp [loopDiver_no_bailout j])
  have hoff : ∀ j, ((loopDiverBailoutOff.gases j).is_bailout
      && (loopDiverBailoutOff.gases j).is_enabled) = false := by
    intro j
    by_cases hj : j = 1
    · subst hj
      simp [loopDiverBailoutOff]
    · rw [loopDiverBailoutOff_gases, Function.update_noteq hj]
      simp [loopDiver_no_bailout j]
  have h2 : (List.range loopDiverBailoutOff.num_gases).find?
      (fun i => (loopDiverBailoutOff.gases i).is_bailout
        && (loopDiverBailoutOff.gases i).is_enabled) = none :=
    find_range_none _ _ (fun j _ => hoff j)
  have hb0 : (loopDiverBailoutOff.gases 0).is_bailout = false := by
    rw [loopDiverBailoutOff_gases, Function.update_noteq (by decide : (0 : Nat) ≠ 1)]
    exact loopDiver_no_bailout 0
  refine ⟨⟨rfl, ?_, ?_⟩, ⟨?_, ?_, ?_⟩⟩
  · rw [switchToBailout_none loopDiver h1]
    exact loopDiver_current_gas
  · rw [switchToBailout_none loopDiver h1]
    exact loopDiver_no_bailout _
  · simp [loopDiverBailoutOff]
  · rw [switchToBailout_none loopDiverBailoutOff h2]
    exact loopDiver_current_gas
  · rw [switchToBailout_none loopDiverBailoutOff h2]
    show (loopDiverBailoutOff.gases loopDiver.current_gas).is_bailout = false
    rw [loopDiver_current_gas]
    exact hb0

theorem loopDiver_gas_zero :
    loopDiver.gases 0
      = { fO2 := 21 / 100, fN2 := 79 / 100, fHe := 0, ppO2_max := 14 / 10,
          ppO2_min := 16 / 100, mod := ZHL16_CalculateMOD (21 / 100) (14 / 10),
          is_diluent := true, is_enabled := true, is_bailout := false } := by
  simp [loopDiver, ZHL16_SetCCRMode, ZHL16_AddGas, ZHL16_Init, MAX_GASES]

theorem loopDiver_gas_one :
    loopDiver.gases 1
      = { fO2 := 50 / 100, fN2 := 50 / 100, fHe := 0, ppO2_max := 14 / 10,
          ppO2_min := 16 / 100, mod := ZHL16_CalculateMOD (50 / 100) (14 / 10),
          is_diluent := false, is_enabled := true, is_bailout := false } := by
  simp [loopDiver, ZHL16_SetCCRMode, ZHL16_AddGas, ZHL16_Init, MAX_GASES]

theorem loopDiver_surface_pressure : loopDiver.surface_pressure = 1013 / 1000 := by
  simp [loopDiver, ZHL16_SetCCRMode, ZHL16_AddGas, ZHL16_Init, MAX_GASES]

theorem loopDiver_ppO2_min (i : Nat) (hi : i < loopDiver.num_gases) :
    0 < (loopDiver.gases i).ppO2_min := by
  rw [loopDiver_num_gases] at hi
  interval_cases i
  · rw [loopDiver_gas_zero]
    norm_num
  · rw [loopDiver_gas_one]
    norm_num

theorem loopDiver_window_one : gasInWindow loopDiver 10 1 := by
  unfold gasInWindow gasPpO2 ZHL16_GetPartialPressure ZHL16_GetAmbientPressure
  rw [loopDiver_gas_one, loopDiver_surface_pressure]
  constructor <;> norm_num

theorem ZHL16_GetBestGas_maximal_witness :
    ZHL16_GetBestGas loopDiver 10 < loopDiver.num_gases ∧
    (loopDiver.gases (ZHL16_GetBestGas loopDiver 10)).is_enabled = true ∧
    gasInWindow loopDiver 10 (ZHL16_GetBestGas loopDiver 10) ∧
    (∀ j, j < loopDiver.num_gases → (loopDiver.gases j).is_enabled = true →
      gasInWindow loopDiver 10 j →
      gasPpO2 loopDiver 10 j ≤ gasPpO2 loopDiver 10 (ZHL16_GetBestGas loopDiver 10)) ∧
    (∀ j, j < loopDiver.num_gases → (loopDiver.gases j).is_enabled = true →
      gasInWindow loopDiver 10 j →
      gasPpO2 loopDiver 10 j = gasPpO2 loopDiver 10 (ZHL16_GetBestGas loopDiver 10) →
      ZHL16_GetBestGas loopDiver 10 ≤ j) :=
  ZHL16_GetBestGas_maximal loopDiver 10
    ⟨1, by rw [loopDiver_num_gases]; decide, by rw [loopDiver_gas_one], loopDiver_window_one,
      (gasCandidate_of_min loopDiver 10 1 (by rw [loopDiver_num_gases]; decide)
        (by rw [loopDiver_gas_one]) loopDiver_window_one
        (loopDiver_ppO2_min 1 (by rw [loopDiver_num_gases]; decide))).2.2.2⟩

theorem openWindowDiver_gas_zero :
    openWindowDiver.gases 0
      = { fO2 := 21 / 100, fN2 := 79 / 100, fHe := 0, ppO2_max := 14 / 10,
          ppO2_min := 16 / 100, mod := ZHL16_CalculateMOD (21 / 100) (14 / 10),
          is_diluent := false, is_enabled := true, is_bailout := false } := by
  simp [openWindowDiver, ZHL16_AddGas, ZHL16_Init, MAX_GASES]

theorem openWindowDiver_gas_one :
    openWindowDiver.gases 1
      = { fO2 := 0, fN2 := 0, fHe := 1, ppO2_max := 14 / 10, ppO2_min := 0,
          mod := ZHL16_CalculateMOD 0 (14 / 10), is_diluent := false, is_enabled := true,
          is_bailout := false } := by
  simp [openWindowDiver]

theorem openWindowDiver_num_gases : openWindowDiver.num_gases = 2 := by
  simp [openWindowDiver, ZHL16_AddGas, ZHL16_Init, MAX_GASES]

theorem openWindowDiver_current_gas : openWindowDiver.current_gas = 0 := by
  simp [openWindowDiver, ZHL16_AddGas, ZHL16_Init, MAX_GASES]

theorem openWindowDiver_surface_pressure : openWindowDiver.surface_pressure = 1013 / 1000 := by
  simp [openWindowDiver, ZHL16_AddGas, ZHL16_Init, MAX_GASES]

/-- C28 (as stated) fails: at 70 m the helium of slot 1 is enabled and inside
its window [0, 1.4] with ppO₂ 0, and it is the only enabled in-window gas (air
gives 1.68 bar, above its limit 1.4); the scan starts from `best_ppO2 = 0` and
takes a gas only on a strictly greater ppO₂, so `ZHL16_GetBestGas` returns the
current gas 0, air, which is outside its window. -/
theorem ZHL16_GetBestGas_maximal_counterexample :
    (1 < openWindowDiver.num_gases ∧ (openWindowDiver.gases 1).is_enabled = true ∧
      gasInWindow openWindowDiver 70 1 ∧ gasPpO2 openWindowDiver 70 1 = 0) ∧
    ZHL16_GetBestGas openWindowDiver 70 = 0 ∧
    gasPpO2 openWindowDiver 70 0 = 168273 / 100000 ∧
    (openWindowDiver.gases 0).ppO2_max = 14 / 10 ∧
    ¬ gasInWindow openWindowDiver 70 (ZHL16_GetBestGas openWindowDiver 70) := by
  have hp1 : gasPpO2 openWindowDiver 70 1 = 0 := by
    unfold gasPpO2 ZHL16_GetPartialPressure
    rw [openWindowDiver_gas_one]
    exact mul_zero _
  have hp0 : gasPpO2 openWindowDiver 70 0 = 168273 / 100000 := by
    unfold gasPpO2 ZHL16_GetPartialPressure ZHL16_GetAmbientPressure
    rw [openWindowDiver_gas_zero, openWindowDiver_surface_pressure]
    norm_num
  have hw0 : ¬ gasInWindow openWindowDiver 70 0 := by
    unfold gasInWindow
    rw [hp0, openWindowDiver_gas_zero]
    norm_num
  have hbest : ZHL16_GetBestGas openWindowDiver 70 = 0 := by
    rw [getBestGas_default, openWindowDiver_current_gas]
    rintro ⟨i, hi, _, hw, hp⟩
    rw [openWindowDiver_num_gases] at hi
    interval_cases i
    · exact hw0 hw
    · rw [hp1] at hp
      exact lt_irrefl _ hp
  refine ⟨⟨by rw [openWindowDiver_num_gases]; decide, by rw [openWindowDiver_gas_one], ?_, hp1⟩,
    hbest, hp0, by rw [openWindowDiver_gas_zero], by rw [hbest]; exact hw0⟩
  unfold gasInWindow
  rw [hp1, openWindowDiver_gas_one]
  norm_num

/-! ## Sample compression -/

/-- The loop of `DiveManager_CompressSamples` from the counters `i = 2 * j`
and `j`, over a buffer of fewer than 65535 samples: it ends with
`j = (n + 1) / 2`, slot `k` below that holding the sample that was at `2 * k`,
the slots from there on untouched. -/
theorem compressLoop_spec (n : Nat) (hn : n < 65535) (s0 : Nat → DiveSample) :
    ∀ (m j : Nat) (s : Nat → DiveSample), m = n + 1 - 2 * j → 2 * j ≤ n + 1 →
      (∀ k, k < j → s k = s0 (2 * k)) → (∀ k, j ≤ k → s k = s0 k) →
      ∃ s1, compressLoop n s (2 * j) j = some (s1, (n + 1) / 2) ∧
        (∀ k, k < (n + 1) / 2 → s1 k = s0 (2 * k)) ∧
        (∀ k, (n + 1) / 2 ≤ k → s1 k = s0 k) := by
  intro m
  induction m using Nat.strong_induction_on with
  | _ m ih =>
    intro j s hm hj hlo hhi
    rw [compressLoop]
    by_cases hlt : 2 * j < n
    · rw [if_pos hlt, if_pos (by omega), Nat.mod_eq_of_lt (by omega)]
      have h2 : 2 * j + 2 = 2 * (j + 1) := by ring
      rw [h2]
      refine ih (n + 1 - 2 * (j + 1)) (by omega) (j + 1) _ rfl (by omega) ?_ ?_
      · intro k hk
        by_cases hkj : k = j
        · rw [hkj, Function.update_same]
          exact hhi (2 * j) (by omega)
        · rw [Function.update_noteq hkj]
          exact hlo k (by omega)
      · intro k hk
        rw [Function.update_noteq (by omega)]
        exact hhi k (by omega)
    · rw [if_neg hlt]
      have hj2 : j = (n + 1) / 2 := by omega
      refine ⟨s, by rw [← hj2], ?_, ?_⟩
      · intro k hk
        exact hlo k (by omega)
      · intro k hk
        exact hhi k (by omega)

/-- C25: for a buffer of `n` samples (`n` below 65535; the buffer holds at
most 3600) `DiveManager_CompressSamples` returns, leaves
`num_samples = (n + 1) / 2`, which is `n / 2` for even `n` and 1800 for a
full buffer of 3600; sample `k` afterwards is the sample that was at index
`2 * k`, for every `k` below the new count; for `n ≥ 1` the first sample is
unchanged; the slots from the new count on, and everything else in the
manager, are untouched. -/
theorem DiveManager_CompressSamples_halves (dm : DiveManager)
    (hn : dm.current_dive.num_samples < 65535) :
    ∃ dm1, DiveManager_CompressSamples dm = some dm1 ∧
      dm1.current_dive.num_samples = (dm.current_dive.num_samples + 1) / 2 ∧
      (dm.current_dive.num_samples % 2 = 0 →
        dm1.current_dive.num_samples = dm.current_dive.num_samples / 2) ∧
      (dm.current_dive.num_samples = MAX_DIVE_SAMPLES →
        dm1.current_dive.num_samples = 1800) ∧
      (∀ k, k < (dm.current_dive.num_samples + 1) / 2 →
        dm1.current_dive.samples k = dm.current_dive.samples (2 * k)) ∧
      (1 ≤ dm.current_dive.num_samples →
        dm1.current_dive.samples 0 = dm.current_dive.samples 0) ∧
      (∀ k, (dm.current_dive.num_samples + 1) / 2 ≤ k →
        dm1.current_dive.samples k = dm.current_dive.samples k) ∧
      { dm1 with
        current_dive :=
          { dm1.current_dive with
            samples := dm.current_dive.samples
            num_samples := dm.current_dive.num_samples } } = dm := by
  obtain ⟨s1, h1, hlo, hhi⟩ :=
    compressLoop_spec dm.current_dive.num_samples hn dm.current_dive.samples
      (dm.current_dive.num_samples + 1) 0 dm.current_dive.samples rfl (by omega)
      (fun k hk => absurd hk (Nat.not_lt_zero k)) (fun k _ => rfl)
  rw [Nat.mul_zero] at h1
  refine ⟨{ dm with
      current_dive :=
        { dm.current_dive with
          samples := s1, num_samples := (dm.current_dive.num_samples + 1) / 2 } },
    by unfold DiveManager_CompressSamples; rw [h1]; rfl, rfl, ?_, ?_, hlo, ?_, hhi, rfl⟩
  · intro h
    show (dm.current_dive.num_samples + 1) / 2 = dm.current_dive.num_samples / 2
    omega
  · intro h
    show (dm.current_dive.num_samples + 1) / 2 = 1800
    rw [h]
    rfl
  · intro h
    exact hlo 0 (by omega)

theorem DiveManager_CompressSamples_halves_witness :
    fullBuffer.current_dive.num_samples = 3600 ∧
    ∃ dm1, DiveManager_CompressSamples fullBuffer = some dm1 ∧
      dm1.current_dive.num_samples = 1800 ∧
      (dm1.current_dive.samples 0).time = 0 ∧
      (dm1.current_dive.samples 1799).time = 3598 := by
  obtain ⟨dm1, h1, _, _, h4, h5, _⟩ :=
    DiveManager_CompressSamples_halves fullBuffer (by decide)
  exact ⟨rfl, dm1, h1, h4 rfl, by rw [h5 0 (by decide)]; rfl, by rw [h5 1799 (by decide)]; rfl⟩

/-! ## The diving tick of `DiveManager_Update`, block by block -/

/-- Below 65535 samples `DiveManager_CompressSamples` returns; it writes the
samples and their count only. -/
theorem compressSamples_total (dm : DiveManager) (hn : dm.current_dive.num_samples < 65535) :
    ∃ s1, DiveManager_CompressSamples dm
      = some { dm with
          current_dive :=
            { dm.current_dive with
              samples := s1, num_samples := (dm.current_dive.num_samples + 1) / 2 } } := by
  obtain ⟨s1, h1, _, _⟩ :=
    compressLoop_spec dm.current_dive.num_samples hn dm.current_dive.samples
      (dm.current_dive.num_samples + 1) 0 dm.current_dive.samples rfl (by omega)
      (fun k hk => absurd hk (Nat.not_lt_zero k)) (fun k _ => rfl)
  rw [Nat.mul_zero] at h1
  refine ⟨s1, ?_⟩
  unfold DiveManager_CompressSamples
  rw [h1]
  rfl

/-- With at most `MAX_DIVE_SAMPLES` samples `DiveManager_RecordSample`
returns; it writes the current dive only, keeps its start and leaves at most
`MAX_DIVE_SAMPLES` samples. -/
theorem recordSample_total (dm : DiveManager) (depth temp : ℚ) (gas deco : Nat)
    (hn : dm.current_dive.num_samples ≤ MAX_DIVE_SAMPLES) :
    ∃ dm1, DiveManager_RecordSample dm depth temp gas deco = some dm1 ∧
      { dm1 with current_dive := dm.current_dive } = dm ∧
      dm1.current_dive.num_samples ≤ MAX_DIVE_SAMPLES ∧
      dm1.current_dive.start_timestamp = dm.current_dive.start_timestamp := by
  unfold DiveManager_RecordSample
  by_cases hfull : dm.current_dive.num_samples ≥ MAX_DIVE_SAMPLES
  · have h65 : dm.current_dive.num_samples < 65535 := by
      unfold MAX_DIVE_SAMPLES at hn
      omega
    obtain ⟨s1, h1⟩ := compressSamples_total dm h65
    rw [if_pos hfull, h1]
    refine ⟨_, rfl, rfl, ?_, rfl⟩
    show ((dm.current_dive.num_samples + 1) / 2 + 1) % 65536 ≤ MAX_DIVE_SAMPLES
    unfold MAX_DIVE_SAMPLES at hn ⊢
    omega
  · rw [if_neg hfull]
    refine ⟨_, rfl, rfl, ?_, rfl⟩
    show (dm.current_dive.num_samples + 1) % 65536 ≤ MAX_DIVE_SAMPLES
    unfold MAX_DIVE_SAMPLES at hfull ⊢
    omega

/-- With at most `MAX_DIVE_SAMPLES` samples the sample block returns; it
writes the current dive and the sample counter only. -/
theorem tickSample_total (now : Nat) (dm : DiveManager) (depth temperature : ℚ)
    (model : ZHL16Model) (hn : dm.current_dive.num_samples ≤ MAX_DIVE_SAMPLES) :
    ∃ dm1, tickSample now dm depth temperature model = some dm1 ∧
      { dm1 with current_dive := dm.current_dive, sample_counter := dm.sample_counter } = dm ∧
      dm1.current_dive.num_samples ≤ MAX_DIVE_SAMPLES ∧
      dm1.current_dive.start_timestamp = dm.current_dive.start_timestamp := by
  unfold tickSample
  generalize (if model.ceiling > 0 then model.ascend_plan.tts else 0) % 256 = deco
  by_cases h : subUInt32 now dm.current_dive.start_timestamp ≥ dm.sample_counter
  · obtain ⟨dm1, h0, h1, h2, h3⟩ :=
      recordSample_total dm depth temperature model.current_gas deco hn
    rw [if_pos h, h0]
    refine ⟨_, rfl, ?_, h2, h3⟩
    show ({ dm1 with current_dive := dm.current_dive, sample_counter := dm.sample_counter }
      : DiveManager) = dm
    have h4 : dm1.sample_counter = dm.sample_counter := by
      rw [← h1]
    calc ({ dm1 with current_dive := dm.current_dive, sample_counter := dm.sample_counter }
          : DiveManager)
        = { ({ dm1 with current_dive := dm.current_dive } : DiveManager) with
            sample_counter := dm.sample_counter } := rfl
      _ = { dm with sample_counter := dm.sample_counter } := by rw [h1]
      _ = dm := rfl
  · rw [if_neg h]
    exact ⟨dm, rfl, rfl, hn, rfl⟩

theorem divingTick_eq (t now : Nat) (dm : DiveManager) (s : DiveStatics)
    (depth temperature : ℚ) (model : ZHL16Model) :
    divingTick t now dm s depth temperature model
      = (tickSample now (tickBlocks t now dm s depth model) depth temperature model).map
          fun dm6 => (dm6, (DiveManager_UpdateRates now dm s depth).2) := rfl

/-- What `DiveManager_UpdateRates` writes in the manager: the two rates. -/
theorem updateRates_writes (now : Nat) (dm : DiveManager) (s : DiveStatics) (depth : ℚ) :
    (DiveManager_UpdateRates now dm s depth).1
      = { dm with
          ascent_rate := (DiveManager_UpdateRates now dm s depth).1.ascent_rate
          descent_rate := (DiveManager_UpdateRates now dm s depth).1.descent_rate } := by
  unfold DiveManager_UpdateRates
  dsimp only
  split_ifs <;> rfl

/-- The manager before the safety-stop block of a diving tick: the rates of
`DiveManager_UpdateRates`, the mean-depth accumulators, the two alarms
recomputed from this tick alone, the missed-stop counter and the phase of the
cascade. -/
theorem tickPhase_eq (now : Nat) (dm : DiveManager) (s : DiveStatics) (depth : ℚ)
    (model : ZHL16Model) :
    tickPhase
        (tickCeilingAlarm
          (tickAscentAlarm (tickAverage (DiveManager_UpdateRates now dm s depth).1 depth))
          depth model)
        depth model
      = { dm with
          ascent_rate := (DiveManager_UpdateRates now dm s depth).1.ascent_rate
          descent_rate := (DiveManager_UpdateRates now dm s depth).1.descent_rate
          avg_depth_sum := dm.avg_depth_sum + depth
          avg_depth_samples := (dm.avg_depth_samples + 1) % 4294967296
          ascent_rate_alarm :=
            decide ((DiveManager_UpdateRates now dm s depth).1.ascent_rate > dm.fast_ascent_rate)
          deco_ceiling_alarm := decide (depth < model.ceiling)
          missed_deco_stops :=
            if depth < model.ceiling then (dm.missed_deco_stops + 1) % 256
            else dm.missed_deco_stops
          phase :=
            if (DiveManager_UpdateRates now dm s depth).1.ascent_rate < -5 then
              DivePhase.PHASE_DESCENT
            else if (DiveManager_UpdateRates now dm s depth).1.ascent_rate > 3 then
              if model.ceiling > 0 ∧ depth ≤ model.ceiling + 3 then DivePhase.PHASE_DECO_STOP
              else DivePhase.PHASE_ASCENT
            else if depth ≥ 3 ∧ depth ≤ 6 ∧ dm.safety_stop_required = true then
              DivePhase.PHASE_SAFETY_STOP
            else DivePhase.PHASE_BOTTOM } := by
  have hw := updateRates_writes now dm s depth
  generalize (DiveManager_UpdateRates now dm s depth).1 = u at hw ⊢
  rw [hw]
  unfold tickPhase tickCeilingAlarm tickAscentAlarm tickAverage DiveManager_CheckAscentRate
    phaseCascade
  dsimp only
  by_cases ha : u.ascent_rate > dm.fast_ascent_rate
  · by_cases hc : depth < model.ceiling
    · simp only [ha, hc, decide_True, if_true]
    · simp only [ha, hc, decide_True, decide_False, if_true, if_false]
  · by_cases hc : depth < model.ceiling
    · simp only [ha, hc, decide_True, decide_False, if_true, if_false, Bool.false_eq_true]
    · simp only [ha, hc, decide_False, if_false, Bool.false_eq_true]

/-- What the safety-stop block writes: the three safety-stop fields. -/
theorem tickSafetyStop_writes (t : Nat) (dm : DiveManager) (depth : ℚ) :
    ({ tickSafetyStop t dm depth with
        safety_stop_required := dm.safety_stop_required
        safety_stop_completed := dm.safety_stop_completed
        safety_stop_timer := dm.safety_stop_timer } : DiveManager) = dm := by
  unfold tickSafetyStop DiveManager_UpdateSafetyStop
  dsimp only
  split_ifs <;> rfl

/-- What the diving tick leaves as it was before the sample block, for the
fields the sample block does not write. -/
theorem tickBlocks_fields (t now : Nat) (dm : DiveManager) (s : DiveStatics) (depth : ℚ)
    (model : ZHL16Model) :
    (tickBlocks t now dm s depth model).is_diving = dm.is_diving ∧
    (tickBlocks t now dm s depth model).auto_start_dive = dm.auto_start_dive ∧
    (tickBlocks t now dm s depth model).fast_ascent_rate = dm.fast_ascent_rate ∧
    (tickBlocks t now dm s depth model).safety_stop_enforce = dm.safety_stop_enforce ∧
    (tickBlocks t now dm s depth model).current_dive = dm.current_dive ∧
    (tickBlocks t now dm s depth model).dive_start_time = dm.dive_start_time ∧
    (tickBlocks t now dm s depth model).ascent_rate
      = (DiveManager_UpdateRates now dm s depth).1.ascent_rate ∧
    (tickBlocks t now dm s depth model).ascent_rate_alarm
      = decide ((DiveManager_UpdateRates now dm s depth).1.ascent_rate > dm.fast_ascent_rate) ∧
    (tickBlocks t now dm s depth model).deco_ceiling_alarm = decide (depth < model.ceiling) ∧
    (tickBlocks t now dm s depth model).missed_deco_stops
      = (if depth < model.ceiling then (dm.missed_deco_stops + 1) % 256
          else dm.missed_deco_stops) ∧
    (tickBlocks t now dm s depth model).phase
      = (if (DiveManager_UpdateRates now dm s depth).1.ascent_rate < -5 then
          DivePhase.PHASE_DESCENT
        else if (DiveManager_UpdateRates now dm s depth).1.ascent_rate > 3 then
          if model.ceiling > 0 ∧ depth ≤ model.ceiling + 3 then DivePhase.PHASE_DECO_STOP
          else DivePhase.PHASE_ASCENT
        else if depth ≥ 3 ∧ depth ≤ 6 ∧ dm.safety_stop_required = true then
          DivePhase.PHASE_SAFETY_STOP
        else DivePhase.PHASE_BOTTOM) := by
  have hp := tickPhase_eq now dm s depth model
  have hw := tickSafetyStop_writes t
    (tickPhase
      (tickCeilingAlarm
        (tickAscentAlarm (tickAverage (DiveManager_UpdateRates now dm s depth).1 depth))
        depth model)
      depth model) depth
  unfold tickBlocks
  generalize tickSafetyStop t
    (tickPhase
      (tickCeilingAlarm
        (tickAscentAlarm (tickAverage (DiveManager_UpdateRates now dm s depth).1 depth))
        depth model)
      depth model) depth = b at hw ⊢
  generalize tickPhase
      (tickCeilingAlarm
        (tickAscentAlarm (tickAverage (DiveManager_UpdateRates now dm s depth).1 depth))
        depth model)
      depth model = p at hp hw
  refine ⟨?_, ?_, ?_, ?_, ?_, ?_, ?_, ?_, ?_, ?_, ?_⟩
  · have e1 := congrArg DiveManager.is_diving hw
    have e2 := congrArg DiveManager.is_diving hp
    exact e1.trans e2
  · have e1 := congrArg DiveManager.auto_start_dive hw
    have e2 := congrArg DiveManager.auto_start_dive hp
    exact e1.trans e2
  · have e1 := congrArg DiveManager.fast_ascent_rate hw
    have e2 := congrArg DiveManager.fast_ascent_rate hp
    exact e1.trans e2
  · have e1 := congrArg DiveManager.safety_stop_enforce hw
    have e2 := congrArg DiveManager.safety_stop_enforce hp
    exact e1.trans e2
  · have e1 := congrArg DiveManager.current_dive hw
    have e2 := congrArg DiveManager.current_dive hp
    exact e1.trans e2
  · have e1 := congrArg DiveManager.dive_start_time hw
    have e2 := congrArg DiveManager.dive_start_time hp
    exact e1.trans e2
  · have e1 := congrArg DiveManager.ascent_rate hw
    have e2 := congrArg DiveManager.ascent_rate hp
    exact e1.trans e2
  · have e1 := congrArg DiveManager.ascent_rate_alarm hw
    have e2 := congrArg DiveManager.ascent_rate_alarm hp
    exact e1.trans e2
  · have e1 := congrArg DiveManager.deco_ceiling_alarm hw
    have e2 := congrArg DiveManager.deco_ceiling_alarm hp
    exact e1.trans e2
  · have e1 := congrArg DiveManager.missed_deco_stops hw
    have e2 := congrArg DiveManager.missed_deco_stops hp
    exact e1.trans e2
  · have e1 := congrArg DiveManager.phase hw
    have e2 := congrArg DiveManager.phase hp
    exact e1.trans e2

/-- The safety-stop fields `DiveManager_UpdateSafetyStop` writes depend only
on the phase, the dive's `max_depth` and the safety-stop fields. -/
theorem updateSafetyStop_congr (t : Nat) (a b : DiveManager) (depth : ℚ)
    (h1 : a.phase = b.phase) (h2 : a.current_dive.max_depth = b.current_dive.max_depth)
    (h3 : a.safety_stop_required = b.safety_stop_required)
    (h4 : a.safety_stop_completed = b.safety_stop_completed)
    (h5 : a.safety_stop_timer = b.safety_stop_timer) :
    (DiveManager_UpdateSafetyStop t a depth).safety_stop_timer
      = (DiveManager_UpdateSafetyStop t b depth).safety_stop_timer ∧
    (DiveManager_UpdateSafetyStop t a depth).safety_stop_required
      = (DiveManager_UpdateSafetyStop t b depth).safety_stop_required ∧
    (DiveManager_UpdateSafetyStop t a depth).safety_stop_completed
      = (DiveManager_UpdateSafetyStop t b depth).safety_stop_completed := by
  unfold DiveManager_UpdateSafetyStop
  dsimp only
  rw [h2, h4]
  by_cases hm : b.current_dive.max_depth > 10 ∧ b.safety_stop_completed = false
  · rw [if_pos hm, if_pos hm]
    dsimp only
    rw [h1, h5]
    split_ifs <;> exact ⟨rfl, rfl, rfl⟩
  · rw [if_neg hm, if_neg hm, h1, h3, h5]
    split_ifs <;> refine ⟨?_, ?_, ?_⟩ <;> first | rfl | exact h3 | exact h4 | exact h5

/-- The safety-stop fields after the safety-stop block of a diving tick are
those `DiveManager_UpdateSafetyStop` computes from the fields before the
tick, the dive's `max_depth` and the phase of this tick. -/
theorem tickBlocks_safety (t now : Nat) (dm : DiveManager) (s : DiveStatics) (depth : ℚ)
    (model : ZHL16Model) (he : dm.safety_stop_enforce = true) (ph : DivePhase)
    (hph : (tickBlocks t now dm s depth model).phase = ph) :
    (tickBlocks t now dm s depth model).safety_stop_timer
      = (DiveManager_UpdateSafetyStop t { dm with phase := ph } depth).safety_stop_timer ∧
    (tickBlocks t now dm s depth model).safety_stop_required
      = (DiveManager_UpdateSafetyStop t { dm with phase := ph } depth).safety_stop_required ∧
    (tickBlocks t now dm s depth model).safety_stop_completed
      = (DiveManager_UpdateSafetyStop t { dm with phase := ph } depth).safety_stop_completed := by
  have hp := tickPhase_eq now dm s depth model
  have hf := (tickBlocks_fields t now dm s depth model).2.2.2.2.2.2.2.2.2.2
  rw [hph] at hf
  unfold tickBlocks
  generalize tickPhase
      (tickCeilingAlarm
        (tickAscentAlarm (tickAverage (DiveManager_UpdateRates now dm s depth).1 depth))
        depth model)
      depth model = p at hp
  have hpe : p.safety_stop_enforce = true := by
    rw [hp]
    exact he
  unfold tickSafetyStop
  rw [if_pos hpe]
  refine updateSafetyStop_congr t p { dm with phase := ph } depth ?_ ?_ ?_ ?_ ?_
  · rw [hp, hf]
  · rw [hp]
  · rw [hp]
  · rw [hp]
  · rw [hp]

/-- A call of `DiveManager_Update` whose head leaves the manager in a dive,
with at most `MAX_DIVE_SAMPLES` samples: it returns; the statics are those of
`DiveManager_UpdateRates`; the manager is the one before the sample block but
for the current dive and the sample counter. -/
theorem update_diving (t last now : Nat) (dm : DiveManager) (s : DiveStatics)
    (depth temperature : ℚ) (model : ZHL16Model) (head : DiveManager × DiveStatics)
    (hh : autoStartEnd last now dm s depth = some head) (hd : head.1.is_diving = true)
    (hn : head.1.current_dive.num_samples ≤ MAX_DIVE_SAMPLES) :
    ∃ r, DiveManager_Update t last now dm s depth temperature model = some r ∧
      r.2 = (DiveManager_UpdateRates now head.1 head.2 depth).2 ∧
      ({ r.1 with
          current_dive := head.1.current_dive
          sample_counter := (tickBlocks t now head.1 head.2 depth model).sample_counter }
        : DiveManager) = tickBlocks t now head.1 head.2 depth model ∧
      r.1.current_dive.num_samples ≤ MAX_DIVE_SAMPLES ∧
      r.1.current_dive.start_timestamp = head.1.current_dive.start_timestamp := by
  have hcd := (tickBlocks_fields t now head.1 head.2 depth model).2.2.2.2.1
  have hn5 : (tickBlocks t now head.1 head.2 depth model).current_dive.num_samples
      ≤ MAX_DIVE_SAMPLES := by
    rw [hcd]
    exact hn
  obtain ⟨dm6, h0, h1, h2, h3⟩ :=
    tickSample_total now (tickBlocks t now head.1 head.2 depth model) depth temperature model hn5
  refine ⟨(dm6, (DiveManager_UpdateRates now head.1 head.2 depth).2), ?_, rfl, ?_, h2, ?_⟩
  · unfold DiveManager_Update
    rw [hh, Option.some_bind]
    dsimp only
    rw [if_neg (by rw [hd]; decide), divingTick_eq, h0]
    rfl
  · rw [← hcd]
    exact h1
  · rw [h3, hcd]

/-- The fields of the manager after a diving call of `DiveManager_Update`, in
terms of the manager and statics `head` its automatic start and end leave. -/
theorem update_diving_fields (t last now : Nat) (dm : DiveManager) (s : DiveStatics)
    (depth temperature : ℚ) (model : ZHL16Model) (head : DiveManager × DiveStatics)
    (hh : autoStartEnd last now dm s depth = some head) (hd : head.1.is_diving = true)
    (hn : head.1.current_dive.num_samples ≤ MAX_DIVE_SAMPLES) :
    ∃ r, DiveManager_Update t last now dm s depth temperature model = some r ∧
      r.2 = (DiveManager_UpdateRates now head.1 head.2 depth).2 ∧
      r.1.current_dive.num_samples ≤ MAX_DIVE_SAMPLES ∧
      r.1.is_diving = true ∧
      r.1.auto_start_dive = head.1.auto_start_dive ∧
      r.1.fast_ascent_rate = head.1.fast_ascent_rate ∧
      r.1.dive_start_time = head.1.dive_start_time ∧
      r.1.ascent_rate = (DiveManager_UpdateRates now head.1 head.2 depth).1.ascent_rate ∧
      r.1.ascent_rate_alarm = decide (r.1.ascent_rate > r.1.fast_ascent_rate) ∧
      r.1.deco_ceiling_alarm = decide (depth < model.ceiling) ∧
      r.1.missed_deco_stops
        = (if depth < model.ceiling then (head.1.missed_deco_stops + 1) % 256
            else head.1.missed_deco_stops) ∧
      r.1.phase
        = (if r.1.ascent_rate < -5 then DivePhase.PHASE_DESCENT
          else if r.1.ascent_rate > 3 then
            if model.ceiling > 0 ∧ depth ≤ model.ceiling + 3 then DivePhase.PHASE_DECO_STOP
            else DivePhase.PHASE_ASCENT
          else if 3 ≤ depth ∧ depth ≤ 6 ∧ head.1.safety_stop_required = true then
            DivePhase.PHASE_SAFETY_STOP
          else DivePhase.PHASE_BOTTOM) ∧
      (head.1.safety_stop_enforce = true →
        r.1.safety_stop_timer
          = (DiveManager_UpdateSafetyStop t { head.1 with phase := r.1.phase }
              depth).safety_stop_timer ∧
        r.1.safety_stop_required
          = (DiveManager_UpdateSafetyStop t { head.1 with phase := r.1.phase }
              depth).safety_stop_required ∧
        r.1.safety_stop_completed
          = (DiveManager_UpdateSafetyStop t { head.1 with phase := r.1.phase }
              depth).safety_stop_completed) ∧
      r.1.current_dive.start_timestamp = head.1.current_dive.start_timestamp := by
  obtain ⟨r, h0, h1, h2, h3, h4⟩ :=
    update_diving t last now dm s depth temperature model head hh hd hn
  obtain ⟨f1, f2, f3, _, _, f6, f7, f8, f9, f10, f11⟩ :=
    tickBlocks_fields t now head.1 head.2 depth model
  have e1 := congrArg DiveManager.is_diving h2
  have e2 := congrArg DiveManager.auto_start_dive h2
  have e3 := congrArg DiveManager.fast_ascent_rate h2
  have e6 := congrArg DiveManager.dive_start_time h2
  have e7 := congrArg DiveManager.ascent_rate h2
  have e8 := congrArg DiveManager.ascent_rate_alarm h2
  have e9 := congrArg DiveManager.deco_ceiling_alarm h2
  have e10 := congrArg DiveManager.missed_deco_stops h2
  have e11 := congrArg DiveManager.phase h2
  have e12 := congrArg DiveManager.safety_stop_timer h2
  have e13 := congrArg DiveManager.safety_stop_required h2
  have e14 := congrArg DiveManager.safety_stop_completed h2
  have hrate : r.1.ascent_rate = (DiveManager_UpdateRates now head.1 head.2 depth).1.ascent_rate :=
    e7.trans f7
  have hfast : r.1.fast_ascent_rate = head.1.fast_ascent_rate := e3.trans f3
  have hphase : (tickBlocks t now head.1 head.2 depth model).phase = r.1.phase := e11.symm
  refine ⟨r, h0, h1, h3, (e1.trans f1).trans hd, e2.trans f2, hfast, e6.trans f6, hrate, ?_,
    e9.trans f9, e10.trans f10, ?_, ?_, h4⟩
  · rw [hrate, hfast]
    exact e8.trans f8
  · rw [hrate]
    exact e11.trans f11
  · intro he
    obtain ⟨g1, g2, g3⟩ :=
      tickBlocks_safety t now head.1 head.2 depth model he r.1.phase hphase
    exact ⟨e12.trans g1, e13.trans g2, e14.trans g3⟩

/-! ## The automatic start and end of a dive -/

theorem subUInt32_of_le (a b : Nat) (hb : b ≤ a) (ha : a < 4294967296) :
    subUInt32 a b = a - b := by
  unfold subUInt32
  omega

theorem checkDiveStart_dip (now : Nat) (s : DiveStatics) (depth : ℚ)
    (h : depth < DIVE_START_DEPTH) :
    DiveManager_CheckDiveStart now s depth = (false, { s with start_time := 0 }) := by
  unfold DiveManager_CheckDiveStart
  rw [if_neg (not_le.mpr h)]

theorem checkDiveStart_cross (now : Nat) (s : DiveStatics) (depth : ℚ)
    (h : DIVE_START_DEPTH ≤ depth) (h0 : s.start_time = 0) :
    DiveManager_CheckDiveStart now s depth = (false, { s with start_time := now }) := by
  unfold DiveManager_CheckDiveStart
  rw [if_pos h, if_pos h0]

theorem checkDiveStart_wait (now : Nat) (s : DiveStatics) (depth : ℚ)
    (h : DIVE_START_DEPTH ≤ depth) (h0 : s.start_time ≠ 0)
    (hlt : subUInt32 now s.start_time < 20) :
    DiveManager_CheckDiveStart now s depth = (false, s) := by
  unfold DiveManager_CheckDiveStart
  rw [if_pos h, if_neg h0, if_neg (not_le.mpr hlt)]

theorem checkDiveStart_fire (now : Nat) (s : DiveStatics) (depth : ℚ)
    (h : DIVE_START_DEPTH ≤ depth) (h0 : s.start_time ≠ 0)
    (hge : 20 ≤ subUInt32 now s.start_time) :
    DiveManager_CheckDiveStart now s depth = (true, { s with start_time := 0 }) := by
  unfold DiveManager_CheckDiveStart
  rw [if_pos h, if_neg h0, if_pos hge]

theorem checkDiveEnd_deep (now : Nat) (s : DiveStatics) (depth : ℚ)
    (h : DIVE_END_DEPTH < depth) :
    DiveManager_CheckDiveEnd now s depth = (false, { s with surface_time := 0 }) := by
  unfold DiveManager_CheckDiveEnd
  rw [if_neg (not_le.mpr h)]

theorem checkDiveEnd_cross (now : Nat) (s : DiveStatics) (depth : ℚ)
    (h : depth ≤ DIVE_END_DEPTH) (h0 : s.surface_time = 0) :
    DiveManager_CheckDiveEnd now s depth = (false, { s with surface_time := now }) := by
  unfold DiveManager_CheckDiveEnd
  rw [if_pos h, if_pos h0]

theorem checkDiveEnd_wait (now : Nat) (s : DiveStatics) (depth : ℚ)
    (h : depth ≤ DIVE_END_DEPTH) (h0 : s.surface_time ≠ 0)
    (hlt : subUInt32 now s.surface_time < DIVE_END_TIME) :
    DiveManager_CheckDiveEnd now s depth = (false, s) := by
  unfold DiveManager_CheckDiveEnd
  rw [if_pos h, if_neg h0, if_neg (not_le.mpr hlt)]

theorem checkDiveEnd_fire (now : Nat) (s : DiveStatics) (depth : ℚ)
    (h : depth ≤ DIVE_END_DEPTH) (h0 : s.surface_time ≠ 0)
    (hge : DIVE_END_TIME ≤ subUInt32 now s.surface_time) :
    DiveManager_CheckDiveEnd now s depth = (true, { s with surface_time := 0 }) := by
  unfold DiveManager_CheckDiveEnd
  rw [if_pos h, if_neg h0, if_pos hge]

/-- The head of `DiveManager_Update` at the surface, with the automatic start
enabled: `DiveManager_CheckDiveStart` decides, `DiveManager_StartDive` runs
when it says so. -/
theorem autoStartEnd_surface (last now : Nat) (dm : DiveManager) (s : DiveStatics) (depth : ℚ)
    (ha : dm.auto_start_dive = true) (hd : dm.is_diving = false) :
    autoStartEnd last now dm s depth
      = some (if (DiveManager_CheckDiveStart now s depth).1 = true then
            DiveManager_StartDive last now dm
          else dm, (DiveManager_CheckDiveStart now s depth).2) := by
  unfold autoStartEnd
  rw [if_pos ha, if_pos hd]
  dsimp only
  split_ifs <;> rfl

/-- The head of `DiveManager_Update` in a dive, with the automatic start
enabled: `DiveManager_CheckDiveEnd` decides, `DiveManager_EndDive` runs when
it says so. -/
theorem autoStartEnd_dive (last now : Nat) (dm : DiveManager) (s : DiveStatics) (depth : ℚ)
    (ha : dm.auto_start_dive = true) (hd : dm.is_diving = true) :
    autoStartEnd last now dm s depth
      = if (DiveManager_CheckDiveEnd now s depth).1 = true then
          (DiveManager_EndDive now dm).map fun dm1 =>
            (dm1, (DiveManager_CheckDiveEnd now s depth).2)
        else some (dm, (DiveManager_CheckDiveEnd now s depth).2) := by
  unfold autoStartEnd
  rw [if_pos ha, if_neg (by rw [hd]; decide)]

/-- A call of `DiveManager_Update` whose head leaves the manager out of a
dive: it returns the manager of the head, with the surface interval brought
up to date. -/
theorem update_surface (t last now : Nat) (dm : DiveManager) (s : DiveStatics)
    (depth temperature : ℚ) (model : ZHL16Model) (head : DiveManager × DiveStatics)
    (hh : autoStartEnd last now dm s depth = some head) (hd : head.1.is_diving = false) :
    DiveManager_Update t last now dm s depth temperature model
      = some (if head.1.surface_interval_start > 0 then
            { head.1 with
              surface_interval_mins :=
                (subUInt32 now head.1.surface_interval_start / 60) % 65536 }
          else head.1, head.2) := by
  unfold DiveManager_Update
  rw [hh, Option.some_bind]
  dsimp only
  rw [if_pos hd]

/-- With at most `MAX_DIVE_SAMPLES` samples `DiveManager_EndDive` returns: the
manager is out of the dive, in the phase SurfaceInterval. -/
theorem endDive_total (now : Nat) (dm : DiveManager)
    (hn : dm.current_dive.num_samples ≤ MAX_DIVE_SAMPLES) :
    ∃ dm1, DiveManager_EndDive now dm = some dm1 ∧ dm1.is_diving = false ∧
      dm1.phase = DivePhase.PHASE_SURFACE_INTERVAL ∧
      dm1.auto_start_dive = dm.auto_start_dive ∧ dm1.surface_interval_start = now ∧
      dm1.current_dive.end_timestamp = now := by
  unfold DiveManager_EndDive
  obtain ⟨s1, h1⟩ := compressSamples_total
    { dm with
      is_diving := false
      phase := DivePhase.PHASE_SURFACE_INTERVAL
      surface_interval_start := now
      current_dive :=
        { dm.current_dive with
          end_timestamp := now
          duration := subUInt32 now dm.current_dive.start_timestamp
          avg_depth := dm.avg_depth_sum / (dm.avg_depth_samples : ℚ) } }
    (by
      show dm.current_dive.num_samples < 65535
      unfold MAX_DIVE_SAMPLES at hn
      omega)
  rw [h1]
  exact ⟨_, rfl, rfl, rfl, rfl, rfl, rfl⟩

theorem updateAll_nil (t last : Nat) (st : DiveManager × DiveStatics) :
    updateAll t last [] st = some st := rfl

theorem updateAll_none (t last : Nat) (l : List Reading) :
    l.foldl
        (fun st r =>
          st.bind fun x =>
            DiveManager_Update t last r.now x.1 x.2 r.depth r.temperature r.model)
        none = none := by
  induction l with
  | nil => rfl
  | cons a l ih =>
    rw [List.foldl_cons, Option.none_bind]
    exact ih

theorem updateAll_cons (t last : Nat) (r : Reading) (l : List Reading)
    (st x : DiveManager × DiveStatics)
    (h : DiveManager_Update t last r.now st.1 st.2 r.depth r.temperature r.model = some x) :
    updateAll t last (r :: l) st = updateAll t last l x := by
  unfold updateAll
  rw [List.foldl_cons, Option.some_bind, h]

theorem updateAll_snoc (t last : Nat) (l : List Reading) (r : Reading)
    (st x : DiveManager × DiveStatics) (h : updateAll t last l st = some x) :
    updateAll t last (l ++ [r]) st
      = DiveManager_Update t last r.now x.1 x.2 r.depth r.temperature r.model := by
  unfold updateAll at h ⊢
  rw [List.foldl_append, h, List.foldl_cons, List.foldl_nil, Option.some_bind]

/-! ## The phase of a diving tick -/

theorem autoStartEnd_divingManager :
    autoStartEnd 0 100 divingManager bootStatics 10 = some (divingManager, bootStatics) := by
  rw [autoStartEnd_dive 0 100 divingManager bootStatics 10 rfl rfl,
    checkDiveEnd_deep 100 bootStatics 10 (by norm_num [DIVE_END_DEPTH])]
  rfl

/-- C24: on every diving tick (a call of `DiveManager_Update` whose automatic
start and end leave the manager in a dive) the call returns and the phase is
set by the cascade on the smoothed rate of this tick: rate < -5 gives Descent;
else rate > 3 gives DecoStop when ceiling > 0 and depth ≤ ceiling + 3, and
Ascent otherwise; else 3 ≤ depth ≤ 6 with the safety stop required gives
SafetyStop; else Bottom. So the phase is one of these five, never Surface or
SurfaceInterval, and the manager is still in the dive. -/
theorem DiveManager_Update_phase_cascade (t last now : Nat) (dm : DiveManager)
    (s : DiveStatics) (depth temperature : ℚ) (model : ZHL16Model)
    (head : DiveManager × DiveStatics)
    (hh : autoStartEnd last now dm s depth = some head) (hd : head.1.is_diving = true)
    (hn : head.1.current_dive.num_samples ≤ MAX_DIVE_SAMPLES) :
    ∃ r, DiveManager_Update t last now dm s depth temperature model = some r ∧
      r.1.ascent_rate = (DiveManager_UpdateRates now head.1 head.2 depth).1.ascent_rate ∧
      r.1.phase
        = (if r.1.ascent_rate < -5 then DivePhase.PHASE_DESCENT
          else if r.1.ascent_rate > 3 then
            if model.ceiling > 0 ∧ depth ≤ model.ceiling + 3 then DivePhase.PHASE_DECO_STOP
            else DivePhase.PHASE_ASCENT
          else if 3 ≤ depth ∧ depth ≤ 6 ∧ head.1.safety_stop_required = true then
            DivePhase.PHASE_SAFETY_STOP
          else DivePhase.PHASE_BOTTOM) ∧
      (r.1.phase = DivePhase.PHASE_DESCENT ∨ r.1.phase = DivePhase.PHASE_BOTTOM ∨
        r.1.phase = DivePhase.PHASE_ASCENT ∨ r.1.phase = DivePhase.PHASE_DECO_STOP ∨
        r.1.phase = DivePhase.PHASE_SAFETY_STOP) ∧
      r.1.phase ≠ DivePhase.PHASE_SURFACE ∧ r.1.phase ≠ DivePhase.PHASE_SURFACE_INTERVAL ∧
      r.1.is_diving = true := by
  obtain ⟨r, h0, _, _, hdive, _, _, _, hrate, _, _, _, hp, _⟩ :=
    update_diving_fields t last now dm s depth temperature model head hh hd hn
  refine ⟨r, h0, hrate, hp, ?_, ?_, ?_, hdive⟩
  · rw [hp]
    split_ifs <;> simp
  · rw [hp]
    split_ifs <;> simp
  · rw [hp]
    split_ifs <;> simp

theorem DiveManager_Update_phase_cascade_witness :
    ∃ r, DiveManager_Update 180 0 100 divingManager bootStatics 10 20 freshDiver = some r ∧
      r.1.ascent_rate = 0 ∧ r.1.phase = DivePhase.PHASE_BOTTOM ∧ r.1.is_diving = true := by
  obtain ⟨r, h0, h1, h2, _, _, _, h6⟩ :=
    DiveManager_Update_phase_cascade 180 0 100 divingManager bootStatics 10 20 freshDiver
      (divingManager, bootStatics) autoStartEnd_divingManager rfl (by decide)
  have hr : r.1.ascent_rate = 0 := by
    rw [h1, updateRates_first 100 divingManager bootStatics 10 rfl]
    rfl
  refine ⟨r, h0, hr, ?_, h6⟩
  rw [h2, hr]
  norm_num

/-! ## The timer of the safety stop -/

theorem autoStartEnd_deep (last now : Nat) (dm : DiveManager) (s : DiveStatics) (depth : ℚ)
    (ha : dm.auto_start_dive = true) (hd : dm.is_diving = true)
    (hdepth : DIVE_END_DEPTH < depth) :
    autoStartEnd last now dm s depth = some (dm, { s with surface_time := 0 }) := by
  rw [autoStartEnd_dive last now dm s depth ha hd, checkDiveEnd_deep now s depth hdepth]
  rfl

/-- C21 (amended): on a diving tick with the safety stop enforced and
required, at a depth outside [4.5, 5.5] m, `DiveManager_Update` returns and
the timer is reset to 0 exactly when this tick is classified SafetyStop, which
is when the smoothed rate is in [-5, 3] m/min and the depth in [3, 6] m; on
every other tick (Descent, Ascent, DecoStop, Bottom) the timer keeps its
value. -/
theorem DiveManager_Update_safety_timer_reset (t last now : Nat) (dm : DiveManager)
    (s : DiveStatics) (depth temperature : ℚ) (model : ZHL16Model)
    (head : DiveManager × DiveStatics)
    (hh : autoStartEnd last now dm s depth = some head) (hd : head.1.is_diving = true)
    (hn : head.1.current_dive.num_samples ≤ MAX_DIVE_SAMPLES)
    (he : head.1.safety_stop_enforce = true) (hr : head.1.safety_stop_required = true)
    (hout : ¬ (45 / 10 ≤ depth ∧ depth ≤ 55 / 10)) :
    ∃ r, DiveManager_Update t last now dm s depth temperature model = some r ∧
      r.1.ascent_rate = (DiveManager_UpdateRates now head.1 head.2 depth).1.ascent_rate ∧
      (r.1.phase = DivePhase.PHASE_SAFETY_STOP ↔
        (-5 ≤ r.1.ascent_rate ∧ r.1.ascent_rate ≤ 3 ∧ 3 ≤ depth ∧ depth ≤ 6)) ∧
      r.1.safety_stop_timer
        = (if r.1.phase = DivePhase.PHASE_SAFETY_STOP then 0 else head.1.safety_stop_timer) := by
  obtain ⟨r, h0, _, _, _, _, _, _, hrate, _, _, _, hp, hsafe, _⟩ :=
    update_diving_fields t last now dm s depth temperature model head hh hd hn
  have htimer := (hsafe he).1
  refine ⟨r, h0, hrate, ?_, ?_⟩
  · rw [hp]
    constructor
    · intro h
      split_ifs at h with h1 h2 h3 h4
      exact ⟨not_lt.mp h1, not_lt.mp h2, h4.1, h4.2.1⟩
    · rintro ⟨h1, h2, h3, h4⟩
      rw [if_neg (not_lt.mpr h1), if_neg (not_lt.mpr h2), if_pos ⟨h3, h4, hr⟩]
  · rw [htimer]
    unfold DiveManager_UpdateSafetyStop
    dsimp only
    by_cases hm : head.1.current_dive.max_depth > 10 ∧ head.1.safety_stop_completed = false
    · rw [if_pos hm]
      dsimp only
      by_cases hs : r.1.phase = DivePhase.PHASE_SAFETY_STOP
      · rw [if_pos ⟨hs, rfl⟩, if_neg hout, if_pos hs]
      · rw [if_neg (fun h => hs h.1), if_neg hs]
    · rw [if_neg hm]
      by_cases hs : r.1.phase = DivePhase.PHASE_SAFETY_STOP
      · rw [if_pos ⟨hs, hr⟩, if_neg hout, if_pos hs]
      · rw [if_neg (fun h => hs h.1), if_neg hs]

/-- The smoothed rate after a step from the statics `s` of a dive whose
previous reading was taken one second earlier. -/
theorem updateRates_rate_stop (dm : DiveManager) (last_depth depth : ℚ) :
    (DiveManager_UpdateRates 1001 dm
        { start_time := 0, surface_time := 0, last_depth := last_depth, last_time := 1000 }
        depth).1.ascent_rate
      = dm.ascent_rate * (7 / 10) + (depth - last_depth) * 60 * (3 / 10) := by
  rw [updateRates_rate 1001 dm _ depth (show (1000 : Nat) ≠ 0 by decide)
    (show 0 < subUInt32 1001 1000 by decide)]
  have h1 : ((subUInt32 1001 1000 : Nat) : ℚ) = 1 := by
    norm_num [subUInt32]
  dsimp only
  rw [h1]
  ring

theorem DiveManager_Update_safety_timer_reset_witness :
    ¬ ((45 : ℚ) / 10 ≤ 44 / 10 ∧ (44 : ℚ) / 10 ≤ 55 / 10) ∧
    ∃ r, DiveManager_Update 180 0 1001 stopManager
        { start_time := 0, surface_time := 0, last_depth := 45 / 10, last_time := 1000 }
        (44 / 10) 20 freshDiver = some r ∧
      r.1.phase = DivePhase.PHASE_SAFETY_STOP ∧ r.1.safety_stop_timer = 0 := by
  have hout : ¬ ((45 : ℚ) / 10 ≤ 44 / 10 ∧ (44 : ℚ) / 10 ≤ 55 / 10) := by norm_num
  obtain ⟨r, h0, h1, h2, h3⟩ :=
    DiveManager_Update_safety_timer_reset 180 0 1001 stopManager
      { start_time := 0, surface_time := 0, last_depth := 45 / 10, last_time := 1000 }
      (44 / 10) 20 freshDiver _
      (autoStartEnd_deep 0 1001 stopManager _ (44 / 10) rfl rfl (by norm_num [DIVE_END_DEPTH]))
      rfl (by decide) rfl rfl hout
  have hrate : r.1.ascent_rate = -(18 / 10) := by
    rw [h1]
    show (DiveManager_UpdateRates 1001 stopManager
      { start_time := 0, surface_time := 0, last_depth := 45 / 10, last_time := 1000 }
      (44 / 10)).1.ascent_rate = _
    rw [updateRates_rate_stop]
    show (0 : ℚ) * (7 / 10) + (44 / 10 - 45 / 10) * 60 * (3 / 10) = _
    norm_num
  have hph : r.1.phase = DivePhase.PHASE_SAFETY_STOP := by
    rw [h2, hrate]
    norm_num
  refine ⟨hout, r, h0, hph, ?_⟩
  rw [h3, if_pos hph]

/-- C21 (as stated) fails on its own example: 170 s into the safety stop of an
18 m dive, held at 5.0 m, a step out to 3.9 m within one second gives the
smoothed rate -19.8 m/min; the tick is classified Descent, and the timer,
which only runs in the phase SafetyStop, stays at 170. -/
theorem DiveManager_Update_safety_timer_counterexample :
    stopManager.is_diving = true ∧ stopManager.safety_stop_required = true ∧
    stopManager.safety_stop_timer = 170 ∧ stopManager.phase = DivePhase.PHASE_SAFETY_STOP ∧
    stopManager.safety_stop_enforce = true ∧
    ¬ ((45 : ℚ) / 10 ≤ 39 / 10 ∧ (39 : ℚ) / 10 ≤ 55 / 10) ∧
    ∃ r, DiveManager_Update 180 0 1001 stopManager stopStatics (39 / 10) 20 freshDiver = some r ∧
      r.1.ascent_rate = -(198 / 10) ∧ r.1.phase = DivePhase.PHASE_DESCENT ∧
      r.1.safety_stop_required = true ∧ r.1.safety_stop_timer = 170 := by
  refine ⟨rfl, rfl, rfl, rfl, rfl, by norm_num, ?_⟩
  obtain ⟨r, h0, _, _, _, _, _, _, hrate, _, _, _, hp, hsafe, _⟩ :=
    update_diving_fields 180 0 1001 stopManager stopStatics (39 / 10) 20 freshDiver _
      (autoStartEnd_deep 0 1001 stopManager stopStatics (39 / 10) rfl rfl
        (by norm_num [DIVE_END_DEPTH]))
      rfl (by decide)
  have hrate0 : r.1.ascent_rate = -(198 / 10) := by
    rw [hrate]
    show (DiveManager_UpdateRates 1001 stopManager
      { start_time := 0, surface_time := 0, last_depth := 5, last_time := 1000 }
      (39 / 10)).1.ascent_rate = _
    rw [updateRates_rate_stop]
    show (0 : ℚ) * (7 / 10) + (39 / 10 - 5) * 60 * (3 / 10) = _
    norm_num
  have hph : r.1.phase = DivePhase.PHASE_DESCENT := by
    rw [hp, hrate0]
    norm_num
  obtain ⟨g1, g2, _⟩ := hsafe rfl
  rw [hph] at g1 g2
  refine ⟨r, h0, hrate0, hph, ?_, ?_⟩
  · rw [g2]
    unfold DiveManager_UpdateSafetyStop
    simp [stopManager, divingManager, DiveManager_StartDive]
  · rw [g1]
    unfold DiveManager_UpdateSafetyStop
    simp [stopManager, divingManager, DiveManager_StartDive]

/-! ## The safety stop -/

/-- One call of `DiveManager_UpdateSafetyStop` in the phase SafetyStop, inside
the window, for a dive deeper than 10 m whose stop is not completed. -/
theorem updateSafetyStop_step (t : Nat) (dm : DiveManager) (depth : ℚ)
    (hmax : dm.current_dive.max_depth > 10) (hc : dm.safety_stop_completed = false)
    (hp : dm.phase = DivePhase.PHASE_SAFETY_STOP) (hw1 : 45 / 10 ≤ depth)
    (hw2 : depth ≤ 55 / 10) (ht : dm.safety_stop_timer < 65535) :
    DiveManager_UpdateSafetyStop t dm depth
      = if t ≤ dm.safety_stop_timer + 1 then
          { dm with
            safety_stop_required := false
            safety_stop_completed := true
            safety_stop_timer := dm.safety_stop_timer + 1 }
        else
          { dm with
            safety_stop_required := true
            safety_stop_timer := dm.safety_stop_timer + 1 } := by
  have hmod : (dm.safety_stop_timer + 1) % 65536 = dm.safety_stop_timer + 1 :=
    Nat.mod_eq_of_lt (by omega)
  unfold DiveManager_UpdateSafetyStop
  dsimp only
  rw [if_pos (show dm.current_dive.max_depth > 10 ∧ dm.safety_stop_completed = false from
      ⟨hmax, hc⟩)]
  dsimp only
  rw [if_pos ⟨hp, rfl⟩, if_pos ⟨hw1, hw2⟩, hmod]

/-- Calls of `DiveManager_UpdateSafetyStop` held in the phase SafetyStop
inside the window: the `k`-th call leaves the timer `k` higher, and the stop
is completed at the call that brings the timer to the stop time. -/
theorem updateSafetyStop_iterate (t : Nat) (depth : ℚ) (hw1 : 45 / 10 ≤ depth)
    (hw2 : depth ≤ 55 / 10) (ht : t < 65536) :
    ∀ (k : Nat) (dm : DiveManager), dm.current_dive.max_depth > 10 →
      dm.safety_stop_completed = false → dm.phase = DivePhase.PHASE_SAFETY_STOP →
      dm.safety_stop_timer + k ≤ t →
      (Nat.iterate (fun d => DiveManager_UpdateSafetyStop t d depth) k dm).safety_stop_timer
          = dm.safety_stop_timer + k ∧
        ((Nat.iterate (fun d => DiveManager_UpdateSafetyStop t d depth) k
            dm).safety_stop_completed = true ↔ (0 < k ∧ dm.safety_stop_timer + k = t)) ∧
        (0 < k →
          ((Nat.iterate (fun d => DiveManager_UpdateSafetyStop t d depth) k
              dm).safety_stop_required = true ↔ dm.safety_stop_timer + k < t)) := by
  intro k
  induction k with
  | zero =>
    intro dm _ hc _ _
    refine ⟨rfl, ?_, fun h => absurd h (lt_irrefl 0)⟩
    show dm.safety_stop_completed = true ↔ _
    rw [hc]
    simp
  | succ n ih =>
    intro dm hmax hc hp hk
    rw [Function.iterate_succ_apply]
    have hstep := updateSafetyStop_step t dm depth hmax hc hp hw1 hw2 (by omega)
    by_cases hfin : t ≤ dm.safety_stop_timer + 1
    · have hn : n = 0 := by omega
      subst hn
      rw [if_pos hfin] at hstep
      rw [hstep]
      refine ⟨rfl, ?_, fun _ => ?_⟩
      · show true = true ↔ _
        constructor
        · intro _
          exact ⟨Nat.succ_pos 0, by omega⟩
        · intro _
          rfl
      · show false = true ↔ _
        constructor
        · intro h
          exact absurd h (by decide)
        · intro h
          omega
    · rw [if_neg hfin] at hstep
      rw [hstep]
      obtain ⟨i1, i2, i3⟩ :=
        ih { dm with
            safety_stop_required := true
            safety_stop_timer := dm.safety_stop_timer + 1 } hmax hc hp
          (by
            show dm.safety_stop_timer + 1 + n ≤ t
            omega)
      refine ⟨?_, ?_, fun _ => ?_⟩
      · rw [i1]
        show dm.safety_stop_timer + 1 + n = dm.safety_stop_timer + (n + 1)
        omega
      · rw [i2]
        show (0 < n ∧ dm.safety_stop_timer + 1 + n = t) ↔ _
        constructor
        · rintro ⟨_, h⟩
          exact ⟨Nat.succ_pos n, by omega⟩
        · rintro ⟨_, h⟩
          exact ⟨by omega, by omega⟩
      · by_cases hn : 0 < n
        · rw [i3 hn]
          show dm.safety_stop_timer + 1 + n < t ↔ _
          omega
        · have hn0 : n = 0 := by omega
          subst hn0
          show true = true ↔ _
          constructor
          · intro _
            omega
          · intro _
            rfl

/-- C22: for a dive whose recorded `max_depth` exceeds 10 m and whose safety
stop is not completed, after `DiveManager_UpdateSafetyStop` the stop is
required, unless this very call completes it; in the phase SafetyStop with
the depth in [4.5, 5.5] m the call raises the timer by exactly 1, and exactly
when the raised timer reaches the stop time the stop becomes completed and no
longer required. So `k` calls held there raise the timer by `k`, and the stop
is completed at the call that brings the timer to the stop time, not before. -/
theorem DiveManager_UpdateSafetyStop_timer (t : Nat) (dm : DiveManager) (depth : ℚ)
    (hmax : dm.current_dive.max_depth > 10) (hc : dm.safety_stop_completed = false) :
    ((DiveManager_UpdateSafetyStop t dm depth).safety_stop_required = true ∨
      ((DiveManager_UpdateSafetyStop t dm depth).safety_stop_completed = true ∧
        (DiveManager_UpdateSafetyStop t dm depth).safety_stop_required = false)) ∧
    (¬ (dm.phase = DivePhase.PHASE_SAFETY_STOP ∧ 45 / 10 ≤ depth ∧ depth ≤ 55 / 10) →
      (DiveManager_UpdateSafetyStop t dm depth).safety_stop_required = true ∧
        (DiveManager_UpdateSafetyStop t dm depth).safety_stop_completed = false) ∧
    (dm.phase = DivePhase.PHASE_SAFETY_STOP → 45 / 10 ≤ depth → depth ≤ 55 / 10 →
      dm.safety_stop_timer < 65535 →
      (DiveManager_UpdateSafetyStop t dm depth).safety_stop_timer = dm.safety_stop_timer + 1 ∧
        ((DiveManager_UpdateSafetyStop t dm depth).safety_stop_completed = true ↔
          t ≤ dm.safety_stop_timer + 1) ∧
        ((DiveManager_UpdateSafetyStop t dm depth).safety_stop_required = false ↔
          t ≤ dm.safety_stop_timer + 1)) ∧
    (dm.phase = DivePhase.PHASE_SAFETY_STOP → 45 / 10 ≤ depth → depth ≤ 55 / 10 → t < 65536 →
      ∀ k, dm.safety_stop_timer + k ≤ t →
        (Nat.iterate (fun d => DiveManager_UpdateSafetyStop t d depth) k dm).safety_stop_timer
            = dm.safety_stop_timer + k ∧
          ((Nat.iterate (fun d => DiveManager_UpdateSafetyStop t d depth) k
              dm).safety_stop_completed = true ↔ (0 < k ∧ dm.safety_stop_timer + k = t)) ∧
          (0 < k →
            ((Nat.iterate (fun d => DiveManager_UpdateSafetyStop t d depth) k
                dm).safety_stop_required = true ↔ dm.safety_stop_timer + k < t))) := by
  refine ⟨?_, ?_, ?_, ?_⟩
  · unfold DiveManager_UpdateSafetyStop
    dsimp only
    rw [if_pos (show dm.current_dive.max_depth > 10 ∧ dm.safety_stop_completed = false from
      ⟨hmax, hc⟩)]
    dsimp only
    split_ifs
    · exact Or.inr ⟨rfl, rfl⟩
    · exact Or.inl rfl
    · exact Or.inl rfl
    · exact Or.inl rfl
  · intro hno
    unfold DiveManager_UpdateSafetyStop
    dsimp only
    rw [if_pos (show dm.current_dive.max_depth > 10 ∧ dm.safety_stop_completed = false from
      ⟨hmax, hc⟩)]
    dsimp only
    by_cases hp : dm.phase = DivePhase.PHASE_SAFETY_STOP
    · rw [if_pos ⟨hp, rfl⟩, if_neg (fun h => hno ⟨hp, h⟩)]
      exact ⟨rfl, hc⟩
    · rw [if_neg (fun h => hp h.1)]
      exact ⟨rfl, hc⟩
  · intro hp hw1 hw2 ht
    rw [updateSafetyStop_step t dm depth hmax hc hp hw1 hw2 ht]
    by_cases h : t ≤ dm.safety_stop_timer + 1
    · rw [if_pos h]
      exact ⟨rfl, ⟨fun _ => h, fun _ => rfl⟩, ⟨fun _ => h, fun _ => rfl⟩⟩
    · rw [if_neg h]
      refine ⟨rfl, ⟨fun h1 => ?_, fun h1 => absurd h1 h⟩, ⟨fun h1 => ?_, fun h1 => absurd h1 h⟩⟩
      · have h2 : dm.safety_stop_completed = true := h1
        rw [hc] at h2
        exact absurd h2 (by decide)
      · have h2 : true = false := h1
        exact absurd h2 (by decide)
  · intro hp hw1 hw2 ht k hk
    exact updateSafetyStop_iterate t depth hw1 hw2 ht k dm hmax hc hp hk

theorem DiveManager_UpdateSafetyStop_timer_witness :
    (∀ k, 0 < k → k < 180 →
      (Nat.iterate (fun d => DiveManager_UpdateSafetyStop 180 d 5) k
          { stopManager with safety_stop_timer := 0 }).safety_stop_timer = k ∧
        (Nat.iterate (fun d => DiveManager_UpdateSafetyStop 180 d 5) k
          { stopManager with safety_stop_timer := 0 }).safety_stop_required = true ∧
        ¬ (Nat.iterate (fun d => DiveManager_UpdateSafetyStop 180 d 5) k
          { stopManager with safety_stop_timer := 0 }).safety_stop_completed = true) ∧
    (Nat.iterate (fun d => DiveManager_UpdateSafetyStop 180 d 5) 180
        { stopManager with safety_stop_timer := 0 }).safety_stop_completed = true ∧
    ¬ (Nat.iterate (fun d => DiveManager_UpdateSafetyStop 180 d 5) 180
        { stopManager with safety_stop_timer := 0 }).safety_stop_required = true := by
  have hmax : ({ stopManager with safety_stop_timer := 0 } : DiveManager).current_dive.max_depth
      > 10 := by
    show (18 : ℚ) > 10
    norm_num
  have h := (DiveManager_UpdateSafetyStop_timer 180 { stopManager with safety_stop_timer := 0 } 5
    hmax rfl).2.2.2 rfl (by norm_num) (by norm_num) (by decide)
  refine ⟨fun k hk0 hk => ?_, ?_, ?_⟩
  · obtain ⟨h1, h2, h3⟩ := h k (by show 0 + k ≤ 180; omega)
    refine ⟨by rw [h1]; exact Nat.zero_add k, (h3 hk0).mpr (by show 0 + k < 180; omega), ?_⟩
    intro hcomp
    have := (h2.mp hcomp).2
    have h0 : 0 + k = 180 := this
    omega
  · exact (h 180 (le_refl _)).2.1.mpr ⟨by decide, rfl⟩
  · intro hreq
    have := ((h 180 (le_refl _)).2.2 (by decide)).mp hreq
    have h0 : 0 + 180 < 180 := this
    omega

/-! ## The alarms of the dive manager -/

/-- C30 (amended): the two alarms are not latched. On every diving tick
`DiveManager_Update` returns and recomputes both from this tick alone:
`ascent_rate_alarm` is set exactly when the smoothed rate of this tick exceeds
`fast_ascent_rate`, `deco_ceiling_alarm` exactly when the depth is above the
ceiling (`depth < ceiling`), whatever the two alarms were before. -/
theorem DiveManager_Update_alarms_recomputed (t last now : Nat) (dm : DiveManager)
    (s : DiveStatics) (depth temperature : ℚ) (model : ZHL16Model)
    (head : DiveManager × DiveStatics)
    (hh : autoStartEnd last now dm s depth = some head) (hd : head.1.is_diving = true)
    (hn : head.1.current_dive.num_samples ≤ MAX_DIVE_SAMPLES) :
    ∃ r, DiveManager_Update t last now dm s depth temperature model = some r ∧
      r.1.is_diving = true ∧
      r.1.ascent_rate = (DiveManager_UpdateRates now head.1 head.2 depth).1.ascent_rate ∧
      r.1.fast_ascent_rate = head.1.fast_ascent_rate ∧
      (r.1.ascent_rate_alarm = true ↔ r.1.ascent_rate > r.1.fast_ascent_rate) ∧
      (r.1.deco_ceiling_alarm = true ↔ depth < model.ceiling) := by
  obtain ⟨r, h0, _, _, hdive, _, hfast, _, hrate, ha, hc, _⟩ :=
    update_diving_fields t last now dm s depth temperature model head hh hd hn
  refine ⟨r, h0, hdive, hrate, hfast, ?_, ?_⟩
  · rw [ha]
    exact decide_eq_true_iff
  · rw [hc]
    exact decide_eq_true_iff

theorem DiveManager_Update_alarms_recomputed_witness :
    ∃ r, DiveManager_Update 180 0 1001 divingManager tenMetreStatics (111 / 10) 20 ceilingDiver
        = some r ∧
      r.1.is_diving = true ∧ r.1.deco_ceiling_alarm = true := by
  obtain ⟨r, h0, h1, _, _, _, h5⟩ :=
    DiveManager_Update_alarms_recomputed 180 0 1001 divingManager tenMetreStatics (111 / 10) 20
      ceilingDiver _
      (autoStartEnd_deep 0 1001 divingManager tenMetreStatics (111 / 10) rfl rfl
        (by norm_num [DIVE_END_DEPTH]))
      rfl (by decide)
  refine ⟨r, h0, h1, h5.mpr ?_⟩
  show (111 : ℚ) / 10 < 112 / 10
  norm_num

/-- C30 (as stated) fails: in a dive with a ceiling of 11.2 m, a call at
11.1 m (1.1 m below the previous reading, one second later) raises both
alarms, and the next call one second later at 11.3 m, the smoothed rate back
at 17.46 m/min and the diver below the ceiling, finds the dive going on and
clears both. -/
theorem DiveManager_Update_alarms_counterexample :
    ∃ r1 r2,
      DiveManager_Update 180 0 1001 divingManager tenMetreStatics (111 / 10) 20 ceilingDiver
        = some r1 ∧
      r1.1.is_diving = true ∧ r1.1.ascent_rate = 198 / 10 ∧ r1.1.fast_ascent_rate = 18 ∧
      r1.1.ascent_rate_alarm = true ∧ r1.1.deco_ceiling_alarm = true ∧
      DiveManager_Update 180 0 1002 r1.1 r1.2 (113 / 10) 20 ceilingDiver = some r2 ∧
      r2.1.is_diving = true ∧ r2.1.ascent_rate = 1746 / 100 ∧ r2.1.fast_ascent_rate = 18 ∧
      r2.1.ascent_rate_alarm = false ∧ r2.1.deco_ceiling_alarm = false := by
  obtain ⟨r1, h0, h1, hn1, hdive1, hauto1, hfast1, _, hrate1, ha1, hc1, _⟩ :=
    update_diving_fields 180 0 1001 divingManager tenMetreStatics (111 / 10) 20 ceilingDiver _
      (autoStartEnd_deep 0 1001 divingManager tenMetreStatics (111 / 10) rfl rfl
        (by norm_num [DIVE_END_DEPTH]))
      rfl (by decide)
  have hr1 : r1.1.ascent_rate = 198 / 10 := by
    rw [hrate1]
    show (DiveManager_UpdateRates 1001 divingManager
      { start_time := 0, surface_time := 0, last_depth := 10, last_time := 1000 }
      (111 / 10)).1.ascent_rate = _
    rw [updateRates_rate_stop]
    show (0 : ℚ) * (7 / 10) + (111 / 10 - 10) * 60 * (3 / 10) = _
    norm_num
  have hf1 : r1.1.fast_ascent_rate = 18 := hfast1
  obtain ⟨q1, q2, _, _⟩ :=
    updateRates_statics 1001 divingManager { tenMetreStatics with surface_time := 0 } (111 / 10)
  rw [← h1] at q1 q2
  obtain ⟨r2, g0, _, _, hdive2, _, hfast2, _, hrate2, ha2, hc2, _⟩ :=
    update_diving_fields 180 0 1002 r1.1 r1.2 (113 / 10) 20 ceilingDiver _
      (autoStartEnd_deep 0 1002 r1.1 r1.2 (113 / 10) (hauto1.trans rfl) hdive1
        (by norm_num [DIVE_END_DEPTH]))
      hdive1 hn1
  have hr2 : r2.1.ascent_rate = 1746 / 100 := by
    rw [hrate2, updateRates_rate 1002 r1.1 { r1.2 with surface_time := 0 } (113 / 10)
      (by show r1.2.last_time ≠ 0; rw [q1]; decide)
      (by show 0 < subUInt32 1002 r1.2.last_time; rw [q1]; decide)]
    show r1.1.ascent_rate * (7 / 10)
      + (113 / 10 - r1.2.last_depth) / ((subUInt32 1002 r1.2.last_time : ℚ) / 60) * (3 / 10) = _
    rw [hr1, q1, q2]
    norm_num [subUInt32]
  have hf2 : r2.1.fast_ascent_rate = 18 := hfast2.trans hf1
  refine ⟨r1, r2, h0, hdive1, hr1, hf1, ?_, ?_, g0, hdive2, hr2, hf2, ?_, ?_⟩
  · rw [ha1, hr1, hf1]
    exact decide_eq_true (by norm_num)
  · rw [hc1]
    exact decide_eq_true (by show (111 : ℚ) / 10 < 112 / 10; norm_num)
  · rw [ha2, hr2, hf2]
    exact decide_eq_false (by norm_num)
  · rw [hc2]
    exact decide_eq_false (by show ¬ (113 : ℚ) / 10 < 112 / 10; norm_num)

/-! ## Start and end detection along a run -/

/-- A call of `DiveManager_Update` at the surface at which
`DiveManager_CheckDiveStart` does not fire: it returns, the manager stays at
the surface, only the surface interval may change. -/
theorem update_surface_idle (t last now : Nat) (dm : DiveManager) (s : DiveStatics)
    (depth temperature : ℚ) (model : ZHL16Model)
    (ha : dm.auto_start_dive = true) (hd : dm.is_diving = false)
    (hc : (DiveManager_CheckDiveStart now s depth).1 = false) :
    ∃ x, DiveManager_Update t last now dm s depth temperature model = some x ∧
      x.2 = (DiveManager_CheckDiveStart now s depth).2 ∧
      x.1.auto_start_dive = true ∧ x.1.is_diving = false ∧ x.1.phase = dm.phase ∧
      ({ x.1 with surface_interval_mins := dm.surface_interval_mins } : DiveManager) = dm := by
  have hh : autoStartEnd last now dm s depth
      = some (dm, (DiveManager_CheckDiveStart now s depth).2) := by
    rw [autoStartEnd_surface last now dm s depth ha hd, if_neg (by rw [hc]; decide)]
  rw [update_surface t last now dm s depth temperature model _ hh hd]
  dsimp only
  split_ifs
  · exact ⟨_, rfl, rfl, ha, hd, rfl, rfl⟩
  · exact ⟨_, rfl, rfl, ha, hd, rfl, rfl⟩

/-- A call of `DiveManager_Update` at the surface at which
`DiveManager_CheckDiveStart` fires: the head runs `DiveManager_StartDive`
(diving, phase Descent), the call returns and the manager is in a dive that
started at this second. -/
theorem update_start_fire (t last now : Nat) (dm : DiveManager) (s : DiveStatics)
    (depth temperature : ℚ) (model : ZHL16Model)
    (ha : dm.auto_start_dive = true) (hd : dm.is_diving = false)
    (hc : (DiveManager_CheckDiveStart now s depth).1 = true) :
    autoStartEnd last now dm s depth
        = some (DiveManager_StartDive last now dm, (DiveManager_CheckDiveStart now s depth).2) ∧
      ∃ y, DiveManager_Update t last now dm s depth temperature model = some y ∧
        y.1.is_diving = true ∧ y.1.auto_start_dive = true ∧ y.1.dive_start_time = now ∧
        y.1.current_dive.start_timestamp = now ∧
        y.1.current_dive.num_samples ≤ MAX_DIVE_SAMPLES ∧
        y.2.start_time = (DiveManager_CheckDiveStart now s depth).2.start_time ∧
        y.2.surface_time = (DiveManager_CheckDiveStart now s depth).2.surface_time := by
  have hh : autoStartEnd last now dm s depth
      = some (DiveManager_StartDive last now dm, (DiveManager_CheckDiveStart now s depth).2) := by
    rw [autoStartEnd_surface last now dm s depth ha hd, if_pos hc]
  obtain ⟨y, h0, h1, hn, hdive, hauto, _, hstart, _, _, _, _, _, _, hts⟩ :=
    update_diving_fields t last now dm s depth temperature model _ hh rfl (by
      show (0 : Nat) ≤ MAX_DIVE_SAMPLES
      exact Nat.zero_le _)
  obtain ⟨_, _, q3, q4⟩ :=
    updateRates_statics now (DiveManager_StartDive last now dm)
      (DiveManager_CheckDiveStart now s depth).2 depth
  refine ⟨hh, y, h0, hdive, hauto.trans ha, hstart, hts, hn, ?_, ?_⟩
  · rw [h1]
    exact q3
  · rw [h1]
    exact q4

/-- A call of `DiveManager_Update` in a dive at which `DiveManager_CheckDiveEnd`
does not fire: it returns and the dive goes on. -/
theorem update_dive_idle (t last now : Nat) (dm : DiveManager) (s : DiveStatics)
    (depth temperature : ℚ) (model : ZHL16Model)
    (ha : dm.auto_start_dive = true) (hd : dm.is_diving = true)
    (hn : dm.current_dive.num_samples ≤ MAX_DIVE_SAMPLES)
    (hc : (DiveManager_CheckDiveEnd now s depth).1 = false) :
    ∃ x, DiveManager_Update t last now dm s depth temperature model = some x ∧
      x.1.auto_start_dive = true ∧ x.1.is_diving = true ∧
      x.1.current_dive.num_samples ≤ MAX_DIVE_SAMPLES ∧
      x.1.dive_start_time = dm.dive_start_time ∧
      x.2.surface_time = (DiveManager_CheckDiveEnd now s depth).2.surface_time ∧
      x.2.start_time = (DiveManager_CheckDiveEnd now s depth).2.start_time := by
  have hh : autoStartEnd last now dm s depth
      = some (dm, (DiveManager_CheckDiveEnd now s depth).2) := by
    rw [autoStartEnd_dive last now dm s depth ha hd, if_neg (by rw [hc]; decide)]
  obtain ⟨x, h0, h1, hn1, hdive, hauto, _, hstart, _⟩ :=
    update_diving_fields t last now dm s depth temperature model _ hh hd hn
  obtain ⟨_, _, q3, q4⟩ :=
    updateRates_statics now dm (DiveManager_CheckDiveEnd now s depth).2 depth
  refine ⟨x, h0, hauto.trans ha, hdive, hn1, hstart, ?_, ?_⟩
  · rw [h1]
    exact q4
  · rw [h1]
    exact q3

/-- A call of `DiveManager_Update` in a dive at which `DiveManager_CheckDiveEnd`
fires: the head runs `DiveManager_EndDive`, the call returns and the manager
is out of the dive, in the phase SurfaceInterval. -/
theorem update_end_fire (t last now : Nat) (dm : DiveManager) (s : DiveStatics)
    (depth temperature : ℚ) (model : ZHL16Model)
    (ha : dm.auto_start_dive = true) (hd : dm.is_diving = true)
    (hn : dm.current_dive.num_samples ≤ MAX_DIVE_SAMPLES)
    (hc : (DiveManager_CheckDiveEnd now s depth).1 = true) :
    ∃ x, DiveManager_Update t last now dm s depth temperature model = some x ∧
      x.1.auto_start_dive = true ∧ x.1.is_diving = false ∧
      x.1.phase = DivePhase.PHASE_SURFACE_INTERVAL ∧ x.1.surface_interval_start = now ∧
      x.2 = (DiveManager_CheckDiveEnd now s depth).2 := by
  obtain ⟨dm1, e0, e1, e2, e3, e4, _⟩ := endDive_total now dm hn
  have hh : autoStartEnd last now dm s depth
      = some (dm1, (DiveManager_CheckDiveEnd now s depth).2) := by
    rw [autoStartEnd_dive last now dm s depth ha hd, if_pos hc, e0]
    rfl
  rw [update_surface t last now dm s depth temperature model _ hh e1]
  dsimp only
  split_ifs
  · exact ⟨_, rfl, e3.trans ha, e1, e2, e4, rfl⟩
  · exact ⟨_, rfl, e3.trans ha, e1, e2, e4, rfl⟩

/-- The count of `DiveManager_CheckDiveStart` running since second `t0`, at the
surface: while the readings stay at 1.2 m or deeper and come less than 20 s
after `t0`, every call returns, the manager stays at the surface and the count
goes on. -/
theorem updateAll_start_wait (t last t0 : Nat) (ht0 : 0 < t0) (hb : t0 + 20 ≤ 4294967296) :
    ∀ (mid : List Reading) (dm : DiveManager) (s : DiveStatics),
      dm.auto_start_dive = true → dm.is_diving = false → s.start_time = t0 →
      (∀ r ∈ mid, DIVE_START_DEPTH ≤ r.depth ∧ t0 ≤ r.now ∧ r.now < t0 + 20) →
      ∃ x, updateAll t last mid (dm, s) = some x ∧ x.1.auto_start_dive = true ∧
        x.1.is_diving = false ∧ x.2.start_time = t0 ∧ x.1.phase = dm.phase := by
  intro mid
  induction mid with
  | nil =>
    intro dm s ha hd hs _
    exact ⟨(dm, s), rfl, ha, hd, hs, rfl⟩
  | cons r l ih =>
    intro dm s ha hd hs hmid
    obtain ⟨hr1, hr2, hr3⟩ := hmid r (List.mem_cons_self r l)
    have hsub : subUInt32 r.now s.start_time < 20 := by
      rw [hs, subUInt32_of_le r.now t0 hr2 (by omega)]
      omega
    have hc : DiveManager_CheckDiveStart r.now s r.depth = (false, s) :=
      checkDiveStart_wait r.now s r.depth hr1 (by rw [hs]; omega) hsub
    obtain ⟨x1, h0, h1, h2, h3, h4, _⟩ :=
      update_surface_idle t last r.now dm s r.depth r.temperature r.model ha hd
        (by rw [hc])
    rw [hc] at h1
    obtain ⟨x, g0, g1, g2, g3, g4⟩ :=
      ih x1.1 x1.2 h2 h3 (by rw [h1]; exact hs)
        (fun q hq => hmid q (List.mem_cons_of_mem r hq))
    refine ⟨x, ?_, g1, g2, g3, g4.trans h4⟩
    rw [updateAll_cons t last r l (dm, s) x1 h0]
    exact g0

/-- The count of `DiveManager_CheckDiveEnd` running since second `t0`, in a
dive: while the readings stay at 0.8 m or shallower and come less than
`DIVE_END_TIME` seconds after `t0`, every call returns, the dive goes on and
so does the count. -/
theorem updateAll_end_wait (t last t0 : Nat) (ht0 : 0 < t0)
    (hb : t0 + DIVE_END_TIME ≤ 4294967296) :
    ∀ (mid : List Reading) (dm : DiveManager) (s : DiveStatics),
      dm.auto_start_dive = true → dm.is_diving = true →
      dm.current_dive.num_samples ≤ MAX_DIVE_SAMPLES → s.surface_time = t0 →
      (∀ r ∈ mid, r.depth ≤ DIVE_END_DEPTH ∧ t0 ≤ r.now ∧ r.now < t0 + DIVE_END_TIME) →
      ∃ x, updateAll t last mid (dm, s) = some x ∧ x.1.auto_start_dive = true ∧
        x.1.is_diving = true ∧ x.1.current_dive.num_samples ≤ MAX_DIVE_SAMPLES ∧
        x.2.surface_time = t0 ∧ x.1.dive_start_time = dm.dive_start_time := by
  intro mid
  induction mid with
  | nil =>
    intro dm s ha hd hn hs _
    exact ⟨(dm, s), rfl, ha, hd, hn, hs, rfl⟩
  | cons r l ih =>
    intro dm s ha hd hn hs hmid
    obtain ⟨hr1, hr2, hr3⟩ := hmid r (List.mem_cons_self r l)
    have hsub : subUInt32 r.now s.surface_time < DIVE_END_TIME := by
      rw [hs, subUInt32_of_le r.now t0 hr2 (by omega)]
      omega
    have hc : DiveManager_CheckDiveEnd r.now s r.depth = (false, s) :=
      checkDiveEnd_wait r.now s r.depth hr1 (by rw [hs]; omega) hsub
    obtain ⟨x1, h0, h1, h2, h3, h4, h5, _⟩ :=
      update_dive_idle t last r.now dm s r.depth r.temperature r.model ha hd hn
        (by rw [hc])
    rw [hc] at h5
    obtain ⟨x, g0, g1, g2, g3, g4, g5⟩ :=
      ih x1.1 x1.2 h1 h2 h3 (h5.trans hs)
        (fun q hq => hmid q (List.mem_cons_of_mem r hq))
    refine ⟨x, ?_, g1, g2, g3, g4, g5.trans h4⟩
    rw [updateAll_cons t last r l (dm, s) x1 h0]
    exact g0

/-- Start detection on a clock that has left second 0. At the surface with no
count running, let the depth reach 1.2 m at the reading `r0` (the crossing)
and stay there over the readings `mid`, all less than 20 s after the
crossing, up to the reading `rf`, the first one 20 s or more after it. Then
every call returns; the manager is at the surface after the crossing and after
each reading of `mid`; at `rf` the head of `DiveManager_Update` runs
`DiveManager_StartDive` (diving, phase Descent) and after that call the
manager is in a dive started at the second of `rf`, with no count running. -/
theorem start_detection_run (t last : Nat) (dm : DiveManager) (s : DiveStatics)
    (r0 : Reading) (mid : List Reading) (rf : Reading)
    (ha : dm.auto_start_dive = true) (hd : dm.is_diving = false) (hs : s.start_time = 0)
    (h0 : 0 < r0.now) (hd0 : DIVE_START_DEPTH ≤ r0.depth)
    (hmid : ∀ r ∈ mid, DIVE_START_DEPTH ≤ r.depth ∧ r0.now ≤ r.now ∧ r.now < r0.now + 20)
    (hdf : DIVE_START_DEPTH ≤ rf.depth) (hf : r0.now + 20 ≤ rf.now)
    (hb : rf.now < 4294967296) :
    (∀ k, ∃ x, updateAll t last (r0 :: mid.take k) (dm, s) = some x ∧ x.1.is_diving = false) ∧
    ∃ x y, updateAll t last (r0 :: mid) (dm, s) = some x ∧ x.1.is_diving = false ∧
      (autoStartEnd last rf.now x.1 x.2 rf.depth).map Prod.fst
        = some (DiveManager_StartDive last rf.now x.1) ∧
      (DiveManager_StartDive last rf.now x.1).is_diving = true ∧
      (DiveManager_StartDive last rf.now x.1).phase = DivePhase.PHASE_DESCENT ∧
      updateAll t last (r0 :: mid ++ [rf]) (dm, s) = some y ∧
      y.1.is_diving = true ∧ y.1.dive_start_time = rf.now ∧ y.2.start_time = 0 ∧
      x.2.start_time = r0.now := by
  have hc0 : DiveManager_CheckDiveStart r0.now s r0.depth = (false, { s with start_time := r0.now }) :=
    checkDiveStart_cross r0.now s r0.depth hd0 hs
  obtain ⟨x1, e0, e1, e2, e3, _⟩ :=
    update_surface_idle t last r0.now dm s r0.depth r0.temperature r0.model ha hd (by rw [hc0])
  rw [hc0] at e1
  have hx1 : x1.2.start_time = r0.now := by rw [e1]
  have hwait := updateAll_start_wait t last r0.now h0 (by omega)
  refine ⟨fun k => ?_, ?_⟩
  · obtain ⟨x, g0, _, g2, _⟩ :=
      hwait (mid.take k) x1.1 x1.2 e2 e3 hx1 (fun q hq => hmid q (List.mem_of_mem_take hq))
    refine ⟨x, ?_, g2⟩
    rw [updateAll_cons t last r0 _ (dm, s) x1 e0]
    exact g0
  · obtain ⟨x, g0, g1, g2, g3, _⟩ := hwait mid x1.1 x1.2 e2 e3 hx1 hmid
    have hx : updateAll t last (r0 :: mid) (dm, s) = some x := by
      rw [updateAll_cons t last r0 _ (dm, s) x1 e0]
      exact g0
    have hsub : 20 ≤ subUInt32 rf.now x.2.start_time := by
      rw [g3, subUInt32_of_le rf.now r0.now (by omega) hb]
      omega
    have hcf : DiveManager_CheckDiveStart rf.now x.2 rf.depth
        = (true, { x.2 with start_time := 0 }) :=
      checkDiveStart_fire rf.now x.2 rf.depth hdf (by rw [g3]; omega) hsub
    obtain ⟨hhead, y, f0, f1, _, f3, _, _, f6, _⟩ :=
      update_start_fire t last rf.now x.1 x.2 rf.depth rf.temperature rf.model g1 g2
        (by rw [hcf])
    refine ⟨x, y, hx, g2, by rw [hhead]; rfl, rfl, rfl, ?_, f1, f3, ?_, g3⟩
    · exact (updateAll_snoc t last (r0 :: mid) rf (dm, s) x hx).trans f0
    · rw [f6, hcf]

/-- End detection on a clock that has left second 0. In a dive with no
surface count running and at most `MAX_DIVE_SAMPLES` samples, let the depth
come up to 0.8 m at the reading `r0` and stay there over the readings `mid`,
all less than 300 s after `r0`, up to the reading `rf`, the first one 300 s or
more after it. Then every call returns; the dive goes on after `r0` and after
each reading of `mid`; after `rf` the manager is out of the dive, in the phase
SurfaceInterval, with no count running. -/
theorem end_detection_run (t last : Nat) (dm : DiveManager) (s : DiveStatics)
    (r0 : Reading) (mid : List Reading) (rf : Reading)
    (ha : dm.auto_start_dive = true) (hd : dm.is_diving = true)
    (hn : dm.current_dive.num_samples ≤ MAX_DIVE_SAMPLES) (hs : s.surface_time = 0)
    (h0 : 0 < r0.now) (hd0 : r0.depth ≤ DIVE_END_DEPTH)
    (hmid : ∀ r ∈ mid, r.depth ≤ DIVE_END_DEPTH ∧ r0.now ≤ r.now ∧
      r.now < r0.now + DIVE_END_TIME)
    (hdf : rf.depth ≤ DIVE_END_DEPTH) (hf : r0.now + DIVE_END_TIME ≤ rf.now)
    (hb : rf.now < 4294967296) :
    (∀ k, ∃ x, updateAll t last (r0 :: mid.take k) (dm, s) = some x ∧ x.1.is_diving = true) ∧
    ∃ y, updateAll t last (r0 :: mid ++ [rf]) (dm, s) = some y ∧
      y.1.is_diving = false ∧ y.1.phase = DivePhase.PHASE_SURFACE_INTERVAL ∧
      y.1.surface_interval_start = rf.now ∧ y.2.surface_time = 0 := by
  have hc0 : DiveManager_CheckDiveEnd r0.now s r0.depth
      = (false, { s with surface_time := r0.now }) :=
    checkDiveEnd_cross r0.now s r0.depth hd0 hs
  obtain ⟨x1, e0, e1, e2, e3, _, e5, _⟩ :=
    update_dive_idle t last r0.now dm s r0.depth r0.temperature r0.model ha hd hn (by rw [hc0])
  rw [hc0] at e5
  have hx1 : x1.2.surface_time = r0.now := e5
  have hwait := updateAll_end_wait t last r0.now h0 (by unfold DIVE_END_TIME at hf ⊢; omega)
  refine ⟨fun k => ?_, ?_⟩
  · obtain ⟨x, g0, _, g2, _⟩ :=
      hwait (mid.take k) x1.1 x1.2 e1 e2 e3 hx1 (fun q hq => hmid q (List.mem_of_mem_take hq))
    refine ⟨x, ?_, g2⟩
    rw [updateAll_cons t last r0 _ (dm, s) x1 e0]
    exact g0
  · obtain ⟨x, g0, g1, g2, g3, g4, _⟩ := hwait mid x1.1 x1.2 e1 e2 e3 hx1 hmid
    have hx : updateAll t last (r0 :: mid) (dm, s) = some x := by
      rw [updateAll_cons t last r0 _ (dm, s) x1 e0]
      exact g0
    have hsub : DIVE_END_TIME ≤ subUInt32 rf.now x.2.surface_time := by
      rw [g4, subUInt32_of_le rf.now r0.now (by omega) hb]
      omega
    have hcf : DiveManager_CheckDiveEnd rf.now x.2 rf.depth
        = (true, { x.2 with surface_time := 0 }) :=
      checkDiveEnd_fire rf.now x.2 rf.depth hdf (by rw [g4]; omega) hsub
    obtain ⟨y, f0, _, f2, f3, f4, f5⟩ :=
      update_end_fire t last rf.now x.1 x.2 rf.depth rf.temperature rf.model g1 g2 g3
        (by rw [hcf])
    refine ⟨y, ?_, f2, f3, f4, ?_⟩
    · exact (updateAll_snoc t last (r0 :: mid) rf (dm, s) x hx).trans f0
    · rw [f5, hcf]

theorem heldReading_depth (k : Nat) : DIVE_START_DEPTH ≤ (heldReading k).depth := by
  show (12 : ℚ) / 10 ≤ 3 / 2
  norm_num

theorem bootReadings_eq :
    bootReadings
      = heldReading 0 :: heldReading 1 :: (List.range' 2 19).map heldReading := rfl

/-- C23 (as the code runs): after the boot, with the automatic start enabled,
readings of 1.5 m at the seconds 0, 1, ..., 20. The depth is at 1.2 m or
deeper from the reading of second 0 on, yet after the reading of second 20,
20 s after the crossing, the manager is still at the surface: the crossing at
second 0 left the sentinel `start_time = 0` in place and the count began at
second 1. The dive starts at the reading of second 21. -/
theorem DiveManager_Update_start_late_at_boot :
    DiveManager_Init.auto_start_dive = true ∧ DiveManager_Init.is_diving = false ∧
    bootStatics.start_time = 0 ∧
    bootReadings.map Reading.now = List.range' 0 21 ∧
    (∀ r ∈ bootReadings ++ [heldReading 21], DIVE_START_DEPTH ≤ r.depth) ∧
    (∃ x, updateAll 180 0 bootReadings (DiveManager_Init, bootStatics) = some x ∧
      x.1.is_diving = false ∧ x.2.start_time = 1) ∧
    ∃ y, updateAll 180 0 (bootReadings ++ [heldReading 21]) (DiveManager_Init, bootStatics)
        = some y ∧
      y.1.is_diving = true ∧ y.1.dive_start_time = 21 := by
  refine ⟨rfl, rfl, rfl, rfl, ?_, ?_⟩
  · intro r hr
    rcases List.mem_append.mp hr with h | h
    · obtain ⟨k, _, hk⟩ := List.mem_map.mp h
      rw [← hk]
      exact heldReading_depth k
    · rw [List.mem_singleton.mp h]
      exact heldReading_depth 21
  · have hc0 : DiveManager_CheckDiveStart 0 bootStatics (heldReading 0).depth
        = (false, bootStatics) :=
      checkDiveStart_cross 0 bootStatics (heldReading 0).depth (heldReading_depth 0) rfl
    obtain ⟨x0, e0, e1, e2, e3, _⟩ :=
      update_surface_idle 180 0 0 DiveManager_Init bootStatics (heldReading 0).depth
        (heldReading 0).temperature (heldReading 0).model rfl rfl (by rw [hc0])
    rw [hc0] at e1
    have hs0 : x0.2.start_time = 0 := by rw [e1]; rfl
    obtain ⟨_, x, y, g0, g1, _, _, _, g5, g6, g7, _, g9⟩ :=
      start_detection_run 180 0 x0.1 x0.2 (heldReading 1)
        ((List.range' 2 19).map heldReading) (heldReading 21) e2 e3 hs0 (by decide)
        (heldReading_depth 1)
        (fun r hr => by
          obtain ⟨k, hk1, hk⟩ := List.mem_map.mp hr
          rw [← hk]
          have hk2 := List.mem_range'_1.mp hk1
          refine ⟨heldReading_depth k, ?_, ?_⟩
          · show 1 ≤ k
            omega
          · show k < 1 + 20
            omega)
        (heldReading_depth 21) (by decide) (by decide)
    have hcons : ∀ l, updateAll 180 0 (heldReading 0 :: l) (DiveManager_Init, bootStatics)
        = updateAll 180 0 l x0 := fun l =>
      updateAll_cons 180 0 (heldReading 0) l (DiveManager_Init, bootStatics) x0 e0
    refine ⟨⟨x, ?_, g1, g9⟩, y, ?_, g6, g7⟩
    · rw [bootReadings_eq, hcons]
      exact g0
    · rw [bootReadings_eq, List.cons_append, hcons]
      exact g5

/-! ## The head of `DiveManager_Update`, case by case -/

/-- Below 65535 samples `DiveManager_CompressSamples` returns the manager with
every second sample moved to the front and the count halved (rounded up). -/
theorem compressSamples_spec (dm : DiveManager) (hn : dm.current_dive.num_samples < 65535) :
    ∃ s1, DiveManager_CompressSamples dm
        = some { dm with
            current_dive :=
              { dm.current_dive with
                samples := s1, num_samples := (dm.current_dive.num_samples + 1) / 2 } } ∧
      (∀ k, k < (dm.current_dive.num_samples + 1) / 2 → s1 k = dm.current_dive.samples (2 * k)) ∧
      (∀ k, (dm.current_dive.num_samples + 1) / 2 ≤ k → s1 k = dm.current_dive.samples k) := by
  obtain ⟨s1, h1, hlo, hhi⟩ :=
    compressLoop_spec dm.current_dive.num_samples hn dm.current_dive.samples
      (dm.current_dive.num_samples + 1) 0 dm.current_dive.samples rfl (by omega)
      (fun k hk => absurd hk (Nat.not_lt_zero k)) (fun k _ => rfl)
  rw [Nat.mul_zero] at h1
  refine ⟨s1, ?_, hlo, hhi⟩
  unfold DiveManager_CompressSamples
  rw [h1]
  rfl

/-- Below 65535 samples `DiveManager_EndDive` returns: the flags, the end
stamp, the duration and the mean depth are written from the manager as it was,
and the samples are compressed. -/
theorem endDive_spec (now : Nat) (dm : DiveManager)
    (hn : dm.current_dive.num_samples < 65535) :
    ∃ s1, DiveManager_EndDive now dm
        = some { dm with
            is_diving := false
            phase := DivePhase.PHASE_SURFACE_INTERVAL
            surface_interval_start := now
            current_dive :=
              { dm.current_dive with
                end_timestamp := now
                duration := subUInt32 now dm.current_dive.start_timestamp
                avg_depth := dm.avg_depth_sum / (dm.avg_depth_samples : ℚ)
                samples := s1
                num_samples := (dm.current_dive.num_samples + 1) / 2 } } ∧
      (∀ k, k < (dm.current_dive.num_samples + 1) / 2 → s1 k = dm.current_dive.samples (2 * k)) ∧
      (∀ k, (dm.current_dive.num_samples + 1) / 2 ≤ k → s1 k = dm.current_dive.samples k) := by
  obtain ⟨s1, h1, hlo, hhi⟩ := compressSamples_spec
    { dm with
      is_diving := false
      phase := DivePhase.PHASE_SURFACE_INTERVAL
      surface_interval_start := now
      current_dive :=
        { dm.current_dive with
          end_timestamp := now
          duration := subUInt32 now dm.current_dive.start_timestamp
          avg_depth := dm.avg_depth_sum / (dm.avg_depth_samples : ℚ) } } hn
  refine ⟨s1, ?_, hlo, hhi⟩
  unfold DiveManager_EndDive
  rw [h1]

/-- With at most `MAX_DIVE_SAMPLES` samples the head of `DiveManager_Update`
returns, and the manager it leaves is the one it was given, or the one
`DiveManager_StartDive` makes of it (from the surface), or the one
`DiveManager_EndDive` makes of it (from a dive). -/
theorem autoStartEnd_cases (last now : Nat) (dm : DiveManager) (s : DiveStatics) (depth : ℚ)
    (hn : dm.current_dive.num_samples ≤ MAX_DIVE_SAMPLES) :
    ∃ head, autoStartEnd last now dm s depth = some head ∧
      (head.1 = dm ∨
        (dm.is_diving = false ∧ head.1 = DiveManager_StartDive last now dm) ∨
        (dm.is_diving = true ∧ DiveManager_EndDive now dm = some head.1)) := by
  unfold autoStartEnd
  by_cases ha : dm.auto_start_dive = true
  · rw [if_pos ha]
    by_cases hd : dm.is_diving = false
    · rw [if_pos hd]
      dsimp only
      by_cases hc : (DiveManager_CheckDiveStart now s depth).1 = true
      · rw [if_pos hc]
        exact ⟨_, rfl, Or.inr (Or.inl ⟨hd, rfl⟩)⟩
      · rw [if_neg hc]
        exact ⟨_, rfl, Or.inl rfl⟩
    · rw [if_neg hd]
      dsimp only
      by_cases hc : (DiveManager_CheckDiveEnd now s depth).1 = true
      · rw [if_pos hc]
        obtain ⟨s1, h1, _, _⟩ := endDive_spec now dm (by
          unfold MAX_DIVE_SAMPLES at hn
          omega)
        rw [h1]
        refine ⟨_, rfl, Or.inr (Or.inr ⟨?_, rfl⟩)⟩
        cases h : dm.is_diving
        · exact absurd h hd
        · rfl
      · rw [if_neg hc]
        exact ⟨_, rfl, Or.inl rfl⟩
  · rw [if_neg ha]
    exact ⟨_, rfl, Or.inl rfl⟩

/-- What the head of `DiveManager_Update` leaves alone whichever way it goes:
the two alarms of the diving part, the missed-stop counter and the
configuration; and the sample count stays within `MAX_DIVE_SAMPLES`. -/
theorem autoStartEnd_frame (last now : Nat) (dm : DiveManager) (s : DiveStatics) (depth : ℚ)
    (head : DiveManager × DiveStatics) (hn : dm.current_dive.num_samples ≤ MAX_DIVE_SAMPLES)
    (hh : autoStartEnd last now dm s depth = some head) :
    head.1.deco_ceiling_alarm = dm.deco_ceiling_alarm ∧
      head.1.ascent_rate_alarm = dm.ascent_rate_alarm ∧
      head.1.missed_deco_stops = dm.missed_deco_stops ∧
      head.1.safety_stop_enforce = dm.safety_stop_enforce ∧
      head.1.current_dive.num_samples ≤ MAX_DIVE_SAMPLES := by
  obtain ⟨head1, h1, hc⟩ := autoStartEnd_cases last now dm s depth hn
  rw [hh] at h1
  cases h1
  rcases hc with h | ⟨_, h⟩ | ⟨_, h⟩
  · rw [h]
    exact ⟨rfl, rfl, rfl, rfl, hn⟩
  · rw [h]
    exact ⟨rfl, rfl, rfl, rfl, Nat.zero_le _⟩
  · obtain ⟨s1, h2, _, _⟩ := endDive_spec now dm (by
      unfold MAX_DIVE_SAMPLES at hn
      omega)
    rw [h2] at h
    rw [← Option.some.inj h]
    refine ⟨rfl, rfl, rfl, rfl, ?_⟩
    show (dm.current_dive.num_samples + 1) / 2 ≤ MAX_DIVE_SAMPLES
    unfold MAX_DIVE_SAMPLES at hn ⊢
    omega

/-! ## The ceiling alarm and the missed-stop counter -/

/-- C31: a call of `DiveManager_Update` on a manager with at most
`MAX_DIVE_SAMPLES` samples returns. When it is a diving tick (the manager is
in a dive after the call) `deco_ceiling_alarm` is set exactly when
`depth < model.ceiling`, on exactly those ticks `missed_deco_stops` grows by
one modulo 256, and on the other diving ticks the counter is unchanged; when
it is not a diving tick neither the alarm nor the counter is touched. -/
theorem DiveManager_Update_ceiling_alarm (t last now : Nat) (dm : DiveManager)
    (s : DiveStatics) (depth temperature : ℚ) (model : ZHL16Model)
    (hn : dm.current_dive.num_samples ≤ MAX_DIVE_SAMPLES) :
    ∃ r, DiveManager_Update t last now dm s depth temperature model = some r ∧
      (r.1.is_diving = true →
        (r.1.deco_ceiling_alarm = true ↔ depth < model.ceiling) ∧
        (depth < model.ceiling →
          r.1.missed_deco_stops = (dm.missed_deco_stops + 1) % 256) ∧
        (¬ depth < model.ceiling → r.1.missed_deco_stops = dm.missed_deco_stops)) ∧
      (r.1.is_diving = false →
        r.1.deco_ceiling_alarm = dm.deco_ceiling_alarm ∧
        r.1.missed_deco_stops = dm.missed_deco_stops) := by
  obtain ⟨head, hh, _⟩ := autoStartEnd_cases last now dm s depth hn
  obtain ⟨f1, _, f3, _, f5⟩ := autoStartEnd_frame last now dm s depth head hn hh
  by_cases hd : head.1.is_diving = true
  · obtain ⟨r, h0, _, _, hdive, _, _, _, _, _, hc, hm, _⟩ :=
      update_diving_fields t last now dm s depth temperature model head hh hd f5
    refine ⟨r, h0, fun _ => ⟨?_, fun hlt => ?_, fun hge => ?_⟩, fun hno => ?_⟩
    · rw [hc]
      exact decide_eq_true_iff
    · rw [hm, if_pos hlt, f3]
    · rw [hm, if_neg hge, f3]
    · rw [hdive] at hno
      exact absurd hno (by decide)
  · have hd0 : head.1.is_diving = false := by
      cases h : head.1.is_diving
      · rfl
      · exact absurd h hd
    have hu := update_surface t last now dm s depth temperature model head hh hd0
    refine ⟨_, hu, fun hyes => ?_, fun _ => ?_⟩
    · exfalso
      dsimp only at hyes
      split_ifs at hyes
      · exact hd hyes
      · exact hd hyes
    · dsimp only
      split_ifs
      · exact ⟨f1, f3⟩
      · exact ⟨f1, f3⟩

theorem DiveManager_Update_ceiling_alarm_witness :
    ∃ r, DiveManager_Update 180 0 1001 divingManager tenMetreStatics (111 / 10) 20 ceilingDiver
        = some r ∧
      r.1.is_diving = true ∧ r.1.deco_ceiling_alarm = true ∧ r.1.missed_deco_stops = 1 := by
  obtain ⟨r, h0, h1, _⟩ :=
    DiveManager_Update_ceiling_alarm 180 0 1001 divingManager tenMetreStatics (111 / 10) 20
      ceilingDiver (by decide)
  obtain ⟨q, g0, _, _, g3, _⟩ :=
    update_diving_fields 180 0 1001 divingManager tenMetreStatics (111 / 10) 20 ceilingDiver _
      (autoStartEnd_deep 0 1001 divingManager tenMetreStatics (111 / 10) rfl rfl
        (by norm_num [DIVE_END_DEPTH]))
      rfl (by decide)
  rw [h0] at g0
  rw [← Option.some.inj g0] at g3
  have hdive : r.1.is_diving = true := g3
  have hlt : (111 : ℚ) / 10 < ceilingDiver.ceiling := by
    show (111 : ℚ) / 10 < 112 / 10
    norm_num
  obtain ⟨a1, a2, _⟩ := h1 hdive
  exact ⟨r, h0, hdive, a1.mpr hlt, a2 hlt⟩

/-! ## `DiveManager_RecordSample` and the bounds of the buffer -/

/-- C35: with at most `MAX_DIVE_SAMPLES` (3600) samples before the call,
`DiveManager_RecordSample` returns; the slot it writes has an index below
3600 (the old count when there was room, 1800 when the buffer was full), the
count afterwards is that index plus one, at most 3600; with a full buffer the
samples are first compressed (slot `k < 1800` holds the former sample `2 k`)
and the new sample lands at index 1800; `max_depth` afterwards is the maximum
of its old value and the recorded depth; outside the current dive the manager
is unchanged. -/
theorem DiveManager_RecordSample_in_bounds (dm : DiveManager) (depth temp : ℚ) (gas deco : Nat)
    (hn : dm.current_dive.num_samples ≤ MAX_DIVE_SAMPLES) :
    ∃ dm1 slot, DiveManager_RecordSample dm depth temp gas deco = some dm1 ∧
      slot < MAX_DIVE_SAMPLES ∧
      slot = (if dm.current_dive.num_samples = MAX_DIVE_SAMPLES then 1800
        else dm.current_dive.num_samples) ∧
      dm1.current_dive.samples slot
        = { time := dm.sample_counter, depth := toInt16 (depth * 100),
            temperature := toInt16 (temp * 10), gas_idx := gas, deco_time := deco,
            cns := 0, events := 0 } ∧
      dm1.current_dive.num_samples = slot + 1 ∧
      dm1.current_dive.num_samples ≤ MAX_DIVE_SAMPLES ∧
      (dm.current_dive.num_samples < MAX_DIVE_SAMPLES →
        ∀ k, k ≠ slot → dm1.current_dive.samples k = dm.current_dive.samples k) ∧
      (dm.current_dive.num_samples = MAX_DIVE_SAMPLES →
        ∀ k, k < 1800 → dm1.current_dive.samples k = dm.current_dive.samples (2 * k)) ∧
      dm1.current_dive.max_depth = max dm.current_dive.max_depth depth ∧
      ({ dm1 with current_dive := dm.current_dive } : DiveManager) = dm := by
  have hmax : (if depth > dm.current_dive.max_depth then depth else dm.current_dive.max_depth)
      = max dm.current_dive.max_depth depth := by
    split_ifs with h
    · exact (max_eq_right h.le).symm
    · exact (max_eq_left (not_lt.mp h)).symm
  unfold DiveManager_RecordSample
  by_cases hfull : dm.current_dive.num_samples ≥ MAX_DIVE_SAMPLES
  · have heq : dm.current_dive.num_samples = MAX_DIVE_SAMPLES := le_antisymm hn hfull
    obtain ⟨s1, h1, hlo, _⟩ := compressSamples_spec dm (by rw [heq]; decide)
    have hhalf : (dm.current_dive.num_samples + 1) / 2 = 1800 := by
      rw [heq]
      rfl
    rw [hhalf] at h1 hlo
    rw [if_pos hfull, h1]
    refine ⟨_, 1800, rfl, ?_, ?_, ?_, rfl, ?_, ?_, ?_, hmax, rfl⟩
    · decide
    · rw [if_pos heq]
    · exact Function.update_same (1800 : Nat) _ s1
    · show (1800 + 1) % 65536 ≤ MAX_DIVE_SAMPLES
      decide
    · intro hlt
      rw [heq] at hlt
      exact absurd hlt (lt_irrefl _)
    · intro _ k hk
      show Function.update s1 1800 _ k = _
      rw [Function.update_noteq (by omega)]
      exact hlo k hk
  · have hlt : dm.current_dive.num_samples < MAX_DIVE_SAMPLES := not_le.mp hfull
    have hmod : (dm.current_dive.num_samples + 1) % 65536 = dm.current_dive.num_samples + 1 := by
      unfold MAX_DIVE_SAMPLES at hlt
      omega
    rw [if_neg hfull]
    refine ⟨_, dm.current_dive.num_samples, rfl, hlt, ?_, ?_, hmod, ?_, ?_, ?_, hmax, rfl⟩
    · rw [if_neg hlt.ne]
    · exact Function.update_same dm.current_dive.num_samples _ dm.current_dive.samples
    · show (dm.current_dive.num_samples + 1) % 65536 ≤ MAX_DIVE_SAMPLES
      rw [hmod]
      exact hlt
    · intro _ k hk
      show Function.update dm.current_dive.samples _ _ k = _
      rw [Function.update_noteq hk]
    · intro h
      exact absurd h hlt.ne

theorem DiveManager_RecordSample_in_bounds_witness :
    ∃ dm1, DiveManager_RecordSample fullBuffer 12 20 0 0 = some dm1 ∧
      dm1.current_dive.num_samples = 1801 ∧
      (dm1.current_dive.samples 1800).depth = 1200 ∧
      (dm1.current_dive.samples 1799).time = 3598 ∧
      dm1.current_dive.max_depth = 12 := by
  obtain ⟨dm1, slot, h0, _, h2, h3, h4, _, _, h7, h8, _⟩ :=
    DiveManager_RecordSample_in_bounds fullBuffer 12 20 0 0 (le_refl _)
  have hslot : slot = 1800 := h2
  subst hslot
  refine ⟨dm1, h0, h4, ?_, ?_, ?_⟩
  · rw [h3]
    show toInt16 (12 * 100) = 1200
    unfold toInt16
    norm_num
  · rw [h7 rfl 1799 (by decide)]
    rfl
  · rw [h8]
    show max (0 : ℚ) 12 = 12
    norm_num

/-! ## Re-admission of cells by `CCR_UpdateCellReadings` -/

theorem updateCell_readmit (cell : O2Cell) (mv : ℚ) (hs : cell.status ≠ CellStatus.CELL_FAIL)
    (h0 : 1 / 20 ≤ (updateCell cell mv).ppO2) (h1 : (updateCell cell mv).ppO2 ≤ 2) :
    (updateCell cell mv).status = CellStatus.CELL_OK ∧ (updateCell cell mv).is_voting = true := by
  have hp : (updateCell cell mv).ppO2
      = (List.range CELL_MV_WINDOW_SIZE).foldl
          (fun s j => s + Function.update cell.mv_history cell.history_idx mv j) 0
        / (CELL_MV_WINDOW_SIZE : ℚ) / cell.calibration_factor := by
    unfold updateCell
    dsimp only
    split_ifs <;> rfl
  rw [hp] at h0 h1
  unfold updateCell
  dsimp only
  rw [if_neg (fun h => by
    rcases h with h | h
    · exact absurd h0 (not_le.mpr h)
    · exact absurd h1 (not_le.mpr h)), if_pos hs]
  exact ⟨rfl, rfl⟩

theorem updateCell_ppO2 (cell : O2Cell) (mv : ℚ) :
    (updateCell cell mv).ppO2 = (updateCell cell mv).mv / cell.calibration_factor ∧
      (updateCell cell mv).calibration_factor = cell.calibration_factor := by
  unfold updateCell
  dsimp only
  split_ifs <;> exact ⟨rfl, rfl⟩

/-- C37: in `CCR_UpdateCellReadings` a cell whose status before the call is
anything other than Fail (NotCalibrated and Drift included) and whose ppO₂
derived from this reading (smoothed mV over its calibration factor) is within
[0.05, 2.00] enters `CCR_ValidateCells` with status OK and voting. -/
theorem CCR_UpdateCellReadings_readmits (ccr : CCRManager) (m1 m2 m3 : ℚ) (i : Nat)
    (cell : O2Cell) (mv : ℚ) (hc : ccr.cells[i]? = some cell)
    (hm : [m1, m2, m3][i]? = some mv) (hs : cell.status ≠ CellStatus.CELL_FAIL)
    (h0 : 1 / 20 ≤ (updateCell cell mv).ppO2) (h1 : (updateCell cell mv).ppO2 ≤ 2) :
    CCR_UpdateCellReadings ccr m1 m2 m3 = (CCR_ValidateCells (readCells ccr m1 m2 m3)).1 ∧
    (readCells ccr m1 m2 m3).cells[i]? = some (updateCell cell mv) ∧
    (updateCell cell mv).ppO2 = (updateCell cell mv).mv / cell.calibration_factor ∧
    (updateCell cell mv).status = CellStatus.CELL_OK ∧
    (updateCell cell mv).is_voting = true := by
  obtain ⟨a1, a2⟩ := updateCell_readmit cell mv hs h0 h1
  refine ⟨rfl, ?_, (updateCell_ppO2 cell mv).1, a1, a2⟩
  show (List.zipWith updateCell ccr.cells [m1, m2, m3])[i]? = _
  rw [List.getElem?_zipWith, hc, hm]

theorem updateCell_hundred (cell : O2Cell) (hh : cell.mv_history = fun _ => 0)
    (hi : cell.history_idx = 0) (hf : cell.calibration_factor = 238 / 5) :
    (updateCell cell 100).ppO2 = 25 / 119 := by
  rw [(updateCell_ppO2 cell 100).1, hf]
  have hmv : (updateCell cell 100).mv = 10 := by
    unfold updateCell
    dsimp only
    have hsum : (List.range CELL_MV_WINDOW_SIZE).foldl
        (fun s j => s + Function.update cell.mv_history cell.history_idx 100 j) 0 = 100 := by
      rw [hh, hi]
      simp [CELL_MV_WINDOW_SIZE, List.range_succ, Function.update]
    split_ifs <;> (show _ / (CELL_MV_WINDOW_SIZE : ℚ) = 10; rw [hsum]; norm_num [CELL_MV_WINDOW_SIZE])
  rw [hmv]
  norm_num

theorem CCR_UpdateCellReadings_readmits_witness :
    (initCell.status = CellStatus.CELL_NOT_CALIBRATED ∧
      (readCells CCR_Init 100 100 100).cells[0]? = some (updateCell initCell 100) ∧
      (updateCell initCell 100).status = CellStatus.CELL_OK ∧
      (updateCell initCell 100).is_voting = true) ∧
    (driftedCell.status = CellStatus.CELL_DRIFT ∧ driftedCell.is_voting = false ∧
      (readCells (managerWith [driftedCell, initCell, initCell]) 100 100 100).cells[0]?
        = some (updateCell driftedCell 100) ∧
      (updateCell driftedCell 100).status = CellStatus.CELL_OK ∧
      (updateCell driftedCell 100).is_voting = true) := by
  have hp1 : (updateCell initCell 100).ppO2 = 25 / 119 := updateCell_hundred initCell rfl rfl rfl
  have hp2 : (updateCell driftedCell 100).ppO2 = 25 / 119 :=
    updateCell_hundred driftedCell rfl rfl rfl
  obtain ⟨_, a2, _, a4, a5⟩ :=
    CCR_UpdateCellReadings_readmits CCR_Init 100 100 100 0 initCell 100 rfl rfl (by decide)
      (by rw [hp1]; norm_num) (by rw [hp1]; norm_num)
  obtain ⟨_, b2, _, b4, b5⟩ :=
    CCR_UpdateCellReadings_readmits (managerWith [driftedCell, initCell, initCell]) 100 100 100 0
      driftedCell 100 rfl rfl (by decide) (by rw [hp2]; norm_num) (by rw [hp2]; norm_num)
  exact ⟨⟨rfl, a2, a4, a5⟩, ⟨rfl, rfl, b2, b4, b5⟩⟩

/-! ## The auto setpoint stays in its band -/

/-- The target of `CCR_UpdateAutoSetpoint` lies in the band, for every depth
and every switch depth. -/
theorem autoSetpointTarget_band (ccr : CCRManager) (depth : ℚ)
    (hlh : ccr.setpoint_low ≤ ccr.setpoint_high) :
    ccr.setpoint_low ≤ autoSetpointTarget ccr depth ∧
      autoSetpointTarget ccr depth ≤ ccr.setpoint_high := by
  unfold autoSetpointTarget
  dsimp only
  split_ifs with h1 h2
  · exact ⟨le_refl _, hlh⟩
  · have h3 : 3 ≤ depth := not_lt.mp h1
    have hden : 0 < ccr.auto_sp_switch_depth - 3 := by linarith
    have hr0 : 0 ≤ (depth - 3) / (ccr.auto_sp_switch_depth - 3) :=
      div_nonneg (by linarith) hden.le
    have hr1 : (depth - 3) / (ccr.auto_sp_switch_depth - 3) ≤ 1 := by
      rw [div_le_one hden]
      linarith
    have hd : 0 ≤ ccr.setpoint_high - ccr.setpoint_low := by linarith
    have hp0 := mul_nonneg hd hr0
    have hp1 := mul_le_mul_of_nonneg_left hr1 hd
    constructor
    · linarith
    · linarith
  · exact ⟨hlh, le_refl _⟩

theorem updateAutoSetpoint_cases (ccr : CCRManager) (depth : ℚ) :
    CCR_UpdateAutoSetpoint ccr depth = ccr ∨
      CCR_UpdateAutoSetpoint ccr depth
        = { ccr with
            current_setpoint := ccr.current_setpoint
              + (autoSetpointTarget ccr depth - ccr.current_setpoint) * (1 / 10) } := by
  unfold CCR_UpdateAutoSetpoint
  dsimp only
  split_ifs
  · exact Or.inl rfl
  · exact Or.inr rfl
  · exact Or.inl rfl

/-- A tenth of the way from `cur` to `tg`: still in the band both lie in,
between the two, and no further from `tg`. -/
theorem slew_between (cur tg lo hi : ℚ) (hc0 : lo ≤ cur) (hc1 : cur ≤ hi) (ht0 : lo ≤ tg)
    (ht1 : tg ≤ hi) :
    lo ≤ cur + (tg - cur) * (1 / 10) ∧ cur + (tg - cur) * (1 / 10) ≤ hi ∧
      min cur tg ≤ cur + (tg - cur) * (1 / 10) ∧ cur + (tg - cur) * (1 / 10) ≤ max cur tg ∧
      |tg - (cur + (tg - cur) * (1 / 10))| ≤ |tg - cur| := by
  have hab : |tg - (cur + (tg - cur) * (1 / 10))| = 9 / 10 * |tg - cur| := by
    have : tg - (cur + (tg - cur) * (1 / 10)) = 9 / 10 * (tg - cur) := by ring
    rw [this, abs_mul, abs_of_pos (by norm_num : (0 : ℚ) < 9 / 10)]
  have habs : 0 ≤ |tg - cur| := abs_nonneg _
  rcases le_total cur tg with h | h
  · refine ⟨by linarith, by linarith, ?_, ?_, by rw [hab]; linarith⟩
    · rw [min_eq_left h]
      linarith
    · rw [max_eq_right h]
      linarith
  · refine ⟨by linarith, by linarith, ?_, ?_, by rw [hab]; linarith⟩
    · rw [min_eq_right h]
      linarith
    · rw [max_eq_left h]
      linarith

/-- C38: for every depth and every `auto_sp_switch_depth`, if
`setpoint_low <= setpoint_high` and `current_setpoint` is in
[`setpoint_low`, `setpoint_high`] before `CCR_UpdateAutoSetpoint`, then
afterwards the band is the same, `current_setpoint` is still in it, lies
between its old value and the target, and is no further from the target than
before; the target itself is in the band (between 3 m and a switch depth the
divisor `switch_depth - 3` is positive, and at a switch depth of 3 m or less
that branch is not reached). -/
theorem CCR_UpdateAutoSetpoint_in_band (ccr : CCRManager) (depth : ℚ)
    (hlh : ccr.setpoint_low ≤ ccr.setpoint_high)
    (hlo : ccr.setpoint_low ≤ ccr.current_setpoint)
    (hhi : ccr.current_setpoint ≤ ccr.setpoint_high) :
    (CCR_UpdateAutoSetpoint ccr depth).setpoint_low = ccr.setpoint_low ∧
    (CCR_UpdateAutoSetpoint ccr depth).setpoint_high = ccr.setpoint_high ∧
    ccr.setpoint_low ≤ (CCR_UpdateAutoSetpoint ccr depth).current_setpoint ∧
    (CCR_UpdateAutoSetpoint ccr depth).current_setpoint ≤ ccr.setpoint_high ∧
    min ccr.current_setpoint (autoSetpointTarget ccr depth)
      ≤ (CCR_UpdateAutoSetpoint ccr depth).current_setpoint ∧
    (CCR_UpdateAutoSetpoint ccr depth).current_setpoint
      ≤ max ccr.current_setpoint (autoSetpointTarget ccr depth) ∧
    |autoSetpointTarget ccr depth - (CCR_UpdateAutoSetpoint ccr depth).current_setpoint|
      ≤ |autoSetpointTarget ccr depth - ccr.current_setpoint| ∧
    (ccr.setpoint_low ≤ autoSetpointTarget ccr depth ∧
      autoSetpointTarget ccr depth ≤ ccr.setpoint_high) ∧
    (ccr.auto_sp_switch_depth ≤ 3 →
      autoSetpointTarget ccr depth
        = if depth < 3 then ccr.setpoint_low else ccr.setpoint_high) := by
  obtain ⟨ht0, ht1⟩ := autoSetpointTarget_band ccr depth hlh
  have hswitch : ccr.auto_sp_switch_depth ≤ 3 →
      autoSetpointTarget ccr depth
        = if depth < 3 then ccr.setpoint_low else ccr.setpoint_high := by
    intro hs
    unfold autoSetpointTarget
    dsimp only
    by_cases h1 : depth < 3
    · rw [if_pos h1, if_pos h1]
    · rw [if_neg h1, if_neg h1, if_neg (by linarith [not_lt.mp h1])]
  rcases updateAutoSetpoint_cases ccr depth with hu | hu
  · rw [hu]
    exact ⟨rfl, rfl, hlo, hhi, min_le_left _ _, le_max_left _ _, le_refl _, ⟨ht0, ht1⟩, hswitch⟩
  · rw [hu]
    obtain ⟨b1, b2, b3, b4, b5⟩ :=
      slew_between ccr.current_setpoint (autoSetpointTarget ccr depth) ccr.setpoint_low
        ccr.setpoint_high hlo hhi ht0 ht1
    exact ⟨rfl, rfl, b1, b2, b3, b4, b5, ⟨ht0, ht1⟩, hswitch⟩

theorem CCR_UpdateAutoSetpoint_in_band_witness :
    (7 : ℚ) / 10 ≤ (CCR_UpdateAutoSetpoint autoSetpointS4 10).current_setpoint ∧
      (CCR_UpdateAutoSetpoint autoSetpointS4 10).current_setpoint ≤ 13 / 10 ∧
      autoSetpointTarget autoSetpointS4 10 = 13 / 10 ∧
      |autoSetpointTarget autoSetpointS4 10
          - (CCR_UpdateAutoSetpoint autoSetpointS4 10).current_setpoint|
        ≤ |autoSetpointTarget autoSetpointS4 10 - autoSetpointS4.current_setpoint| := by
  have hlh : autoSetpointS4.setpoint_low ≤ autoSetpointS4.setpoint_high := by
    show (7 : ℚ) / 10 ≤ 13 / 10
    norm_num
  have hlo : autoSetpointS4.setpoint_low ≤ autoSetpointS4.current_setpoint := by
    show (7 : ℚ) / 10 ≤ 7 / 10
    norm_num
  have hhi : autoSetpointS4.current_setpoint ≤ autoSetpointS4.setpoint_high := by
    show (7 : ℚ) / 10 ≤ 13 / 10
    norm_num
  obtain ⟨_, _, h3, h4, _, _, h7, _, _⟩ :=
    CCR_UpdateAutoSetpoint_in_band autoSetpointS4 10 hlh hlo hhi
  refine ⟨h3, h4, ?_, h7⟩
  unfold autoSetpointTarget
  dsimp only
  rw [if_neg (by norm_num), if_neg (by
    show ¬ (10 : ℚ) < 6
    norm_num)]
  rfl

/-! ## `alarm_cells_failed` is never cleared -/

theorem validateCells_alarm (ccr : CCRManager) (h : ccr.alarm_cells_failed = true) :
    (CCR_ValidateCells ccr).1.alarm_cells_failed = true := by
  unfold CCR_ValidateCells
  dsimp only
  split_ifs
  · rfl
  · exact h
  · rfl

theorem calibrateCell_alarm (sys_tick : Nat) (ccr : CCRManager) (i : Nat) (ref : ℚ) :
    (CCR_CalibrateCell sys_tick ccr i ref).alarm_cells_failed = ccr.alarm_cells_failed := by
  unfold CCR_CalibrateCell
  split_ifs
  · rfl
  · split
    · rfl
    · split_ifs
      · rfl
      · rfl

theorem checkAlarms_alarm (ccr : CCRManager) :
    (CCR_CheckAlarms ccr).alarm_cells_failed = ccr.alarm_cells_failed := by
  unfold CCR_CheckAlarms
  dsimp only
  split_ifs <;> rfl

theorem ccrCall_alarm (a b : CCRManager) (hcall : CCRCall a b)
    (h : a.alarm_cells_failed = true) : b.alarm_cells_failed = true := by
  cases hcall with
  | readings m1 m2 m3 => exact validateCells_alarm _ h
  | validate => exact validateCells_alarm _ h
  | calibrate sys_tick cell_idx reference_ppO2 =>
    rw [calibrateCell_alarm]
    exact h
  | autoSetpoint depth =>
    rcases updateAutoSetpoint_cases a depth with hu | hu
    · rw [hu]
      exact h
    · rw [hu]
      exact h
  | checkAlarms =>
    rw [checkAlarms_alarm]
    exact h
  | bailout g => exact h
  | toLoop => exact h

/-- C36: `alarm_cells_failed`, once true, stays true through every sequence
of calls of `CCR_UpdateCellReadings`, `CCR_ValidateCells`,
`CCR_CalibrateCell`, `CCR_UpdateAutoSetpoint`, `CCR_CheckAlarms`,
`CCR_SwitchToBailout` and `CCR_ReturnToLoop`, also through a
`CCR_ValidateCells` that succeeds; `CCR_Init` leaves it false. -/
theorem CCR_alarm_cells_failed_permanent (a b : CCRManager)
    (h : a.alarm_cells_failed = true) (hrun : Relation.ReflTransGen CCRCall a b) :
    b.alarm_cells_failed = true ∧
    ((CCR_ValidateCells b).2 = true → (CCR_ValidateCells b).1.alarm_cells_failed = true) ∧
    CCR_Init.alarm_cells_failed = false := by
  have hb : b.alarm_cells_failed = true := by
    induction hrun with
    | refl => exact h
    | tail _ hstep ih => exact ccrCall_alarm _ _ hstep ih
  exact ⟨hb, fun _ => validateCells_alarm b hb, rfl⟩

theorem agreeingAfterAlarm_validates : (CCR_ValidateCells agreeingAfterAlarm).2 = true := by
  simp [CCR_ValidateCells, agreeingAfterAlarm, managerWith, cellReading, votingSum,
    checkDivergence, initCell]
  norm_num

theorem CCR_alarm_cells_failed_permanent_witness :
    agreeingAfterAlarm.alarm_cells_failed = true ∧
    (CCR_ValidateCells agreeingAfterAlarm).2 = true ∧
    (CCR_CheckAlarms (CCR_ValidateCells agreeingAfterAlarm).1).alarm_cells_failed = true :=
  ⟨rfl, agreeingAfterAlarm_validates,
    (CCR_alarm_cells_failed_permanent agreeingAfterAlarm
      (CCR_CheckAlarms (CCR_ValidateCells agreeingAfterAlarm).1) rfl
      (Relation.ReflTransGen.tail
        (Relation.ReflTransGen.single (CCRCall.validate agreeingAfterAlarm))
        (CCRCall.checkAlarms _))).1⟩

/-! ## Frames that hold whenever the call returns -/

theorem compressSamples_frame (dm dm1 : DiveManager)
    (h : DiveManager_CompressSamples dm = some dm1) :
    ({ dm1 with current_dive := dm.current_dive } : DiveManager) = dm := by
  unfold DiveManager_CompressSamples at h
  cases hc : compressLoop dm.current_dive.num_samples dm.current_dive.samples 0 0 with
  | none =>
    rw [hc] at h
    cases h
  | some r =>
    rw [hc] at h
    rw [← Option.some.inj h]

theorem endDive_frame (now : Nat) (dm dm1 : DiveManager)
    (h : DiveManager_EndDive now dm = some dm1) :
    dm1.is_diving = false ∧ dm1.safety_stop_required = dm.safety_stop_required ∧
      dm1.safety_stop_completed = dm.safety_stop_completed ∧
      dm1.safety_stop_timer = dm.safety_stop_timer := by
  unfold DiveManager_EndDive at h
  have hf := compressSamples_frame _ dm1 h
  have e1 := congrArg DiveManager.is_diving hf
  have e2 := congrArg DiveManager.safety_stop_required hf
  have e3 := congrArg DiveManager.safety_stop_completed hf
  have e4 := congrArg DiveManager.safety_stop_timer hf
  exact ⟨e1, e2, e3, e4⟩

theorem recordSample_frame_some (dm dm1 : DiveManager) (depth temp : ℚ) (gas deco : Nat)
    (h : DiveManager_RecordSample dm depth temp gas deco = some dm1) :
    ({ dm1 with current_dive := dm.current_dive } : DiveManager) = dm := by
  unfold DiveManager_RecordSample at h
  by_cases hfull : dm.current_dive.num_samples ≥ MAX_DIVE_SAMPLES
  · rw [if_pos hfull] at h
    cases hc : DiveManager_CompressSamples dm with
    | none =>
      rw [hc] at h
      cases h
    | some dm2 =>
      rw [hc] at h
      have hf := compressSamples_frame dm dm2 hc
      rw [← Option.some.inj h]
      exact hf
  · rw [if_neg hfull] at h
    rw [← Option.some.inj h]

theorem tickSample_frame_some (now : Nat) (dm dm1 : DiveManager) (depth temperature : ℚ)
    (model : ZHL16Model) (h : tickSample now dm depth temperature model = some dm1) :
    ({ dm1 with current_dive := dm.current_dive, sample_counter := dm.sample_counter }
      : DiveManager) = dm := by
  unfold tickSample at h
  generalize (if model.ceiling > 0 then model.ascend_plan.tts else 0) % 256 = deco at h
  by_cases hs : subUInt32 now dm.current_dive.start_timestamp ≥ dm.sample_counter
  · rw [if_pos hs] at h
    cases hc : DiveManager_RecordSample dm depth temperature model.current_gas deco with
    | none =>
      rw [hc] at h
      cases h
    | some dm2 =>
      rw [hc] at h
      have hf := recordSample_frame_some dm dm2 depth temperature model.current_gas deco hc
      rw [← Option.some.inj h]
      calc ({ dm2 with current_dive := dm.current_dive, sample_counter := dm.sample_counter }
            : DiveManager)
          = { ({ dm2 with current_dive := dm.current_dive } : DiveManager) with
              sample_counter := dm.sample_counter } := rfl
        _ = { dm with sample_counter := dm.sample_counter } := by rw [hf]
        _ = dm := rfl
  · rw [if_neg hs] at h
    rw [← Option.some.inj h]

/-- The safety-stop fields after the blocks of a diving tick, whether or not
the safety stop is enforced. -/
theorem tickBlocks_safety_any (t now : Nat) (dm : DiveManager) (s : DiveStatics) (depth : ℚ)
    (model : ZHL16Model) (ph : DivePhase)
    (hph : (tickBlocks t now dm s depth model).phase = ph) :
    (tickBlocks t now dm s depth model).safety_stop_timer
      = (tickSafetyStop t { dm with phase := ph } depth).safety_stop_timer ∧
    (tickBlocks t now dm s depth model).safety_stop_required
      = (tickSafetyStop t { dm with phase := ph } depth).safety_stop_required ∧
    (tickBlocks t now dm s depth model).safety_stop_completed
      = (tickSafetyStop t { dm with phase := ph } depth).safety_stop_completed := by
  by_cases he : dm.safety_stop_enforce = true
  · have h := tickBlocks_safety t now dm s depth model he ph hph
    unfold tickSafetyStop
    rw [if_pos (show ({ dm with phase := ph } : DiveManager).safety_stop_enforce = true from he)]
    exact h
  · have hp := tickPhase_eq now dm s depth model
    unfold tickBlocks
    generalize tickPhase
        (tickCeilingAlarm
          (tickAscentAlarm (tickAverage (DiveManager_UpdateRates now dm s depth).1 depth))
          depth model)
        depth model = p at hp
    have hpe : ¬ p.safety_stop_enforce = true := by
      rw [hp]
      exact he
    unfold tickSafetyStop
    rw [if_neg hpe,
      if_neg (show ¬ ({ dm with phase := ph } : DiveManager).safety_stop_enforce = true from he),
      hp]
    exact ⟨rfl, rfl, rfl⟩

/-- A diving call of `DiveManager_Update` that returns: the safety-stop fields
are those the safety-stop block computes from the manager `head` the head of
the call leaves and the phase of this tick. -/
theorem update_diving_safety (t last now : Nat) (dm : DiveManager) (s : DiveStatics)
    (depth temperature : ℚ) (model : ZHL16Model) (head r : DiveManager × DiveStatics)
    (hh : autoStartEnd last now dm s depth = some head) (hd : head.1.is_diving = true)
    (hr : DiveManager_Update t last now dm s depth temperature model = some r) :
    r.1.is_diving = true ∧
    r.1.safety_stop_timer
      = (tickSafetyStop t { head.1 with phase := r.1.phase } depth).safety_stop_timer ∧
    r.1.safety_stop_required
      = (tickSafetyStop t { head.1 with phase := r.1.phase } depth).safety_stop_required ∧
    r.1.safety_stop_completed
      = (tickSafetyStop t { head.1 with phase := r.1.phase } depth).safety_stop_completed := by
  unfold DiveManager_Update at hr
  rw [hh, Option.some_bind] at hr
  dsimp only at hr
  rw [if_neg (by rw [hd]; decide), divingTick_eq] at hr
  cases hc : tickSample now (tickBlocks t now head.1 head.2 depth model) depth temperature model with
  | none =>
    rw [hc] at hr
    cases hr
  | some dm6 =>
    rw [hc] at hr
    have hf := tickSample_frame_some now _ dm6 depth temperature model hc
    have hr1 : r.1 = dm6 := by
      rw [← Option.some.inj hr]
    rw [hr1]
    have e0 := congrArg DiveManager.is_diving hf
    have e1 := congrArg DiveManager.phase hf
    have e2 := congrArg DiveManager.safety_stop_timer hf
    have e3 := congrArg DiveManager.safety_stop_required hf
    have e4 := congrArg DiveManager.safety_stop_completed hf
    obtain ⟨g1, g2, g3⟩ :=
      tickBlocks_safety_any t now head.1 head.2 depth model dm6.phase e1.symm
    have f1 := (tickBlocks_fields t now head.1 head.2 depth model).1
    exact ⟨(e0.trans f1).trans hd, e2.trans g1, e3.trans g2, e4.trans g3⟩

/-! ## Required and completed exclude each other -/

theorem autoStartEnd_some_cases (last now : Nat) (dm : DiveManager) (s : DiveStatics)
    (depth : ℚ) (head : DiveManager × DiveStatics)
    (hh : autoStartEnd last now dm s depth = some head) :
    head.1 = dm ∨
      (dm.is_diving = false ∧ head.1 = DiveManager_StartDive last now dm) ∨
      (dm.is_diving = true ∧ DiveManager_EndDive now dm = some head.1) := by
  unfold autoStartEnd at hh
  by_cases ha : dm.auto_start_dive = true
  · rw [if_pos ha] at hh
    by_cases hd : dm.is_diving = false
    · rw [if_pos hd] at hh
      dsimp only at hh
      by_cases hc : (DiveManager_CheckDiveStart now s depth).1 = true
      · rw [if_pos hc] at hh
        rw [← Option.some.inj hh]
        exact Or.inr (Or.inl ⟨hd, rfl⟩)
      · rw [if_neg hc] at hh
        rw [← Option.some.inj hh]
        exact Or.inl rfl
    · rw [if_neg hd] at hh
      dsimp only at hh
      have hd1 : dm.is_diving = true := by
        cases h : dm.is_diving
        · exact absurd h hd
        · rfl
      by_cases hc : (DiveManager_CheckDiveEnd now s depth).1 = true
      · rw [if_pos hc] at hh
        cases he : DiveManager_EndDive now dm with
        | none =>
          rw [he] at hh
          cases hh
        | some dm1 =>
          rw [he] at hh
          rw [← Option.some.inj hh]
          exact Or.inr (Or.inr ⟨hd1, rfl⟩)
      · rw [if_neg hc] at hh
        rw [← Option.some.inj hh]
        exact Or.inl rfl
  · rw [if_neg ha] at hh
    rw [← Option.some.inj hh]
    exact Or.inl rfl

theorem updateSafetyStop_exclusive (t : Nat) (dm : DiveManager) (depth : ℚ)
    (h : safetyStopExclusive dm) : safetyStopExclusive (DiveManager_UpdateSafetyStop t dm depth) := by
  unfold safetyStopExclusive at h ⊢
  unfold DiveManager_UpdateSafetyStop
  dsimp only
  by_cases hm : dm.current_dive.max_depth > 10 ∧ dm.safety_stop_completed = false
  · rw [if_pos hm]
    dsimp only
    split_ifs
    · exact fun hb => absurd hb.1 (by decide)
    · show ¬ (true = true ∧ dm.safety_stop_completed = true)
      rw [hm.2]
      exact fun hb => absurd hb.2 (by decide)
    · show ¬ (true = true ∧ dm.safety_stop_completed = true)
      rw [hm.2]
      exact fun hb => absurd hb.2 (by decide)
    · show ¬ (true = true ∧ dm.safety_stop_completed = true)
      rw [hm.2]
      exact fun hb => absurd hb.2 (by decide)
  · rw [if_neg hm]
    split_ifs
    · exact fun hb => absurd hb.1 (by decide)
    · exact h
    · exact h
    · exact h

/-- Once the stop is completed and no longer required,
`DiveManager_UpdateSafetyStop` changes neither flag. -/
theorem updateSafetyStop_completed (t : Nat) (dm : DiveManager) (depth : ℚ)
    (hc : dm.safety_stop_completed = true) (hr : dm.safety_stop_required = false) :
    (DiveManager_UpdateSafetyStop t dm depth).safety_stop_completed = true ∧
      (DiveManager_UpdateSafetyStop t dm depth).safety_stop_required = false := by
  unfold DiveManager_UpdateSafetyStop
  dsimp only
  rw [if_neg (show ¬ (dm.current_dive.max_depth > 10 ∧ dm.safety_stop_completed = false) from
    fun h => by rw [hc] at h; exact absurd h.2 (by decide))]
  rw [if_neg (show ¬ (dm.phase = DivePhase.PHASE_SAFETY_STOP ∧ dm.safety_stop_required = true) from
    fun h => by rw [hr] at h; exact absurd h.2 (by decide))]
  exact ⟨hc, hr⟩

theorem tickSafetyStop_exclusive (t : Nat) (dm : DiveManager) (depth : ℚ)
    (h : safetyStopExclusive dm) : safetyStopExclusive (tickSafetyStop t dm depth) := by
  unfold tickSafetyStop
  split_ifs
  · exact updateSafetyStop_exclusive t dm depth h
  · exact h

theorem tickSafetyStop_completed (t : Nat) (dm : DiveManager) (depth : ℚ)
    (hc : dm.safety_stop_completed = true) (hr : dm.safety_stop_required = false) :
    (tickSafetyStop t dm depth).safety_stop_completed = true ∧
      (tickSafetyStop t dm depth).safety_stop_required = false := by
  unfold tickSafetyStop
  split_ifs
  · exact updateSafetyStop_completed t dm depth hc hr
  · exact ⟨hc, hr⟩

/-- A call of `DiveManager_Update` that returns keeps the predicate. -/
theorem update_exclusive (t last now : Nat) (dm : DiveManager) (s : DiveStatics)
    (depth temperature : ℚ) (model : ZHL16Model) (r : DiveManager × DiveStatics)
    (h : safetyStopExclusive dm)
    (hr : DiveManager_Update t last now dm s depth temperature model = some r) :
    safetyStopExclusive r.1 := by
  cases hh : autoStartEnd last now dm s depth with
  | none =>
    unfold DiveManager_Update at hr
    rw [hh] at hr
    cases hr
  | some head =>
    have hhead : safetyStopExclusive head.1 := by
      rcases autoStartEnd_some_cases last now dm s depth head hh with h1 | ⟨_, h1⟩ | ⟨_, h1⟩
      · rw [h1]
        exact h
      · rw [h1]
        exact fun hb => Bool.false_ne_true hb.1
      · obtain ⟨_, e2, e3, _⟩ := endDive_frame now dm head.1 h1
        unfold safetyStopExclusive at h ⊢
        rw [e2, e3]
        exact h
    by_cases hd : head.1.is_diving = true
    · obtain ⟨_, _, g2, g3⟩ :=
        update_diving_safety t last now dm s depth temperature model head r hh hd hr
      have := tickSafetyStop_exclusive t { head.1 with phase := r.1.phase } depth hhead
      unfold safetyStopExclusive at this ⊢
      rw [g2, g3]
      exact this
    · have hd0 : head.1.is_diving = false := by
        cases hx : head.1.is_diving
        · rfl
        · exact absurd hx hd
      rw [update_surface t last now dm s depth temperature model head hh hd0] at hr
      rw [← Option.some.inj hr]
      dsimp only
      split_ifs
      · exact hhead
      · exact hhead

/-- A call of `DiveManager_Update` in a dive whose stop is completed and no
longer required, when it returns, leaves the stop completed and not
required. -/
theorem update_completed (t last now : Nat) (dm : DiveManager) (s : DiveStatics)
    (depth temperature : ℚ) (model : ZHL16Model) (r : DiveManager × DiveStatics)
    (hdive : dm.is_diving = true)
    (hc : dm.safety_stop_completed = true) (hq : dm.safety_stop_required = false)
    (hr : DiveManager_Update t last now dm s depth temperature model = some r) :
    r.1.safety_stop_completed = true ∧ r.1.safety_stop_required = false := by
  cases hh : autoStartEnd last now dm s depth with
  | none =>
    unfold DiveManager_Update at hr
    rw [hh] at hr
    cases hr
  | some head =>
    have hhead : head.1.safety_stop_completed = true ∧ head.1.safety_stop_required = false := by
      rcases autoStartEnd_some_cases last now dm s depth head hh with h1 | ⟨h0, _⟩ | ⟨_, h1⟩
      · rw [h1]
        exact ⟨hc, hq⟩
      · rw [hdive] at h0
        exact absurd h0 (by decide)
      · obtain ⟨_, e2, e3, _⟩ := endDive_frame now dm head.1 h1
        rw [e2, e3]
        exact ⟨hc, hq⟩
    by_cases hd : head.1.is_diving = true
    · obtain ⟨_, _, g2, g3⟩ :=
        update_diving_safety t last now dm s depth temperature model head r hh hd hr
      have := tickSafetyStop_completed t { head.1 with phase := r.1.phase } depth hhead.1 hhead.2
      rw [g2, g3]
      exact this
    · have hd0 : head.1.is_diving = false := by
        cases hx : head.1.is_diving
        · rfl
        · exact absurd hx hd
      rw [update_surface t last now dm s depth temperature model head hh hd0] at hr
      rw [← Option.some.inj hr]
      dsimp only
      split_ifs
      · exact hhead
      · exact hhead

/-- With at most `MAX_DIVE_SAMPLES` samples `DiveManager_Update` returns, and
leaves at most `MAX_DIVE_SAMPLES` samples. -/
theorem update_total (t last now : Nat) (dm : DiveManager) (s : DiveStatics)
    (depth temperature : ℚ) (model : ZHL16Model)
    (hn : dm.current_dive.num_samples ≤ MAX_DIVE_SAMPLES) :
    ∃ r, DiveManager_Update t last now dm s depth temperature model = some r ∧
      r.1.current_dive.num_samples ≤ MAX_DIVE_SAMPLES := by
  obtain ⟨head, hh, _⟩ := autoStartEnd_cases last now dm s depth hn
  obtain ⟨_, _, _, _, f5⟩ := autoStartEnd_frame last now dm s depth head hn hh
  by_cases hd : head.1.is_diving = true
  · obtain ⟨r, h0, _, h2, _⟩ :=
      update_diving_fields t last now dm s depth temperature model head hh hd f5
    exact ⟨r, h0, h2⟩
  · have hd0 : head.1.is_diving = false := by
      cases hx : head.1.is_diving
      · rfl
      · exact absurd hx hd
    refine ⟨_, update_surface t last now dm s depth temperature model head hh hd0, ?_⟩
    dsimp only
    split_ifs
    · exact f5
    · exact f5

theorem updateAll_cons_some (t last : Nat) (r : Reading) (l : List Reading)
    (st x : DiveManager × DiveStatics) (h : updateAll t last (r :: l) st = some x) :
    ∃ y, DiveManager_Update t last r.now st.1 st.2 r.depth r.temperature r.model = some y ∧
      updateAll t last l y = some x := by
  cases hy : DiveManager_Update t last r.now st.1 st.2 r.depth r.temperature r.model with
  | none =>
    unfold updateAll at h
    rw [List.foldl_cons, Option.some_bind, hy, updateAll_none] at h
    cases h
  | some y =>
    rw [updateAll_cons t last r l st y hy] at h
    exact ⟨y, rfl, h⟩

/-- Along a run of `DiveManager_Update` calls that starts in a dive whose stop
is completed and not required, and in which the dive goes on after every call
but possibly the last, the stop stays completed and not required. -/
theorem updateAll_completed (t last : Nat) :
    ∀ (readings : List Reading) (dm : DiveManager) (s : DiveStatics)
      (x : DiveManager × DiveStatics),
      dm.is_diving = true → dm.safety_stop_completed = true → dm.safety_stop_required = false →
      updateAll t last readings (dm, s) = some x →
      (∀ k y, k < readings.length → updateAll t last (readings.take k) (dm, s) = some y →
        y.1.is_diving = true) →
      x.1.safety_stop_completed = true ∧ x.1.safety_stop_required = false := by
  intro readings
  induction readings with
  | nil =>
    intro dm s x _ hc hq hx _
    rw [updateAll_nil] at hx
    rw [← Option.some.inj hx]
    exact ⟨hc, hq⟩
  | cons r rs ih =>
    intro dm s x hd hc hq hx hpre
    obtain ⟨y, hy, hrest⟩ := updateAll_cons_some t last r rs (dm, s) x hx
    obtain ⟨yc, yq⟩ := update_completed t last r.now dm s r.depth r.temperature r.model y hd hc hq hy
    cases rs with
    | nil =>
      rw [updateAll_nil] at hrest
      rw [← Option.some.inj hrest]
      exact ⟨yc, yq⟩
    | cons r2 rs2 =>
      have hyd : y.1.is_diving = true := by
        refine hpre 1 y (by simp) ?_
        show updateAll t last [r] (dm, s) = some y
        rw [updateAll_cons t last r [] (dm, s) y hy]
        rfl
      refine ih y.1 y.2 x hyd yc yq hrest (fun k z hk hz => ?_)
      refine hpre (k + 1) z (by simpa using hk) ?_
      show updateAll t last (r :: (r2 :: rs2).take k) (dm, s) = some z
      rw [updateAll_cons t last r _ (dm, s) y hy]
      exact hz

/-- C39: `safety_stop_required` and `safety_stop_completed` are never both
true. The predicate holds after `DiveManager_Init` and after
`DiveManager_StartDive`, and from a manager where it holds it holds after
`DiveManager_UpdateSafetyStop` and after every `DiveManager_Update` call that
returns (it returns whenever at most `MAX_DIVE_SAMPLES` samples are
recorded). Once the stop is completed, `DiveManager_UpdateSafetyStop` keeps it
completed and not required, and so does every run of `DiveManager_Update`
calls for as long as the dive goes on. -/
theorem DiveManager_safety_stop_exclusive (t last now : Nat) (dm : DiveManager)
    (s : DiveStatics) (depth temperature : ℚ) (model : ZHL16Model)
    (h : safetyStopExclusive dm) :
    safetyStopExclusive DiveManager_Init ∧
    safetyStopExclusive (DiveManager_StartDive last now dm) ∧
    safetyStopExclusive (DiveManager_UpdateSafetyStop t dm depth) ∧
    (∀ r, DiveManager_Update t last now dm s depth temperature model = some r →
      safetyStopExclusive r.1) ∧
    (dm.current_dive.num_samples ≤ MAX_DIVE_SAMPLES →
      ∃ r, DiveManager_Update t last now dm s depth temperature model = some r) ∧
    (dm.safety_stop_completed = true →
      (DiveManager_UpdateSafetyStop t dm depth).safety_stop_completed = true ∧
        (DiveManager_UpdateSafetyStop t dm depth).safety_stop_required = false) ∧
    (dm.is_diving = true → dm.safety_stop_completed = true →
      ∀ (readings : List Reading) (x : DiveManager × DiveStatics),
        updateAll t last readings (dm, s) = some x →
        (∀ k y, k < readings.length → updateAll t last (readings.take k) (dm, s) = some y →
          y.1.is_diving = true) →
        x.1.safety_stop_completed = true ∧ x.1.safety_stop_required = false) := by
  have hreq : dm.safety_stop_completed = true → dm.safety_stop_required = false := by
    intro hc
    cases hq : dm.safety_stop_required
    · rfl
    · exact absurd ⟨hq, hc⟩ h
  refine ⟨fun hb => Bool.false_ne_true hb.1, fun hb => Bool.false_ne_true hb.1,
    updateSafetyStop_exclusive t dm depth h,
    fun r hr => update_exclusive t last now dm s depth temperature model r h hr,
    fun hn => ?_, fun hc => updateSafetyStop_completed t dm depth hc (hreq hc),
    fun hd hc readings x hx hpre =>
      updateAll_completed t last readings dm s x hd hc (hreq hc) hx hpre⟩
  obtain ⟨r, hr, _⟩ := update_total t last now dm s depth temperature model hn
  exact ⟨r, hr⟩

theorem DiveManager_safety_stop_exclusive_witness :
    safetyStopExclusive stopDone ∧
    ∃ r, DiveManager_Update 180 0 1001 stopDone stopStatics 5 20 freshDiver = some r ∧
      safetyStopExclusive r.1 ∧
      r.1.safety_stop_completed = true ∧ r.1.safety_stop_required = false := by
  have h : safetyStopExclusive stopDone := fun hb => Bool.false_ne_true hb.1
  obtain ⟨_, _, _, h4, h5, _, h7⟩ :=
    DiveManager_safety_stop_exclusive 180 0 1001 stopDone stopStatics 5 20 freshDiver h
  obtain ⟨r, hr⟩ := h5 (by decide)
  have hrun : updateAll 180 0 [{ now := 1001, depth := 5, temperature := 20, model := freshDiver }]
      (stopDone, stopStatics) = some r := by
    rw [updateAll_cons 180 0 _ [] (stopDone, stopStatics) r hr]
    rfl
  have hk := h7 rfl rfl _ r hrun (fun k y hk hy => by
    have hk0 : k = 0 := by
      simpa using hk
    subst hk0
    have : (stopDone, stopStatics) = y := Option.some.inj hy
    rw [← this]
    rfl)
  exact ⟨h, r, hr, h4 r hr, hk⟩

/-! ## `DiveManager_EndDive` -/

/-- C40: for a dive with `n` recorded samples (`n` below 65535; the buffer
holds at most 3600), `DiveManager_EndDive` returns and the profile it leaves
for the logbook has `(n + 1) / 2` samples, sample `k` being the former sample
`2 k`, whether or not the buffer ever filled; `end_timestamp` is the clock,
`duration` is `end - start` (as a `uint32_t`), and `avg_depth` is
`avg_depth_sum / avg_depth_samples`, both accumulators as they were; the
manager is out of the dive, in the phase SurfaceInterval. -/
theorem DiveManager_EndDive_compresses (now : Nat) (dm : DiveManager)
    (hn : dm.current_dive.num_samples < 65535) :
    ∃ dm1, DiveManager_EndDive now dm = some dm1 ∧
      dm1.current_dive.num_samples = (dm.current_dive.num_samples + 1) / 2 ∧
      (∀ k, k < (dm.current_dive.num_samples + 1) / 2 →
        dm1.current_dive.samples k = dm.current_dive.samples (2 * k)) ∧
      dm1.current_dive.end_timestamp = now ∧
      dm1.current_dive.duration = subUInt32 now dm.current_dive.start_timestamp ∧
      (dm.current_dive.start_timestamp ≤ now → now < 4294967296 →
        dm1.current_dive.duration = now - dm.current_dive.start_timestamp) ∧
      dm1.current_dive.avg_depth = dm.avg_depth_sum / (dm.avg_depth_samples : ℚ) ∧
      dm1.avg_depth_sum = dm.avg_depth_sum ∧ dm1.avg_depth_samples = dm.avg_depth_samples ∧
      dm1.is_diving = false ∧ dm1.phase = DivePhase.PHASE_SURFACE_INTERVAL ∧
      dm1.surface_interval_start = now := by
  obtain ⟨s1, h1, hlo, _⟩ := endDive_spec now dm hn
  rw [h1]
  refine ⟨_, rfl, rfl, hlo, rfl, rfl, fun hle hlt => ?_, rfl, rfl, rfl, rfl, rfl, rfl⟩
  exact subUInt32_of_le now dm.current_dive.start_timestamp hle hlt

theorem DiveManager_EndDive_compresses_witness :
    ∃ dm1, DiveManager_EndDive 700 shortDive = some dm1 ∧
      dm1.current_dive.num_samples = 3 ∧
      (dm1.current_dive.samples 0).time = 0 ∧ (dm1.current_dive.samples 1).time = 2 ∧
      (dm1.current_dive.samples 2).time = 4 ∧
      dm1.current_dive.duration = 600 ∧ dm1.current_dive.avg_depth = 10 := by
  obtain ⟨dm1, h0, h1, h2, _, _, h5, h6, _⟩ :=
    DiveManager_EndDive_compresses 700 shortDive (by decide)
  refine ⟨dm1, h0, h1, ?_, ?_, ?_, ?_, ?_⟩
  · rw [h2 0 (by decide)]
    rfl
  · rw [h2 1 (by decide)]
    rfl
  · rw [h2 2 (by decide)]
    rfl
  · rw [h5 (by decide) (by decide)]
    rfl
  · rw [h6]
    show (40 : ℚ) / ((4 : Nat) : ℚ) = 10
    norm_num

/-! ## The ring of raw readings -/

/-- What `updateCell` writes to the signal fields of a cell, whatever its
status. -/
theorem updateCell_signal (cell : O2Cell) (mv : ℚ) :
    (updateCell cell mv).mv_history = Function.update cell.mv_history cell.history_idx mv ∧
    (updateCell cell mv).history_idx = (cell.history_idx + 1) % CELL_MV_WINDOW_SIZE ∧
    (updateCell cell mv).mv
      = (List.range CELL_MV_WINDOW_SIZE).foldl
          (fun s j => s + Function.update cell.mv_history cell.history_idx mv j) 0
        / (CELL_MV_WINDOW_SIZE : ℚ) ∧
    (updateCell cell mv).ppO2 = (updateCell cell mv).mv / cell.calibration_factor ∧
    (updateCell cell mv).calibration_factor = cell.calibration_factor := by
  unfold updateCell
  dsimp only
  split_ifs <;> exact ⟨rfl, rfl, rfl, rfl, rfl⟩

theorem checkDivergence_signal (average : ℚ) (cell : O2Cell) :
    (checkDivergence average cell).mv_history = cell.mv_history ∧
    (checkDivergence average cell).history_idx = cell.history_idx ∧
    (checkDivergence average cell).mv = cell.mv ∧
    (checkDivergence average cell).ppO2 = cell.ppO2 ∧
    (checkDivergence average cell).calibration_factor = cell.calibration_factor := by
  unfold checkDivergence
  dsimp only
  split_ifs <;> exact ⟨rfl, rfl, rfl, rfl, rfl⟩

/-- One call of `CCR_UpdateCellReadings`: cell `c` of three comes out with the
signal fields `updateCell` gives it for its own reading. -/
theorem readings_signal (ccr : CCRManager) (r : ℚ × ℚ × ℚ) (c : Nat) (cell : O2Cell)
    (hc : ccr.cells[c]? = some cell) (h3 : c < 3) :
    ∃ cell1, (CCR_UpdateCellReadings ccr r.1 r.2.1 r.2.2).cells[c]? = some cell1 ∧
      cell1.mv_history = (updateCell cell (readingOf c r)).mv_history ∧
      cell1.history_idx = (updateCell cell (readingOf c r)).history_idx ∧
      cell1.mv = (updateCell cell (readingOf c r)).mv ∧
      cell1.ppO2 = (updateCell cell (readingOf c r)).ppO2 ∧
      cell1.calibration_factor = (updateCell cell (readingOf c r)).calibration_factor := by
  have hm : [r.1, r.2.1, r.2.2][c]? = some (readingOf c r) := by
    unfold readingOf
    interval_cases c <;> rfl
  have hread : (readCells ccr r.1 r.2.1 r.2.2).cells[c]? = some (updateCell cell (readingOf c r)) := by
    show (List.zipWith updateCell ccr.cells [r.1, r.2.1, r.2.2])[c]? = _
    rw [List.getElem?_zipWith, hc, hm]
  unfold CCR_UpdateCellReadings
  rcases validate_cells_cases (readCells ccr r.1 r.2.1 r.2.2) with h | h
  · rw [h]
    exact ⟨_, hread, rfl, rfl, rfl, rfl, rfl⟩
  · rw [h]
    unfold afterRejection
    rw [List.getElem?_map, hread]
    exact ⟨_, rfl, checkDivergence_signal _ _⟩

theorem ringList_length (hist : Nat → ℚ) (idx : Nat) : (ringList hist idx).length = 10 := by
  unfold ringList
  rw [List.length_map, List.length_range]
  rfl

/-- Writing at the index and moving it on drops the oldest slot of the ring
and appends the new reading. -/
theorem ringList_step (hist : Nat → ℚ) (idx : Nat) (v : ℚ) (h : idx < 10) :
    ringList (Function.update hist idx v) ((idx + 1) % CELL_MV_WINDOW_SIZE)
      = (ringList hist idx).tail ++ [v] := by
  interval_cases idx <;>
    simp [ringList, CELL_MV_WINDOW_SIZE, List.range_succ, Function.update]

/-- The sum over the ten slots does not depend on where the ring starts. -/
theorem ringList_sum (hist : Nat → ℚ) (idx : Nat) (h : idx < 10) :
    (ringList hist idx).sum
      = (List.range CELL_MV_WINDOW_SIZE).foldl (fun s j => s + hist j) 0 := by
  interval_cases idx <;>
    (simp [ringList, CELL_MV_WINDOW_SIZE, List.range_succ]; ring)

theorem readAll_snoc (rs : List (ℚ × ℚ × ℚ)) (r : ℚ × ℚ × ℚ) (ccr : CCRManager) :
    readAll (rs ++ [r]) ccr = CCR_UpdateCellReadings (readAll rs ccr) r.1 r.2.1 r.2.2 := by
  unfold readAll
  rw [List.foldl_append, List.foldl_cons, List.foldl_nil]

/-- Along a run of `CCR_UpdateCellReadings` calls, cell `c` keeps its
calibration factor, its ring index is the start index advanced by the number
of calls modulo 10, its ring read oldest first is the last ten entries of the
start ring followed by the cell's readings, and after at least one call its
smoothed mV is a tenth of the sum of the ring and its ppO₂ the smoothed mV
over the calibration factor. -/
theorem readAll_tracks (c : Nat) (h3 : c < 3) (ccr : CCRManager) (cell0 : O2Cell)
    (hc : ccr.cells[c]? = some cell0) (hidx : cell0.history_idx < 10) :
    ∀ rs : List (ℚ × ℚ × ℚ),
      ∃ cell, (readAll rs ccr).cells[c]? = some cell ∧
        cell.calibration_factor = cell0.calibration_factor ∧
        cell.history_idx < 10 ∧
        cell.history_idx = (cell0.history_idx + rs.length) % 10 ∧
        ringList cell.mv_history cell.history_idx
          = (ringList cell0.mv_history cell0.history_idx ++ rs.map (readingOf c)).drop rs.length ∧
        (rs ≠ [] →
          cell.mv = (ringList cell.mv_history cell.history_idx).sum / 10 ∧
          cell.ppO2 = cell.mv / cell.calibration_factor) := by
  intro rs
  induction rs using List.reverseRecOn with
  | nil =>
    refine ⟨cell0, hc, rfl, hidx, ?_, ?_, fun h => absurd rfl h⟩
    · exact (Nat.mod_eq_of_lt hidx).symm
    · simp
  | append_singleton rs r ih =>
    obtain ⟨cell, h0, h1, h2, h3', h4, _⟩ := ih
    obtain ⟨cell1, g0, g1, g2, g3, g4, g5⟩ := readings_signal (readAll rs ccr) r c cell h0 h3
    obtain ⟨u1, u2, u3, u4, u5⟩ := updateCell_signal cell (readingOf c r)
    rw [u1] at g1
    rw [u2] at g2
    rw [u5] at g5
    have hstep := ringList_step cell.mv_history cell.history_idx (readingOf c r) h2
    have hidx1 : cell1.history_idx < 10 := by
      rw [g2]
      exact Nat.mod_lt _ (by decide)
    have hring : ringList cell1.mv_history cell1.history_idx
        = (ringList cell.mv_history cell.history_idx).tail ++ [readingOf c r] := by
      rw [g1, g2]
      exact hstep
    refine ⟨cell1, by rw [readAll_snoc]; exact g0, g5.trans h1, hidx1, ?_, ?_, fun _ => ⟨?_, ?_⟩⟩
    · rw [g2, h3', List.length_append, List.length_singleton]
      show ((cell0.history_idx + rs.length) % 10 + 1) % 10 = _
      omega
    · rw [hring, h4, List.map_append, List.map_singleton, List.length_append,
        List.length_singleton, ← List.append_assoc, List.tail_drop]
      have hlen : rs.length + 1
          ≤ (ringList cell0.mv_history cell0.history_idx ++ rs.map (readingOf c)).length := by
        rw [List.length_append, ringList_length, List.length_map]
        omega
      rw [List.drop_append_of_le_length hlen]
    · rw [g3, u3, ← ringList_sum _ _ hidx1, g1, g2]
      rfl
    · rw [g4, u4, g3, g5]

theorem drop_window (w vs : List ℚ) (hw : w.length = 10) (h : 10 ≤ vs.length) :
    (w ++ vs).drop vs.length = vs.drop (vs.length - 10) := by
  have h1 : vs.length = w.length + (vs.length - 10) := by
    rw [hw]
    omega
  nth_rewrite 1 [h1]
  rw [List.drop_append]

theorem ringList_zero (idx : Nat) : ringList (fun _ => 0) idx = List.replicate 10 0 := by
  simp [ringList, CELL_MV_WINDOW_SIZE, List.range_succ, List.replicate]

theorem drop_zero_window (vs : List ℚ) (h : vs.length ≤ 10) :
    ((List.replicate 10 (0 : ℚ) ++ vs).drop vs.length).sum = vs.sum := by
  rw [List.drop_append_of_le_length (by rw [List.length_replicate]; exact h), List.sum_append,
    List.drop_replicate, List.sum_replicate]
  simp

/-- C33: along a run of `CCR_UpdateCellReadings` calls on a manager with three
cells whose ring indices are below 10, each cell keeps its calibration
factor, its ring index stays below 10, and after every call its ppO₂ is its
smoothed mV divided by its calibration factor; after 10 calls or more the
smoothed mV is the arithmetic mean of the cell's last 10 raw readings; and
from an empty ring (as `CCR_Init` leaves it), before 10 readings have arrived,
it is the sum of the readings so far divided by 10, the unfilled slots
counting as 0. -/
theorem CCR_UpdateCellReadings_moving_mean (ccr : CCRManager) (rs : List (ℚ × ℚ × ℚ))
    (c : Nat) (cell0 : O2Cell) (h3 : c < NUM_O2_CELLS) (hc : ccr.cells[c]? = some cell0)
    (hidx : cell0.history_idx < CELL_MV_WINDOW_SIZE) :
    ∃ cell, (readAll rs ccr).cells[c]? = some cell ∧
      cell.calibration_factor = cell0.calibration_factor ∧
      cell.history_idx < CELL_MV_WINDOW_SIZE ∧
      (rs ≠ [] → cell.ppO2 = cell.mv / cell.calibration_factor) ∧
      (10 ≤ rs.length →
        cell.mv = (((rs.map (readingOf c)).drop (rs.length - 10)).sum) / 10 ∧
        cell.mv = lastTenMean (rs.map (readingOf c)) ∧
        ((rs.map (readingOf c)).drop (rs.length - 10)).length = 10) ∧
      (rs ≠ [] → rs.length ≤ 10 → cell0.mv_history = (fun _ => 0) →
        cell.mv = (rs.map (readingOf c)).sum / 10) := by
  obtain ⟨cell, h0, h1, h2, _, h4, h5⟩ := readAll_tracks c h3 ccr cell0 hc hidx rs
  refine ⟨cell, h0, h1, h2, fun hne => (h5 hne).2, fun hlen => ?_, fun hne hlen hz => ?_⟩
  · have hne : rs ≠ [] := by
      intro h
      rw [h] at hlen
      exact absurd hlen (by decide)
    have hw := drop_window (ringList cell0.mv_history cell0.history_idx) (rs.map (readingOf c))
      (ringList_length _ _) (by rw [List.length_map]; exact hlen)
    rw [List.length_map] at hw
    have hmv : cell.mv = (((rs.map (readingOf c)).drop (rs.length - 10)).sum) / 10 := by
      rw [(h5 hne).1, h4, hw]
    refine ⟨hmv, ?_, ?_⟩
    · rw [hmv]
      unfold lastTenMean
      rw [List.length_map]
    · rw [List.length_drop, List.length_map]
      omega
  · rw [(h5 hne).1, h4, hz, ringList_zero]
    have := drop_zero_window (rs.map (readingOf c)) (by rw [List.length_map]; exact hlen)
    rw [List.length_map] at this
    rw [this]

theorem CCR_UpdateCellReadings_moving_mean_witness :
    (0 < NUM_O2_CELLS ∧ CCR_Init.cells[0]? = some initCell ∧
      initCell.history_idx < CELL_MV_WINDOW_SIZE ∧ 10 ≤ steadyReadings.length) ∧
    ∃ cell, (readAll steadyReadings CCR_Init).cells[0]? = some cell ∧
      cell.calibration_factor = 238 / 5 ∧ cell.history_idx < CELL_MV_WINDOW_SIZE ∧
      cell.mv = 100 ∧ cell.ppO2 = 100 / (238 / 5) := by
  obtain ⟨cell, h0, h1, h2, h3, h4, _⟩ :=
    CCR_UpdateCellReadings_moving_mean CCR_Init steadyReadings 0 initCell (by decide) rfl
      (by decide)
  have hlen : 10 ≤ steadyReadings.length := by decide
  have hmv : cell.mv = 100 := by
    rw [(h4 hlen).1]
    simp [steadyReadings, readingOf, List.replicate]
    norm_num
  refine ⟨⟨by decide, rfl, by decide, hlen⟩, cell, h0, h1, h2, hmv, ?_⟩
  rw [h3 (by simp [steadyReadings]), hmv, h1]
  rfl

/-! ## The planner ends within its bounds -/

theorem planStart_current_depth (expf : ℚ → ℚ) (model : ZHL16Model) :
    (planStart expf model).current_depth = planStartDepth model := by
  unfold planStart planStartDepth
  dsimp only
  split_ifs <;> rfl

theorem planStartDepth_zeroPlan (model : ZHL16Model) :
    planStartDepth { model with ascend_plan := zeroPlan } = planStartDepth model := rfl

/-- The wait loop entered with `stop->time = 60 * j`, `j ≤ 60`, runs `n`
one-minute integrations with `j + n ≤ 61`. -/
theorem waitAtStop_count (expf : ℚ → ℚ) (limit : ℚ) (sim : ZHL16Model) (time total : Nat) :
    ∀ j, time = 60 * j → j ≤ 60 →
      ∃ n, j + n ≤ 61 ∧ (waitAtStop expf limit sim time total).2.1 = 60 * (j + n) ∧
        ((waitAtStop expf limit sim time total).1 = (waitStep expf)^[n] sim ∨
          (waitAtStop expf limit sim time total).1
            = (ZHL16_GetCeiling ((waitStep expf)^[n] sim)).1) := by
  induction sim, time, total using waitAtStop.induct expf limit with
  | case1 sim time total hc time1 ht =>
    intro j hj hj60
    rw [waitAtStop, if_pos hc]
    dsimp only
    rw [if_pos ht]
    refine ⟨1, by omega, ?_, Or.inl rfl⟩
    show time + 60 = 60 * (j + 1)
    omega
  | case2 sim time total hc sim1 time1 total1 ht ih =>
    intro j hj hj60
    rw [waitAtStop, if_pos hc]
    dsimp only
    rw [if_neg ht]
    have hlt : j < 60 := by
      have : ¬ time + 60 > 3600 := ht
      omega
    obtain ⟨n, h1, h2, h3⟩ := ih (j + 1) (by show time + 60 = 60 * (j + 1); omega) (by omega)
    refine ⟨n + 1, by omega, ?_, ?_⟩
    · rw [h2]
      ring
    · rw [Function.iterate_succ_apply]
      exact h3
  | case3 sim time total hc =>
    intro j hj hj60
    rw [waitAtStop, if_neg hc]
    exact ⟨0, by omega, hj, Or.inr rfl⟩

/-- A stop loop that ends within `fuel` passes has run `n ≤ fuel` passes. -/
theorem planLoop_iterate (expf : ℚ → ℚ) (model : ZHL16Model) (fuel : Nat) (st st1 : PlanState)
    (h : planLoop expf model fuel st = some st1) :
    ∃ n, n ≤ fuel ∧ st1 = (planStep expf model)^[n] st := by
  induction fuel generalizing st with
  | zero =>
    unfold planLoop at h
    split_ifs at h with hc
    rw [← Option.some.inj h]
    exact ⟨0, le_refl _, rfl⟩
  | succ m ih =>
    by_cases hc : st.current_depth > 0 ∧ st.stop_idx < MAX_DECO_STOPS
    · rw [planLoop_continue expf model m st hc.1 hc.2] at h
      obtain ⟨n, hn, he⟩ := ih _ h
      exact ⟨n + 1, by omega, by rw [Function.iterate_succ_apply]; exact he⟩
    · rw [planLoop_stop expf model _ st hc] at h
      rw [← Option.some.inj h]
      exact ⟨0, Nat.zero_le _, rfl⟩

theorem planPasses_enough (expf : ℚ → ℚ) (model : ZHL16Model)
    (hl : 0 < model.config.last_stop_depth) :
    (planStart expf { model with ascend_plan := zeroPlan }).current_depth
      ≤ (planPasses model : ℚ) * model.config.last_stop_depth := by
  rw [planStart_current_depth, planStartDepth_zeroPlan]
  unfold planPasses
  rw [← div_le_iff₀ hl]
  calc planStartDepth model / model.config.last_stop_depth
      ≤ ((⌈planStartDepth model / model.config.last_stop_depth⌉ : ℤ) : ℚ) := Int.le_ceil _
    _ ≤ ((⌈planStartDepth model / model.config.last_stop_depth⌉.toNat : ℤ) : ℚ) := by
        exact_mod_cast Int.self_le_toNat _
    _ = _ := by norm_cast

theorem calculate_valid (expf : ℚ → ℚ) (fuel : Nat) (model result : ZHL16Model)
    (h : ZHL16_CalculateAscendPlan expf fuel model = some result) :
    result.ascend_plan.is_valid = true := by
  rcases calculate_cases expf fuel model result h with ⟨_, hr⟩ | ⟨_, st, _, hr⟩
  · rw [hr]
  · rw [hr]
    rfl

theorem calculate_within (expf : ℚ → ℚ) (model : ZHL16Model)
    (hl : 0 < model.config.last_stop_depth) :
    ∃ result, ZHL16_CalculateAscendPlan expf (planPasses model) model = some result := by
  obtain ⟨st1, hst1⟩ := planLoop_total expf { model with ascend_plan := zeroPlan }
    (planPasses model) _ (planPasses_enough expf model hl)
  by_cases hneeds : ZHL16_NeedsDecoStop { model with ascend_plan := zeroPlan } = true
  · exact ⟨_, calculate_of_needs expf _ model st1 hneeds hst1⟩
  · unfold ZHL16_CalculateAscendPlan
    dsimp only
    rw [if_pos (by simpa using hneeds)]
    exact ⟨_, rfl⟩

/-- C34: for every model with `last_stop_depth > 0` (whatever its ascent
rate), `ZHL16_CalculateAscendPlan` returns within
`ceil(start_depth / last_stop_depth)` passes of its stop loop, where
`start_depth` is the first stop when the ceiling is positive and the current
depth otherwise, and the plan it returns has `is_valid` set; whenever the stop
loop ends it has run `n` passes with `n` at most that bound; and the wait loop
at one stop runs `k ≤ 61` one-minute integrations, leaving `stop->time` at
`60 * k`. -/
theorem ZHL16_CalculateAscendPlan_terminates (expf : ℚ → ℚ) (model : ZHL16Model)
    (hl : 0 < model.config.last_stop_depth) :
    (∃ result, ZHL16_CalculateAscendPlan expf (planPasses model) model = some result ∧
      result.ascend_plan.is_valid = true) ∧
    (∀ fuel st, planAscent expf fuel { model with ascend_plan := zeroPlan } = some st →
      ∃ n, n ≤ planPasses model ∧
        st = (planStep expf { model with ascend_plan := zeroPlan })^[n]
          (planStart expf { model with ascend_plan := zeroPlan }) ∧
        (planStart expf { model with ascend_plan := zeroPlan }).current_depth
          = planStartDepth model) ∧
    (∀ limit sim total, ∃ k, k ≤ 61 ∧
      (waitAtStop expf limit sim 0 total).2.1 = 60 * k ∧
      ((waitAtStop expf limit sim 0 total).1 = (waitStep expf)^[k] sim ∨
        (waitAtStop expf limit sim 0 total).1
          = (ZHL16_GetCeiling ((waitStep expf)^[k] sim)).1)) := by
  refine ⟨?_, ?_, ?_⟩
  · obtain ⟨result, hr⟩ := calculate_within expf model hl
    exact ⟨result, hr, calculate_valid expf _ model result hr⟩
  · intro fuel st hst
    obtain ⟨st1, hst1⟩ := planLoop_total expf { model with ascend_plan := zeroPlan }
      (planPasses model) _ (planPasses_enough expf model hl)
    have heq : st1 = st :=
      planLoop_fuel_independent expf _ (planPasses model) fuel _ st1 st hst1 hst
    obtain ⟨n, hn, he⟩ := planLoop_iterate expf _ _ _ _ hst1
    exact ⟨n, hn, heq ▸ he, planStart_current_depth expf _⟩
  · intro limit sim total
    obtain ⟨n, h1, h2, h3⟩ := waitAtStop_count expf limit sim 0 total 0 rfl (by decide)
    rw [Nat.zero_add] at h1 h2
    exact ⟨n, h1, h2, h3⟩

theorem saturated_passes : planPasses saturatedDiver = 4 := by
  unfold planPasses planStartDepth
  have hc : (ZHL16_GetCeiling saturatedDiver).2 = 12 := saturated_ceiling
  rw [hc, if_pos (by norm_num), saturated_lsd]
  have : ⌈(12 : ℚ) / 3⌉ = 4 := by
    rw [Int.ceil_eq_iff]
    constructor <;> norm_num
  rw [this]
  rfl

theorem ZHL16_CalculateAscendPlan_terminates_witness :
    (0 < saturatedDiver.config.last_stop_depth ∧ planPasses saturatedDiver = 4) ∧
    ∃ result, ZHL16_CalculateAscendPlan (fun _ => 1 / 2) 4 saturatedDiver = some result ∧
      result.ascend_plan.is_valid = true := by
  have h := (ZHL16_CalculateAscendPlan_terminates (fun _ => 1 / 2) saturatedDiver
    (by rw [saturated_lsd]; norm_num)).1
  rw [saturated_passes] at h
  exact ⟨⟨by rw [saturated_lsd]; norm_num, saturated_passes⟩, h⟩

/-! ## `ZHL16_GetNDL` inverts the Schreiner update -/

theorem ndlRemaining_le (logf : ℚ → ℚ) (m_value inspired pressure half_time ndl : ℚ) :
    ndlRemaining logf m_value inspired pressure half_time ndl ≤ ndl := by
  unfold ndlRemaining
  dsimp only
  split_ifs with hx hr
  · exact hr.le
  · exact le_refl _
  · exact le_refl _

theorem ndlStepN2_le (logf : ℚ → ℚ) (model : ZHL16Model) (ndl : ℚ) (comp : Compartment) :
    ndlStepN2 logf model ndl comp ≤ ndl := by
  unfold ndlStepN2
  dsimp only
  split_ifs
  · exact ndlRemaining_le logf _ _ _ _ _
  · exact le_refl _

theorem ndlStepHe_le (logf : ℚ → ℚ) (model : ZHL16Model) (ndl : ℚ) (comp : Compartment) :
    ndlStepHe logf model ndl comp ≤ ndl := by
  unfold ndlStepHe
  dsimp only
  split_ifs
  · exact ndlRemaining_le logf _ _ _ _ _
  · exact le_refl _
  · exact le_refl _

theorem ndlStep_le (logf : ℚ → ℚ) (model : ZHL16Model) (ndl : ℚ) (comp : Compartment) :
    ndlStep logf model ndl comp ≤ ndl :=
  le_trans (ndlStepHe_le logf model _ comp) (ndlStepN2_le logf model ndl comp)

theorem ndlFold_le_init (logf : ℚ → ℚ) (model : ZHL16Model) (comps : List Compartment)
    (ndl : ℚ) : comps.foldl (ndlStep logf model) ndl ≤ ndl := by
  induction comps generalizing ndl with
  | nil => exact le_refl _
  | cons c cs ih =>
    rw [List.foldl_cons]
    exact le_trans (ih _) (ndlStep_le logf model ndl c)

/-- The argument of `logf` for a qualifying compartment lies strictly between
0 and 1. -/
theorem ndlQualifies_ratio (model : ZHL16Model) (comp : Compartment)
    (hq : ndlQualifies model comp) :
    0 < (surfaceLimit model comp - ndlInspiredN2 model)
        / (comp.pressure_N2 - ndlInspiredN2 model) ∧
      (surfaceLimit model comp - ndlInspiredN2 model)
        / (comp.pressure_N2 - ndlInspiredN2 model) < 1 := by
  obtain ⟨h1, h2, h3⟩ := hq
  have hden : comp.pressure_N2 - ndlInspiredN2 model < 0 := by linarith
  have hnum : surfaceLimit model comp - ndlInspiredN2 model < 0 := by linarith
  refine ⟨div_pos_of_neg_of_neg hnum hden, ?_⟩
  rw [div_lt_one_of_neg hden]
  linarith

theorem ndlStepN2_qualifies (logf : ℚ → ℚ) (model : ZHL16Model) (ndl : ℚ) (comp : Compartment)
    (hq : ndlQualifies model comp) :
    ndlStepN2 logf model ndl comp
      = if ndlTime logf model comp < ndl then ndlTime logf model comp else ndl := by
  have hx := (ndlQualifies_ratio model comp hq).1
  have h1 : ndlInspiredN2 model > comp.pressure_N2 := hq.1
  have h2 : comp.pressure_N2 < surfaceLimit model comp := hq.2.1
  unfold ndlTime
  unfold surfaceLimit at hx h2 ⊢
  unfold ndlStepN2 ndlRemaining
  dsimp only
  rw [if_pos (show _ ∧ _ from ⟨h1, h2⟩), if_pos hx]

theorem ndlStepN2_le_time (logf : ℚ → ℚ) (model : ZHL16Model) (ndl : ℚ) (comp : Compartment)
    (hq : ndlQualifies model comp) :
    ndlStepN2 logf model ndl comp ≤ ndlTime logf model comp := by
  rw [ndlStepN2_qualifies logf model ndl comp hq]
  split_ifs with h
  · exact le_refl _
  · exact not_lt.mp h

theorem ndlFold_le_time (logf : ℚ → ℚ) (model : ZHL16Model) (comps : List Compartment)
    (ndl : ℚ) (comp : Compartment) (hmem : comp ∈ comps) (hq : ndlQualifies model comp) :
    comps.foldl (ndlStep logf model) ndl ≤ ndlTime logf model comp := by
  induction comps generalizing ndl with
  | nil => exact absurd hmem (List.not_mem_nil _)
  | cons c cs ih =>
    rw [List.foldl_cons]
    rcases List.mem_cons.mp hmem with h | h
    · subst h
      exact le_trans (ndlFold_le_init logf model cs _)
        (le_trans (ndlStepHe_le logf model _ comp) (ndlStepN2_le_time logf model ndl comp hq))
    · exact ih _ h

theorem getNDL_of_no_stop (logf : ℚ → ℚ) (model : ZHL16Model)
    (hno : ZHL16_NeedsDecoStop model = false) :
    ZHL16_GetNDL logf model
      = ({ model with ndl := model.compartments.foldl (ndlStep logf model) 999 },
          model.compartments.foldl (ndlStep logf model) 999) := by
  unfold ZHL16_GetNDL
  rw [if_neg (by rw [hno]; exact Bool.false_ne_true)]

/-- A `logf` that `expf` undoes, with `expf` increasing and `expf 0 = 1`, is
negative between 0 and 1. -/
theorem logf_neg (expf logf : ℚ → ℚ) (hmono : StrictMono expf) (h0 : expf 0 = 1)
    (hinv : ∀ x, 0 < x → x < 1 → expf (logf x) = x) (x : ℚ) (hx0 : 0 < x) (hx1 : x < 1) :
    logf x < 0 := by
  rw [← hmono.lt_iff_lt, hinv x hx0 hx1, h0]
  exact hx1

theorem ndlTime_pos (expf logf : ℚ → ℚ) (hmono : StrictMono expf) (h0 : expf 0 = 1)
    (hinv : ∀ x, 0 < x → x < 1 → expf (logf x) = x) (model : ZHL16Model) (comp : Compartment)
    (hh : 0 < comp.half_time_N2) (hq : ndlQualifies model comp) :
    0 < ndlTime logf model comp := by
  obtain ⟨hx0, hx1⟩ := ndlQualifies_ratio model comp hq
  have hl := logf_neg expf logf hmono h0 hinv _ hx0 hx1
  have hk : (0 : ℚ) < 693147 / 1000000 / comp.half_time_N2 := by positivity
  unfold ndlTime
  exact div_pos (by linarith) hk

/-- The exponent of the Schreiner update after `ndlTime` minutes is the
logarithm that `ZHL16_GetNDL` took. -/
theorem ndlTime_exponent (logf : ℚ → ℚ) (model : ZHL16Model) (comp : Compartment)
    (hh : 0 < comp.half_time_N2) :
    -(693147 / 1000000 / comp.half_time_N2) * (60 * ndlTime logf model comp / 60)
      = logf ((surfaceLimit model comp - ndlInspiredN2 model)
          / (comp.pressure_N2 - ndlInspiredN2 model)) := by
  unfold ndlTime
  have hne : comp.half_time_N2 ≠ 0 := hh.ne.symm
  field_simp
  ring

theorem ndlInspired_open (model : ZHL16Model) (hoc : model.ccr_mode = false) :
    inspiredN2 model = ndlInspiredN2 model := by
  unfold inspiredN2 ndlInspiredN2
  rw [hoc]
  rfl

/-- The nitrogen pressure that `updateCompartment` writes. -/
theorem updateCompartment_pN2 (expf : ℚ → ℚ) (model : ZHL16Model) (t : ℚ) (comp : Compartment) :
    (updateCompartment expf model t comp).pressure_N2
      = inspiredN2 model
        + (comp.pressure_N2 - inspiredN2 model)
          * expf (-(693147 / 1000000 / comp.half_time_N2) * t) := rfl

/-- After `ndlTime` minutes a qualifying compartment holds its surface limit. -/
theorem updateCompartment_reaches (expf logf : ℚ → ℚ)
    (hinv : ∀ x, 0 < x → x < 1 → expf (logf x) = x) (model : ZHL16Model)
    (hoc : model.ccr_mode = false) (comp : Compartment) (hh : 0 < comp.half_time_N2)
    (hq : ndlQualifies model comp) :
    (updateCompartment expf model (60 * ndlTime logf model comp / 60) comp).pressure_N2
      = surfaceLimit model comp := by
  obtain ⟨hx0, hx1⟩ := ndlQualifies_ratio model comp hq
  rw [updateCompartment_pN2, ndlTime_exponent logf model comp hh, hinv _ hx0 hx1,
    ndlInspired_open model hoc]
  have hne : comp.pressure_N2 - ndlInspiredN2 model ≠ 0 := by
    have : ndlInspiredN2 model > comp.pressure_N2 := hq.1
    linarith
  field_simp

/-- Before `ndlTime` minutes a qualifying compartment is below its surface
limit. -/
theorem updateCompartment_below (expf logf : ℚ → ℚ) (hmono : StrictMono expf)
    (hinv : ∀ x, 0 < x → x < 1 → expf (logf x) = x) (model : ZHL16Model)
    (hoc : model.ccr_mode = false) (comp : Compartment) (hh : 0 < comp.half_time_N2)
    (hq : ndlQualifies model comp) (s : ℚ) (hs : s < ndlTime logf model comp) :
    (updateCompartment expf model (60 * s / 60) comp).pressure_N2 < surfaceLimit model comp := by
  obtain ⟨hx0, hx1⟩ := ndlQualifies_ratio model comp hq
  have hk : (0 : ℚ) < 693147 / 1000000 / comp.half_time_N2 := by positivity
  have hexp : -(693147 / 1000000 / comp.half_time_N2) * (60 * ndlTime logf model comp / 60)
      < -(693147 / 1000000 / comp.half_time_N2) * (60 * s / 60) := by
    have e1 : (60 * s / 60 : ℚ) = s := by ring
    have e2 : (60 * ndlTime logf model comp / 60 : ℚ) = ndlTime logf model comp := by ring
    rw [e1, e2]
    nlinarith
  have hlt := hmono hexp
  rw [ndlTime_exponent logf model comp hh, hinv _ hx0 hx1] at hlt
  have hden : comp.pressure_N2 - ndlInspiredN2 model < 0 := by
    have : ndlInspiredN2 model > comp.pressure_N2 := hq.1
    linarith
  rw [updateCompartment_pN2, ndlInspired_open model hoc]
  have hmul := mul_lt_mul_of_neg_left hlt hden
  have heq : (comp.pressure_N2 - ndlInspiredN2 model)
      * ((surfaceLimit model comp - ndlInspiredN2 model)
        / (comp.pressure_N2 - ndlInspiredN2 model))
      = surfaceLimit model comp - ndlInspiredN2 model := by
    have hne : comp.pressure_N2 - ndlInspiredN2 model ≠ 0 := hden.ne
    field_simp
  rw [heq] at hmul
  linarith

theorem ndlStepHe_no_helium (logf : ℚ → ℚ) (model : ZHL16Model) (ndl : ℚ) (comp : Compartment)
    (hHe : (model.gases model.current_gas).fHe = 0) : ndlStepHe logf model ndl comp = ndl := by
  unfold ndlStepHe
  dsimp only
  rw [if_neg]
  rw [hHe]
  exact fun h => lt_irrefl _ h.1

theorem ndlStepN2_source (logf : ℚ → ℚ) (model : ZHL16Model) (ndl : ℚ) (comp : Compartment) :
    ndlStepN2 logf model ndl comp = ndl ∨
      (ndlQualifies model comp ∧ ndlStepN2 logf model ndl comp = ndlTime logf model comp) := by
  by_cases hc : ndlInspiredN2 model > comp.pressure_N2 ∧
      comp.pressure_N2 < surfaceLimit model comp
  · by_cases hx : (surfaceLimit model comp - ndlInspiredN2 model)
        / (comp.pressure_N2 - ndlInspiredN2 model) > 0
    · have hden : comp.pressure_N2 - ndlInspiredN2 model < 0 := by linarith [hc.1]
      have hnum : surfaceLimit model comp - ndlInspiredN2 model < 0 := by
        rcases div_pos_iff.mp hx with h | h
        · linarith [h.2]
        · exact h.1
      have hq : ndlQualifies model comp := ⟨hc.1, hc.2, by linarith⟩
      rw [ndlStepN2_qualifies logf model ndl comp hq]
      split_ifs
      · exact Or.inr ⟨hq, rfl⟩
      · exact Or.inl rfl
    · left
      unfold surfaceLimit at hc hx
      unfold ndlStepN2 ndlRemaining
      dsimp only
      rw [if_pos hc, if_neg hx]
  · left
    unfold surfaceLimit at hc
    unfold ndlStepN2
    dsimp only
    rw [if_neg hc]

theorem ndlFold_source (logf : ℚ → ℚ) (model : ZHL16Model)
    (hHe : (model.gases model.current_gas).fHe = 0) (comps : List Compartment) (ndl : ℚ) :
    comps.foldl (ndlStep logf model) ndl = ndl ∨
      ∃ comp ∈ comps, ndlQualifies model comp ∧
        comps.foldl (ndlStep logf model) ndl = ndlTime logf model comp := by
  induction comps generalizing ndl with
  | nil => exact Or.inl rfl
  | cons c cs ih =>
    rw [List.foldl_cons]
    have hstep : ndlStep logf model ndl c = ndlStepN2 logf model ndl c :=
      ndlStepHe_no_helium logf model _ c hHe
    rcases ih (ndlStep logf model ndl c) with h | ⟨comp, hmem, hq, h⟩
    · rw [h, hstep]
      rcases ndlStepN2_source logf model ndl c with h1 | ⟨hq, h1⟩
      · exact Or.inl h1
      · exact Or.inr ⟨c, List.mem_cons_self _ _, hq, h1⟩
    · exact Or.inr ⟨comp, List.mem_cons_of_mem _ hmem, hq, h⟩

/-- C32: `ZHL16_GetNDL` inverts `ZHL16_UpdateTissues`, for an `expf` that is
strictly increasing with `expf 0 = 1` and a `logf` that it undoes between 0
and 1, and for compartments with positive nitrogen half-times. In open-circuit
mode on a helium-free gas, when no stop is needed and the returned NDL `t` is
below 999, `t` is the time of some compartment `i` that qualifies
(`inspired_N2 > pressure_N2` and `pressure_N2 <` surface limit `< inspired_N2`);
and for every qualifying compartment `i` whose time `t` is: `t > 0`,
`ZHL16_UpdateTissues(60 * t)` on the model that `ZHL16_GetNDL` leaves brings
the `pressure_N2` of compartment `i` exactly to the surface limit used by
`ZHL16_GetNDL`, and every qualifying compartment `j` has a time of at least `t`
and is strictly below its limit after `ZHL16_UpdateTissues(60 * s)` for every
`s < t`. -/
theorem ZHL16_GetNDL_inverts_UpdateTissues (expf logf : ℚ → ℚ) (hmono : StrictMono expf)
    (h0 : expf 0 = 1) (hinv : ∀ x, 0 < x → x < 1 → expf (logf x) = x) (model : ZHL16Model)
    (hoc : model.ccr_mode = false) (hHe : (model.gases model.current_gas).fHe = 0)
    (hno : ZHL16_NeedsDecoStop model = false)
    (hh : ∀ comp ∈ model.compartments, 0 < comp.half_time_N2)
    (h999 : (ZHL16_GetNDL logf model).2 < 999) :
    (∃ (i : Nat) (comp : Compartment), model.compartments[i]? = some comp ∧ ndlQualifies model comp ∧
      (ZHL16_GetNDL logf model).2 = ndlTime logf model comp) ∧
    (∀ (i : Nat) (comp : Compartment), model.compartments[i]? = some comp → ndlQualifies model comp →
      (ZHL16_GetNDL logf model).2 = ndlTime logf model comp →
      0 < (ZHL16_GetNDL logf model).2 ∧
      (∃ c1 : Compartment, (ZHL16_UpdateTissues expf (ZHL16_GetNDL logf model).1
            (60 * (ZHL16_GetNDL logf model).2)).compartments[i]? = some c1 ∧
          c1.pressure_N2 = surfaceLimit model comp) ∧
      (∀ (j : Nat) (cj : Compartment), model.compartments[j]? = some cj → ndlQualifies model cj →
        (ZHL16_GetNDL logf model).2 ≤ ndlTime logf model cj ∧
        ∀ s, s < (ZHL16_GetNDL logf model).2 →
          ∃ c1 : Compartment, (ZHL16_UpdateTissues expf (ZHL16_GetNDL logf model).1
              (60 * s)).compartments[j]? = some c1 ∧
            c1.pressure_N2 < surfaceLimit model cj)) := by
  have hg := getNDL_of_no_stop logf model hno
  have hval : (ZHL16_GetNDL logf model).2 = model.compartments.foldl (ndlStep logf model) 999 :=
    congrArg Prod.snd hg
  have hmodel : (ZHL16_GetNDL logf model).1
      = { model with ndl := model.compartments.foldl (ndlStep logf model) 999 } :=
    congrArg Prod.fst hg
  have hupd : ∀ (t : ℚ) (k : Nat) (c : Compartment), model.compartments[k]? = some c →
      (ZHL16_UpdateTissues expf (ZHL16_GetNDL logf model).1 t).compartments[k]?
        = some (updateCompartment expf model (t / 60) c) := by
    intro t k c hk
    rw [hmodel]
    exact updateTissues_getElem expf
      { model with ndl := model.compartments.foldl (ndlStep logf model) 999 } t k c hk
  refine ⟨?_, ?_⟩
  · rcases ndlFold_source logf model hHe model.compartments 999 with h | ⟨comp, hmem, hq, h⟩
    · rw [hval, h] at h999
      exact absurd h999 (lt_irrefl _)
    · obtain ⟨i, hi⟩ := List.mem_iff_getElem?.mp hmem
      exact ⟨i, comp, hi, hq, hval.trans h⟩
  · intro i comp hi hq ht
    have hmem : comp ∈ model.compartments := List.mem_iff_getElem?.mpr ⟨i, hi⟩
    refine ⟨?_, ?_, ?_⟩
    · rw [ht]
      exact ndlTime_pos expf logf hmono h0 hinv model comp (hh comp hmem) hq
    · refine ⟨_, hupd _ i comp hi, ?_⟩
      rw [ht]
      exact updateCompartment_reaches expf logf hinv model hoc comp (hh comp hmem) hq
    · intro j cj hj hqj
      have hmemj : cj ∈ model.compartments := List.mem_iff_getElem?.mpr ⟨j, hj⟩
      have hle : (ZHL16_GetNDL logf model).2 ≤ ndlTime logf model cj := by
        rw [hval]
        exact ndlFold_le_time logf model _ 999 cj hmemj hqj
      refine ⟨hle, fun s hs => ⟨_, hupd _ j cj hj, ?_⟩⟩
      exact updateCompartment_below expf logf hmono hinv model hoc cj (hh cj hmemj) hqj s
        (lt_of_lt_of_le hs hle)

theorem restedDiver_rawCeiling :
    restedDiver.compartments.foldl (ceilingStep restedDiver) 0 = 0 := by
  have hstep : ∀ (acc : ℚ) (row : ℚ × ℚ × ℚ × ℚ),
      ceilingStep restedDiver acc (compartmentOfRow (72 / 100) row)
        = max acc (((72 / 100 - row.2.2.1 * (30 / 100))
            / (1 / row.2.2.2 - 30 / 100 + 1) - 1013 / 1000) * 10) :=
    fun acc row => ceilingStep_N2 restedDiver acc _ row (by norm_num)
      (airDiver_gf 30 _ (by norm_num))
  show (ZHL16B_rows.map (compartmentOfRow (72 / 100))).foldl
    (ceilingStep restedDiver) 0 = _
  simp only [ZHL16B_rows, List.map_cons, List.map_nil, List.foldl_cons, List.foldl_nil, hstep]
  norm_num

theorem restedDiver_needs : ZHL16_NeedsDecoStop restedDiver = false := by
  rw [needsDecoStop_iff]
  show ceilingValue restedDiver ≤ 0
  unfold ceilingValue
  rw [restedDiver_rawCeiling]
  simp

theorem restedDiver_inspired : ndlInspiredN2 restedDiver = 3120737 / 1000000 := by
  simp [ndlInspiredN2, restedDiver, airDiver, airOnly]
  norm_num

theorem restedDiver_slowest :
    compartmentOfRow (72 / 100) (635, 24003 / 100, 2327 / 10000, 9653 / 10000)
      ∈ restedDiver.compartments :=
  List.mem_map.mpr ⟨_, by simp [ZHL16B_rows], rfl⟩

theorem restedDiver_limit :
    surfaceLimit restedDiver
        (compartmentOfRow (72 / 100) (635, 24003 / 100, 2327 / 10000, 9653 / 10000))
      = 163041 / 223060 := by
  unfold surfaceLimit
  show ((1013 / 1000 : ℚ) - 2327 / 10000 * (85 / 100)) / (9653 / 10000 - 85 / 100 + 1) = _
  norm_num

theorem restedDiver_qualifies :
    ndlQualifies restedDiver
      (compartmentOfRow (72 / 100) (635, 24003 / 100, 2327 / 10000, 9653 / 10000)) := by
  unfold ndlQualifies
  rw [restedDiver_limit, restedDiver_inspired]
  show (3120737 / 1000000 : ℚ) > 72 / 100 ∧ (72 / 100 : ℚ) < 163041 / 223060 ∧ _
  norm_num

theorem restedDiver_ndl : (ZHL16_GetNDL (fun x => x - 1) restedDiver).2 < 999 := by
  rw [getNDL_of_no_stop _ restedDiver restedDiver_needs]
  refine lt_of_le_of_lt (ndlFold_le_time _ restedDiver _ 999 _ restedDiver_slowest
    restedDiver_qualifies) ?_
  unfold ndlTime
  rw [restedDiver_limit, restedDiver_inspired]
  show -((163041 / 223060 - 3120737 / 1000000 : ℚ) / (72 / 100 - 3120737 / 1000000) - 1)
    / (693147 / 1000000 / 635) < 999
  norm_num

theorem ZHL16_GetNDL_inverts_UpdateTissues_witness :
    (StrictMono (fun y : ℚ => y + 1) ∧ restedDiver.ccr_mode = false ∧
      (restedDiver.gases restedDiver.current_gas).fHe = 0 ∧
      ZHL16_NeedsDecoStop restedDiver = false ∧
      (ZHL16_GetNDL (fun x => x - 1) restedDiver).2 < 999) ∧
    ∃ (i : Nat) (comp : Compartment), restedDiver.compartments[i]? = some comp ∧
      ndlQualifies restedDiver comp ∧
      (ZHL16_GetNDL (fun x => x - 1) restedDiver).2 = ndlTime (fun x => x - 1) restedDiver comp ∧
      0 < (ZHL16_GetNDL (fun x => x - 1) restedDiver).2 ∧
      ∃ c1 : Compartment, (ZHL16_UpdateTissues (fun y => y + 1)
            (ZHL16_GetNDL (fun x => x - 1) restedDiver).1
            (60 * (ZHL16_GetNDL (fun x => x - 1) restedDiver).2)).compartments[i]? = some c1 ∧
          c1.pressure_N2 = surfaceLimit restedDiver comp := by
  have hmono : StrictMono (fun y : ℚ => y + 1) := fun a b h => by
    show a + 1 < b + 1
    linarith
  have hHe : (restedDiver.gases restedDiver.current_gas).fHe = 0 := rfl
  have h := ZHL16_GetNDL_inverts_UpdateTissues (fun y => y + 1) (fun x => x - 1) hmono
    (zero_add 1) (fun x _ _ => sub_add_cancel x 1) restedDiver rfl hHe restedDiver_needs
    (fun comp hm => (airDiver_half_times 30 _ comp hm).1) restedDiver_ndl
  obtain ⟨i, comp, hi, hq, ht⟩ := h.1
  obtain ⟨hpos, hreach, _⟩ := h.2 i comp hi hq ht
  exact ⟨⟨hmono, rfl, hHe, restedDiver_needs, restedDiver_ndl⟩, i, comp, hi, hq, ht, hpos, hreach⟩

end Decobrain
